import Mathlib

/-!
# BRBrain CM-5 firmware (`src/firmware/brbrain.c`): packet engine

A shallow embedding of the foreground code of the bridge firmware: the host
("PC") packet codec, the Dynamixel bus packet codec, the retry policy, the
format tables and the command handlers.

Conventions of the embedding.

* `uint8_t` / `uint16_t` values are natural numbers; every place where the C
  code can wrap is written with an explicit `% 256` or `% 65536`.
* The globals of the C file are the fields of `State`, under their C names.
* The two receive ring buffers are the streams of what the interrupt handlers
  will deliver: `some b` is a byte that is available before the wait times
  out, `none` is a wait in which the buffer stays empty until the tick counter
  reaches zero.  An exhausted stream delivers nothing any more.
* The two transmit ring buffers are the logs of every byte pushed, oldest
  first (the interrupt handlers drain them, so a push never blocks for ever).
* A C function that may not return (a wait with the timeout disabled, a loop
  without a bound) yields a `Run`: either `ret` with the returned value and
  state, or `spin` with the state in which the execution is still running.
  Unbounded loops take a `fuel` argument counting the iterations allowed.
* Port pins (bus direction, LEDs, pushbuttons), the analog conversions, the
  charging code and the overflow flags raised by the receive interrupts are
  outside the embedding; `adcValue` is the snapshot the foreground code reads.
-/

namespace BRBrain

/-! ## Constants -/

abbrev MAX_DYNAMIXEL_ID : Nat := 253
abbrev ID_BCAST : Nat := 0xfe
abbrev MAX_DYNAMIXELS : Nat := 32
abbrev VIRTUAL_ERROR_REG_ADDR : Nat := 54
abbrev MAX_START_ADDR : Nat := 54
abbrev NUM_REG_BYTES : Nat := 55
abbrev MAX_DYNAMIXEL_BLOCK_READ : Nat := 20
abbrev F_READ : Nat := 0
abbrev F_WRITE : Nat := 1
abbrev DYNAMIXEL_INSTRUCTION_CHECKSUM_ERROR : Nat := 16
abbrev MAX_DYNAMIXEL_TRIES : Nat := 4
abbrev CHANNEL_POS : Nat := 0
abbrev CHANNEL_NEG : Nat := 1
abbrev CHANNEL_THERM : Nat := 2
abbrev I_STATUS : Nat := 0xfa
abbrev I_DATA : Nat := 0xfb
abbrev D_I_PING : Nat := 0x01
abbrev D_I_READ_DATA : Nat := 0x02
abbrev D_I_REG_WRITE : Nat := 0x04
abbrev D_I_ACTION : Nat := 0x05
abbrev S_PC_TIMEOUT : Nat := 1
abbrev S_DYNAMIXEL_TIMEOUT : Nat := 2
abbrev S_INVALID_PC_COMMAND : Nat := 4
abbrev S_INVALID_DYNAMIXEL_RESPONSE : Nat := 8
abbrev S_PC_RX_OVERFLOW : Nat := 16
abbrev S_DYNAMIXEL_RX_OVERFLOW : Nat := 32
abbrev S_PC_CHECKSUM_ERROR : Nat := 64
abbrev S_DYNAMIXEL_CHECKSUM_ERROR : Nat := 128

/-! ## State -/

/-- The globals of `brbrain.c` used by the foreground code, and the two links.
`pcRxBuffer` / `dynamixelRxBuffer` are the receive streams, `pcTxBuffer` /
`dynamixelTxBuffer` the transmit logs, `dynamixelTxDone` the outcome of each
successive drain wait of `endTXPacketDynamixel` (`false`: the 100 ticks elapse
first; an exhausted list drains), `rxClearPC` / `rxClearDynamixel` the number
of stream events already in the ring buffer when it is cleared. -/
structure State where
  numDynamixels : Nat → Nat
  totalNumBytes : Nat → Nat
  axID : Nat → Nat → Nat
  startAddr : Nat → Nat → Nat
  numBytes : Nat → Nat → Nat
  dynamixelParams : Nat → Nat
  checksumTxDynamixel : Nat
  checksumRxDynamixel : Nat
  checksumTxPC : Nat
  checksumRxPC : Nat
  numDynamixelRetries : Nat
  adcValue : Nat → Nat
  status : Nat
  enableRxPCTimeout : Nat
  pcRxBuffer : List (Option Nat)
  pcTxBuffer : List Nat
  dynamixelRxBuffer : List (Option Nat)
  dynamixelTxBuffer : List Nat
  dynamixelTxDone : List Bool
  rxClearPC : Nat
  rxClearDynamixel : Nat

/-- Outcome of a C function that may not return. -/
inductive Run (α : Type) where
  | ret : α → State → Run α
  | spin : State → Run α

/-- Sequencing: the continuation runs only when the first part returned. -/
def Run.bind {α β : Type} (r : Run α) (k : α → State → Run β) : Run β :=
  match r with
  | .ret a s => k a s
  | .spin s => .spin s

/-- The state reached, whether the function returned or is still running. -/
def Run.state {α : Type} : Run α → State
  | .ret _ s => s
  | .spin s => s

/-- Whether the function returned. -/
def Run.returned {α : Type} : Run α → Bool
  | .ret _ _ => true
  | .spin _ => false

/-- Array store `a[i] = v`. -/
def upd (a : Nat → Nat) (i v : Nat) : Nat → Nat :=
  fun j => if j = i then v else a j

/-- Array store `a[f][i] = v`. -/
def upd2 (a : Nat → Nat → Nat) (f i v : Nat) : Nat → Nat → Nat :=
  fun g j => if g = f ∧ j = i then v else a g j

/-- The C expression `(uint8_t)(~x)` for a `uint8_t` x. -/
def not8 (x : Nat) : Nat := 255 - x % 256

/-! ## Status flags -/

/-- `status |= flag`. -/
def setStatusFlag (s : State) (flag : Nat) : State :=
  { s with status := s.status ||| flag }

/-- `status &= ~flag` on a `uint8_t` status. -/
def clearStatusFlag (s : State) (flag : Nat) : State :=
  { s with status := s.status &&& (255 - flag) }

/-! ## Byte level -/

/-- `txPC(byte, addToChecksum)`: push on the host transmit buffer. -/
def txPC (s : State) (byte addToChecksum : Nat) : State :=
  { s with
    pcTxBuffer := s.pcTxBuffer ++ [byte]
    checksumTxPC :=
      if addToChecksum ≠ 0 then (s.checksumTxPC + byte) % 256 else s.checksumTxPC }

/-- `txDynamixel(byte, addToChecksum)`: push on the bus transmit buffer. -/
def txDynamixel (s : State) (byte addToChecksum : Nat) : State :=
  { s with
    dynamixelTxBuffer := s.dynamixelTxBuffer ++ [byte]
    checksumTxDynamixel :=
      if addToChecksum ≠ 0 then (s.checksumTxDynamixel + byte) % 256
      else s.checksumTxDynamixel }

/-- The wait loop of `rxPC` over the receive stream.  With the timeout enabled
an empty wait sets `S_PC_TIMEOUT` and returns 0 (`none`); with the timeout
disabled the loop keeps waiting, for ever when no byte arrives any more. -/
def rxPCWait (s : State) (addToChecksum : Nat) : List (Option Nat) → Run (Option Nat)
  | [] =>
    if s.enableRxPCTimeout ≠ 0 then
      .ret none (setStatusFlag { s with pcRxBuffer := [] } S_PC_TIMEOUT)
    else .spin { s with pcRxBuffer := [] }
  | none :: rest =>
    if s.enableRxPCTimeout ≠ 0 then
      .ret none (setStatusFlag { s with pcRxBuffer := rest } S_PC_TIMEOUT)
    else rxPCWait s addToChecksum rest
  | some b :: rest =>
    .ret (some b)
      { s with
        pcRxBuffer := rest
        checksumRxPC :=
          if addToChecksum ≠ 0 then (s.checksumRxPC + b) % 256 else s.checksumRxPC }

/-- `rxPC(&byte, addToChecksum)`: `some b` when it returns 1 with `*byte = b`. -/
def rxPC (s : State) (addToChecksum : Nat) : Run (Option Nat) :=
  rxPCWait s addToChecksum s.pcRxBuffer

/-- `rxDynamixel(&byte, addToChecksum)`.  `enableRxDynamixelTimeout` is
initialised to 1 and never assigned, so every empty wait times out. -/
def rxDynamixel (s : State) (addToChecksum : Nat) : Option Nat × State :=
  match s.dynamixelRxBuffer with
  | [] => (none, setStatusFlag s S_DYNAMIXEL_TIMEOUT)
  | none :: rest =>
    (none, setStatusFlag { s with dynamixelRxBuffer := rest } S_DYNAMIXEL_TIMEOUT)
  | some b :: rest =>
    (some b,
      { s with
        dynamixelRxBuffer := rest
        checksumRxDynamixel :=
          if addToChecksum ≠ 0 then (s.checksumRxDynamixel + b) % 256
          else s.checksumRxDynamixel })

/-! ## Host packet codec -/

/-- Host checksum check `endRXPacketPC()`: reads the trailing byte without
accumulating it; a mismatch only sets `S_PC_CHECKSUM_ERROR`. -/
def endRXPacketPC (s : State) : Run Bool :=
  (rxPC s 0).bind fun r s1 =>
    match r with
    | none => .ret false s1
    | some checksum =>
      .ret true
        (if checksum ≠ not8 s1.checksumRxPC then setStatusFlag s1 S_PC_CHECKSUM_ERROR
         else s1)

/-- `startTXPacketPC(instruction)`. -/
def startTXPacketPC (s : State) (instruction : Nat) : State :=
  txPC { s with checksumTxPC := 0 } instruction 1

/-- `endTXPacketPC()`. -/
def endTXPacketPC (s : State) : State :=
  txPC s (not8 s.checksumTxPC) 0

/-- `txADCValuesPC()`. -/
def txADCValuesPC (s : State) : State :=
  txPC (txPC (txPC s (s.adcValue CHANNEL_POS) 1) (s.adcValue CHANNEL_NEG) 1)
    (s.adcValue CHANNEL_THERM) 1

/-- `txStatusPC()`. -/
def txStatusPC (s : State) : State :=
  let s1 := startTXPacketPC s I_STATUS
  let s2 := txPC s1 s1.status 1
  let s3 := txPC s2 s2.numDynamixelRetries 1
  endTXPacketPC (txADCValuesPC s3)

/-! ## Bus packet codec -/

/-- The out-parameters `*id`, `*numParams`, `*error` of the bus receive
functions: the values go in and come out; a caller that passes a null pointer
ignores the field. -/
structure RxHeader where
  id : Nat
  numParams : Nat
  error : Nat

/-- Bus header receive `startRXPacketDynamixel(id, numParams, error)`. -/
def startRXPacketDynamixel (s : State) (out : RxHeader) : Bool × RxHeader × State :=
  let s0 := { s with checksumRxDynamixel := 0 }
  match rxDynamixel s0 0 with
  | (none, s1) => (false, out, s1)
  | (some b1, s1) =>
    let s1 := if b1 ≠ 0xff then setStatusFlag s1 S_INVALID_DYNAMIXEL_RESPONSE else s1
    match rxDynamixel s1 0 with
    | (none, s2) => (false, out, s2)
    | (some b2, s2) =>
      let s2 := if b2 ≠ 0xff then setStatusFlag s2 S_INVALID_DYNAMIXEL_RESPONSE else s2
      match rxDynamixel s2 1 with
      | (none, s3) => (false, out, s3)
      | (some bid, s3) =>
        let out1 := { out with id := bid }
        match rxDynamixel s3 1 with
        | (none, s4) => (false, out1, s4)
        | (some blen, s4) =>
          let out2 := { out1 with numParams := (blen + 254) % 256 }
          match rxDynamixel s4 1 with
          | (none, s5) => (false, out2, s5)
          | (some berr, s5) => (true, { out2 with error := berr }, s5)

/-- Bus checksum check `endRXPacketDynamixel()`. -/
def endRXPacketDynamixel (s : State) : Bool × State :=
  match rxDynamixel s 0 with
  | (none, s1) => (false, s1)
  | (some checksum, s1) =>
    (true,
      if checksum ≠ not8 s1.checksumRxDynamixel then
        setStatusFlag s1 S_DYNAMIXEL_CHECKSUM_ERROR
      else s1)

/-- The parameter loop of `rxPacketDynamixel`, `k` iterations left at index
`i`; `params` tells whether the buffer pointer is non-null (the only buffer
ever passed is `dynamixelParams`). -/
def rxParamsLoop (params : Bool) (numParamsExpected : Nat) :
    Nat → Nat → State → Bool × State
  | 0, _, s => (true, s)
  | k + 1, i, s =>
    match rxDynamixel s 1 with
    | (none, s1) => (false, s1)
    | (some byte, s1) =>
      rxParamsLoop params numParamsExpected k (i + 1)
        (if params && decide (i < numParamsExpected) then
          { s1 with dynamixelParams := upd s1.dynamixelParams i byte }
         else s1)

/-- Bus packet receive
`rxPacketDynamixel(id, numParams, error, params, numParamsExpected)`.
The local `actualNumParams` is copied to `*numParams` only after the header
was received. -/
def rxPacketDynamixel (s : State) (out : RxHeader) (params : Bool)
    (numParamsExpected : Nat) : Bool × RxHeader × State :=
  match startRXPacketDynamixel s out with
  | (false, hdr, s1) => (false, { hdr with numParams := out.numParams }, s1)
  | (true, hdr, s1) =>
    let actualNumParams := hdr.numParams
    match rxParamsLoop params numParamsExpected actualNumParams 0 s1 with
    | (false, s2) => (false, hdr, s2)
    | (true, s2) =>
      match endRXPacketDynamixel s2 with
      | (false, s3) => (false, hdr, s3)
      | (true, s3) =>
        (true, hdr,
          if actualNumParams ≠ numParamsExpected then
            setStatusFlag s3 S_INVALID_DYNAMIXEL_RESPONSE
          else s3)

/-- `startTXPacketDynamixel(id, numParams, instruction)`. -/
def startTXPacketDynamixel (s : State) (id numParams instruction : Nat) : State :=
  let s0 := { s with checksumTxDynamixel := 0 }
  let s1 := txDynamixel s0 0xff 0
  let s2 := txDynamixel s1 0xff 0
  let s3 := txDynamixel s2 id 1
  let s4 := txDynamixel s3 ((numParams + 2) % 256) 1
  txDynamixel s4 instruction 1

/-- `endTXPacketDynamixel()`: sends the checksum, then waits for the transmit
path to drain; returns 0 with `S_DYNAMIXEL_TIMEOUT` when the wait times out. -/
def endTXPacketDynamixel (s : State) : Bool × State :=
  let s1 := txDynamixel s (not8 s.checksumTxDynamixel) 0
  match s1.dynamixelTxDone with
  | [] => (true, s1)
  | true :: rest => (true, { s1 with dynamixelTxDone := rest })
  | false :: rest =>
    (false, setStatusFlag { s1 with dynamixelTxDone := rest } S_DYNAMIXEL_TIMEOUT)

/-- `tryDynamixelAgain(dynamixelError)`. -/
def tryDynamixelAgain (s : State) (dynamixelError : Nat) : Bool × State :=
  if (dynamixelError &&& DYNAMIXEL_INSTRUCTION_CHECKSUM_ERROR ≠ 0 ∨
        s.status &&& S_DYNAMIXEL_CHECKSUM_ERROR ≠ 0) ∧
      s.numDynamixelRetries < MAX_DYNAMIXEL_TRIES - 1 then
    (true,
      clearStatusFlag
        { s with numDynamixelRetries := (s.numDynamixelRetries + 1) % 256 }
        S_DYNAMIXEL_CHECKSUM_ERROR)
  else (false, s)

/-! ## Ping -/

/-- The retry loop (`do ... while`) of `handlePing`; `out` holds `rxID` and
`rxError`. -/
def pingRetryLoop : Nat → State → Nat → RxHeader → Run RxHeader
  | 0, s, _, _ => .spin s
  | fuel + 1, s, addr, out =>
    match endTXPacketDynamixel (startTXPacketDynamixel s addr 0 D_I_PING) with
    | (false, s1) => .ret out s1
    | (true, s1) =>
      match rxPacketDynamixel s1 out false 0 with
      | (false, out1, s2) => .ret out1 s2
      | (true, out1, s2) =>
        match tryDynamixelAgain s2 out1.error with
        | (false, s3) => .ret out1 s3
        | (true, s3) => pingRetryLoop fuel s3 addr out1

/-- `handlePing()`. -/
def handlePing (fuel : Nat) (s : State) : Run Unit :=
  (rxPC s 1).bind fun r s1 =>
    match r with
    | none => .ret () (txStatusPC s1)
    | some addr =>
      (endRXPacketPC s1).bind fun ok s2 =>
        if ok then
          (if addr ≤ 253 then
              (pingRetryLoop fuel s2 addr ⟨0xff, 0xff, 0xff⟩).bind fun out s3 =>
                .ret ()
                  (if out.id ≠ addr then setStatusFlag s3 S_INVALID_DYNAMIXEL_RESPONSE
                   else s3)
            else .ret () s2).bind fun _ s4 =>
            .ret ()
              (txStatusPC
                (if addr = 254 then setStatusFlag s4 S_INVALID_PC_COMMAND else s4))
        else .ret () (txStatusPC s2)

/-! ## Format tables -/

/-- The entry loop of `setFormat(f)`, `k` iterations left at index `i`.
Returns `none` on `goto DONE`, `some totalBytes` when the loop ran out. -/
def setFormatLoop (f : Nat) : Nat → Nat → Nat → State → Run (Option Nat)
  | 0, _, totalBytes, s => .ret (some totalBytes) s
  | k + 1, i, totalBytes, s =>
    (rxPC s 1).bind fun r s1 =>
      match r with
      | none => .ret none s1
      | some id =>
        if id > MAX_DYNAMIXEL_ID then .ret none (setStatusFlag s1 S_INVALID_PC_COMMAND)
        else
          (rxPC s1 1).bind fun r s2 =>
            match r with
            | none => .ret none s2
            | some start =>
              if start > MAX_START_ADDR then
                .ret none (setStatusFlag s2 S_INVALID_PC_COMMAND)
              else
                (rxPC s2 1).bind fun r s3 =>
                  match r with
                  | none => .ret none s3
                  | some n =>
                    if n > NUM_REG_BYTES - start then
                      .ret none (setStatusFlag s3 S_INVALID_PC_COMMAND)
                    else
                      setFormatLoop f k (i + 1) ((totalBytes + n) % 65536)
                        { s3 with
                          axID := upd2 s3.axID f i id
                          startAddr := upd2 s3.startAddr f i start
                          numBytes := upd2 s3.numBytes f i n }

/-- `setFormat(f)`. -/
def setFormat (f : Nat) (s : State) : Run Unit :=
  let s0 :=
    { s with
      numDynamixels := upd s.numDynamixels f 0
      totalNumBytes := upd s.totalNumBytes f 0 }
  (rxPC s0 1).bind fun r s1 =>
    match r with
    | none => .ret () (txStatusPC s1)
    | some n =>
      if n > MAX_DYNAMIXELS then
        .ret () (txStatusPC (setStatusFlag s1 S_INVALID_PC_COMMAND))
      else
        (setFormatLoop f n 0 0 s1).bind fun r s2 =>
          match r with
          | none => .ret () (txStatusPC s2)
          | some totalBytes =>
            (endRXPacketPC
                { s2 with
                  totalNumBytes := upd s2.totalNumBytes f totalBytes
                  numDynamixels := upd s2.numDynamixels f n }).bind fun _ s3 =>
              .ret () (txStatusPC s3)

/-- `handleSetReadFormat()`. -/
def handleSetReadFormat (s : State) : Run Unit := setFormat F_READ s

/-- `handleSetWriteFormat()`. -/
def handleSetWriteFormat (s : State) : Run Unit := setFormat F_WRITE s

/-! ## ReadData -/

/-- `for (j = 0; j < thisN; j++) dynamixelParams[j] = 0xff;` with `k`
iterations left at index `j`. -/
def fillParams : Nat → Nat → State → State
  | 0, _, s => s
  | k + 1, j, s =>
    fillParams k (j + 1) { s with dynamixelParams := upd s.dynamixelParams j 0xff }

/-- The retry loop (`do ... while`) of one block of `handleReadData`.
Returns `none` on `goto DONE`, else the received `rxID`, `rxN`, `rxError`. -/
def readRetryLoop : Nat → State → Nat → Nat → Nat → RxHeader → Run (Option RxHeader)
  | 0, s, _, _, _, _ => .spin s
  | fuel + 1, s, id, start, thisN, out =>
    let s1 :=
      if thisN > 0 then
        txDynamixel (txDynamixel (startTXPacketDynamixel s id 2 D_I_READ_DATA) start 1)
          thisN 1
      else startTXPacketDynamixel s id 0 D_I_PING
    match endTXPacketDynamixel s1 with
    | (false, s2) => .ret none s2
    | (true, s2) =>
      match rxPacketDynamixel s2 out true thisN with
      | (false, out1, s3) => .ret (some out1) s3
      | (true, out1, s3) =>
        match tryDynamixelAgain s3 out1.error with
        | (false, s4) => .ret (some out1) s4
        | (true, s4) => readRetryLoop fuel s4 id start thisN out1

/-- `for (j = 0; j < thisN; j++) { txPC(dynamixelParams[j], 1); bytesToGo--; }` -/
def fwdParams : Nat → Nat → State → Nat → State × Nat
  | 0, _, s, bytesToGo => (s, bytesToGo)
  | k + 1, j, s, bytesToGo =>
    fwdParams k (j + 1) (txPC s (s.dynamixelParams j) 1) ((bytesToGo + 65535) % 65536)

/-- `for (j = 0; j < thisN; j++) { txPC(0xff, 1); bytesToGo--; }` -/
def fwdStuff : Nat → State → Nat → State × Nat
  | 0, s, bytesToGo => (s, bytesToGo)
  | k + 1, s, bytesToGo => fwdStuff k (txPC s 0xff 1) ((bytesToGo + 65535) % 65536)

/-- The block loop `while (n > 0)` of one entry of `handleReadData`.
Returns `(false, bytesToGo)` on `goto DONE` and `(true, bytesToGo)` when the
entry is finished.  `retryFuel` is the fuel of each inner retry loop. -/
def readBlockLoop (retryFuel : Nat) :
    Nat → State → Nat → Nat → Nat → Nat → Nat → Run (Bool × Nat)
  | 0, s, _, n, _, _, bytesToGo => if n > 0 then .spin s else .ret (true, bytesToGo) s
  | fuel + 1, s, id, n, start, returnError, bytesToGo =>
    if n > 0 then
      let thisN0 := if n ≤ MAX_DYNAMIXEL_BLOCK_READ then n else MAX_DYNAMIXEL_BLOCK_READ
      let returnError1 :=
        if start + thisN0 = VIRTUAL_ERROR_REG_ADDR then 1 else returnError
      let thisN := if start + thisN0 = VIRTUAL_ERROR_REG_ADDR then thisN0 - 1 else thisN0
      (readRetryLoop retryFuel (fillParams thisN 0 s) id start thisN
          ⟨0xff, 0xff, 0xff⟩).bind fun r s2 =>
        match r with
        | none => .ret (false, bytesToGo) s2
        | some out =>
          let fwd :=
            if out.id = id ∧ out.numParams = thisN then fwdParams thisN 0 s2 bytesToGo
            else fwdStuff thisN (setStatusFlag s2 S_INVALID_DYNAMIXEL_RESPONSE) bytesToGo
          if returnError1 ≠ 0 then
            readBlockLoop retryFuel fuel (txPC fwd.1 out.error 1) id
              (((n + 255) % 256 + 256 - thisN) % 256) (((start + 1) % 256 + thisN) % 256)
              returnError1 ((fwd.2 + 65535) % 65536)
          else
            readBlockLoop retryFuel fuel fwd.1 id ((n + 256 - thisN) % 256)
              ((start + thisN) % 256) returnError1 fwd.2
    else .ret (true, bytesToGo) s

/-- The entry loop of `handleReadData`, `k` iterations left at index `i`;
returns the value of `bytesToGo` at the label `DONE`. -/
def readEntryLoop (fuel : Nat) : Nat → Nat → State → Nat → Run Nat
  | 0, _, s, bytesToGo => .ret bytesToGo s
  | k + 1, i, s, bytesToGo =>
    (readBlockLoop fuel fuel s (s.axID F_READ i) (s.numBytes F_READ i) (s.startAddr F_READ i)
        0 bytesToGo).bind fun r s1 =>
      if r.1 then readEntryLoop fuel k (i + 1) s1 r.2 else .ret r.2 s1

/-- `while (bytesToGo) txPC(0xff, 1);` -/
def stuffLoop : Nat → State → Nat → Run Unit
  | 0, s, bytesToGo => if bytesToGo ≠ 0 then .spin s else .ret () s
  | fuel + 1, s, bytesToGo =>
    if bytesToGo ≠ 0 then stuffLoop fuel (txPC s 0xff 1) bytesToGo else .ret () s

/-- `handleReadData()`. -/
def handleReadData (fuel : Nat) (s : State) : Run Unit :=
  (endRXPacketPC s).bind fun rxPCok s1 =>
    let bytesToGo := s1.totalNumBytes F_READ
    let s2 := startTXPacketPC s1 I_DATA
    (if rxPCok then readEntryLoop fuel (s2.numDynamixels F_READ) 0 s2 bytesToGo
      else .ret bytesToGo s2).bind fun bytesToGo s3 =>
      (stuffLoop fuel s3 bytesToGo).bind fun _ s4 =>
        let s5 := txPC s4 s4.status 1
        let s6 := txPC s5 s5.numDynamixelRetries 1
        .ret () (endTXPacketPC (txADCValuesPC s6))

/-! ## WriteData -/

/-- `for (j = 0; j < n; j++) if (!rxPC(&(dynamixelParams[j]), 1)) goto DONE;`
with `k` iterations left at index `j`; `false` on `goto DONE`. -/
def writeRxLoop : Nat → Nat → State → Run Bool
  | 0, _, s => .ret true s
  | k + 1, j, s =>
    (rxPC s 1).bind fun r s1 =>
      match r with
      | none => .ret false s1
      | some b =>
        writeRxLoop k (j + 1) { s1 with dynamixelParams := upd s1.dynamixelParams j b }

/-- `for (j = 0; j < n; j++) txDynamixel(dynamixelParams[j], 1);` -/
def writeTxLoop : Nat → Nat → State → State
  | 0, _, s => s
  | k + 1, j, s => writeTxLoop k (j + 1) (txDynamixel s (s.dynamixelParams j) 1)

/-- The retry loop (`do ... while`) of one entry of `handleWriteData`.
Returns `none` on `goto DONE`, else the received `rxID` and `rxError`. -/
def writeRetryLoop : Nat → State → Nat → Nat → Nat → RxHeader → Run (Option RxHeader)
  | 0, s, _, _, _, _ => .spin s
  | fuel + 1, s, id, start, n, out =>
    let s1 :=
      writeTxLoop n 0
        (txDynamixel (startTXPacketDynamixel s id ((n + 1) % 256) D_I_REG_WRITE) start 1)
    match endTXPacketDynamixel s1 with
    | (false, s2) => .ret none s2
    | (true, s2) =>
      match rxPacketDynamixel s2 out false 0 with
      | (false, out1, s3) => .ret (some out1) s3
      | (true, out1, s3) =>
        match tryDynamixelAgain s3 out1.error with
        | (false, s4) => .ret (some out1) s4
        | (true, s4) => writeRetryLoop fuel s4 id start n out1

/-- The entry loop of `handleWriteData`, `k` iterations left at index `i`;
`false` on `goto DONE`. -/
def writeEntryLoop (fuel : Nat) : Nat → Nat → State → Run Bool
  | 0, _, s => .ret true s
  | k + 1, i, s =>
    (writeRxLoop (s.numBytes F_WRITE i) 0 s).bind fun ok s1 =>
      if ok then
        (writeRetryLoop fuel s1 (s.axID F_WRITE i) (s.startAddr F_WRITE i)
            (s.numBytes F_WRITE i) ⟨0xff, 0xff, 0xff⟩).bind fun r s2 =>
          match r with
          | none => .ret false s2
          | some out =>
            writeEntryLoop fuel k (i + 1)
              (if out.id ≠ s.axID F_WRITE i then
                setStatusFlag s2 S_INVALID_DYNAMIXEL_RESPONSE
               else s2)
      else .ret false s1

/-- `handleWriteData()`. -/
def handleWriteData (fuel : Nat) (s : State) : Run Unit :=
  (writeEntryLoop fuel (s.numDynamixels F_WRITE) 0 s).bind fun ok s1 =>
    if ok then
      match endTXPacketDynamixel (startTXPacketDynamixel s1 ID_BCAST 0 D_I_ACTION) with
      | (false, s2) => .ret () (txStatusPC s2)
      | (true, s2) => (endRXPacketPC s2).bind fun _ s3 => .ret () (txStatusPC s3)
    else .ret () (txStatusPC s1)

/-! ## Invalid command and the command loop -/

/-- `clearRxBufPC()`: drops what is in the ring buffer at that moment. -/
def clearRxBufPC (s : State) : State :=
  { s with pcRxBuffer := s.pcRxBuffer.drop s.rxClearPC }

/-- `clearRxBufDynamixel()`. -/
def clearRxBufDynamixel (s : State) : State :=
  { s with dynamixelRxBuffer := s.dynamixelRxBuffer.drop s.rxClearDynamixel }

/-- `handleInvalid()`; the cooldown wait on `ticksToGo` ends with the ticks. -/
def handleInvalid (s : State) : State :=
  clearRxBufDynamixel (clearRxBufPC (txStatusPC (setStatusFlag s S_INVALID_PC_COMMAND)))

/-- The handlers of `commandLoop`, named for the dispatch. -/
inductive Handler where
  | handlePing
  | handleSetReadFormat
  | handleSetWriteFormat
  | handleReadData
  | handleWriteData
  | handleInvalid
  deriving DecidableEq, Repr

/-- The table `commandHandler[]`, indexed by the low nybble. -/
def commandHandler : Nat → Handler
  | 0 => .handlePing
  | 1 => .handleSetReadFormat
  | 2 => .handleSetWriteFormat
  | 3 => .handleReadData
  | 4 => .handleWriteData
  | _ => .handleInvalid

/-- The handler that `commandLoop` selects for an instruction byte. -/
def selectHandler (instruction : Nat) : Handler :=
  if instruction &&& 0xf0 = 0xf0 then commandHandler (instruction &&& 0x0f)
  else .handleInvalid

/-- The call `handler()`. -/
def Handler.run (fuel : Nat) (s : State) : Handler → Run Unit
  | .handlePing => BRBrain.handlePing fuel s
  | .handleSetReadFormat => BRBrain.handleSetReadFormat s
  | .handleSetWriteFormat => BRBrain.handleSetWriteFormat s
  | .handleReadData => BRBrain.handleReadData fuel s
  | .handleWriteData => BRBrain.handleWriteData fuel s
  | .handleInvalid => .ret () (BRBrain.handleInvalid s)

/-- `while (!rxPC(&instruction, 1)) ;` -/
def idleWait : Nat → State → Run Nat
  | 0, s => .spin s
  | fuel + 1, s =>
    (rxPC s 1).bind fun r s1 =>
      match r with
      | none => idleWait fuel s1
      | some instruction => .ret instruction s1

/-- One iteration of the `for (;;)` of `commandLoop()`. -/
def commandLoopBody (fuel : Nat) (s : State) : Run Unit :=
  let s0 :=
    { s with status := 0, numDynamixelRetries := 0, checksumRxPC := 0,
             enableRxPCTimeout := 0 }
  (idleWait fuel s0).bind fun instruction s1 =>
    (selectHandler instruction).run fuel { s1 with enableRxPCTimeout := 1 }

/-- `commandLoop()`, which never returns: after `cycles` iterations it is
still running. -/
def commandLoop (fuel : Nat) : Nat → State → Run Unit
  | 0, s => .spin s
  | cycles + 1, s => (commandLoopBody fuel s).bind fun _ s1 => commandLoop fuel cycles s1

/-! ## Inputs and vocabulary of the statements -/

/-- The state after the static initialisers of the C file, with the analog
samples read by `initHardware()` and the events of the two links. -/
def initState (adc : Nat → Nat) (host bus : List (Option Nat)) : State :=
  { numDynamixels := fun _ => 0
    totalNumBytes := fun _ => 0
    axID := fun _ _ => 0
    startAddr := fun _ _ => 0
    numBytes := fun _ _ => 0
    dynamixelParams := fun _ => 0
    checksumTxDynamixel := 0
    checksumRxDynamixel := 0
    checksumTxPC := 0
    checksumRxPC := 0
    numDynamixelRetries := 0
    adcValue := adc
    status := 0
    enableRxPCTimeout := 1
    pcRxBuffer := host
    pcTxBuffer := []
    dynamixelRxBuffer := bus
    dynamixelTxBuffer := []
    dynamixelTxDone := []
    rxClearPC := 0
    rxClearDynamixel := 0 }

/-- Successive accumulating reads `rxPC(&b, 1)`, `k` of them, stopping at the
first timeout: the reads a handler makes before `endRXPacketPC()`. -/
def rxPCMany : Nat → State → Run (List Nat)
  | 0, s => .ret [] s
  | k + 1, s =>
    (rxPC s 1).bind fun r s1 =>
      match r with
      | none => .ret [] s1
      | some b => (rxPCMany k s1).bind fun bs s2 => .ret (b :: bs) s2

/-- The host bytes of a list of format entries `(deviceId, startAddr, length)`. -/
def entryBytes : List (Nat × Nat × Nat) → List Nat
  | [] => []
  | e :: es => e.1 :: e.2.1 :: e.2.2 :: entryBytes es

/-- A format entry accepted by `setFormat`. -/
def ValidEntry (e : Nat × Nat × Nat) : Prop :=
  e.1 ≤ 253 ∧ e.2.1 ≤ 54 ∧ e.2.2 ≤ 55 - e.2.1

/-- The bytes of an entry up to and including the first one `setFormat`
rejects. -/
def Violation (bad : List Nat) : Prop :=
  ∃ id start n,
    (bad = [id] ∧ 253 < id) ∨
    (bad = [id, start] ∧ id ≤ 253 ∧ 54 < start) ∨
    (bad = [id, start, n] ∧ id ≤ 253 ∧ start ≤ 54 ∧ 55 - start < n)

/-- Every drain wait of `endTXPacketDynamixel` still to come succeeds. -/
def AllDrain (s : State) : Prop := ∀ b ∈ s.dynamixelTxDone, b = true

/-- The sum `numBytes[f][i] + ... + numBytes[f][i+k-1]`. -/
def tableBytes (numBytes : Nat → Nat) : Nat → Nat → Nat
  | _, 0 => 0
  | i, k + 1 => numBytes i + tableBytes numBytes (i + 1) k

/-- The part of the state that neither the bus codec nor the retry policy
writes. -/
structure HostSide where
  numDynamixels : Nat → Nat
  totalNumBytes : Nat → Nat
  axID : Nat → Nat → Nat
  startAddr : Nat → Nat → Nat
  numBytes : Nat → Nat → Nat
  checksumTxPC : Nat
  checksumRxPC : Nat
  adcValue : Nat → Nat
  enableRxPCTimeout : Nat
  pcRxBuffer : List (Option Nat)
  pcTxBuffer : List Nat
  rxClearPC : Nat
  rxClearDynamixel : Nat

/-- The host side of a state. -/
def State.hostSide (s : State) : HostSide :=
  { numDynamixels := s.numDynamixels
    totalNumBytes := s.totalNumBytes
    axID := s.axID
    startAddr := s.startAddr
    numBytes := s.numBytes
    checksumTxPC := s.checksumTxPC
    checksumRxPC := s.checksumRxPC
    adcValue := s.adcValue
    enableRxPCTimeout := s.enableRxPCTimeout
    pcRxBuffer := s.pcRxBuffer
    pcTxBuffer := s.pcTxBuffer
    rxClearPC := s.rxClearPC
    rxClearDynamixel := s.rxClearDynamixel }

/-- A stretch of bus activity from `s` to `t`: the host side is untouched, the
drain outcomes still to come are among those of `s`, the retry counter does
not decrease and stays within 3 when it was. -/
structure Step (s t : State) : Prop where
  host : t.hostSide = s.hostSide
  drain : AllDrain s → AllDrain t
  mono : s.numDynamixelRetries ≤ t.numDynamixelRetries
  bound : s.numDynamixelRetries ≤ 3 → t.numDynamixelRetries ≤ 3

/-- From `s` to `t` the host transmit log only grows and the retry counter
stays within 3 when it was. -/
structure Grow (s t : State) : Prop where
  tx : ∃ L, t.pcTxBuffer = s.pcTxBuffer ++ L
  bound : s.numDynamixelRetries ≤ 3 → t.numDynamixelRetries ≤ 3

/-- The host transmit log of `t` is that of `s`, then some bytes, then the
status, the retry count and the analog values of `t`, then one byte. -/
def Reported (s t : State) : Prop :=
  ∃ pre c,
    t.pcTxBuffer =
      s.pcTxBuffer ++ pre ++
        [t.status, t.numDynamixelRetries, t.adcValue 0, t.adcValue 1, t.adcValue 2, c]

/-- Postcondition `Q` on return, invariant `I` while still running. -/
def Run.post {α : Type} (r : Run α) (Q : α → State → Prop) (I : State → Prop) : Prop :=
  match r with
  | .ret a t => Q a t
  | .spin t => I t

/-- The host bytes of the failing run of ReadData: `SET_READ_FORMAT` with the
single entry (1, 0, 1) and its checksum, then `READ_DATA` without its
checksum byte. -/
def stuckHost : List (Option Nat) :=
  [some 0xF1, some 1, some 1, some 0, some 1, some 11, some 0xF3]

/-- The state in which the `READ_DATA` instruction of `stuckHost` is awaited. -/
def stuckState : State := (commandLoopBody 1 (initState (fun _ => 0) stuckHost [])).state

/-- The host bytes of a read of register 54: `SET_READ_FORMAT` with the single
entry (1, 54, 1), then `READ_DATA`, both with valid checksums. -/
def virtualHost : List (Option Nat) :=
  [some 0xF1, some 1, some 1, some 54, some 1, some 213, some 0xF3, some 12]

/-- The reply of device 1 to `READ_DATA(54, 1)`: error byte 0, data byte 0x77. -/
def virtualBus : List (Option Nat) :=
  [some 0xFF, some 0xFF, some 1, some 3, some 0, some 0x77, some 132]

/-- The analog samples of the layout example. -/
def layoutAdc : Nat → Nat
  | 0 => 0x11
  | 1 => 0x22
  | _ => 0x33

/-- The host bytes of the layout example: `SET_READ_FORMAT` with the single
entry (1, 0, 1), then `READ_DATA`, both with valid checksums. -/
def layoutHost : List (Option Nat) :=
  [some 0xF1, some 1, some 1, some 0, some 1, some 11, some 0xF3, some 12]

/-- The reply of device 1 to `READ_DATA(0, 1)`: error byte 0, data byte 0x42. -/
def layoutBus : List (Option Nat) :=
  [some 0xFF, some 0xFF, some 1, some 3, some 0, some 0x42, some 185]

/-- The PING packet sent to `addr`. -/
def pingPacket (addr : Nat) : List Nat := [0xFF, 0xFF, addr, 2, 1, 255 - (addr + 3) % 256]

/-- The bus bytes of successive zero-parameter replies of device `addr`, each
given by its error byte and its trailing checksum byte. -/
def pingReplies (addr : Nat) : List (Nat × Nat) → List (Option Nat)
  | [] => []
  | r :: rs =>
    some 0xFF :: some 0xFF :: some addr :: some 2 :: some r.1 :: some r.2 :: pingReplies addr rs

/-- From `s` to `t` exactly the bytes `L` were sent to the host, all of them
accumulated in the transmit checksum, and neither the format tables nor the
analog samples changed; the drain outcomes still to come are among those of
`s`. -/
structure Sent (s t : State) (L : List Nat) : Prop where
  tx : t.pcTxBuffer = s.pcTxBuffer ++ L
  sum : t.checksumTxPC % 256 = (s.checksumTxPC + L.sum) % 256
  numDynamixels : t.numDynamixels = s.numDynamixels
  totalNumBytes : t.totalNumBytes = s.totalNumBytes
  axID : t.axID = s.axID
  startAddr : t.startAddr = s.startAddr
  numBytes : t.numBytes = s.numBytes
  adc : t.adcValue = s.adcValue
  drain : AllDrain s → AllDrain t

/-- A read-format entry whose block loop ends: it stays within the register
bank and is not one of the two entries, (14, 41) and (34, 21), whose last
block starts at address 34 with 21 bytes to go. -/
def ReadableEntry (start n : Nat) : Prop :=
  start + n ≤ 55 ∧ ¬ (start + n = 55 ∧ (start = 14 ∨ start = 34))

/-- The bus bytes of successive zero-parameter status packets, each given by
its id, its error byte and its trailing checksum byte. -/
def statusReplies : List (Nat × Nat × Nat) → List (Option Nat)
  | [] => []
  | r :: rs =>
    some 0xFF :: some 0xFF :: some r.1 :: some 2 :: some r.2.1 :: some r.2.2 :: statusReplies rs

/-- A zero-parameter status packet that the retry policy answers with a
retry: its error byte has the instruction-checksum bit, or its trailing
checksum byte is wrong. -/
def Retried (r : Nat × Nat × Nat) : Prop :=
  r.2.1 &&& DYNAMIXEL_INSTRUCTION_CHECKSUM_ERROR ≠ 0 ∨ r.2.2 ≠ 255 - (r.1 + 2 + r.2.1) % 256

/-- Nothing arrives on the bus before the next wait times out. -/
def NoReply (bus : List (Option Nat)) : Prop := bus = [] ∨ ∃ r, bus = none :: r

/-- The bus packet with the given id, instruction byte and parameters, as the
Dynamixel protocol frames it. -/
def busPacket (id instr : Nat) (params : List Nat) : List Nat :=
  [0xFF, 0xFF, id, (params.length + 2) % 256, instr] ++ params ++
    [255 - (id + params.length + 2 + instr + params.sum) % 256]

/-- The REG_WRITE packet of a write entry. -/
def regWritePacket (id start : Nat) (data : List Nat) : List Nat :=
  busPacket id D_I_REG_WRITE (start :: data)

/-- The broadcast ACTION packet. -/
def actionPacket : List Nat := busPacket ID_BCAST D_I_ACTION []

/-- The bytes `dynamixelParams[0 .. n-1]`. -/
def paramBytes (s : State) (n : Nat) : List Nat := (List.range n).map s.dynamixelParams

/-- What no loop of a handler changes from `s` to `t`: the format tables, the
analog samples, the timeout switch and the host transmit log; the drain
outcomes still to come are among those of `s`. -/
structure Kept (s t : State) : Prop where
  numDynamixels : t.numDynamixels = s.numDynamixels
  totalNumBytes : t.totalNumBytes = s.totalNumBytes
  axID : t.axID = s.axID
  startAddr : t.startAddr = s.startAddr
  numBytes : t.numBytes = s.numBytes
  adc : t.adcValue = s.adcValue
  timeout : t.enableRxPCTimeout = s.enableRxPCTimeout
  pcTx : t.pcTxBuffer = s.pcTxBuffer
  drain : AllDrain s → AllDrain t

/-- Nothing happened on the bus from `s` to `t`. -/
structure BusIdle (s t : State) : Prop where
  tx : t.dynamixelTxBuffer = s.dynamixelTxBuffer
  rx : t.dynamixelRxBuffer = s.dynamixelRxBuffer
  done : t.dynamixelTxDone = s.dynamixelTxDone
  retries : t.numDynamixelRetries = s.numDynamixelRetries

/-- From `s` to `t` the bus was only listened to, without storing parameters:
the bus transmit log, the drain outcomes and the parameter buffer are those of
`s`. -/
structure Heard (s t : State) : Prop where
  tx : t.dynamixelTxBuffer = s.dynamixelTxBuffer
  done : t.dynamixelTxDone = s.dynamixelTxDone
  params : t.dynamixelParams = s.dynamixelParams

/-- The REG_WRITE packets of the entries `i, i+1, ...` of a format table
(`ids`, `starts`, `lens`), the j-th of them sent `counts[j]` times, with the
payload bytes `data` in table order. -/
def writeLog (ids starts lens : Nat → Nat) : Nat → List Nat → List Nat → List Nat
  | _, [], _ => []
  | i, c :: cs, data =>
    (List.replicate c (regWritePacket (ids i) (starts i) (data.take (lens i)))).flatten ++
      writeLog ids starts lens (i + 1) cs (data.drop (lens i))

/-- The host bytes of the write example: `SET_WRITE_FORMAT` with the entries
(1, 30, 1) and (2, 30, 1), then `WRITE_DATA` with the payload 0x11, 0x22, both
with valid checksums. -/
def writeHost : List (Option Nat) :=
  [some 0xF2, some 2, some 1, some 30, some 1, some 2, some 30, some 1, some 202,
    some 0xF4, some 0x11, some 0x22, some 216]

/-- The bus events of the write example: the wait for the reply of device 1
times out, then device 2 answers its REG_WRITE with a well-formed status
packet. -/
def writeBus : List (Option Nat) :=
  [none, some 0xFF, some 0xFF, some 2, some 2, some 0, some 251]

/-- A state holding the write format (1, 30, 1), (2, 30, 1), with the given
host bytes pending and the given drain outcomes. -/
def writeState (host : List (Option Nat)) (done : List Bool) : State :=
  { initState (fun _ => 0) host [] with
    numDynamixels := upd (fun _ => 0) F_WRITE 2
    totalNumBytes := upd (fun _ => 0) F_WRITE 2
    axID := upd2 (upd2 (fun _ _ => 0) F_WRITE 0 1) F_WRITE 1 2
    startAddr := upd2 (upd2 (fun _ _ => 0) F_WRITE 0 30) F_WRITE 1 30
    numBytes := upd2 (upd2 (fun _ _ => 0) F_WRITE 0 1) F_WRITE 1 1
    dynamixelTxDone := done }

/-- The bus bytes of a status packet of device `id` with error byte `err`,
parameters `params` and trailing checksum byte `ck`. -/
def busReply (id err : Nat) (params : List Nat) (ck : Nat) : List (Option Nat) :=
  some 0xFF :: some 0xFF :: some id :: some (params.length + 2) :: some err ::
    (params.map some ++ [some ck])

/-- The right trailing checksum byte of a status packet. -/
def replyChecksum (id err : Nat) (params : List Nat) : Nat :=
  255 - (id + (params.length + 2) + err + params.sum) % 256

/-- The request that one block of `handleReadData` transmits: READ_DATA of
`thisN` bytes at `start`, or PING when no physical byte is left to read. -/
def readRequest (id start thisN : Nat) : List Nat :=
  if thisN > 0 then busPacket id D_I_READ_DATA [start, thisN] else busPacket id D_I_PING []

/-- The number of physical bytes that the block of `handleReadData` starting
at `start` with `n` bytes to go requests (`thisN` after the virtual-register
test). -/
def blockBytes (start n : Nat) : Nat :=
  if start + (if n ≤ MAX_DYNAMIXEL_BLOCK_READ then n else MAX_DYNAMIXEL_BLOCK_READ) =
      VIRTUAL_ERROR_REG_ADDR then
    (if n ≤ MAX_DYNAMIXEL_BLOCK_READ then n else MAX_DYNAMIXEL_BLOCK_READ) - 1
  else (if n ≤ MAX_DYNAMIXEL_BLOCK_READ then n else MAX_DYNAMIXEL_BLOCK_READ)

/-- The value of `returnError` after the virtual-register test of that block. -/
def blockReturnError (start n returnError : Nat) : Nat :=
  if start + (if n ≤ MAX_DYNAMIXEL_BLOCK_READ then n else MAX_DYNAMIXEL_BLOCK_READ) =
      VIRTUAL_ERROR_REG_ADDR then 1
  else returnError

/-- The host bytes of the overlong-reply example: `SET_READ_FORMAT` with the
single entry (1, 0, 1), then `READ_DATA`, both with valid checksums. -/
def overlongHost : List (Option Nat) :=
  [some 0xF1, some 1, some 1, some 0, some 1, some 11, some 0xF3, some 12]

/-- The reply of device 1 in the overlong-reply example: a well-formed status
packet with the two parameters 0x42, 0x43 where one byte was requested. -/
def overlongBus : List (Option Nat) := busReply 1 0 [0x42, 0x43] (replyChecksum 1 0 [0x42, 0x43])

/-- A simulated bus device: its id, its register bank, the REG_WRITE (start
address and data) that is latched and not yet applied, and whether it answers
a REG_WRITE with a status packet (status return level 2, which the retry loop
of `handleWriteData` asks for) or stays silent on it (level 1: only READ_DATA
and PING are answered). -/
structure Device where
  id : Nat
  regs : Nat → Nat
  latched : Option (Nat × List Nat)
  answersWrite : Bool

/-- Store `data` in a register bank from address `a` on. -/
def storeRegs (regs : Nat → Nat) : Nat → List Nat → Nat → Nat
  | _, [] => regs
  | a, b :: bs => storeRegs (upd regs a b) (a + 1) bs

/-- The registers `a .. a+k-1` of a register bank. -/
def loadRegs (regs : Nat → Nat) (a k : Nat) : List Nat := (List.range' a k).map regs

/-- A bus packet as the simulated device sees it: the id it is addressed to,
the instruction and the parameters. -/
abbrev Packet := Nat × Nat × List Nat

/-- The bytes on the wire of a sequence of packets. -/
def wire (ps : List Packet) : List Nat := (ps.map fun p => busPacket p.1 p.2.1 p.2.2).flatten

/-- What the simulated device does with one packet, and the bus events that
follow.  A REG_WRITE addressed to it latches the data and is answered with a
status packet, or, by a device that does not answer writes, with silence: the
wait of the firmware for the answer times out; the broadcast ACTION applies the
latched data and is not answered; READ_DATA and PING addressed to it are
answered with well-formed status packets (error byte 0, right checksum);
anything else is ignored. -/
def Device.handle (d : Device) (p : Packet) : Device × List (Option Nat) :=
  if p.2.1 = D_I_ACTION ∧ p.1 = ID_BCAST then
    (match d.latched with
      | some w => { d with regs := storeRegs d.regs w.1 w.2, latched := none }
      | none => d, [])
  else if p.1 = d.id ∧ p.2.1 = D_I_REG_WRITE then
    (match p.2.2 with
      | a :: data =>
        ({ d with latched := some (a, data) },
          if d.answersWrite then busReply d.id 0 [] (replyChecksum d.id 0 []) else [none])
      | [] => (d, []))
  else if p.1 = d.id ∧ p.2.1 = D_I_READ_DATA then
    (match p.2.2 with
      | [a, k] =>
        (d, busReply d.id 0 (loadRegs d.regs a k) (replyChecksum d.id 0 (loadRegs d.regs a k)))
      | _ => (d, []))
  else if p.1 = d.id ∧ p.2.1 = D_I_PING then
    (d, busReply d.id 0 [] (replyChecksum d.id 0 []))
  else (d, [])

/-- The simulated device fed a sequence of packets: its final state and the
bytes it puts on the bus. -/
def Device.run (d : Device) : List Packet → Device × List (Option Nat)
  | [] => (d, [])
  | p :: ps => ((Device.run (d.handle p).1 ps).1, (d.handle p).2 ++ (Device.run (d.handle p).1 ps).2)

/-- The blocks (address and length) in which `handleReadData` reads `n` ≤ 60
bytes from address `start` when no block meets the virtual register. -/
def readBlocks (start n : Nat) : List (Nat × Nat) :=
  if n = 0 then []
  else if n ≤ 20 then [(start, n)]
  else if n ≤ 40 then [(start, 20), (start + 20, n - 20)]
  else [(start, 20), (start + 20, 20), (start + 40, n - 40)]

/-- The packets of a round trip on the entry (id, start, length of the
payload): the REG_WRITE of the payload, the ACTION, and the READ_DATA
requests of the blocks. -/
def roundTripPackets (id start : Nat) (payload : List Nat) : List Packet :=
  (id, D_I_REG_WRITE, start :: payload) :: (ID_BCAST, D_I_ACTION, []) ::
    (readBlocks start payload.length).map fun b => (id, D_I_READ_DATA, [b.1, b.2])

/-- The replies of a device with register bank `regs` to the READ_DATA
requests of a list of blocks. -/
def readReplies (id : Nat) (regs : Nat → Nat) (blocks : List (Nat × Nat)) : List (Option Nat) :=
  (blocks.map fun b =>
    busReply id 0 (loadRegs regs b.1 b.2) (replyChecksum id 0 (loadRegs regs b.1 b.2))).flatten

/-- The host bytes of the failing round trip: `SET_READ_FORMAT` and
`SET_WRITE_FORMAT` with the single entry (1, 53, 1), `WRITE_DATA` of the
payload 0x42 and `READ_DATA`, all with valid checksums. -/
def tripHost : List (Option Nat) :=
  [some 0xF1, some 1, some 1, some 53, some 1, some 214,
    some 0xF2, some 1, some 1, some 53, some 1, some 213,
    some 0xF4, some 0x42, some 201, some 0xF3, some 12]

/-- The packets that the firmware sends in the failing round trip. -/
def tripPackets : List Packet :=
  [(1, D_I_REG_WRITE, [53, 0x42]), (ID_BCAST, D_I_ACTION, []), (1, D_I_PING, [])]

/-- The simulated device of the examples: id 1, all registers 0, nothing
latched, answering a REG_WRITE or not. -/
def tripDevice (answersWrite : Bool) : Device := ⟨1, fun _ => 0, none, answersWrite⟩

/-- A state holding the single entry (1, start, 1) in both format tables. -/
def tripState (start : Nat) (host bus : List (Option Nat)) : State :=
  { initState (fun _ => 0) host bus with
    numDynamixels := fun _ => 1
    totalNumBytes := fun _ => 1
    axID := fun _ _ => 1
    startAddr := fun _ _ => start
    numBytes := fun _ _ => 1 }

/-- The counters `(n, start, returnError)` of the block loop of
`handleReadData` after one more block, when the retry loop does not jump to
`DONE`. -/
def blockNext (x : Nat × Nat × Nat) : Nat × Nat × Nat :=
  if blockReturnError x.2.1 x.1 x.2.2 ≠ 0 then
    (((x.1 + 255) % 256 + 256 - blockBytes x.2.1 x.1) % 256,
      ((x.2.1 + 1) % 256 + blockBytes x.2.1 x.1) % 256, blockReturnError x.2.1 x.1 x.2.2)
  else
    ((x.1 + 256 - blockBytes x.2.1 x.1) % 256, (x.2.1 + blockBytes x.2.1 x.1) % 256,
      blockReturnError x.2.1 x.1 x.2.2)

/-- The counters `(n, start, returnError)` met by the block loop on the entries
(14, 41) and (34, 21). -/
def spinOrbit : List (Nat × Nat × Nat) :=
  [(41, 14, 0), (21, 34, 0), (1, 54, 1), (255, 56, 1), (234, 77, 1), (213, 98, 1),
    (192, 119, 1), (171, 140, 1), (150, 161, 1), (129, 182, 1), (108, 203, 1), (87, 224, 1),
    (66, 245, 1), (45, 10, 1), (24, 31, 1), (3, 52, 1)]

/-- The host bytes of the run that never ends: `SET_READ_FORMAT` with the
single valid entry (1, 34, 21), then `READ_DATA`, both with valid checksums. -/
def spinHost : List (Option Nat) :=
  [some 0xF1, some 1, some 1, some 34, some 21, some 213, some 0xF3, some 12]

/-- From `s` to `t` the bus transmit log grew by whole requests of
`handleReadData`, each given by its id, start address and byte count (a
READ_DATA packet when the count is positive, a PING packet when it is 0), and
no request asks for more than `MAX_DYNAMIXEL_BLOCK_READ` bytes. -/
def Asked (s t : State) : Prop :=
  ∃ reqs : List (Nat × Nat × Nat),
    t.dynamixelTxBuffer =
      s.dynamixelTxBuffer ++ (reqs.map fun r => readRequest r.1 r.2.1 r.2.2).flatten ∧
    ∀ r ∈ reqs, r.2.2 ≤ MAX_DYNAMIXEL_BLOCK_READ

/-- From `s` to `t` the bus was only listened to: the bus transmit log, the
drain outcomes and the retry counter are those of `s`. -/
structure Listened (s t : State) : Prop where
  tx : t.dynamixelTxBuffer = s.dynamixelTxBuffer
  done : t.dynamixelTxDone = s.dynamixelTxDone
  retries : t.numDynamixelRetries = s.numDynamixelRetries

/-- The READ_DATA packets of the blocks `(address, count)` of an entry of
device `id`, the j-th of them sent `counts[j]` times. -/
def readLog (id : Nat) : List (Nat × Nat) → List Nat → List Nat
  | b :: bs, c :: cs =>
    (List.replicate c (busPacket id D_I_READ_DATA [b.1, b.2])).flatten ++ readLog id bs cs
  | _, _ => []

/-- Successive accumulating reads `rxDynamixel(&b, 1)`, `k` of them, stopping
at the first timeout: the reads of `startRXPacketDynamixel` after the sync
bytes and of the parameter loop, before `endRXPacketDynamixel()`. -/
def rxDynamixelMany : Nat → State → List Nat × State
  | 0, s => ([], s)
  | k + 1, s =>
    match rxDynamixel s 1 with
    | (none, s1) => ([], s1)
    | (some b, s1) => (b :: (rxDynamixelMany k s1).1, (rxDynamixelMany k s1).2)

/-- The accumulation of a host packet: `k` accumulating reads, then
`endRXPacketPC()`. -/
def checkPC (k : Nat) (s : State) : Run Bool :=
  (rxPCMany k s).bind fun _ t => endRXPacketPC t

/-- The accumulation of a bus packet: `k` accumulating reads, then
`endRXPacketDynamixel()`. -/
def checkDynamixel (k : Nat) (s : State) : Bool × State :=
  endRXPacketDynamixel (rxDynamixelMany k s).2

/-- From `s` to `t` nothing of the format tables changed outside direction
`f`, nor at an index ≥ 32 of direction `f`. -/
structure OtherTable (f : Nat) (s t : State) : Prop where
  numDynamixels : ∀ g, g ≠ f → t.numDynamixels g = s.numDynamixels g
  totalNumBytes : ∀ g, g ≠ f → t.totalNumBytes g = s.totalNumBytes g
  axID : ∀ g j, g ≠ f ∨ MAX_DYNAMIXELS ≤ j → t.axID g j = s.axID g j
  startAddr : ∀ g j, g ≠ f ∨ MAX_DYNAMIXELS ≤ j → t.startAddr g j = s.startAddr g j
  numBytes : ∀ g j, g ≠ f ∨ MAX_DYNAMIXELS ≤ j → t.numBytes g j = s.numBytes g j

/-- The requests `(address, count)` of the block loop `while (n > 0)` of one
entry of `handleReadData`, started with the counters `x = (n, start,
returnError)`: one request per pass, the count being `thisN` after the
virtual-register test (0 stands for a PING), for at most `fuel` passes. -/
def blockTrace : Nat → Nat × Nat × Nat → List (Nat × Nat)
  | 0, _ => []
  | fuel + 1, x =>
    if x.1 > 0 then (x.2.1, blockBytes x.2.1 x.1) :: blockTrace fuel (blockNext x) else []

/-- The bus bytes of the requests `(address, count)` of an entry of device
`id`, the j-th of them sent `counts[j]` times. -/
def requestLog (id : Nat) : List (Nat × Nat) → List Nat → List Nat
  | b :: bs, c :: cs =>
    (List.replicate c (readRequest id b.1 b.2)).flatten ++ requestLog id bs cs
  | _, _ => []

/-- From `s` to `t` the entries of the format tables did not change. -/
structure SameEntries (s t : State) : Prop where
  axID : t.axID = s.axID
  startAddr : t.startAddr = s.startAddr
  numBytes : t.numBytes = s.numBytes

/-- The bus input of the retried read: device 1 answers `READ_DATA(0, 1)` with
a status packet whose trailing checksum byte is wrong, then with a well-formed
one (error byte 0, data byte 0x42). -/
def retriedBus : List (Option Nat) :=
  busReply 1 0 [0x42] 0 ++ busReply 1 0 [0x42] (replyChecksum 1 0 [0x42])

/-- The host bytes of the read cut short: `SET_READ_FORMAT` with the single
entry (1, 0, 21), then `READ_DATA`, both with valid checksums. -/
def drainHost : List (Option Nat) :=
  [some 0xF1, some 1, some 1, some 0, some 21, some 247, some 0xF3, some 12]

/-- A state holding the single read entry (1, 0, 45), the host checksum byte
of `READ_DATA` pending, nothing on the bus. -/
def blocksState : State :=
  { initState (fun _ => 0) [some 12] [] with
    numDynamixels := fun _ => 1
    totalNumBytes := fun _ => 45
    axID := fun _ _ => 1
    startAddr := fun _ _ => 0
    numBytes := fun _ _ => 45 }

/-! ## Theorems -/

@[simp] theorem Run.bind_ret {α β : Type} (a : α) (s : State) (k : α → State → Run β) :
    (Run.ret a s).bind k = k a s := rfl

@[simp] theorem Run.bind_spin {α β : Type} (s : State) (k : α → State → Run β) :
    (Run.spin s : Run α).bind k = .spin s := rfl

@[simp] theorem Run.state_ret {α : Type} (a : α) (s : State) : (Run.ret a s).state = s := rfl

@[simp] theorem Run.state_spin {α : Type} (s : State) : (Run.spin s : Run α).state = s := rfl

theorem and_flag_ne_zero (x i : Nat) : (x &&& 2 ^ i ≠ 0) ↔ x.testBit i = true := by
  rw [Nat.and_two_pow]
  cases x.testBit i <;> simp

theorem testBit_clear7 (x : Nat) (hx : x < 256) (i : Nat) :
    (x &&& 127).testBit i = (decide (i ≠ 7) && x.testBit i) := by
  rw [Nat.testBit_and, show (127 : Nat) = 2 ^ 7 - 1 from rfl, Nat.testBit_two_pow_sub_one]
  by_cases h7 : i = 7
  · subst h7
    simp
  · by_cases hlt : i < 7
    · simp [hlt, h7, Bool.and_comm]
    · have h8 : 8 ≤ i := by omega
      have hpow : (2 : Nat) ^ 8 ≤ 2 ^ i := Nat.pow_le_pow_right (by norm_num) h8
      have hfalse : x.testBit i = false := Nat.testBit_lt_two_pow (by omega)
      simp [hfalse]

/-- C5: `tryDynamixelAgain(e)` returns 1 exactly when (bit 4 of `e` or bit 7
of the status is set) and fewer than 3 retries were used; it then increments
the retry counter and clears only bit 7 of the status; when it returns 0 the
state is unchanged. -/
theorem tryDynamixelAgain_spec (s : State) (e : Nat) (hs : s.status < 256) :
    ((tryDynamixelAgain s e).1 = true ↔
      (e.testBit 4 = true ∨ s.status.testBit 7 = true) ∧ s.numDynamixelRetries < 3) ∧
    ((tryDynamixelAgain s e).1 = true →
      (tryDynamixelAgain s e).2.numDynamixelRetries = s.numDynamixelRetries + 1 ∧
      (∀ i, (tryDynamixelAgain s e).2.status.testBit i =
        (decide (i ≠ 7) && s.status.testBit i)) ∧
      { (tryDynamixelAgain s e).2 with
        numDynamixelRetries := s.numDynamixelRetries, status := s.status } = s) ∧
    ((tryDynamixelAgain s e).1 = false → (tryDynamixelAgain s e).2 = s) := by
  have h4 := and_flag_ne_zero e 4
  have h7 := and_flag_ne_zero s.status 7
  simp only [show (2 : Nat) ^ 4 = 16 from rfl, show (2 : Nat) ^ 7 = 128 from rfl] at h4 h7
  unfold tryDynamixelAgain
  simp only [h4, h7]
  by_cases hc : (e.testBit 4 = true ∨ s.status.testBit 7 = true) ∧ s.numDynamixelRetries < 4 - 1
  · rw [if_pos hc]
    have hr : s.numDynamixelRetries < 3 := hc.2
    refine ⟨⟨fun _ => ⟨hc.1, hr⟩, fun _ => rfl⟩, fun _ => ⟨?_, ?_, ?_⟩, fun h => by simp at h⟩
    · show (s.numDynamixelRetries + 1) % 256 = _
      omega
    · intro i
      exact testBit_clear7 s.status hs i
    · rfl
  · rw [if_neg hc]
    refine ⟨⟨fun h => by simp at h, fun h => absurd h hc⟩, fun h => by simp at h, fun _ => rfl⟩

/-- Witness of `tryDynamixelAgain_spec`: from the initial state a reply whose
error byte is 0x10 is retried. -/
theorem tryDynamixelAgain_spec_witness :
    (tryDynamixelAgain (initState (fun _ => 0) [] []) 16).1 = true :=
  (tryDynamixelAgain_spec (initState (fun _ => 0) [] []) 16 (by decide)).1.mpr
    ⟨Or.inl (by decide), by decide⟩

/-! ### Host transmit codec -/

theorem foldl_txPC (payload : List Nat) :
    ∀ s : State,
      (payload.foldl (fun t b => txPC t b 1) s).pcTxBuffer = s.pcTxBuffer ++ payload ∧
      (payload.foldl (fun t b => txPC t b 1) s).checksumTxPC % 256 =
        (s.checksumTxPC + payload.sum) % 256 := by
  induction payload with
  | nil => intro s; simp
  | cons b bs ih =>
    intro s
    obtain ⟨h1, h2⟩ := ih (txPC s b 1)
    simp only [List.foldl_cons, h1, h2]
    simp only [txPC, List.sum_cons, List.append_assoc, List.singleton_append, ne_eq,
      one_ne_zero, not_false_eq_true, if_true, true_and]
    omega

/-- C9: `txStatusPC` emits exactly the 7 bytes 0xFA, status, retry count, the
three analog values and the one's-complement of their 8-bit sum; and every
host packet built by `startTXPacketPC`, accumulating `txPC` calls and
`endTXPacketPC` ends with the one's-complement of the 8-bit sum of the
preceding bytes, so that all its bytes sum to 0xFF modulo 256. -/
theorem txStatusPC_bytes (s : State) (instruction : Nat) (payload : List Nat) :
    (txStatusPC s).pcTxBuffer =
      s.pcTxBuffer ++
        [0xFA, s.status, s.numDynamixelRetries, s.adcValue 0, s.adcValue 1, s.adcValue 2,
          255 - (0xFA + s.status + s.numDynamixelRetries + s.adcValue 0 + s.adcValue 1 +
            s.adcValue 2) % 256] ∧
    (endTXPacketPC
        (payload.foldl (fun t b => txPC t b 1) (startTXPacketPC s instruction))).pcTxBuffer =
      s.pcTxBuffer ++ (instruction :: payload ++ [255 - (instruction + payload.sum) % 256]) ∧
    (instruction :: payload ++ [255 - (instruction + payload.sum) % 256]).sum % 256 = 255 := by
  refine ⟨?_, ?_, ?_⟩
  · simp only [txStatusPC, startTXPacketPC, txADCValuesPC, endTXPacketPC, txPC, not8, ne_eq,
      one_ne_zero, not_false_eq_true, if_true, List.append_assoc, List.singleton_append,
      List.nil_append, List.cons_append, I_STATUS, CHANNEL_POS, CHANNEL_NEG, CHANNEL_THERM]
    congr 8
    omega
  · obtain ⟨h1, h2⟩ := foldl_txPC payload (startTXPacketPC s instruction)
    have key : ∀ t : State,
        (endTXPacketPC t).pcTxBuffer = t.pcTxBuffer ++ [255 - t.checksumTxPC % 256] :=
      fun _ => rfl
    rw [key, h1, h2]
    have e : ((0 + instruction) % 256 + payload.sum) % 256 = (instruction + payload.sum) % 256 := by
      omega
    simp only [startTXPacketPC, txPC, ne_eq, one_ne_zero, not_false_eq_true, if_true,
      List.append_assoc, List.singleton_append, List.cons_append, List.nil_append, e]
  · simp only [List.sum_cons, List.sum_append, List.sum_nil, add_zero]
    omega

/-! ### Host receive codec -/

theorem rxPC_some (s : State) (a b : Nat) (rest : List (Option Nat))
    (h : s.pcRxBuffer = some b :: rest) :
    rxPC s a =
      .ret (some b)
        { s with
          pcRxBuffer := rest
          checksumRxPC := if a ≠ 0 then (s.checksumRxPC + b) % 256 else s.checksumRxPC } := by
  simp [rxPC, h, rxPCWait]

theorem endRXPacketPC_some (s : State) (c : Nat) (rest : List (Option Nat))
    (h : s.pcRxBuffer = some c :: rest) :
    endRXPacketPC s =
      .ret true
        { s with
          pcRxBuffer := rest
          status := if c = 255 - s.checksumRxPC % 256 then s.status else s.status ||| 64 } := by
  unfold endRXPacketPC
  rw [rxPC_some s 0 c rest h]
  simp only [Run.bind_ret, not8, setStatusFlag, ne_eq, not_true_eq_false, if_false]
  by_cases hc : c = 255 - s.checksumRxPC % 256
  · simp [hc]
  · simp [hc]

theorem rxPCMany_all (bytes : List Nat) :
    ∀ (s : State) (rest : List (Option Nat)),
      s.pcRxBuffer = bytes.map some ++ rest → s.checksumRxPC < 256 →
      ∃ s1, rxPCMany bytes.length s = .ret bytes s1 ∧ s1.pcRxBuffer = rest ∧
        s1.checksumRxPC = (s.checksumRxPC + bytes.sum) % 256 ∧
        s1.status = s.status := by
  induction bytes with
  | nil =>
    intro s rest h hlt
    refine ⟨s, rfl, by simpa using h, ?_, rfl⟩
    simp only [List.sum_nil, add_zero]
    omega
  | cons b bs ih =>
    intro s rest h hlt
    have hb : s.pcRxBuffer = some b :: (bs.map some ++ rest) := by simpa using h
    obtain ⟨s1, h1, h2, h3, h4⟩ :=
      ih { s with pcRxBuffer := bs.map some ++ rest, checksumRxPC := (s.checksumRxPC + b) % 256 }
        rest rfl (Nat.mod_lt _ (by norm_num))
    refine ⟨s1, ?_, h2, ?_, h4⟩
    · simp only [List.length_cons, rxPCMany, rxPC_some s 1 b _ hb, Run.bind_ret, ne_eq,
        one_ne_zero, not_false_eq_true, if_true, h1]
    · rw [h3]
      simp only [List.sum_cons]
      omega

theorem testBit_or_64 (x i : Nat) :
    (x ||| 64).testBit i = (decide (i = 6) || x.testBit i) := by
  rw [Nat.testBit_or, show (64 : Nat) = 2 ^ 6 from rfl, Nat.testBit_two_pow, Bool.or_comm]
  by_cases h : i = 6
  · simp [h]
  · have h6 : ¬ 6 = i := fun e => h e.symm
    simp [h, h6]

/-- C10: in a command cycle whose bytes all arrive, the receive checksum at the
trailing byte is the 8-bit sum of the instruction byte and of the bytes read
since, and the HostChecksumError bit (bit 6) is clear; `endRXPacketPC`, there
and in any state with a byte pending, returns success whether or not the
trailing byte equals the one's-complement of that sum, changes the status only
on a mismatch and then only by setting bit 6, and does not accumulate the
trailing byte. -/
theorem endRXPacketPC_spec (s : State) (fuel instr : Nat) (bytes : List Nat) (c : Nat)
    (rest : List (Option Nat))
    (hrx : s.pcRxBuffer = some instr :: (bytes.map some ++ some c :: rest)) :
    ∃ s1 : State,
      (idleWait (fuel + 1)
          { s with status := 0, numDynamixelRetries := 0, checksumRxPC := 0,
                   enableRxPCTimeout := 0 }).bind
        (fun _ t => rxPCMany bytes.length { t with enableRxPCTimeout := 1 }) = .ret bytes s1 ∧
      s1.checksumRxPC = (instr + bytes.sum) % 256 ∧
      endRXPacketPC s1 =
        .ret true
          { s1 with
            pcRxBuffer := rest
            status :=
              if c = 255 - (instr + bytes.sum) % 256 then s1.status else s1.status ||| 64 } ∧
      s1.status.testBit 6 = false ∧
      (∀ (t : State) (c1 : Nat) (rest1 : List (Option Nat)),
        t.pcRxBuffer = some c1 :: rest1 →
        endRXPacketPC t =
          .ret true
            { t with
              pcRxBuffer := rest1
              status :=
                if c1 = 255 - t.checksumRxPC % 256 then t.status else t.status ||| 64 }) ∧
      ∀ x i, (x ||| 64).testBit 6 = true ∧ (i ≠ 6 → (x ||| 64).testBit i = x.testBit i) := by
  obtain ⟨s1, h1, h2, h3, h4⟩ :=
    rxPCMany_all bytes
      { s with status := 0, numDynamixelRetries := 0, checksumRxPC := (0 + instr) % 256,
               enableRxPCTimeout := 1, pcRxBuffer := bytes.map some ++ some c :: rest }
      (some c :: rest) rfl (Nat.mod_lt _ (by norm_num))
  have hsum : s1.checksumRxPC = (instr + bytes.sum) % 256 := by
    rw [h3]
    show ((0 + instr) % 256 + bytes.sum) % 256 = _
    omega
  have hst : s1.status = 0 := h4
  refine ⟨s1, ?_, hsum, ?_, ?_, ?_, ?_⟩
  · simp only [idleWait]
    rw [rxPC_some
      { s with status := 0, numDynamixelRetries := 0, checksumRxPC := 0, enableRxPCTimeout := 0 }
      1 instr (bytes.map some ++ some c :: rest) hrx]
    simp only [Run.bind_ret, ne_eq, one_ne_zero, not_false_eq_true, if_true]
    exact h1
  · rw [endRXPacketPC_some s1 c rest h2, hsum]
    simp
  · rw [hst]
    decide
  · exact fun t c1 rest1 h => endRXPacketPC_some t c1 rest1 h
  · intro x i
    refine ⟨?_, fun hi => ?_⟩
    · rw [testBit_or_64]
      simp
    · rw [testBit_or_64]
      simp [hi]

/-- Witness of `endRXPacketPC_spec`: the command `0xF0 0x05` with a wrong
trailing byte. -/
theorem endRXPacketPC_spec_witness :
    ∃ s1 : State,
      s1.checksumRxPC = (0xF0 + [5].sum) % 256 ∧
      endRXPacketPC s1 =
        .ret true
          { s1 with
            pcRxBuffer := []
            status := if 0 = 255 - (0xF0 + [5].sum) % 256 then s1.status else s1.status ||| 64 } := by
  obtain ⟨s1, _, h2, h3, _⟩ :=
    endRXPacketPC_spec (initState (fun _ => 0) [some 0xF0, some 5, some 0] []) 0 0xF0 [5] 0 [] rfl
  exact ⟨s1, h2, h3⟩

/-! ### Format tables -/

theorem setFormatLoop_prefix (f : Nat) (entries : List (Nat × Nat × Nat)) :
    ∀ (k i total : Nat) (s : State) (rest : List (Option Nat)),
      (∀ e ∈ entries, ValidEntry e) →
      s.pcRxBuffer = (entryBytes entries).map some ++ rest →
      total < 65536 →
      ∃ s1 : State,
        setFormatLoop f (entries.length + k) i total s =
          setFormatLoop f k (i + entries.length)
            ((total + (entries.map (fun e => e.2.2)).sum) % 65536) s1 ∧
        s1 = { s with pcRxBuffer := rest, checksumRxPC := s1.checksumRxPC, axID := s1.axID,
                      startAddr := s1.startAddr, numBytes := s1.numBytes } ∧
        (∀ j e, entries[j]? = some e →
          s1.axID f (i + j) = e.1 ∧ s1.startAddr f (i + j) = e.2.1 ∧
            s1.numBytes f (i + j) = e.2.2) ∧
        (∀ g j, (g ≠ f ∨ j < i ∨ i + entries.length ≤ j) →
          s1.axID g j = s.axID g j ∧ s1.startAddr g j = s.startAddr g j ∧
            s1.numBytes g j = s.numBytes g j) := by
  induction entries with
  | nil =>
    intro k i total s rest _ h ht
    refine ⟨s, ?_, ?_, ?_, ?_⟩
    · simp only [List.length_nil, Nat.zero_add, Nat.add_zero, List.map_nil, List.sum_nil,
        Nat.mod_eq_of_lt ht]
    · have h' : s.pcRxBuffer = rest := by simpa [entryBytes] using h
      rw [← h']
    · intro j e hj
      simp at hj
    · intro g j _
      exact ⟨rfl, rfl, rfl⟩
  | cons e es ih =>
    intro k i total s rest hv h ht
    obtain ⟨id, start, n⟩ := e
    obtain ⟨h1, h2, h3⟩ := hv _ (List.mem_cons_self _ _)
    simp only at h1 h2 h3
    simp only [entryBytes, List.map_cons, List.cons_append] at h
    obtain ⟨s1, e1, e2, e3, e4⟩ :=
      ih k (i + 1) ((total + n) % 65536)
        { s with
          pcRxBuffer := (entryBytes es).map some ++ rest
          checksumRxPC := (((s.checksumRxPC + id) % 256 + start) % 256 + n) % 256
          axID := upd2 s.axID f i id
          startAddr := upd2 s.startAddr f i start
          numBytes := upd2 s.numBytes f i n }
        rest (fun e he => hv e (List.mem_cons_of_mem _ he)) rfl (Nat.mod_lt _ (by norm_num))
    refine ⟨s1, ?_, ?_, ?_, ?_⟩
    · have hlen : ((id, start, n) :: es).length + k = (es.length + k) + 1 := by
        simp only [List.length_cons]; omega
      rw [hlen, setFormatLoop]
      simp only [rxPC, h, rxPCWait, Run.bind_ret, ne_eq, one_ne_zero, not_false_eq_true, if_true,
        gt_iff_lt, show ¬ (MAX_DYNAMIXEL_ID < id) from by simp only [MAX_DYNAMIXEL_ID]; omega,
        show ¬ (MAX_START_ADDR < start) from by simp only [MAX_START_ADDR]; omega,
        show ¬ (NUM_REG_BYTES - start < n) from by simp only [NUM_REG_BYTES]; omega, if_false]
      rw [e1]
      congr 1
      · simp only [List.length_cons]; omega
      · simp only [List.map_cons, List.sum_cons]; omega
    · rw [e2]
    · intro j e hj
      cases j with
      | zero =>
        simp only [List.getElem?_cons_zero, Option.some.injEq] at hj
        subst hj
        obtain ⟨a1, a2, a3⟩ := e4 f i (Or.inr (Or.inl (Nat.lt_succ_self i)))
        simp only [Nat.add_zero, a1, a2, a3, upd2, and_self, if_true]
      | succ j =>
        simp only [List.getElem?_cons_succ] at hj
        have := e3 j e hj
        have hij : i + (j + 1) = i + 1 + j := by omega
        rw [hij]
        exact this
    · intro g j hg
      have hg' : g ≠ f ∨ j < i + 1 ∨ i + 1 + es.length ≤ j := by
        simp only [List.length_cons] at hg
        rcases hg with hg | hg | hg
        · exact Or.inl hg
        · exact Or.inr (Or.inl (by omega))
        · exact Or.inr (Or.inr (by omega))
      obtain ⟨a1, a2, a3⟩ := e4 g j hg'
      have hne : ¬ (g = f ∧ j = i) := by
        simp only [List.length_cons] at hg
        rintro ⟨rfl, rfl⟩
        rcases hg with hg | hg | hg
        · exact hg rfl
        · omega
        · omega
      simp only [a1, a2, a3, upd2, hne, if_false, and_self]


theorem rxPCWait_cases (s : State) (a : Nat) (l : List (Option Nat)) :
    (∃ b rest, rxPCWait s a l =
      .ret (some b)
        { s with
          pcRxBuffer := rest
          checksumRxPC := if a ≠ 0 then (s.checksumRxPC + b) % 256 else s.checksumRxPC }) ∨
    (∃ rest, s.enableRxPCTimeout ≠ 0 ∧
      rxPCWait s a l = .ret none { s with pcRxBuffer := rest, status := s.status ||| 1 }) ∨
    (s.enableRxPCTimeout = 0 ∧ rxPCWait s a l = .spin { s with pcRxBuffer := [] }) := by
  induction l with
  | nil =>
    by_cases h : s.enableRxPCTimeout = 0
    · exact Or.inr (Or.inr ⟨h, by simp [rxPCWait, h]⟩)
    · exact Or.inr (Or.inl ⟨[], h, by simp [rxPCWait, h, setStatusFlag]⟩)
  | cons x xs ih =>
    cases x with
    | none =>
      by_cases h : s.enableRxPCTimeout = 0
      · simpa [rxPCWait, h] using ih
      · exact Or.inr (Or.inl ⟨xs, h, by simp [rxPCWait, h, setStatusFlag]⟩)
    | some b => exact Or.inl ⟨b, xs, rfl⟩

theorem rxPC_cases (s : State) (a : Nat) :
    (∃ b rest, rxPC s a =
      .ret (some b)
        { s with
          pcRxBuffer := rest
          checksumRxPC := if a ≠ 0 then (s.checksumRxPC + b) % 256 else s.checksumRxPC }) ∨
    (∃ rest, s.enableRxPCTimeout ≠ 0 ∧
      rxPC s a = .ret none { s with pcRxBuffer := rest, status := s.status ||| 1 }) ∨
    (s.enableRxPCTimeout = 0 ∧ rxPC s a = .spin { s with pcRxBuffer := [] }) :=
  rxPCWait_cases s a s.pcRxBuffer

theorem endRXPacketPC_cases (s : State) :
    (∃ c rest, endRXPacketPC s =
      .ret true
        { s with
          pcRxBuffer := rest
          status := if c = 255 - s.checksumRxPC % 256 then s.status else s.status ||| 64 }) ∨
    (∃ rest, s.enableRxPCTimeout ≠ 0 ∧
      endRXPacketPC s = .ret false { s with pcRxBuffer := rest, status := s.status ||| 1 }) ∨
    (s.enableRxPCTimeout = 0 ∧ endRXPacketPC s = .spin { s with pcRxBuffer := [] }) := by
  unfold endRXPacketPC
  rcases rxPC_cases s 0 with ⟨c, rest, h⟩ | ⟨rest, he, h⟩ | ⟨he, h⟩
  · left
    refine ⟨c, rest, ?_⟩
    rw [h]
    simp only [Run.bind_ret, not8, setStatusFlag, ne_eq, not_true_eq_false, if_false]
    by_cases hc : c = 255 - s.checksumRxPC % 256
    · simp [hc]
    · simp [hc]
  · right; left
    exact ⟨rest, he, by rw [h]; rfl⟩
  · right; right
    exact ⟨he, by rw [h]; rfl⟩

theorem txStatusPC_tx (s : State) :
    (txStatusPC s).pcTxBuffer =
      s.pcTxBuffer ++
        [0xFA, s.status, s.numDynamixelRetries, s.adcValue 0, s.adcValue 1, s.adcValue 2,
          255 - (0xFA + s.status + s.numDynamixelRetries + s.adcValue 0 + s.adcValue 1 +
            s.adcValue 2) % 256] := by
  simp only [txStatusPC, startTXPacketPC, txADCValuesPC, endTXPacketPC, txPC, not8, ne_eq,
    one_ne_zero, not_false_eq_true, if_true, List.append_assoc, List.singleton_append,
    List.nil_append, List.cons_append, I_STATUS, CHANNEL_POS, CHANNEL_NEG, CHANNEL_THERM]
  congr 8
  omega

@[simp] theorem txStatusPC_numDynamixels (s : State) : (txStatusPC s).numDynamixels = s.numDynamixels := by
  simp only [txStatusPC, startTXPacketPC, txADCValuesPC, endTXPacketPC, txPC]

@[simp] theorem txStatusPC_totalNumBytes (s : State) : (txStatusPC s).totalNumBytes = s.totalNumBytes := by
  simp only [txStatusPC, startTXPacketPC, txADCValuesPC, endTXPacketPC, txPC]

@[simp] theorem txStatusPC_axID (s : State) : (txStatusPC s).axID = s.axID := by
  simp only [txStatusPC, startTXPacketPC, txADCValuesPC, endTXPacketPC, txPC]

@[simp] theorem txStatusPC_startAddr (s : State) : (txStatusPC s).startAddr = s.startAddr := by
  simp only [txStatusPC, startTXPacketPC, txADCValuesPC, endTXPacketPC, txPC]

@[simp] theorem txStatusPC_numBytes (s : State) : (txStatusPC s).numBytes = s.numBytes := by
  simp only [txStatusPC, startTXPacketPC, txADCValuesPC, endTXPacketPC, txPC]

@[simp] theorem txStatusPC_dynamixelParams (s : State) : (txStatusPC s).dynamixelParams = s.dynamixelParams := by
  simp only [txStatusPC, startTXPacketPC, txADCValuesPC, endTXPacketPC, txPC]

@[simp] theorem txStatusPC_checksumTxDynamixel (s : State) : (txStatusPC s).checksumTxDynamixel = s.checksumTxDynamixel := by
  simp only [txStatusPC, startTXPacketPC, txADCValuesPC, endTXPacketPC, txPC]

@[simp] theorem txStatusPC_checksumRxDynamixel (s : State) : (txStatusPC s).checksumRxDynamixel = s.checksumRxDynamixel := by
  simp only [txStatusPC, startTXPacketPC, txADCValuesPC, endTXPacketPC, txPC]

@[simp] theorem txStatusPC_checksumRxPC (s : State) : (txStatusPC s).checksumRxPC = s.checksumRxPC := by
  simp only [txStatusPC, startTXPacketPC, txADCValuesPC, endTXPacketPC, txPC]

@[simp] theorem txStatusPC_numDynamixelRetries (s : State) : (txStatusPC s).numDynamixelRetries = s.numDynamixelRetries := by
  simp only [txStatusPC, startTXPacketPC, txADCValuesPC, endTXPacketPC, txPC]

@[simp] theorem txStatusPC_adcValue (s : State) : (txStatusPC s).adcValue = s.adcValue := by
  simp only [txStatusPC, startTXPacketPC, txADCValuesPC, endTXPacketPC, txPC]

@[simp] theorem txStatusPC_status (s : State) : (txStatusPC s).status = s.status := by
  simp only [txStatusPC, startTXPacketPC, txADCValuesPC, endTXPacketPC, txPC]

@[simp] theorem txStatusPC_enableRxPCTimeout (s : State) : (txStatusPC s).enableRxPCTimeout = s.enableRxPCTimeout := by
  simp only [txStatusPC, startTXPacketPC, txADCValuesPC, endTXPacketPC, txPC]

@[simp] theorem txStatusPC_pcRxBuffer (s : State) : (txStatusPC s).pcRxBuffer = s.pcRxBuffer := by
  simp only [txStatusPC, startTXPacketPC, txADCValuesPC, endTXPacketPC, txPC]

@[simp] theorem txStatusPC_dynamixelRxBuffer (s : State) : (txStatusPC s).dynamixelRxBuffer = s.dynamixelRxBuffer := by
  simp only [txStatusPC, startTXPacketPC, txADCValuesPC, endTXPacketPC, txPC]

@[simp] theorem txStatusPC_dynamixelTxBuffer (s : State) : (txStatusPC s).dynamixelTxBuffer = s.dynamixelTxBuffer := by
  simp only [txStatusPC, startTXPacketPC, txADCValuesPC, endTXPacketPC, txPC]

@[simp] theorem txStatusPC_dynamixelTxDone (s : State) : (txStatusPC s).dynamixelTxDone = s.dynamixelTxDone := by
  simp only [txStatusPC, startTXPacketPC, txADCValuesPC, endTXPacketPC, txPC]

@[simp] theorem txStatusPC_rxClearPC (s : State) : (txStatusPC s).rxClearPC = s.rxClearPC := by
  simp only [txStatusPC, startTXPacketPC, txADCValuesPC, endTXPacketPC, txPC]

@[simp] theorem txStatusPC_rxClearDynamixel (s : State) : (txStatusPC s).rxClearDynamixel = s.rxClearDynamixel := by
  simp only [txStatusPC, startTXPacketPC, txADCValuesPC, endTXPacketPC, txPC]

theorem sum_lengths_le (entries : List (Nat × Nat × Nat)) (hv : ∀ e ∈ entries, ValidEntry e) :
    (entries.map fun e => e.2.2).sum ≤ 55 * entries.length := by
  induction entries with
  | nil => simp
  | cons e es ih =>
    have h1 := (hv e (List.mem_cons_self _ _)).2.2
    have h2 := ih fun x hx => hv x (List.mem_cons_of_mem _ hx)
    simp only [List.map_cons, List.sum_cons, List.length_cons]
    omega

theorem testBit_or_1_2 (x : Nat) : (x ||| 1).testBit 2 = x.testBit 2 := by
  rw [Nat.testBit_or]
  have : (1 : Nat).testBit 2 = false := by decide
  simp [this]

theorem testBit_or_64_2 (x : Nat) : (x ||| 64).testBit 2 = x.testBit 2 := by
  rw [Nat.testBit_or]
  have : (64 : Nat).testBit 2 = false := by decide
  simp [this]

theorem testBit_or_4_2 (x : Nat) : (x ||| 4).testBit 2 = true := by
  rw [Nat.testBit_or]
  have : (4 : Nat).testBit 2 = true := by decide
  simp [this]

/-- C3: for a count N ≤ 32 followed by N valid triples, all received,
`setFormat(f)` leaves `numDynamixels[f] = N`, entry i of the table equal to the
i-th triple, `totalNumBytes[f]` equal to the sum of the lengths (without 16-bit
overflow), and does not change the InvalidHostCommand bit (bit 2); with the
timeout enabled it returns. -/
theorem setFormat_valid (f : Nat) (s : State) (entries : List (Nat × Nat × Nat))
    (rest : List (Option Nat)) (hN : entries.length ≤ 32)
    (hvalid : ∀ e ∈ entries, ValidEntry e)
    (hrx : s.pcRxBuffer = some entries.length :: ((entryBytes entries).map some ++ rest)) :
    (setFormat f s).state.numDynamixels f = entries.length ∧
    (setFormat f s).state.totalNumBytes f = (entries.map fun e => e.2.2).sum ∧
    (∀ i e, entries[i]? = some e →
      (setFormat f s).state.axID f i = e.1 ∧ (setFormat f s).state.startAddr f i = e.2.1 ∧
        (setFormat f s).state.numBytes f i = e.2.2) ∧
    (setFormat f s).state.status.testBit 2 = s.status.testBit 2 ∧
    (s.enableRxPCTimeout ≠ 0 → (setFormat f s).returned = true) := by
  obtain ⟨s1, e1, e2, e3, _⟩ :=
    setFormatLoop_prefix f entries 0 0 0
      { s with
        numDynamixels := upd s.numDynamixels f 0
        totalNumBytes := upd s.totalNumBytes f 0
        pcRxBuffer := (entryBytes entries).map some ++ rest
        checksumRxPC := (s.checksumRxPC + entries.length) % 256 }
      rest hvalid rfl (by norm_num)
  have hsum := sum_lengths_le entries hvalid
  have hrun : setFormat f s =
      (endRXPacketPC
        { s1 with
          totalNumBytes := upd s1.totalNumBytes f (entries.map fun e => e.2.2).sum
          numDynamixels := upd s1.numDynamixels f entries.length }).bind
        fun _ s3 => .ret () (txStatusPC s3) := by
    unfold setFormat
    simp only [rxPC, hrx, rxPCWait, Run.bind_ret, ne_eq, one_ne_zero, not_false_eq_true, if_true,
      gt_iff_lt, show ¬ (MAX_DYNAMIXELS < entries.length) from by simp only [MAX_DYNAMIXELS]; omega,
      if_false]
    simp only [Nat.add_zero, Nat.zero_add] at e1
    rw [e1]
    simp only [setFormatLoop, Run.bind_ret]
    rw [Nat.mod_eq_of_lt (by omega)]
  have hst : s1.status = s.status := by rw [e2]
  have hen : s1.enableRxPCTimeout = s.enableRxPCTimeout := by rw [e2]
  have hnum : s1.numDynamixels = upd s.numDynamixels f 0 := by rw [e2]
  have htot : s1.totalNumBytes = upd s.totalNumBytes f 0 := by rw [e2]
  have hent : ∀ i e, entries[i]? = some e →
      s1.axID f i = e.1 ∧ s1.startAddr f i = e.2.1 ∧ s1.numBytes f i = e.2.2 := by
    intro i e hi
    simpa using e3 i e hi
  rw [hrun]
  rcases endRXPacketPC_cases
      { s1 with
        totalNumBytes := upd s1.totalNumBytes f (entries.map fun e => e.2.2).sum
        numDynamixels := upd s1.numDynamixels f entries.length } with
    ⟨c, r, h⟩ | ⟨r, he, h⟩ | ⟨he, h⟩
  · rw [h]
    simp only [Run.bind_ret, Run.state_ret, txStatusPC_numDynamixels, txStatusPC_totalNumBytes,
      txStatusPC_axID, txStatusPC_startAddr, txStatusPC_numBytes, txStatusPC_status]
    refine ⟨by simp [upd], by simp [upd], hent, ?_, fun _ => rfl⟩
    rw [hst]
    split
    · rfl
    · exact testBit_or_64_2 _
  · rw [h]
    simp only [Run.bind_ret, Run.state_ret, txStatusPC_numDynamixels, txStatusPC_totalNumBytes,
      txStatusPC_axID, txStatusPC_startAddr, txStatusPC_numBytes, txStatusPC_status]
    refine ⟨by simp [upd], by simp [upd], hent, ?_, fun _ => rfl⟩
    rw [hst]
    exact testBit_or_1_2 _
  · rw [h]
    simp only [Run.bind_spin, Run.state_spin]
    refine ⟨by simp [upd], by simp [upd], hent, ?_, fun hne => ?_⟩
    · rw [hst]
    · exact absurd (hen ▸ he) hne

/-- C4: when the first violation of the host input is a count > 32, a
deviceId > 253, a startAddr > 54 or a length > 55 - startAddr, `setFormat(f)`
returns with InvalidHostCommand (bit 2) set, `numDynamixels[f] = 0`,
`totalNumBytes[f] = 0`, the host stream consumed exactly up to the violating
byte, and the 7-byte status response sent. -/
theorem setFormat_violation (f : Nat) (s : State) (N : Nat) (entries : List (Nat × Nat × Nat))
    (bad : List Nat) (rest : List (Option Nat))
    (hcase : (32 < N ∧ entries = [] ∧ bad = []) ∨
      (N ≤ 32 ∧ entries.length < N ∧ (∀ e ∈ entries, ValidEntry e) ∧ Violation bad))
    (hrx : s.pcRxBuffer = some N :: ((entryBytes entries).map some ++ (bad.map some ++ rest))) :
    ∃ t : State,
      setFormat f s = .ret () t ∧ t.status.testBit 2 = true ∧ t.numDynamixels f = 0 ∧
      t.totalNumBytes f = 0 ∧ t.pcRxBuffer = rest ∧
      t.pcTxBuffer =
        s.pcTxBuffer ++
          [0xFA, t.status, t.numDynamixelRetries, t.adcValue 0, t.adcValue 1, t.adcValue 2,
            255 - (0xFA + t.status + t.numDynamixelRetries + t.adcValue 0 + t.adcValue 1 +
              t.adcValue 2) % 256] := by
  have key : ∀ x : State, x.numDynamixels f = 0 → x.totalNumBytes f = 0 → x.pcRxBuffer = rest →
      x.pcTxBuffer = s.pcTxBuffer →
      ∃ t : State, Run.ret () (txStatusPC (setStatusFlag x S_INVALID_PC_COMMAND)) = .ret () t ∧
        t.status.testBit 2 = true ∧ t.numDynamixels f = 0 ∧
        t.totalNumBytes f = 0 ∧ t.pcRxBuffer = rest ∧
        t.pcTxBuffer =
          s.pcTxBuffer ++
            [0xFA, t.status, t.numDynamixelRetries, t.adcValue 0, t.adcValue 1, t.adcValue 2,
              255 - (0xFA + t.status + t.numDynamixelRetries + t.adcValue 0 + t.adcValue 1 +
                t.adcValue 2) % 256] := by
    intro x h1 h2 h3 h4
    refine ⟨_, rfl, ?_, ?_, ?_, ?_, ?_⟩
    · simp only [txStatusPC_status, setStatusFlag]
      exact testBit_or_4_2 _
    · simpa [setStatusFlag] using h1
    · simpa [setStatusFlag] using h2
    · simpa [setStatusFlag] using h3
    · rw [txStatusPC_tx]
      simp only [txStatusPC_status, txStatusPC_numDynamixelRetries, txStatusPC_adcValue]
      simp only [setStatusFlag, h4]
  rcases hcase with ⟨hN, he, hb⟩ | ⟨hN, hlen, hv, id, start, n, hb⟩
  · subst he hb
    simp only [entryBytes, List.map_nil, List.nil_append] at hrx
    unfold setFormat
    simp only [rxPC, hrx, rxPCWait, Run.bind_ret, gt_iff_lt,
      show MAX_DYNAMIXELS < N from hN, if_true]
    exact key _ (by simp [upd]) (by simp [upd]) rfl rfl
  · obtain ⟨m, rfl⟩ : ∃ m, N = entries.length + (m + 1) := ⟨N - entries.length - 1, by omega⟩
    obtain ⟨s1, e1, e2, _, _⟩ :=
      setFormatLoop_prefix f entries (m + 1) 0 0
        { s with
          numDynamixels := upd s.numDynamixels f 0
          totalNumBytes := upd s.totalNumBytes f 0
          pcRxBuffer := (entryBytes entries).map some ++ (bad.map some ++ rest)
          checksumRxPC := (s.checksumRxPC + (entries.length + (m + 1))) % 256 }
        (bad.map some ++ rest) hv rfl (by norm_num)
    have hpc : s1.pcRxBuffer = bad.map some ++ rest := by rw [e2]
    have hnum : s1.numDynamixels f = 0 := by rw [e2]; simp [upd]
    have htot : s1.totalNumBytes f = 0 := by rw [e2]; simp [upd]
    have htx : s1.pcTxBuffer = s.pcTxBuffer := by rw [e2]
    unfold setFormat
    simp only [rxPC, hrx, rxPCWait, Run.bind_ret, ne_eq, one_ne_zero, not_false_eq_true, if_true,
      gt_iff_lt,
      show ¬ (MAX_DYNAMIXELS < entries.length + (m + 1)) from by
        simp only [MAX_DYNAMIXELS]; omega,
      if_false]
    rw [e1]
    rcases hb with ⟨rfl, h1⟩ | ⟨rfl, h1, h2⟩ | ⟨rfl, h1, h2, h3⟩
    · simp only [List.map_cons, List.map_nil, List.cons_append, List.nil_append] at hpc
      simp only [setFormatLoop, rxPC, hpc, rxPCWait, Run.bind_ret, gt_iff_lt,
        show MAX_DYNAMIXEL_ID < id from h1, if_true]
      exact key _ hnum htot rfl htx
    · simp only [List.map_cons, List.map_nil, List.cons_append, List.nil_append] at hpc
      simp only [setFormatLoop, rxPC, hpc, rxPCWait, Run.bind_ret, gt_iff_lt,
        show ¬ (MAX_DYNAMIXEL_ID < id) from by simp only [MAX_DYNAMIXEL_ID]; omega,
        show MAX_START_ADDR < start from h2, if_true, if_false]
      exact key _ hnum htot rfl htx
    · simp only [List.map_cons, List.map_nil, List.cons_append, List.nil_append] at hpc
      simp only [setFormatLoop, rxPC, hpc, rxPCWait, Run.bind_ret, gt_iff_lt,
        show ¬ (MAX_DYNAMIXEL_ID < id) from by simp only [MAX_DYNAMIXEL_ID]; omega,
        show ¬ (MAX_START_ADDR < start) from by simp only [MAX_START_ADDR]; omega,
        show NUM_REG_BYTES - start < n from h3, if_true, if_false]
      exact key _ hnum htot rfl htx

/-- Witness of `setFormat_valid`: two entries (1, 0, 2) and (2, 54, 1). -/
theorem setFormat_valid_witness :
    (setFormat 0
        (initState (fun _ => 0)
          [some 2, some 1, some 0, some 2, some 2, some 54, some 1, some 0] [])).state.numDynamixels
        0 = 2 ∧
    (setFormat 0
        (initState (fun _ => 0)
          [some 2, some 1, some 0, some 2, some 2, some 54, some 1, some 0] [])).state.totalNumBytes
        0 = 3 :=
  have h := setFormat_valid 0
    (initState (fun _ => 0) [some 2, some 1, some 0, some 2, some 2, some 54, some 1, some 0] [])
    [(1, 0, 2), (2, 54, 1)] [some 0] (by decide)
    (by intro e he; simp only [List.mem_cons, List.mem_singleton, List.not_mem_nil, or_false] at he
        rcases he with rfl | rfl <;> simp [ValidEntry])
    rfl
  ⟨h.1, h.2.1⟩

/-- Witness of `setFormat_violation`: a count of 33. -/
theorem setFormat_violation_witness :
    ∃ t : State,
      setFormat 0 (initState (fun _ => 0) [some 33, some 9] []) = .ret () t ∧
      t.status.testBit 2 = true ∧ t.numDynamixels 0 = 0 ∧ t.pcRxBuffer = [some 9] := by
  obtain ⟨t, h1, h2, h3, _, h5, _⟩ :=
    setFormat_violation 0 (initState (fun _ => 0) [some 33, some 9] []) 33 [] [] [some 9]
      (Or.inl ⟨by decide, rfl, rfl⟩) rfl
  exact ⟨t, h1, h2, h3, h5⟩

theorem Step.here (s : State) : Step s s := ⟨rfl, id, le_refl _, id⟩

theorem Step.andThen {s t u : State} (h1 : Step s t) (h2 : Step t u) : Step s u :=
  ⟨h2.host.trans h1.host, fun h => h2.drain (h1.drain h), le_trans h1.mono h2.mono,
    fun h => h2.bound (h1.bound h)⟩

theorem Step.flag (s : State) (flag : Nat) : Step s (setStatusFlag s flag) :=
  ⟨rfl, id, le_refl _, id⟩

theorem Step.txDynamixel (s : State) (b a : Nat) : Step s (txDynamixel s b a) :=
  ⟨rfl, id, le_refl _, id⟩

theorem Step.rxDynamixel (s : State) (a : Nat) : Step s (rxDynamixel s a).2 := by
  unfold BRBrain.rxDynamixel
  split
  · exact ⟨rfl, id, le_refl _, id⟩
  · exact ⟨rfl, id, le_refl _, id⟩
  · exact ⟨rfl, id, le_refl _, id⟩

theorem Step.startTXPacketDynamixel (s : State) (id n i : Nat) :
    Step s (startTXPacketDynamixel s id n i) :=
  ⟨by simp only [BRBrain.startTXPacketDynamixel, BRBrain.txDynamixel, State.hostSide],
   fun h => by simpa only [BRBrain.startTXPacketDynamixel, BRBrain.txDynamixel, AllDrain] using h,
   by simp only [BRBrain.startTXPacketDynamixel, BRBrain.txDynamixel, le_refl],
   fun h => by simpa only [BRBrain.startTXPacketDynamixel, BRBrain.txDynamixel] using h⟩

theorem Step.endTXPacketDynamixel (s : State) : Step s (endTXPacketDynamixel s).2 := by
  unfold BRBrain.endTXPacketDynamixel
  simp only
  split
  · exact ⟨rfl, id, le_refl _, id⟩
  · rename_i rest h
    refine ⟨rfl, fun hd b hb => hd b ?_, le_refl _, id⟩
    have : (BRBrain.txDynamixel s (not8 s.checksumTxDynamixel) 0).dynamixelTxDone = s.dynamixelTxDone := rfl
    rw [← this, h]
    exact List.mem_cons_of_mem _ hb
  · rename_i rest h
    refine ⟨rfl, fun hd b hb => hd b ?_, le_refl _, id⟩
    have : (BRBrain.txDynamixel s (not8 s.checksumTxDynamixel) 0).dynamixelTxDone = s.dynamixelTxDone := rfl
    rw [← this, h]
    exact List.mem_cons_of_mem _ hb

theorem Step.ite (s t : State) (c : Prop) [Decidable c] (flag : Nat) (h : Step s t) :
    Step s (if c then BRBrain.setStatusFlag t flag else t) := by
  split
  · exact h.andThen (Step.flag t flag)
  · exact h

theorem Step.startRXPacketDynamixel (s : State) (out : RxHeader) :
    Step s (startRXPacketDynamixel s out).2.2 := by
  unfold BRBrain.startRXPacketDynamixel
  simp only
  have h0 : Step s { s with checksumRxDynamixel := 0 } := ⟨rfl, id, le_refl _, id⟩
  generalize ({ s with checksumRxDynamixel := 0 } : State) = s0 at h0 ⊢
  have h1 := h0.andThen (Step.rxDynamixel s0 0)
  generalize BRBrain.rxDynamixel s0 0 = r1 at h1 ⊢
  obtain ⟨b1, s1⟩ := r1
  cases b1 with
  | none => exact h1
  | some b1 =>
    simp only
    have h1' := Step.ite s s1 (b1 ≠ 0xff) S_INVALID_DYNAMIXEL_RESPONSE h1
    generalize (if b1 ≠ 0xff then BRBrain.setStatusFlag s1 S_INVALID_DYNAMIXEL_RESPONSE else s1) = s1'
      at h1' ⊢
    have h2 := h1'.andThen (Step.rxDynamixel s1' 0)
    generalize BRBrain.rxDynamixel s1' 0 = r2 at h2 ⊢
    obtain ⟨b2, s2⟩ := r2
    cases b2 with
    | none => exact h2
    | some b2 =>
      simp only
      have h2' := Step.ite s s2 (b2 ≠ 0xff) S_INVALID_DYNAMIXEL_RESPONSE h2
      generalize (if b2 ≠ 0xff then BRBrain.setStatusFlag s2 S_INVALID_DYNAMIXEL_RESPONSE else s2) = s2'
        at h2' ⊢
      have h3 := h2'.andThen (Step.rxDynamixel s2' 1)
      generalize BRBrain.rxDynamixel s2' 1 = r3 at h3 ⊢
      obtain ⟨b3, s3⟩ := r3
      cases b3 with
      | none => exact h3
      | some b3 =>
        simp only
        have h4 := h3.andThen (Step.rxDynamixel s3 1)
        generalize BRBrain.rxDynamixel s3 1 = r4 at h4 ⊢
        obtain ⟨b4, s4⟩ := r4
        cases b4 with
        | none => exact h4
        | some b4 =>
          simp only
          have h5 := h4.andThen (Step.rxDynamixel s4 1)
          generalize BRBrain.rxDynamixel s4 1 = r5 at h5 ⊢
          obtain ⟨b5, s5⟩ := r5
          cases b5 with
          | none => exact h5
          | some b5 => exact h5

theorem Step.endRXPacketDynamixel (s : State) : Step s (endRXPacketDynamixel s).2 := by
  unfold BRBrain.endRXPacketDynamixel
  have h1 := Step.rxDynamixel s 0
  generalize BRBrain.rxDynamixel s 0 = r1 at h1 ⊢
  obtain ⟨b1, s1⟩ := r1
  cases b1 with
  | none => exact h1
  | some b1 => exact Step.ite s s1 _ _ h1

theorem Step.rxParamsLoop (params : Bool) (e : Nat) :
    ∀ (k i : Nat) (s : State), Step s (rxParamsLoop params e k i s).2 := by
  intro k
  induction k with
  | zero => intro i s; exact Step.here s
  | succ k ih =>
    intro i s
    unfold BRBrain.rxParamsLoop
    have h1 := Step.rxDynamixel s 1
    generalize BRBrain.rxDynamixel s 1 = r1 at h1 ⊢
    obtain ⟨b1, s1⟩ := r1
    cases b1 with
    | none => exact h1
    | some b1 =>
      simp only
      refine h1.andThen (Step.andThen ?_ (ih _ _))
      split
      · exact ⟨rfl, id, le_refl _, id⟩
      · exact Step.here _

theorem Step.rxPacketDynamixel (s : State) (out : RxHeader) (params : Bool) (e : Nat) :
    Step s (rxPacketDynamixel s out params e).2.2 := by
  unfold BRBrain.rxPacketDynamixel
  have h1 := Step.startRXPacketDynamixel s out
  generalize BRBrain.startRXPacketDynamixel s out = r1 at h1 ⊢
  obtain ⟨ok, hdr, s1⟩ := r1
  cases ok with
  | false => exact h1
  | true =>
    simp only
    have h2 := h1.andThen (Step.rxParamsLoop params e hdr.numParams 0 s1)
    generalize BRBrain.rxParamsLoop params e hdr.numParams 0 s1 = r2 at h2 ⊢
    obtain ⟨ok2, s2⟩ := r2
    cases ok2 with
    | false => exact h2
    | true =>
      simp only
      have h3 := h2.andThen (Step.endRXPacketDynamixel s2)
      generalize BRBrain.endRXPacketDynamixel s2 = r3 at h3 ⊢
      obtain ⟨ok3, s3⟩ := r3
      cases ok3 with
      | false => exact h3
      | true => exact Step.ite s s3 _ _ h3

theorem Step.tryDynamixelAgain (s : State) (e : Nat) : Step s (tryDynamixelAgain s e).2 := by
  unfold BRBrain.tryDynamixelAgain
  split
  · rename_i h
    have hr : s.numDynamixelRetries < 3 := h.2
    refine ⟨rfl, id, ?_, fun _ => ?_⟩
    · show s.numDynamixelRetries ≤ (s.numDynamixelRetries + 1) % 256
      omega
    · show (s.numDynamixelRetries + 1) % 256 ≤ 3
      omega
  · exact Step.here s

theorem tryDynamixelAgain_true (s : State) (e : Nat) (h : (tryDynamixelAgain s e).1 = true) :
    s.numDynamixelRetries < (tryDynamixelAgain s e).2.numDynamixelRetries ∧
      s.numDynamixelRetries < 3 := by
  unfold BRBrain.tryDynamixelAgain at h ⊢
  split at h
  · rename_i hc
    have hr : s.numDynamixelRetries < 3 := hc.2
    rw [if_pos hc]
    refine ⟨?_, hr⟩
    show s.numDynamixelRetries < (s.numDynamixelRetries + 1) % 256
    omega
  · simp at h

theorem Step.fillParams : ∀ (k j : Nat) (s : State), Step s (fillParams k j s) := by
  intro k
  induction k with
  | zero => intro j s; exact Step.here s
  | succ k ih =>
    intro j s
    unfold BRBrain.fillParams
    have h1 : Step s { s with dynamixelParams := upd s.dynamixelParams j 0xff } :=
      ⟨rfl, id, le_refl _, id⟩
    exact h1.andThen (ih _ _)

theorem Step.writeTxLoop : ∀ (k j : Nat) (s : State), Step s (writeTxLoop k j s) := by
  intro k
  induction k with
  | zero => intro j s; exact Step.here s
  | succ k ih =>
    intro j s
    unfold BRBrain.writeTxLoop
    exact (Step.txDynamixel s _ _).andThen (ih _ _)

theorem endTXPacketDynamixel_ok (s : State) (h : AllDrain s) :
    (endTXPacketDynamixel s).1 = true := by
  unfold BRBrain.endTXPacketDynamixel
  simp only
  split
  · rfl
  · rfl
  · rename_i rest hd
    have : (BRBrain.txDynamixel s (not8 s.checksumTxDynamixel) 0).dynamixelTxDone =
        s.dynamixelTxDone := rfl
    rw [this] at hd
    have := h false (by rw [hd]; exact List.mem_cons_self _ _)
    simp at this

theorem pingRetryLoop_spec :
    ∀ (fuel : Nat) (s : State) (addr : Nat) (out : RxHeader),
      Step s (pingRetryLoop fuel s addr out).state ∧
      (3 - s.numDynamixelRetries < fuel → (pingRetryLoop fuel s addr out).returned = true) := by
  intro fuel
  induction fuel with
  | zero => intro s addr out; exact ⟨Step.here _, fun h => absurd h (Nat.not_lt_zero _)⟩
  | succ fuel ih =>
    intro s addr out
    unfold BRBrain.pingRetryLoop
    have h1 := (Step.startTXPacketDynamixel s addr 0 D_I_PING).andThen (Step.endTXPacketDynamixel _)
    generalize BRBrain.endTXPacketDynamixel (BRBrain.startTXPacketDynamixel s addr 0 D_I_PING) = r1
      at h1 ⊢
    obtain ⟨ok, s1⟩ := r1
    cases ok with
    | false => exact ⟨h1, fun _ => rfl⟩
    | true =>
      simp only
      have h2 := h1.andThen (Step.rxPacketDynamixel s1 out false 0)
      generalize BRBrain.rxPacketDynamixel s1 out false 0 = r2 at h2 ⊢
      obtain ⟨ok2, out1, s2⟩ := r2
      cases ok2 with
      | false => exact ⟨h2, fun _ => rfl⟩
      | true =>
        simp only
        have h3 := h2.andThen (Step.tryDynamixelAgain s2 out1.error)
        have h3t := tryDynamixelAgain_true s2 out1.error
        generalize BRBrain.tryDynamixelAgain s2 out1.error = r3 at h3 h3t ⊢
        obtain ⟨ok3, s3⟩ := r3
        cases ok3 with
        | false => exact ⟨h3, fun _ => rfl⟩
        | true =>
          simp only
          obtain ⟨i1, i2⟩ := ih s3 addr out1
          refine ⟨h3.andThen i1, fun hf => i2 ?_⟩
          have := h3t rfl
          have := h2.mono
          simp only at *
          omega

theorem readRetryLoop_spec :
    ∀ (fuel : Nat) (s : State) (id start thisN : Nat) (out : RxHeader),
      Step s (readRetryLoop fuel s id start thisN out).state ∧
      (3 - s.numDynamixelRetries < fuel → AllDrain s →
        ∃ out1 t, readRetryLoop fuel s id start thisN out = .ret (some out1) t) := by
  intro fuel
  induction fuel with
  | zero =>
    intro s id start thisN out
    exact ⟨Step.here _, fun h => absurd h (Nat.not_lt_zero _)⟩
  | succ fuel ih =>
    intro s id start thisN out
    unfold BRBrain.readRetryLoop
    simp only
    have h0 : Step s
        (if thisN > 0 then
          BRBrain.txDynamixel
            (BRBrain.txDynamixel (BRBrain.startTXPacketDynamixel s id 2 D_I_READ_DATA) start 1)
            thisN 1
        else BRBrain.startTXPacketDynamixel s id 0 D_I_PING) := by
      split
      · exact ((Step.startTXPacketDynamixel s id 2 D_I_READ_DATA).andThen
          (Step.txDynamixel _ _ _)).andThen (Step.txDynamixel _ _ _)
      · exact Step.startTXPacketDynamixel s id 0 D_I_PING
    generalize (if thisN > 0 then
          BRBrain.txDynamixel
            (BRBrain.txDynamixel (BRBrain.startTXPacketDynamixel s id 2 D_I_READ_DATA) start 1)
            thisN 1
        else BRBrain.startTXPacketDynamixel s id 0 D_I_PING) = s0 at h0 ⊢
    have h1 := h0.andThen (Step.endTXPacketDynamixel s0)
    have h1ok := endTXPacketDynamixel_ok s0
    generalize BRBrain.endTXPacketDynamixel s0 = r1 at h1 h1ok ⊢
    obtain ⟨ok, s1⟩ := r1
    cases ok with
    | false =>
      refine ⟨h1, fun _ hd => ?_⟩
      have := h1ok (h0.drain hd)
      simp at this
    | true =>
      simp only
      have h2 := h1.andThen (Step.rxPacketDynamixel s1 out true thisN)
      generalize BRBrain.rxPacketDynamixel s1 out true thisN = r2 at h2 ⊢
      obtain ⟨ok2, out1, s2⟩ := r2
      cases ok2 with
      | false => exact ⟨h2, fun _ _ => ⟨_, _, rfl⟩⟩
      | true =>
        simp only
        have h3 := h2.andThen (Step.tryDynamixelAgain s2 out1.error)
        have h3t := tryDynamixelAgain_true s2 out1.error
        generalize BRBrain.tryDynamixelAgain s2 out1.error = r3 at h3 h3t ⊢
        obtain ⟨ok3, s3⟩ := r3
        cases ok3 with
        | false => exact ⟨h3, fun _ _ => ⟨_, _, rfl⟩⟩
        | true =>
          simp only
          obtain ⟨i1, i2⟩ := ih s3 id start thisN out1
          refine ⟨h3.andThen i1, fun hf hd => i2 ?_ (h3.drain hd)⟩
          have := h3t rfl
          have := h2.mono
          simp only at *
          omega

theorem writeRetryLoop_spec :
    ∀ (fuel : Nat) (s : State) (id start n : Nat) (out : RxHeader),
      Step s (writeRetryLoop fuel s id start n out).state ∧
      (3 - s.numDynamixelRetries < fuel → AllDrain s →
        ∃ out1 t, writeRetryLoop fuel s id start n out = .ret (some out1) t) := by
  intro fuel
  induction fuel with
  | zero =>
    intro s id start n out
    exact ⟨Step.here _, fun h => absurd h (Nat.not_lt_zero _)⟩
  | succ fuel ih =>
    intro s id start n out
    unfold BRBrain.writeRetryLoop
    simp only
    have h0 : Step s
        (BRBrain.writeTxLoop n 0
          (BRBrain.txDynamixel
            (BRBrain.startTXPacketDynamixel s id ((n + 1) % 256) D_I_REG_WRITE) start 1)) :=
      ((Step.startTXPacketDynamixel s id ((n + 1) % 256) D_I_REG_WRITE).andThen
        (Step.txDynamixel _ _ _)).andThen (Step.writeTxLoop _ _ _)
    generalize (BRBrain.writeTxLoop n 0
          (BRBrain.txDynamixel
            (BRBrain.startTXPacketDynamixel s id ((n + 1) % 256) D_I_REG_WRITE) start 1)) = s0
      at h0 ⊢
    have h1 := h0.andThen (Step.endTXPacketDynamixel s0)
    have h1ok := endTXPacketDynamixel_ok s0
    generalize BRBrain.endTXPacketDynamixel s0 = r1 at h1 h1ok ⊢
    obtain ⟨ok, s1⟩ := r1
    cases ok with
    | false =>
      refine ⟨h1, fun _ hd => ?_⟩
      have := h1ok (h0.drain hd)
      simp at this
    | true =>
      simp only
      have h2 := h1.andThen (Step.rxPacketDynamixel s1 out false 0)
      generalize BRBrain.rxPacketDynamixel s1 out false 0 = r2 at h2 ⊢
      obtain ⟨ok2, out1, s2⟩ := r2
      cases ok2 with
      | false => exact ⟨h2, fun _ _ => ⟨_, _, rfl⟩⟩
      | true =>
        simp only
        have h3 := h2.andThen (Step.tryDynamixelAgain s2 out1.error)
        have h3t := tryDynamixelAgain_true s2 out1.error
        generalize BRBrain.tryDynamixelAgain s2 out1.error = r3 at h3 h3t ⊢
        obtain ⟨ok3, s3⟩ := r3
        cases ok3 with
        | false => exact ⟨h3, fun _ _ => ⟨_, _, rfl⟩⟩
        | true =>
          simp only
          obtain ⟨i1, i2⟩ := ih s3 id start n out1
          refine ⟨h3.andThen i1, fun hf hd => i2 ?_ (h3.drain hd)⟩
          have := h3t rfl
          have := h2.mono
          simp only at *
          omega

/-! ### The retry counter and the response over a whole command -/

theorem Run.post_bind {α β : Type} (r : Run α) (k : α → State → Run β)
    (Q1 : α → State → Prop) (Q : β → State → Prop) (I : State → Prop)
    (h1 : r.post Q1 I) (h2 : ∀ a t, Q1 a t → (k a t).post Q I) : (r.bind k).post Q I := by
  cases r with
  | ret a t => exact h2 a t h1
  | spin t => exact h1

theorem Run.post_mono {α : Type} (r : Run α) (Q1 Q : α → State → Prop) (I1 I : State → Prop)
    (h : r.post Q1 I1) (hq : ∀ a t, Q1 a t → Q a t) (hi : ∀ t, I1 t → I t) : r.post Q I := by
  cases r with
  | ret a t => exact hq a t h
  | spin t => exact hi t h

theorem Grow.same (s : State) : Grow s s := ⟨⟨[], by simp⟩, id⟩

theorem Grow.followedBy {s t u : State} (h1 : Grow s t) (h2 : Grow t u) : Grow s u := by
  obtain ⟨L1, e1⟩ := h1.tx
  obtain ⟨L2, e2⟩ := h2.tx
  exact ⟨⟨L1 ++ L2, by rw [e2, e1, List.append_assoc]⟩, fun h => h2.bound (h1.bound h)⟩

theorem Step.grow {s t : State} (h : Step s t) : Grow s t :=
  ⟨⟨[], by simpa using congrArg HostSide.pcTxBuffer h.host⟩, h.bound⟩

theorem Grow.push (s : State) (b a : Nat) : Grow s (txPC s b a) := ⟨⟨[b], rfl⟩, id⟩

theorem Grow.flagged (s : State) (flag : Nat) : Grow s (setStatusFlag s flag) :=
  ⟨⟨[], by simp [BRBrain.setStatusFlag]⟩, id⟩

theorem Grow.statusPacket (s : State) : Grow s (txStatusPC s) :=
  ⟨⟨_, txStatusPC_tx s⟩, fun h => by simpa using h⟩

theorem Reported.ofStatus {s x : State} (h : Grow s x) : Reported s (txStatusPC x) := by
  obtain ⟨L, e⟩ := h.tx
  refine ⟨L ++ [0xFA],
    255 - (0xFA + x.status + x.numDynamixelRetries + x.adcValue 0 + x.adcValue 1 +
      x.adcValue 2) % 256, ?_⟩
  rw [txStatusPC_tx, e]
  simp

/-- Every return path that ends in `txStatusPC`. -/
theorem post_txStatusPC {s x : State} (h : Grow s x) :
    (Run.ret () (txStatusPC x)).post (fun _ t => Grow s t ∧ Reported s t) (Grow s) :=
  ⟨h.followedBy (Grow.statusPacket x), Reported.ofStatus h⟩

theorem rxPC_post (s : State) (a : Nat) :
    (rxPC s a).post (fun _ t => Grow s t ∧ t.adcValue = s.adcValue) (Grow s) := by
  rcases rxPC_cases s a with ⟨b, rest, h⟩ | ⟨rest, _, h⟩ | ⟨_, h⟩
  · rw [h]; exact ⟨⟨⟨[], by simp⟩, id⟩, rfl⟩
  · rw [h]; exact ⟨⟨⟨[], by simp⟩, id⟩, rfl⟩
  · rw [h]; exact ⟨⟨[], by simp⟩, id⟩

theorem endRXPacketPC_post (s : State) :
    (endRXPacketPC s).post (fun _ t => Grow s t) (Grow s) := by
  rcases endRXPacketPC_cases s with ⟨b, rest, h⟩ | ⟨rest, _, h⟩ | ⟨_, h⟩
  · rw [h]; exact ⟨⟨[], by simp⟩, id⟩
  · rw [h]; exact ⟨⟨[], by simp⟩, id⟩
  · rw [h]; exact ⟨⟨[], by simp⟩, id⟩

theorem rxPC_grow {s0 s : State} (h : Grow s0 s) (a : Nat) :
    (rxPC s a).post (fun _ t => Grow s0 t) (Grow s0) :=
  Run.post_mono _ _ _ _ _ (rxPC_post s a) (fun _ _ g => h.followedBy g.1) (fun _ g => h.followedBy g)

theorem endRXPacketPC_grow {s0 s : State} (h : Grow s0 s) :
    (endRXPacketPC s).post (fun _ t => Grow s0 t) (Grow s0) :=
  Run.post_mono _ _ _ _ _ (endRXPacketPC_post s) (fun _ _ g => h.followedBy g) (fun _ g => h.followedBy g)

theorem setFormatLoop_grow (f : Nat) {s0 : State} :
    ∀ (k i total : Nat) (s : State), Grow s0 s →
      (setFormatLoop f k i total s).post (fun _ t => Grow s0 t) (Grow s0) := by
  intro k
  induction k with
  | zero => intro i total s h; exact h
  | succ k ih =>
    intro i total s h
    unfold BRBrain.setFormatLoop
    refine Run.post_bind _ _ _ _ _ (rxPC_grow h 1) ?_
    intro r s1 g1
    cases r with
    | none => exact g1
    | some id =>
      simp only
      split
      · exact g1.followedBy (Grow.flagged _ _)
      · refine Run.post_bind _ _ _ _ _ (rxPC_grow g1 1) ?_
        intro r s2 g2
        cases r with
        | none => exact g2
        | some start =>
          simp only
          split
          · exact g2.followedBy (Grow.flagged _ _)
          · refine Run.post_bind _ _ _ _ _ (rxPC_grow g2 1) ?_
            intro r s3 g3
            cases r with
            | none => exact g3
            | some n =>
              simp only
              split
              · exact g3.followedBy (Grow.flagged _ _)
              · exact ih _ _ _ (g3.followedBy ⟨⟨[], by simp⟩, fun hb => hb⟩)

theorem setFormat_post (f : Nat) (s : State) :
    (setFormat f s).post (fun _ t => Grow s t ∧ Reported s t) (Grow s) := by
  unfold BRBrain.setFormat
  simp only
  have h0 : Grow s
      { s with
        numDynamixels := upd s.numDynamixels f 0
        totalNumBytes := upd s.totalNumBytes f 0 } := ⟨⟨[], by simp⟩, id⟩
  refine Run.post_bind _ _ _ _ _ (rxPC_grow h0 1) ?_
  intro r s1 g1
  cases r with
  | none => exact post_txStatusPC g1
  | some n =>
    simp only
    split
    · exact post_txStatusPC (g1.followedBy (Grow.flagged _ _))
    · refine Run.post_bind _ _ _ _ _ (setFormatLoop_grow f n 0 0 s1 g1) ?_
      intro r s2 g2
      cases r with
      | none => exact post_txStatusPC g2
      | some totalBytes =>
        simp only
        refine Run.post_bind _ _ _ _ _
          (endRXPacketPC_grow (g2.followedBy ⟨⟨[], by simp⟩, id⟩)) ?_
        intro _ s3 g3
        exact post_txStatusPC g3

theorem handlePing_post (fuel : Nat) (s : State) :
    (handlePing fuel s).post (fun _ t => Grow s t ∧ Reported s t) (Grow s) := by
  unfold BRBrain.handlePing
  refine Run.post_bind _ _ _ _ _ (rxPC_grow (Grow.same s) 1) ?_
  intro r s1 g1
  cases r with
  | none => exact post_txStatusPC g1
  | some addr =>
    simp only
    refine Run.post_bind _ _ _ _ _ (endRXPacketPC_grow g1) ?_
    intro ok s2 g2
    cases ok with
    | false => exact post_txStatusPC g2
    | true =>
      simp only [if_true]
      refine Run.post_bind _ _ (fun _ t => Grow s t) _ _ ?_ ?_
      · split
        · have hp := pingRetryLoop_spec fuel s2 addr ⟨0xff, 0xff, 0xff⟩
          generalize BRBrain.pingRetryLoop fuel s2 addr ⟨0xff, 0xff, 0xff⟩ = r at hp ⊢
          cases r with
          | spin t => exact g2.followedBy hp.1.grow
          | ret out t =>
            have hg : Grow s t := g2.followedBy hp.1.grow
            show Grow s _
            split
            · exact hg.followedBy (Grow.flagged _ _)
            · exact hg
        · exact g2
      · intro _ s4 g4
        refine post_txStatusPC ?_
        split
        · exact g4.followedBy (Grow.flagged _ _)
        · exact g4

theorem fwdParams_grow : ∀ (k j : Nat) (s : State) (b : Nat), Grow s (fwdParams k j s b).1 := by
  intro k
  induction k with
  | zero => intro j s b; rw [fwdParams]; exact Grow.same s
  | succ k ih =>
    intro j s b
    rw [fwdParams]
    exact (Grow.push s _ _).followedBy (ih _ _ _)

theorem fwdStuff_grow : ∀ (k : Nat) (s : State) (b : Nat), Grow s (fwdStuff k s b).1 := by
  intro k
  induction k with
  | zero => intro s b; rw [fwdStuff]; exact Grow.same s
  | succ k ih =>
    intro s b
    rw [fwdStuff]
    exact (Grow.push s _ _).followedBy (ih _ _)

theorem readRetryLoop_grow {s0 s : State} (h : Grow s0 s) (fuel id start thisN : Nat)
    (out : RxHeader) :
    (readRetryLoop fuel s id start thisN out).post (fun _ t => Grow s0 t) (Grow s0) := by
  have hp := (readRetryLoop_spec fuel s id start thisN out).1
  generalize BRBrain.readRetryLoop fuel s id start thisN out = r at hp ⊢
  cases r with
  | spin t => exact h.followedBy hp.grow
  | ret o t => exact h.followedBy hp.grow

theorem readBlockLoop_grow (rf : Nat) {s0 : State} :
    ∀ (fuel : Nat) (s : State) (id n start re b : Nat), Grow s0 s →
      (readBlockLoop rf fuel s id n start re b).post (fun _ t => Grow s0 t) (Grow s0) := by
  intro fuel
  induction fuel with
  | zero =>
    intro s id n start re b h
    unfold BRBrain.readBlockLoop
    split
    · exact h
    · exact h
  | succ fuel ih =>
    intro s id n start re b h
    unfold BRBrain.readBlockLoop
    split
    · lift_lets
      extract_lets thisN0 re1 thisN
      refine Run.post_bind _ _ _ _ _
        (readRetryLoop_grow (h.followedBy (Step.fillParams _ _ _).grow) rf id start _ _) ?_
      intro r s2 g2
      cases r with
      | none => exact g2
      | some out =>
        simp only
        have hf : Grow s0
            (if out.id = id ∧ out.numParams = thisN then BRBrain.fwdParams thisN 0 s2 b
             else BRBrain.fwdStuff thisN (BRBrain.setStatusFlag s2 S_INVALID_DYNAMIXEL_RESPONSE) b).1 := by
          split
          · exact g2.followedBy (fwdParams_grow _ _ _ _)
          · exact (g2.followedBy (Grow.flagged _ _)).followedBy (fwdStuff_grow _ _ _)
        by_cases hre : re1 ≠ 0
        · rw [if_pos hre]
          exact ih _ _ _ _ _ _ (hf.followedBy (Grow.push _ _ _))
        · rw [if_neg hre]
          exact ih _ _ _ _ _ _ hf
    · exact h

theorem readEntryLoop_grow (fuel : Nat) {s0 : State} :
    ∀ (k i : Nat) (s : State) (b : Nat), Grow s0 s →
      (readEntryLoop fuel k i s b).post (fun _ t => Grow s0 t) (Grow s0) := by
  intro k
  induction k with
  | zero => intro i s b h; exact h
  | succ k ih =>
    intro i s b h
    unfold BRBrain.readEntryLoop
    refine Run.post_bind _ _ _ _ _ (readBlockLoop_grow fuel fuel s _ _ _ 0 b h) ?_
    intro r s1 g1
    split
    · exact ih _ _ _ g1
    · exact g1

theorem stuffLoop_grow {s0 : State} :
    ∀ (fuel : Nat) (s : State) (b : Nat), Grow s0 s →
      (stuffLoop fuel s b).post (fun _ t => Grow s0 t) (Grow s0) := by
  intro fuel
  induction fuel with
  | zero =>
    intro s b h
    unfold BRBrain.stuffLoop
    split
    · exact h
    · exact h
  | succ fuel ih =>
    intro s b h
    unfold BRBrain.stuffLoop
    split
    · exact ih _ _ (h.followedBy (Grow.push _ _ _))
    · exact h

theorem readTail_tx (s : State) :
    (endTXPacketPC
        (txADCValuesPC (txPC (txPC s s.status 1) (txPC s s.status 1).numDynamixelRetries 1))).pcTxBuffer =
      s.pcTxBuffer ++
        [s.status, s.numDynamixelRetries, s.adcValue 0, s.adcValue 1, s.adcValue 2,
          not8 (txADCValuesPC
            (txPC (txPC s s.status 1) (txPC s s.status 1).numDynamixelRetries 1)).checksumTxPC] := by
  simp only [txADCValuesPC, endTXPacketPC, txPC, List.append_assoc, List.singleton_append,
    List.cons_append, List.nil_append, CHANNEL_POS, CHANNEL_NEG, CHANNEL_THERM]

theorem handleReadData_post (fuel : Nat) (s : State) :
    (handleReadData fuel s).post (fun _ t => Grow s t ∧ Reported s t) (Grow s) := by
  unfold BRBrain.handleReadData
  refine Run.post_bind _ _ _ _ _ (endRXPacketPC_grow (Grow.same s)) ?_
  intro ok s1 g1
  simp only
  have g2 : Grow s (startTXPacketPC s1 I_DATA) := g1.followedBy ⟨⟨[I_DATA], rfl⟩, fun hb => hb⟩
  refine Run.post_bind _ _ (fun _ t => Grow s t) _ _ ?_ ?_
  · split
    · exact readEntryLoop_grow fuel _ _ _ _ g2
    · exact g2
  · intro b s3 g3
    refine Run.post_bind _ _ _ _ _ (stuffLoop_grow fuel s3 b g3) ?_
    intro _ s4 g4
    obtain ⟨L, e⟩ := g4.tx
    have htx := readTail_tx s4
    generalize hc : not8 (txADCValuesPC
        (txPC (txPC s4 s4.status 1) (txPC s4 s4.status 1).numDynamixelRetries 1)).checksumTxPC = c
      at htx
    have hst : ∀ x : State, (endTXPacketPC (txADCValuesPC x)).status = x.status ∧
        (endTXPacketPC (txADCValuesPC x)).numDynamixelRetries = x.numDynamixelRetries ∧
        (endTXPacketPC (txADCValuesPC x)).adcValue = x.adcValue := fun _ => ⟨rfl, rfl, rfl⟩
    generalize hx : txPC (txPC s4 s4.status 1) (txPC s4 s4.status 1).numDynamixelRetries 1 = x
      at htx ⊢
    have hx1 : x.status = s4.status := by rw [← hx]; rfl
    have hx2 : x.numDynamixelRetries = s4.numDynamixelRetries := by rw [← hx]; rfl
    have hx3 : x.adcValue = s4.adcValue := by rw [← hx]; rfl
    obtain ⟨q1, q2, q3⟩ := hst x
    generalize endTXPacketPC (txADCValuesPC x) = y at htx q1 q2 q3 ⊢
    refine ⟨⟨⟨_, by rw [htx, e, List.append_assoc]⟩, fun hb => ?_⟩, L, c, ?_⟩
    · rw [q2, hx2]; exact g4.bound hb
    · rw [htx, e, q1, q2, q3, hx1, hx2, hx3]

theorem writeRxLoop_grow {s0 : State} :
    ∀ (k j : Nat) (s : State), Grow s0 s →
      (writeRxLoop k j s).post (fun _ t => Grow s0 t) (Grow s0) := by
  intro k
  induction k with
  | zero => intro j s h; exact h
  | succ k ih =>
    intro j s h
    unfold BRBrain.writeRxLoop
    refine Run.post_bind _ _ _ _ _ (rxPC_grow h 1) ?_
    intro r s1 g1
    cases r with
    | none => exact g1
    | some b => exact ih _ _ (g1.followedBy ⟨⟨[], by simp⟩, fun hb => hb⟩)

theorem writeRetryLoop_grow {s0 s : State} (h : Grow s0 s) (fuel id start n : Nat)
    (out : RxHeader) :
    (writeRetryLoop fuel s id start n out).post (fun _ t => Grow s0 t) (Grow s0) := by
  have hp := (writeRetryLoop_spec fuel s id start n out).1
  generalize BRBrain.writeRetryLoop fuel s id start n out = r at hp ⊢
  cases r with
  | spin t => exact h.followedBy hp.grow
  | ret o t => exact h.followedBy hp.grow

theorem writeEntryLoop_grow (fuel : Nat) {s0 : State} :
    ∀ (k i : Nat) (s : State), Grow s0 s →
      (writeEntryLoop fuel k i s).post (fun _ t => Grow s0 t) (Grow s0) := by
  intro k
  induction k with
  | zero => intro i s h; exact h
  | succ k ih =>
    intro i s h
    unfold BRBrain.writeEntryLoop
    refine Run.post_bind _ _ _ _ _ (writeRxLoop_grow _ 0 s h) ?_
    intro ok s1 g1
    cases ok with
    | false => exact g1
    | true =>
      simp only [if_true]
      refine Run.post_bind _ _ _ _ _ (writeRetryLoop_grow g1 fuel _ _ _ _) ?_
      intro r s2 g2
      cases r with
      | none => exact g2
      | some out =>
        simp only
        refine ih _ _ ?_
        split
        · exact g2.followedBy (Grow.flagged _ _)
        · exact g2

theorem handleWriteData_post (fuel : Nat) (s : State) :
    (handleWriteData fuel s).post (fun _ t => Grow s t ∧ Reported s t) (Grow s) := by
  unfold BRBrain.handleWriteData
  refine Run.post_bind _ _ _ _ _ (writeEntryLoop_grow fuel _ 0 s (Grow.same s)) ?_
  intro ok s1 g1
  cases ok with
  | false => exact post_txStatusPC g1
  | true =>
    simp only [if_true]
    have h1 := g1.followedBy
      ((Step.startTXPacketDynamixel s1 ID_BCAST 0 D_I_ACTION).andThen
        (Step.endTXPacketDynamixel _)).grow
    generalize BRBrain.endTXPacketDynamixel
      (BRBrain.startTXPacketDynamixel s1 ID_BCAST 0 D_I_ACTION) = r1 at h1 ⊢
    obtain ⟨ok1, s2⟩ := r1
    cases ok1 with
    | false => exact post_txStatusPC h1
    | true =>
      simp only
      refine Run.post_bind _ _ _ _ _ (endRXPacketPC_grow h1) ?_
      intro _ s3 g3
      exact post_txStatusPC g3

theorem handleInvalid_post (s : State) :
    Grow s (handleInvalid s) ∧ Reported s (handleInvalid s) := by
  have g := Grow.flagged s S_INVALID_PC_COMMAND
  obtain ⟨g1, pre, c, e⟩ := post_txStatusPC g
  refine ⟨⟨g1.tx, g1.bound⟩, pre, c, e⟩

theorem idleWait_grow {s0 : State} :
    ∀ (fuel : Nat) (s : State), Grow s0 s →
      (idleWait fuel s).post (fun _ t => Grow s0 t) (Grow s0) := by
  intro fuel
  induction fuel with
  | zero => intro s h; exact h
  | succ fuel ih =>
    intro s h
    unfold BRBrain.idleWait
    refine Run.post_bind _ _ _ _ _ (rxPC_grow h 1) ?_
    intro r s1 g1
    cases r with
    | none => exact ih _ g1
    | some b => exact g1

theorem Handler.run_post (hd : Handler) (fuel : Nat) (s : State) :
    (hd.run fuel s).post (fun _ t => Grow s t ∧ Reported s t) (Grow s) := by
  cases hd with
  | handlePing => exact handlePing_post fuel s
  | handleSetReadFormat => exact setFormat_post F_READ s
  | handleSetWriteFormat => exact setFormat_post F_WRITE s
  | handleReadData => exact handleReadData_post fuel s
  | handleWriteData => exact handleWriteData_post fuel s
  | handleInvalid => exact handleInvalid_post s

/-- C6: in a command cycle (`commandLoopBody` resets the retry counter and the
status before the instruction is read) `numDynamixelRetries` is at most 3 in
the state reached after any number of loop iterations of any handler, for
every behaviour of the two links; and a response that is sent ends with the
status, the retry count of that state (hence at most 3), the three analog
bytes and the checksum. -/
theorem retry_count_bound (fuel : Nat) (s : State) :
    (commandLoopBody fuel s).state.numDynamixelRetries ≤ 3 ∧
    ∀ t, commandLoopBody fuel s = .ret () t →
      ∃ pre c,
        t.pcTxBuffer =
          s.pcTxBuffer ++ pre ++
            [t.status, t.numDynamixelRetries, t.adcValue 0, t.adcValue 1, t.adcValue 2, c] ∧
        t.numDynamixelRetries ≤ 3 := by
  have key : (commandLoopBody fuel s).post
      (fun _ t => t.numDynamixelRetries ≤ 3 ∧ Reported s t)
      (fun t => t.numDynamixelRetries ≤ 3) := by
    unfold BRBrain.commandLoopBody
    simp only
    have hr0 : ({ s with
        status := 0
        numDynamixelRetries := 0
        checksumRxPC := 0
        enableRxPCTimeout := 0 } : State).numDynamixelRetries ≤ 3 := Nat.zero_le 3
    have ht0 : ({ s with
        status := 0
        numDynamixelRetries := 0
        checksumRxPC := 0
        enableRxPCTimeout := 0 } : State).pcTxBuffer = s.pcTxBuffer := rfl
    generalize ({ s with
        status := 0
        numDynamixelRetries := 0
        checksumRxPC := 0
        enableRxPCTimeout := 0 } : State) = s0 at hr0 ht0 ⊢
    refine Run.post_bind _ _ (fun _ t => Grow s0 t) _ _
      (Run.post_mono _ _ _ _ _ (idleWait_grow fuel s0 (Grow.same s0)) (fun _ _ g => g)
        (fun _ g => g.bound hr0)) ?_
    intro instr s1 g1
    have g1' : Grow s0 { s1 with enableRxPCTimeout := 1 } :=
      g1.followedBy ⟨⟨[], by simp⟩, fun hb => hb⟩
    refine Run.post_mono _ _ _ _ _ (Handler.run_post (selectHandler instr) fuel _) ?_ ?_
    · intro _ t ⟨g, pre, c, e⟩
      refine ⟨(g1'.followedBy g).bound hr0, ?_⟩
      obtain ⟨L, eL⟩ := g1'.tx
      refine ⟨L ++ pre, c, ?_⟩
      rw [e, eL, ht0]
      simp
    · intro t g
      exact (g1'.followedBy g).bound hr0
  generalize commandLoopBody fuel s = r at key ⊢
  cases r with
  | spin t => exact ⟨key, fun t h => by simp at h⟩
  | ret u t =>
    refine ⟨key.1, fun t' h => ?_⟩
    simp only [Run.ret.injEq, true_and] at h
    subst h
    obtain ⟨pre, c, e⟩ := key.2
    exact ⟨pre, c, e, key.1⟩

theorem stuffLoop_stuck :
    ∀ (fuel : Nat) (s : State) (b : Nat), b ≠ 0 →
      ∃ t, stuffLoop fuel s b = .spin t ∧
        t.pcTxBuffer = s.pcTxBuffer ++ List.replicate fuel 0xFF := by
  intro fuel
  induction fuel with
  | zero =>
    intro s b hb
    exact ⟨s, by simp [stuffLoop, hb], by simp⟩
  | succ fuel ih =>
    intro s b hb
    obtain ⟨t, h1, h2⟩ := ih (txPC s 0xff 1) b hb
    refine ⟨t, by simp [stuffLoop, hb, h1], ?_⟩
    rw [h2]
    simp [txPC, List.replicate_succ]

theorem handleReadData_stuck (fuel : Nat) (s : State) (he : s.enableRxPCTimeout ≠ 0)
    (hrx : s.pcRxBuffer = [] ∨ ∃ rest, s.pcRxBuffer = none :: rest)
    (htot : s.totalNumBytes F_READ ≠ 0) :
    ∃ t, handleReadData fuel s = .spin t ∧
      t.pcTxBuffer = s.pcTxBuffer ++ I_DATA :: List.replicate fuel 0xFF := by
  have h1 : ∃ rest, endRXPacketPC s =
      .ret false { s with pcRxBuffer := rest, status := s.status ||| 1 } := by
    rcases hrx with h | ⟨rest, h⟩
    · exact ⟨[], by simp [endRXPacketPC, rxPC, h, rxPCWait, he, setStatusFlag]⟩
    · exact ⟨rest, by simp [endRXPacketPC, rxPC, h, rxPCWait, he, setStatusFlag]⟩
  obtain ⟨rest, h1⟩ := h1
  obtain ⟨t, h2, h3⟩ :=
    stuffLoop_stuck fuel
      (startTXPacketPC { s with pcRxBuffer := rest, status := s.status ||| 1 } I_DATA)
      (s.totalNumBytes F_READ) htot
  refine ⟨t, ?_, ?_⟩
  · unfold handleReadData
    rw [h1]
    simp only [Run.bind_ret, Bool.false_eq_true, if_false]
    rw [h2]
    rfl
  · rw [h3]
    simp [startTXPacketPC, txPC]

/-- C1 fails on the code: with the read format (1, 0, 1) installed
(`totalNumBytes[F_READ] = 1`) and the host checksum byte of `READ_DATA` timing
out, `handleReadData` never leaves `while (bytesToGo) txPC(0xff, 1);`: after
any number of iterations it is still running, having sent 0xFB and one 0xFF
per iteration, and no status byte. -/
theorem readData_never_answers (fuel : Nat) :
    stuckState.totalNumBytes F_READ = 1 ∧ stuckState.pcRxBuffer = [some 0xF3] ∧
    ∃ t, commandLoopBody (fuel + 1) stuckState = .spin t ∧
      t.pcTxBuffer = stuckState.pcTxBuffer ++ I_DATA :: List.replicate (fuel + 1) 0xFF := by
  have hrx : stuckState.pcRxBuffer = [some 0xF3] := by decide
  have htot : stuckState.totalNumBytes F_READ = 1 := by decide
  refine ⟨htot, hrx, ?_⟩
  obtain ⟨t, h1, h2⟩ :=
    handleReadData_stuck (fuel + 1)
      { stuckState with
        status := 0
        numDynamixelRetries := 0
        checksumRxPC := (0 + 0xF3) % 256
        enableRxPCTimeout := 1
        pcRxBuffer := [] }
      (by decide) (Or.inl rfl) (by rw [show _ = stuckState.totalNumBytes F_READ from rfl, htot]; decide)
  refine ⟨t, ?_, h2⟩
  unfold commandLoopBody
  simp only [idleWait, rxPC, hrx, rxPCWait, Run.bind_ret, ne_eq, one_ne_zero, not_false_eq_true,
    if_true, show selectHandler 0xF3 = Handler.handleReadData from by decide, Handler.run]
  exact h1

/-- C8 fails as stated: with the read format (1, 0, 1), analog samples
0x11, 0x22, 0x33 and a device answering the data byte 0x42, the response to
`READ_DATA` is 0xFB, 0x42, status 0, retry count 0, 0x11, 0x22, 0x33, checksum:
the payload precedes the status byte, so the response is not the instruction
byte followed by status, retry count, analog bytes, payload and checksum. -/
theorem readData_layout_counterexample :
    (commandLoop 4 2 (initState layoutAdc layoutHost layoutBus)).state.pcTxBuffer =
      [0xFA, 0, 0, 0x11, 0x22, 0x33, 159] ++ [0xFB, 0x42, 0, 0, 0x11, 0x22, 0x33, 92] ∧
    ¬ ∃ payload c,
      payload.length =
        (commandLoop 4 2 (initState layoutAdc layoutHost layoutBus)).state.totalNumBytes F_READ ∧
      [0xFB, 0x42, 0, 0, 0x11, 0x22, 0x33, 92] =
        I_DATA :: (commandLoop 4 2 (initState layoutAdc layoutHost layoutBus)).state.status ::
          (commandLoop 4 2
            (initState layoutAdc layoutHost layoutBus)).state.numDynamixelRetries ::
          layoutAdc 0 :: layoutAdc 1 :: layoutAdc 2 :: (payload ++ [c]) := by
  refine ⟨by decide, ?_⟩
  rintro ⟨payload, c, _, h⟩
  have hs : (commandLoop 4 2 (initState layoutAdc layoutHost layoutBus)).state.status = 0 := by
    decide
  rw [hs] at h
  simp at h

/-- C2 fails on the code: with the read format (1, 54, 1) installed and a
device answering error byte 0 and data byte 0x77, `handleReadData` transmits
the packet `READ_DATA(54, 1)` (0xFF 0xFF 0x01 0x04 0x02 0x36 0x01 0xC1) on the
bus and forwards the data byte 0x77, not the error byte, as the payload. -/
theorem readData_reads_register_54 :
    (commandLoop 4 2 (initState (fun _ => 0) virtualHost virtualBus)).state.dynamixelTxBuffer =
      [0xFF, 0xFF, 1, 4, 2, 54, 1, 193] ∧
    (commandLoop 4 2 (initState (fun _ => 0) virtualHost virtualBus)).state.pcTxBuffer =
      [0xFA, 0, 0, 0, 0, 0, 5] ++ [0xFB, 0x77, 0, 0, 0, 0, 0, 141] := by
  decide

theorem endTX_ping (s : State) (addr : Nat) (hd : AllDrain s) :
    endTXPacketDynamixel (startTXPacketDynamixel s addr 0 D_I_PING) =
      (true,
        { s with
          dynamixelTxBuffer := s.dynamixelTxBuffer ++ pingPacket addr
          checksumTxDynamixel := (addr + 3) % 256
          dynamixelTxDone := s.dynamixelTxDone.tail }) := by
  have hc : (((0 + addr) % 256 + (0 + 2) % 256) % 256 + 1) % 256 = (addr + 3) % 256 := by omega
  unfold endTXPacketDynamixel startTXPacketDynamixel
  simp only [txDynamixel, not8, ne_eq, one_ne_zero, not_false_eq_true, if_true, not_true_eq_false,
    if_false, List.append_assoc, List.singleton_append, List.nil_append, List.cons_append,
    D_I_PING, hc, Nat.mod_mod, pingPacket]
  cases hdone : s.dynamixelTxDone with
  | nil => simp
  | cons b bs =>
    have hb : b = true := hd b (by rw [hdone]; exact List.mem_cons_self _ _)
    subst hb
    simp

theorem rxPacket_pingReply (s : State) (out : RxHeader) (addr e c : Nat)
    (rest : List (Option Nat))
    (hrx : s.dynamixelRxBuffer =
      some 0xFF :: some 0xFF :: some addr :: some 2 :: some e :: some c :: rest) :
    rxPacketDynamixel s out false 0 =
      (true, ⟨addr, 0, e⟩,
        { s with
          dynamixelRxBuffer := rest
          checksumRxDynamixel := (addr + 2 + e) % 256
          status := if c = 255 - (addr + 2 + e) % 256 then s.status else s.status ||| 128 }) := by
  have hc : (((0 + addr) % 256 + 2) % 256 + e) % 256 = (addr + 2 + e) % 256 := by omega
  unfold rxPacketDynamixel startRXPacketDynamixel
  simp only [rxDynamixel, hrx, rxParamsLoop, endRXPacketDynamixel, not8, setStatusFlag, ne_eq,
    one_ne_zero, not_false_eq_true, if_true, not_true_eq_false, if_false, hc, Nat.mod_mod]
  by_cases h : c = 255 - (addr + 2 + e) % 256
  · simp [h]
  · simp [h]

theorem endTX_ping_facts (s : State) (addr : Nat) (hd : AllDrain s) :
    ∃ s1, endTXPacketDynamixel (startTXPacketDynamixel s addr 0 D_I_PING) = (true, s1) ∧
      s1.dynamixelTxBuffer = s.dynamixelTxBuffer ++ pingPacket addr ∧
      s1.status = s.status ∧ s1.numDynamixelRetries = s.numDynamixelRetries ∧
      s1.dynamixelRxBuffer = s.dynamixelRxBuffer ∧ s1.hostSide = s.hostSide ∧ AllDrain s1 :=
  ⟨_, endTX_ping s addr hd, rfl, rfl, rfl, rfl, rfl, fun b hb => hd b (List.mem_of_mem_tail hb)⟩

theorem rxPacket_pingReply_facts (s : State) (out : RxHeader) (addr e c : Nat)
    (rest : List (Option Nat))
    (hrx : s.dynamixelRxBuffer =
      some 0xFF :: some 0xFF :: some addr :: some 2 :: some e :: some c :: rest) :
    ∃ s2, rxPacketDynamixel s out false 0 = (true, ⟨addr, 0, e⟩, s2) ∧
      s2.status = (if c = 255 - (addr + 2 + e) % 256 then s.status else s.status ||| 128) ∧
      s2.dynamixelTxBuffer = s.dynamixelTxBuffer ∧
      s2.numDynamixelRetries = s.numDynamixelRetries ∧
      s2.dynamixelRxBuffer = rest ∧ s2.hostSide = s.hostSide ∧
      s2.dynamixelTxDone = s.dynamixelTxDone :=
  ⟨_, rxPacket_pingReply s out addr e c rest hrx, rfl, rfl, rfl, rfl, rfl, rfl⟩

theorem tryDynamixelAgain_retry (s : State) (e : Nat) (hs : s.status = 128)
    (hr : s.numDynamixelRetries < 3) :
    ∃ s3, tryDynamixelAgain s e = (true, s3) ∧ s3.status = 0 ∧
      s3.numDynamixelRetries = s.numDynamixelRetries + 1 ∧
      s3.dynamixelTxBuffer = s.dynamixelTxBuffer ∧ s3.dynamixelRxBuffer = s.dynamixelRxBuffer ∧
      s3.hostSide = s.hostSide ∧ s3.dynamixelTxDone = s.dynamixelTxDone := by
  unfold tryDynamixelAgain
  rw [if_pos ⟨Or.inr (by rw [hs]; decide), hr⟩]
  refine ⟨_, rfl, ?_, ?_, rfl, rfl, rfl, rfl⟩
  · show s.status &&& (255 - 128) = 0
    rw [hs]
    decide
  · show (s.numDynamixelRetries + 1) % 256 = _
    omega

theorem tryDynamixelAgain_stop (s : State) (e : Nat) (hr : ¬ s.numDynamixelRetries < 3) :
    tryDynamixelAgain s e = (false, s) := by
  unfold tryDynamixelAgain
  rw [if_neg (fun h => hr h.2)]

theorem pingRetryLoop_bad (addr : Nat) :
    ∀ (replies : List (Nat × Nat)) (fuel : Nat) (s : State) (out : RxHeader)
      (rest : List (Option Nat)),
      replies ≠ [] → s.numDynamixelRetries + replies.length = 4 → replies.length ≤ fuel →
      s.status = 0 → AllDrain s →
      (∀ r ∈ replies, r.2 ≠ 255 - (addr + 2 + r.1) % 256) →
      s.dynamixelRxBuffer = pingReplies addr replies ++ rest →
      ∃ t e, pingRetryLoop fuel s addr out = .ret ⟨addr, 0, e⟩ t ∧ t.status = 128 ∧
        t.numDynamixelRetries = 3 ∧
        t.dynamixelTxBuffer =
          s.dynamixelTxBuffer ++ (List.replicate replies.length (pingPacket addr)).flatten ∧
        t.hostSide = s.hostSide ∧ t.dynamixelRxBuffer = rest := by
  intro replies
  induction replies with
  | nil => intro fuel s out rest h; exact absurd rfl h
  | cons r rs ih =>
    intro fuel s out rest _ hlen hfuel hst hd hbad hrx
    obtain ⟨fuel, rfl⟩ : ∃ k, fuel = k + 1 := ⟨fuel - 1, by simp at hfuel; omega⟩
    have hrc := hbad r (List.mem_cons_self _ _)
    simp only [pingReplies, List.cons_append] at hrx
    simp only [List.length_cons] at hlen hfuel
    obtain ⟨s1, e1, a1, a2, a3, a4, a5, a6⟩ := endTX_ping_facts s addr hd
    obtain ⟨s2, e2, b1, b2, b3, b4, b5, b6⟩ :=
      rxPacket_pingReply_facts s1 out addr r.1 r.2 (pingReplies addr rs ++ rest) (a4.trans hrx)
    rw [if_neg hrc, a2, hst] at b1
    have b1' : s2.status = 128 := by rw [b1]; decide
    unfold pingRetryLoop
    rw [e1]
    simp only
    rw [e2]
    simp only
    by_cases hlast : s2.numDynamixelRetries < 3
    · obtain ⟨s3, e3, c1, c2, c3, c4, c5, c6⟩ := tryDynamixelAgain_retry s2 r.1 b1' hlast
      rw [e3]
      simp only
      have hrs : rs ≠ [] := by
        intro h
        subst h
        simp only [List.length_nil] at hlen
        omega
      obtain ⟨t, e, h1, h2, h3, h4, h5, h6⟩ :=
        ih fuel s3 ⟨addr, 0, r.1⟩ rest hrs (by omega) (by omega) c1
          (by
            intro b hb
            rw [c6, b6] at hb
            exact a6 b hb)
          (fun x hx => hbad x (List.mem_cons_of_mem _ hx))
          (by rw [c4, b4])
      refine ⟨t, e, h1, h2, h3, ?_, ?_, h6⟩
      · rw [h4, c3, b2, a1]
        simp [List.replicate_succ]
      · rw [h5, c5, b5, a5]
    · rw [tryDynamixelAgain_stop s2 r.1 hlast]
      simp only
      have hrs : rs = [] := by
        cases rs with
        | nil => rfl
        | cons x xs => simp only [List.length_cons] at hlen; omega
      subst hrs
      simp only [List.length_nil] at hlen
      refine ⟨s2, r.1, rfl, b1', by omega, ?_, by rw [b5, a5], ?_⟩
      · rw [b2, a1]
        simp [List.replicate_succ]
      · rw [b4]
        simp [pingReplies]

/-- C7: a ping of `addr` ≤ 253 with a valid host checksum, all four bus
replies being complete zero-parameter packets from `addr` with a wrong trailing
checksum, transmits exactly four PING packets and answers the status response
with status 0x80 (BusChecksumError) and retry count 3. -/
theorem ping_bad_checksum (fuel : Nat) (s : State) (addr : Nat) (replies : List (Nat × Nat))
    (hostRest busRest : List (Option Nat)) (hfuel : 4 ≤ fuel) (haddr : addr ≤ 253)
    (hlen : replies.length = 4)
    (hbad : ∀ r ∈ replies, r.2 ≠ 255 - (addr + 2 + r.1) % 256)
    (hhost : s.pcRxBuffer =
      some 0xF0 :: some addr :: some (255 - (0xF0 + addr) % 256) :: hostRest)
    (hbus : s.dynamixelRxBuffer = pingReplies addr replies ++ busRest)
    (hd : AllDrain s) :
    ∃ t, commandLoopBody fuel s = .ret () t ∧
      t.dynamixelTxBuffer =
        s.dynamixelTxBuffer ++ (List.replicate 4 (pingPacket addr)).flatten ∧
      t.pcTxBuffer =
        s.pcTxBuffer ++
          [0xFA, 128, 3, s.adcValue 0, s.adcValue 1, s.adcValue 2,
            255 - (0xFA + 128 + 3 + s.adcValue 0 + s.adcValue 1 + s.adcValue 2) % 256] ∧
      t.pcRxBuffer = hostRest ∧ t.dynamixelRxBuffer = busRest := by
  obtain ⟨fuel, rfl⟩ : ∃ k, fuel = k + 1 := ⟨fuel - 1, by omega⟩
  have hck : (255 - (0xF0 + addr) % 256) = 255 - ((0 + 0xF0) % 256 + addr) % 256 % 256 := by
    omega
  obtain ⟨t, e, h1, h2, h3, h4, h5, h6⟩ :=
    pingRetryLoop_bad addr replies (fuel + 1)
      { s with
        status := 0
        numDynamixelRetries := 0
        checksumRxPC := ((0 + 0xF0) % 256 + addr) % 256
        enableRxPCTimeout := 1
        pcRxBuffer := hostRest }
      ⟨0xff, 0xff, 0xff⟩ busRest
      (by intro h; rw [h] at hlen; simp at hlen)
      (by show 0 + replies.length = 4; omega) (by omega) rfl hd hbad hbus
  have htx : t.pcTxBuffer = s.pcTxBuffer := congrArg HostSide.pcTxBuffer h5
  have hadc : t.adcValue = s.adcValue := congrArg HostSide.adcValue h5
  have hprx : t.pcRxBuffer = hostRest := congrArg HostSide.pcRxBuffer h5
  refine ⟨txStatusPC t, ?_, ?_, ?_, ?_, ?_⟩
  · unfold commandLoopBody
    simp only [idleWait, rxPC, hhost, rxPCWait, Run.bind_ret, ne_eq, one_ne_zero,
      not_false_eq_true, if_true, show selectHandler 0xF0 = Handler.handlePing from by decide,
      Handler.run, handlePing, endRXPacketPC, not8, hck, not_true_eq_false, if_false, haddr]
    rw [h1]
    simp only [Run.bind_ret, ne_eq, not_true_eq_false, if_false,
      show ¬ addr = 254 from by omega]
  · rw [hlen] at h4
    simpa using h4
  · rw [txStatusPC_tx, htx, h2, h3, hadc]
  · simpa using hprx
  · simpa using h6

theorem Sent.nothing (s : State) : Sent s s [] :=
  ⟨by simp, by simp, rfl, rfl, rfl, rfl, rfl, rfl, id⟩

theorem Sent.append {s t u : State} {L1 L2 : List Nat} (h1 : Sent s t L1) (h2 : Sent t u L2) :
    Sent s u (L1 ++ L2) := by
  refine ⟨by rw [h2.tx, h1.tx, List.append_assoc], ?_, h2.numDynamixels.trans h1.numDynamixels,
    h2.totalNumBytes.trans h1.totalNumBytes, h2.axID.trans h1.axID,
    h2.startAddr.trans h1.startAddr, h2.numBytes.trans h1.numBytes, h2.adc.trans h1.adc,
    fun h => h2.drain (h1.drain h)⟩
  have a := h1.sum
  have b := h2.sum
  rw [List.sum_append]
  omega

theorem Step.sent {s t : State} (h : Step s t) : Sent s t [] := by
  have e := h.host
  refine ⟨by simpa using congrArg HostSide.pcTxBuffer e, ?_, congrArg HostSide.numDynamixels e,
    congrArg HostSide.totalNumBytes e, congrArg HostSide.axID e, congrArg HostSide.startAddr e,
    congrArg HostSide.numBytes e, congrArg HostSide.adcValue e, h.drain⟩
  have := congrArg HostSide.checksumTxPC e
  simp only [State.hostSide] at this
  simp [this]

theorem Sent.byte (s : State) (b : Nat) : Sent s (txPC s b 1) [b] :=
  ⟨rfl, by simp [BRBrain.txPC], rfl, rfl, rfl, rfl, rfl, rfl, id⟩

theorem fwdParams_sent :
    ∀ (k j : Nat) (s : State) (b : Nat), k ≤ b → b < 65536 →
      ∃ L, L.length = k ∧ Sent s (fwdParams k j s b).1 L ∧ (fwdParams k j s b).2 = b - k := by
  intro k
  induction k with
  | zero =>
    intro j s b _ _
    rw [fwdParams]
    exact ⟨[], rfl, Sent.nothing s, rfl⟩
  | succ k ih =>
    intro j s b hk hb
    obtain ⟨L, h1, h2, h3⟩ :=
      ih (j + 1) (txPC s (s.dynamixelParams j) 1) ((b + 65535) % 65536) (by omega) (by omega)
    have e : fwdParams (k + 1) j s b =
        fwdParams k (j + 1) (txPC s (s.dynamixelParams j) 1) ((b + 65535) % 65536) := by
      rw [fwdParams]
    rw [e]
    refine ⟨s.dynamixelParams j :: L, by simp [h1], ?_, ?_⟩
    · exact (Sent.byte s _).append h2
    · rw [h3]
      omega

theorem fwdStuff_sent :
    ∀ (k : Nat) (s : State) (b : Nat), k ≤ b → b < 65536 →
      ∃ L, L.length = k ∧ Sent s (fwdStuff k s b).1 L ∧ (fwdStuff k s b).2 = b - k := by
  intro k
  induction k with
  | zero =>
    intro s b _ _
    rw [fwdStuff]
    exact ⟨[], rfl, Sent.nothing s, rfl⟩
  | succ k ih =>
    intro s b hk hb
    obtain ⟨L, h1, h2, h3⟩ :=
      ih (txPC s 0xff 1) ((b + 65535) % 65536) (by omega) (by omega)
    have e : fwdStuff (k + 1) s b = fwdStuff k (txPC s 0xff 1) ((b + 65535) % 65536) := by
      rw [fwdStuff]
    rw [e]
    refine ⟨0xff :: L, by simp [h1], ?_, ?_⟩
    · exact (Sent.byte s _).append h2
    · rw [h3]
      omega

theorem readBlockLoop_zero (rf fuel : Nat) (s : State) (id start re b : Nat) :
    readBlockLoop rf fuel s id 0 start re b = .ret (true, b) s := by
  cases fuel <;> simp [readBlockLoop]

theorem readRetryLoop_sent (rf : Nat) (hrf : 4 ≤ rf) (s : State) (id start thisN : Nat)
    (out : RxHeader) (hd : AllDrain s) :
    ∃ out1 t, readRetryLoop rf (fillParams thisN 0 s) id start thisN out = .ret (some out1) t ∧
      Sent s t [] := by
  have hf := Step.fillParams thisN 0 s
  obtain ⟨h1, h2⟩ := readRetryLoop_spec rf (fillParams thisN 0 s) id start thisN out
  obtain ⟨out1, t, e⟩ := h2 (by omega) (hf.drain hd)
  rw [e] at h1
  exact ⟨out1, t, e, (hf.andThen h1).sent⟩

theorem fwd_sent (s : State) (c : Prop) [Decidable c] (k b : Nat) (hk : k ≤ b)
    (hb : b < 65536) :
    ∃ L, L.length = k ∧
      Sent s
        (if c then fwdParams k 0 s b
         else fwdStuff k (setStatusFlag s S_INVALID_DYNAMIXEL_RESPONSE) b).1 L ∧
      (if c then fwdParams k 0 s b
       else fwdStuff k (setStatusFlag s S_INVALID_DYNAMIXEL_RESPONSE) b).2 = b - k := by
  split
  · exact fwdParams_sent k 0 s b hk hb
  · obtain ⟨L, h1, h2, h3⟩ :=
      fwdStuff_sent k (setStatusFlag s S_INVALID_DYNAMIXEL_RESPONSE) b hk hb
    refine ⟨L, h1, ?_, h3⟩
    have := (Step.flag s S_INVALID_DYNAMIXEL_RESPONSE).sent.append h2
    simpa using this

theorem readBlockLoop_good (rf : Nat) (hrf : 4 ≤ rf) :
    ∀ (fuel : Nat) (s : State) (id n start b : Nat),
      n ≤ 20 * fuel → ReadableEntry start n → n ≤ b → b < 65536 → AllDrain s →
      ∃ t L, readBlockLoop rf fuel s id n start 0 b = .ret (true, b - n) t ∧
        Sent s t L ∧ L.length = n := by
  intro fuel
  induction fuel with
  | zero =>
    intro s id n start b hn _ _ _ _
    have h0 : n = 0 := by omega
    subst h0
    exact ⟨s, [], readBlockLoop_zero rf 0 s id start 0 b, Sent.nothing s, rfl⟩
  | succ fuel ih =>
    intro s id n start b hn hgood hnb hb hd
    obtain ⟨hsum, hbad⟩ := hgood
    by_cases hn0 : n = 0
    · subst hn0
      exact ⟨s, [], readBlockLoop_zero rf _ s id start 0 b, Sent.nothing s, rfl⟩
    have hpos : n > 0 := Nat.pos_of_ne_zero hn0
    unfold readBlockLoop
    rw [if_pos hpos]
    by_cases hle : n ≤ 20
    · by_cases hv : start + n = 54
      · -- the block ends at address 53: one byte less is read, the error byte is appended
        simp only [MAX_DYNAMIXEL_BLOCK_READ, VIRTUAL_ERROR_REG_ADDR, if_pos hle, if_pos hv]
        obtain ⟨out, s2, e2, g2⟩ := readRetryLoop_sent rf hrf s id start (n - 1) ⟨0xff, 0xff, 0xff⟩ hd
        rw [e2]
        simp only [Run.bind_ret, ne_eq, one_ne_zero, not_false_eq_true, if_true]
        obtain ⟨L, l1, l2, l3⟩ :=
          fwd_sent s2 (out.id = id ∧ out.numParams = n - 1) (n - 1) b (by omega) hb
        rw [l3]
        have hn' : ((n + 255) % 256 + 256 - (n - 1)) % 256 = 0 := by omega
        rw [hn', readBlockLoop_zero]
        generalize (if out.id = id ∧ out.numParams = n - 1 then fwdParams (n - 1) 0 s2 b
          else fwdStuff (n - 1) (setStatusFlag s2 S_INVALID_DYNAMIXEL_RESPONSE) b).1 = s3 at l2 ⊢
        refine ⟨txPC s3 out.error 1, L ++ [out.error], ?_, ?_, ?_⟩
        · have hb' : (b - (n - 1) + 65535) % 65536 = b - n := by omega
          rw [hb']
        · have := (g2.append l2).append (Sent.byte _ out.error)
          simpa using this
        · simp only [List.length_append, l1, List.length_singleton]
          omega
      · simp only [MAX_DYNAMIXEL_BLOCK_READ, VIRTUAL_ERROR_REG_ADDR, if_pos hle, if_neg hv]
        obtain ⟨out, s2, e2, g2⟩ := readRetryLoop_sent rf hrf s id start n ⟨0xff, 0xff, 0xff⟩ hd
        rw [e2]
        simp only [Run.bind_ret, ne_eq, not_true_eq_false, if_false]
        obtain ⟨L, l1, l2, l3⟩ :=
          fwd_sent s2 (out.id = id ∧ out.numParams = n) n b hnb hb
        rw [l3]
        have hn' : (n + 256 - n) % 256 = 0 := by omega
        rw [hn', readBlockLoop_zero]
        generalize (if out.id = id ∧ out.numParams = n then fwdParams n 0 s2 b
          else fwdStuff n (setStatusFlag s2 S_INVALID_DYNAMIXEL_RESPONSE) b).1 = s3 at l2 ⊢
        refine ⟨s3, L, rfl, ?_, l1⟩
        have := g2.append l2
        simpa using this
    · have hv : ¬ (start + 20 = 54) := by
        intro h
        exact hbad ⟨by omega, Or.inr (by omega)⟩
      simp only [MAX_DYNAMIXEL_BLOCK_READ, VIRTUAL_ERROR_REG_ADDR, if_neg hle, if_neg hv]
      obtain ⟨out, s2, e2, g2⟩ := readRetryLoop_sent rf hrf s id start 20 ⟨0xff, 0xff, 0xff⟩ hd
      rw [e2]
      simp only [Run.bind_ret, ne_eq, not_true_eq_false, if_false]
      obtain ⟨L, l1, l2, l3⟩ :=
        fwd_sent s2 (out.id = id ∧ out.numParams = 20) 20 b (by omega) hb
      rw [l3]
      have hn' : (n + 256 - 20) % 256 = n - 20 := by omega
      have hs' : (start + 20) % 256 = start + 20 := by omega
      rw [hn', hs']
      generalize (if out.id = id ∧ out.numParams = 20 then fwdParams 20 0 s2 b
        else fwdStuff 20 (setStatusFlag s2 S_INVALID_DYNAMIXEL_RESPONSE) b).1 = s3 at l2 ⊢
      obtain ⟨t, L2, e3, g3, l4⟩ :=
        ih s3 id (n - 20) (start + 20) (b - 20) (by omega)
          ⟨by omega, fun h => hbad ⟨by omega, by omega⟩⟩ (by omega) (by omega)
          ((g2.append l2).drain hd)
      rw [e3]
      refine ⟨t, L ++ L2, ?_, ?_, ?_⟩
      · have hb' : b - 20 - (n - 20) = b - n := by omega
        rw [hb']
      · have := (g2.append l2).append g3
        simpa using this
      · simp only [List.length_append, l1, l4]
        omega

theorem readEntryLoop_good (fuel : Nat) (hfuel : 4 ≤ fuel) :
    ∀ (k i : Nat) (s : State) (b : Nat),
      (∀ j, i ≤ j → j < i + k → ReadableEntry (s.startAddr F_READ j) (s.numBytes F_READ j)) →
      tableBytes (s.numBytes F_READ) i k ≤ b → b < 65536 → AllDrain s →
      ∃ t L, readEntryLoop fuel k i s b = .ret (b - tableBytes (s.numBytes F_READ) i k) t ∧
        Sent s t L ∧ L.length = tableBytes (s.numBytes F_READ) i k := by
  intro k
  induction k with
  | zero =>
    intro i s b _ _ _ _
    exact ⟨s, [], rfl, Sent.nothing s, rfl⟩
  | succ k ih =>
    intro i s b hgood hb hlt hd
    simp only [tableBytes] at hb ⊢
    have hg := hgood i (le_refl i) (by omega)
    obtain ⟨s1, L1, e1, g1, l1⟩ :=
      readBlockLoop_good fuel hfuel fuel s (s.axID F_READ i) (s.numBytes F_READ i)
        (s.startAddr F_READ i) b (by have := hg.1; omega) hg (by omega) hlt hd
    have hnb : s1.numBytes = s.numBytes := g1.numBytes
    have hsa : s1.startAddr = s.startAddr := g1.startAddr
    obtain ⟨t, L2, e2, g2, l2⟩ :=
      ih (i + 1) s1 (b - s.numBytes F_READ i)
        (fun j h1 h2 => by rw [hnb, hsa]; exact hgood j (by omega) (by omega))
        (by rw [hnb]; omega) (by omega) (g1.drain hd)
    rw [hnb] at e2 l2
    refine ⟨t, L1 ++ L2, ?_, g1.append g2, by simp [l1, l2]⟩
    unfold readEntryLoop
    rw [e1]
    simp only [Run.bind_ret, if_true]
    rw [e2]
    congr 1
    omega

theorem stuffLoop_zero (fuel : Nat) (s : State) : stuffLoop fuel s 0 = .ret () s := by
  cases fuel <;> simp [stuffLoop]

theorem tableBytes_le (nb : Nat → Nat) :
    ∀ (k i : Nat), (∀ j, i ≤ j → j < i + k → nb j ≤ 55) → tableBytes nb i k ≤ 55 * k := by
  intro k
  induction k with
  | zero => intro i _; simp [tableBytes]
  | succ k ih =>
    intro i h
    have h1 := h i (le_refl i) (by omega)
    have h2 := ih (i + 1) (fun j a b => h j (by omega) (by omega))
    simp only [tableBytes]
    omega

theorem readTail_spec (s : State) :
    (endTXPacketPC
        (txADCValuesPC
          (txPC (txPC s s.status 1) (txPC s s.status 1).numDynamixelRetries 1))).pcTxBuffer =
      s.pcTxBuffer ++
        [s.status, s.numDynamixelRetries, s.adcValue 0, s.adcValue 1, s.adcValue 2,
          255 - (s.checksumTxPC + s.status + s.numDynamixelRetries + s.adcValue 0 +
            s.adcValue 1 + s.adcValue 2) % 256] := by
  simp only [txADCValuesPC, endTXPacketPC, txPC, not8, ne_eq, one_ne_zero, not_false_eq_true,
    if_true, List.append_assoc, List.singleton_append, List.nil_append, List.cons_append,
    CHANNEL_POS, CHANNEL_NEG, CHANNEL_THERM]
  congr 7
  omega

/-- C8 as amended: when the host checksum byte arrives, every bus transmission
drains and every entry of the read format is readable (valid, and not (14, 41)
or (34, 21)), `handleReadData` returns and its response is the I_DATA byte,
then `totalNumBytes[F_READ]` payload bytes, then status, retry count, the three
analog bytes and the checksum of all preceding bytes. -/
theorem handleReadData_layout (fuel : Nat) (s : State) (c : Nat) (rest : List (Option Nat))
    (hfuel : 4 ≤ fuel) (hrx : s.pcRxBuffer = some c :: rest)
    (hN : s.numDynamixels F_READ ≤ 32)
    (hentries : ∀ i, i < s.numDynamixels F_READ →
      ReadableEntry (s.startAddr F_READ i) (s.numBytes F_READ i))
    (htotal : s.totalNumBytes F_READ =
      tableBytes (s.numBytes F_READ) 0 (s.numDynamixels F_READ))
    (hd : AllDrain s) :
    ∃ (t : State) (payload : List Nat),
      handleReadData fuel s = .ret () t ∧
      payload.length = s.totalNumBytes F_READ ∧
      t.pcTxBuffer =
        s.pcTxBuffer ++ I_DATA :: payload ++
          [t.status, t.numDynamixelRetries, s.adcValue 0, s.adcValue 1, s.adcValue 2,
            255 - (I_DATA + payload.sum + t.status + t.numDynamixelRetries + s.adcValue 0 +
              s.adcValue 1 + s.adcValue 2) % 256] := by
  have hbound : tableBytes (s.numBytes F_READ) 0 (s.numDynamixels F_READ) ≤
      55 * s.numDynamixels F_READ :=
    tableBytes_le _ _ 0 fun j _ h => by
      have := (hentries j (by omega)).1
      omega
  unfold handleReadData
  rw [endRXPacketPC_some s c rest hrx]
  simp only [Run.bind_ret, if_true]
  obtain ⟨s2, hs2, q1, q2, q3, q4, q5, q6, q7, q8, q9⟩ : ∃ s2 : State,
      startTXPacketPC
        { s with
          pcRxBuffer := rest
          status := if c = 255 - s.checksumRxPC % 256 then s.status else s.status ||| 64 }
        I_DATA = s2 ∧
      s2.pcTxBuffer = s.pcTxBuffer ++ [I_DATA] ∧ s2.checksumTxPC = (0 + I_DATA) % 256 ∧
      s2.numDynamixels = s.numDynamixels ∧ s2.totalNumBytes = s.totalNumBytes ∧
      s2.axID = s.axID ∧ s2.startAddr = s.startAddr ∧ s2.numBytes = s.numBytes ∧
      s2.adcValue = s.adcValue ∧ s2.dynamixelTxDone = s.dynamixelTxDone :=
    ⟨_, rfl, rfl, rfl, rfl, rfl, rfl, rfl, rfl, rfl, rfl⟩
  rw [hs2]
  obtain ⟨s3, L, e3, g3, l3⟩ :=
    readEntryLoop_good fuel hfuel (s2.numDynamixels F_READ) 0 s2 (s.totalNumBytes F_READ)
      (fun j _ h => by rw [q6, q7]; rw [q3] at h; exact hentries j (by omega))
      (by rw [q7, q3, htotal]) (by rw [htotal]; omega)
      (fun b hb => hd b (by rw [← q9]; exact hb))
  rw [q7, q3, ← htotal, Nat.sub_self] at e3
  rw [q7, q3, ← htotal] at l3
  rw [q3, e3]
  simp only [Run.bind_ret, stuffLoop_zero]
  refine ⟨_, L, rfl, l3, ?_⟩
  rw [readTail_spec s3, g3.tx, q1]
  have hsum := g3.sum
  rw [q2] at hsum
  have hadc : s3.adcValue = s.adcValue := g3.adc.trans q8
  have hst : ∀ x : State, (endTXPacketPC (txADCValuesPC x)).status = x.status ∧
      (endTXPacketPC (txADCValuesPC x)).numDynamixelRetries = x.numDynamixelRetries :=
    fun _ => ⟨rfl, rfl⟩
  obtain ⟨t1, t2⟩ := hst (txPC (txPC s3 s3.status 1) (txPC s3 s3.status 1).numDynamixelRetries 1)
  rw [t1, t2, hadc]
  have u1 : (txPC (txPC s3 s3.status 1) (txPC s3 s3.status 1).numDynamixelRetries 1).status =
      s3.status := rfl
  have u2 : (txPC (txPC s3 s3.status 1)
      (txPC s3 s3.status 1).numDynamixelRetries 1).numDynamixelRetries =
      s3.numDynamixelRetries := rfl
  rw [u1, u2]
  have hck : 255 - (s3.checksumTxPC + s3.status + s3.numDynamixelRetries + s.adcValue 0 +
      s.adcValue 1 + s.adcValue 2) % 256 =
      255 - (I_DATA + L.sum + s3.status + s3.numDynamixelRetries + s.adcValue 0 +
        s.adcValue 1 + s.adcValue 2) % 256 := by
    simp only [I_DATA] at hsum ⊢
    omega
  rw [hck]
  simp

/-- Witness of `ping_bad_checksum`: device 5 answers four times with error
byte 0 and checksum byte 0 (the right one is 0xF8). -/
theorem ping_bad_checksum_witness :
    ∃ t, commandLoopBody 4
        (initState (fun _ => 0) [some 0xF0, some 5, some 10]
          (pingReplies 5 [(0, 0), (0, 0), (0, 0), (0, 0)])) = .ret () t ∧
      t.pcTxBuffer = [0xFA, 128, 3, 0, 0, 0, 130] := by
  obtain ⟨t, h1, _, h3, _⟩ :=
    ping_bad_checksum 4
      (initState (fun _ => 0) [some 0xF0, some 5, some 10]
        (pingReplies 5 [(0, 0), (0, 0), (0, 0), (0, 0)]))
      5 [(0, 0), (0, 0), (0, 0), (0, 0)] [] [] (by decide) (by decide) rfl (by decide) rfl
      (by simp [initState]) (by intro b hb; cases hb)
  exact ⟨t, h1, h3⟩

/-- Witness of `handleReadData_layout`: the read format (1, 0, 1), the host
checksum byte pending, no bus reply. -/
theorem handleReadData_layout_witness :
    ∃ (t : State) (payload : List Nat),
      handleReadData 4
        { initState layoutAdc [some 12] [] with
          numDynamixels := upd (fun _ => 0) 0 1
          totalNumBytes := upd (fun _ => 0) 0 1
          axID := upd2 (fun _ _ => 0) 0 0 1
          numBytes := upd2 (fun _ _ => 0) 0 0 1 } = .ret () t ∧
      payload.length = 1 := by
  obtain ⟨t, payload, h1, h2, _⟩ :=
    handleReadData_layout 4
      { initState layoutAdc [some 12] [] with
        numDynamixels := upd (fun _ => 0) 0 1
        totalNumBytes := upd (fun _ => 0) 0 1
        axID := upd2 (fun _ _ => 0) 0 0 1
        numBytes := upd2 (fun _ _ => 0) 0 0 1 }
      12 [] (by decide) rfl (by decide)
      (by
        intro i hi
        have hi0 : i = 0 := by
          have : i < 1 := hi
          omega
        subst hi0
        exact ⟨by decide, by decide⟩)
      (by decide) (by intro b hb; cases hb)
  exact ⟨t, payload, h1, h2⟩

/-- Witness of `retry_count_bound`: the bound 3 is reached by a ping whose four
replies all carry a wrong checksum. -/
theorem retry_count_bound_witness :
    (commandLoopBody 4
        (initState (fun _ => 0) [some 0xF0, some 5, some 10]
          (pingReplies 5 [(0, 0), (0, 0), (0, 0), (0, 0)]))).state.numDynamixelRetries = 3 ∧
    (commandLoopBody 4
        (initState (fun _ => 0) [some 0xF0, some 5, some 10]
          (pingReplies 5 [(0, 0), (0, 0), (0, 0), (0, 0)]))).state.numDynamixelRetries ≤ 3 :=
  ⟨by decide,
    (retry_count_bound 4
      (initState (fun _ => 0) [some 0xF0, some 5, some 10]
        (pingReplies 5 [(0, 0), (0, 0), (0, 0), (0, 0)]))).1⟩

/-! ### Command dispatch -/

theorem selectHandler_table :
    ∀ b, b < 256 →
      selectHandler b =
        (if b = 0xF0 then Handler.handlePing
         else if b = 0xF1 then Handler.handleSetReadFormat
         else if b = 0xF2 then Handler.handleSetWriteFormat
         else if b = 0xF3 then Handler.handleReadData
         else if b = 0xF4 then Handler.handleWriteData
         else Handler.handleInvalid) ∧
      (selectHandler b = Handler.handleInvalid ↔ (b / 16 ≠ 15 ∨ 5 ≤ b % 16)) := by
  intro b hb
  interval_cases b <;> exact ⟨rfl, by decide⟩

set_option maxRecDepth 100000 in
theorem selectHandler_invalid_count :
    ((List.range 256).filter fun x => decide (selectHandler x = Handler.handleInvalid)).length
      = 251 := by
  decide

theorem rxPCWait_idle (s : State) (hs : s.enableRxPCTimeout = 0) (b : Nat)
    (rest : List (Option Nat)) :
    ∀ k : Nat, rxPCWait s 1 (List.replicate k none ++ some b :: rest) =
      .ret (some b) { s with pcRxBuffer := rest, checksumRxPC := (s.checksumRxPC + b) % 256 } := by
  intro k
  induction k with
  | zero => simp [rxPCWait]
  | succ k ih => simp [List.replicate_succ, rxPCWait, hs, ih]

/-- C11: for every instruction byte `b`, `commandLoop` selects `handlePing`,
`handleSetReadFormat`, `handleSetWriteFormat`, `handleReadData`,
`handleWriteData` for 0xF0 .. 0xF4 and `handleInvalid` for each of the other
251 byte values (those whose top nybble is not 0xF or whose low nybble is 5 to
15), and one iteration of its loop, once `b` arrives after any number of idle
waits, runs exactly the selected handler on the reset state. -/
theorem commandLoop_dispatch (b : Nat) (hb : b < 256) :
    selectHandler b =
        (if b = 0xF0 then Handler.handlePing
         else if b = 0xF1 then Handler.handleSetReadFormat
         else if b = 0xF2 then Handler.handleSetWriteFormat
         else if b = 0xF3 then Handler.handleReadData
         else if b = 0xF4 then Handler.handleWriteData
         else Handler.handleInvalid) ∧
    (selectHandler b = Handler.handleInvalid ↔ (b / 16 ≠ 15 ∨ 5 ≤ b % 16)) ∧
    ((List.range 256).filter fun x => decide (selectHandler x = Handler.handleInvalid)).length
      = 251 ∧
    ∀ (fuel idle : Nat) (s : State) (rest : List (Option Nat)),
      s.pcRxBuffer = List.replicate idle none ++ some b :: rest →
      commandLoopBody (fuel + 1) s =
        (selectHandler b).run (fuel + 1)
          { s with
            status := 0
            numDynamixelRetries := 0
            checksumRxPC := b
            enableRxPCTimeout := 1
            pcRxBuffer := rest } := by
  refine ⟨(selectHandler_table b hb).1, (selectHandler_table b hb).2,
    selectHandler_invalid_count, ?_⟩
  intro fuel idle s rest hrx
  unfold commandLoopBody
  simp only [idleWait, rxPC, hrx]
  rw [rxPCWait_idle _ rfl]
  simp only [Run.bind_ret, Nat.zero_add, Nat.mod_eq_of_lt hb]

/-- Witness of `commandLoop_dispatch`: 0xF3 selects `handleReadData`, and a
cycle that sees two idle waits and then 0xF5 runs the handler selected for
0xF5 with the byte 7 still pending. -/
theorem commandLoop_dispatch_witness :
    selectHandler 0xF3 = Handler.handleReadData ∧
    commandLoopBody 1 (initState (fun _ => 0) [none, none, some 0xF5, some 7] []) =
      (selectHandler 0xF5).run 1
        { initState (fun _ => 0) [none, none, some 0xF5, some 7] [] with
          status := 0
          numDynamixelRetries := 0
          checksumRxPC := 0xF5
          enableRxPCTimeout := 1
          pcRxBuffer := [some 7] } :=
  ⟨(commandLoop_dispatch 0xF3 (by decide)).1,
    (commandLoop_dispatch 0xF5 (by decide)).2.2.2 0 2
      (initState (fun _ => 0) [none, none, some 0xF5, some 7] []) [some 7] rfl⟩

/-! ### Ping of the reserved addresses -/

theorem commandLoopBody_ping (fuel : Nat) (s : State) (addr : Nat)
    (hostRest : List (Option Nat))
    (hhost : s.pcRxBuffer =
      some 0xF0 :: some addr :: some (255 - (0xF0 + addr) % 256) :: hostRest) :
    commandLoopBody (fuel + 1) s =
      (if addr ≤ 253 then
          (pingRetryLoop (fuel + 1)
              { s with
                status := 0
                numDynamixelRetries := 0
                checksumRxPC := (0xF0 + addr) % 256
                enableRxPCTimeout := 1
                pcRxBuffer := hostRest } addr ⟨0xff, 0xff, 0xff⟩).bind fun out s3 =>
            .ret ()
              (if out.id ≠ addr then setStatusFlag s3 S_INVALID_DYNAMIXEL_RESPONSE else s3)
        else
          .ret ()
            { s with
              status := 0
              numDynamixelRetries := 0
              checksumRxPC := (0xF0 + addr) % 256
              enableRxPCTimeout := 1
              pcRxBuffer := hostRest }).bind fun _ s4 =>
        .ret () (txStatusPC (if addr = 254 then setStatusFlag s4 S_INVALID_PC_COMMAND else s4)) := by
  have hck : (255 - (0xF0 + addr) % 256) = 255 - ((0 + 0xF0) % 256 + addr) % 256 % 256 := by
    omega
  have hsum : ((0 + 0xF0) % 256 + addr) % 256 = (0xF0 + addr) % 256 := by omega
  unfold commandLoopBody
  simp only [idleWait, rxPC, hhost, rxPCWait, Run.bind_ret, ne_eq, one_ne_zero,
    not_false_eq_true, if_true, show selectHandler 0xF0 = Handler.handlePing from by decide,
    Handler.run, handlePing, endRXPacketPC, not8, hck, not_true_eq_false, if_false, hsum]

/-- C12: a Ping command with a valid host checksum whose address is 254 is
answered with the status byte 4 (InvalidHostCommand alone), one whose address
is 255 with the status byte 0; in both cases the retry count is 0 and nothing
is transmitted on the bus, nor read from it. -/
theorem ping_254_255 (fuel : Nat) (s : State) (addr : Nat) (hostRest : List (Option Nat))
    (hfuel : 1 ≤ fuel) (haddr : addr = 254 ∨ addr = 255)
    (hhost : s.pcRxBuffer =
      some 0xF0 :: some addr :: some (255 - (0xF0 + addr) % 256) :: hostRest) :
    ∃ t, commandLoopBody fuel s = .ret () t ∧
      t.dynamixelTxBuffer = s.dynamixelTxBuffer ∧
      t.dynamixelRxBuffer = s.dynamixelRxBuffer ∧
      t.pcTxBuffer =
        s.pcTxBuffer ++
          [0xFA, (if addr = 254 then S_INVALID_PC_COMMAND else 0), 0,
            s.adcValue 0, s.adcValue 1, s.adcValue 2,
            255 - (0xFA + (if addr = 254 then S_INVALID_PC_COMMAND else 0) + 0 + s.adcValue 0 +
              s.adcValue 1 + s.adcValue 2) % 256] ∧
      t.pcRxBuffer = hostRest := by
  obtain ⟨fuel, rfl⟩ : ∃ k, fuel = k + 1 := ⟨fuel - 1, by omega⟩
  rw [commandLoopBody_ping fuel s addr hostRest hhost]
  rw [if_neg (by omega)]
  simp only [Run.bind_ret]
  refine ⟨_, rfl, ?_, ?_, ?_, ?_⟩
  · simp only [txStatusPC_dynamixelTxBuffer]
    split <;> rfl
  · simp only [txStatusPC_dynamixelRxBuffer]
    split <;> rfl
  · rw [txStatusPC_tx]
    rcases haddr with h | h
    · subst h
      simp [setStatusFlag]
    · subst h
      simp
  · simp only [txStatusPC_pcRxBuffer]
    split <;> rfl

/-- Witness of `ping_254_255`: the command 0xF0 0xFE 0x11 on the initial
state. -/
theorem ping_254_255_witness :
    ∃ t, commandLoopBody 1 (initState (fun _ => 0) [some 0xF0, some 254, some 17] []) =
        .ret () t ∧
      t.dynamixelTxBuffer = [] ∧ t.pcTxBuffer = [0xFA, 4, 0, 0, 0, 0, 1] := by
  obtain ⟨t, h1, h2, _, h4, _⟩ :=
    ping_254_255 1 (initState (fun _ => 0) [some 0xF0, some 254, some 17] []) 254 []
      (by decide) (Or.inl rfl) rfl
  exact ⟨t, h1, h2, h4⟩

/-! ### Ping of a device address -/

theorem startTX_rx (s : State) (id n i : Nat) :
    (startTXPacketDynamixel s id n i).dynamixelRxBuffer = s.dynamixelRxBuffer := rfl

theorem endTX_rx (s : State) :
    (endTXPacketDynamixel s).2.dynamixelRxBuffer = s.dynamixelRxBuffer := by
  unfold endTXPacketDynamixel
  simp only [txDynamixel]
  cases s.dynamixelTxDone with
  | nil => rfl
  | cons b bs => cases b <;> rfl

theorem rxPacket_noReply (s : State) (out : RxHeader) (p : Bool) (e : Nat)
    (h : NoReply s.dynamixelRxBuffer) :
    ∃ t, rxPacketDynamixel s out p e = (false, out, t) := by
  unfold rxPacketDynamixel startRXPacketDynamixel
  rcases h with h | ⟨r, h⟩
  · simp only [rxDynamixel, h]
    exact ⟨_, rfl⟩
  · simp only [rxDynamixel, h]
    exact ⟨_, rfl⟩

theorem pingRetryLoop_noReply (fuel : Nat) (s : State) (addr : Nat) (out : RxHeader)
    (h : NoReply s.dynamixelRxBuffer) :
    ∃ t, pingRetryLoop (fuel + 1) s addr out = .ret out t := by
  unfold pingRetryLoop
  cases he : endTXPacketDynamixel (startTXPacketDynamixel s addr 0 D_I_PING) with
  | mk b s1 =>
    cases b with
    | false => exact ⟨_, rfl⟩
    | true =>
      have hrx : s1.dynamixelRxBuffer = s.dynamixelRxBuffer := by
        have := endTX_rx (startTXPacketDynamixel s addr 0 D_I_PING)
        rw [he] at this
        exact this
      obtain ⟨t, e⟩ := rxPacket_noReply s1 out false 0 (by rw [hrx]; exact h)
      simp only [e]
      exact ⟨_, rfl⟩

theorem tryDynamixelAgain_no (s : State) (e : Nat)
    (he : e &&& DYNAMIXEL_INSTRUCTION_CHECKSUM_ERROR = 0)
    (hs : s.status &&& S_DYNAMIXEL_CHECKSUM_ERROR = 0) :
    tryDynamixelAgain s e = (false, s) := by
  unfold tryDynamixelAgain
  rw [if_neg]
  rintro ⟨h | h, _⟩
  · exact h he
  · exact h hs

theorem and_127_and_128 (x : Nat) : x &&& (255 - 128) &&& 128 = 0 := by
  show x &&& 127 &&& 128 = 0
  rw [Nat.and_assoc]
  exact Nat.and_zero x

theorem or_128_and_128 (x : Nat) : (x ||| 128) &&& 128 ≠ 0 := by
  intro h
  have h7 : ((x ||| 128) &&& 128).testBit 7 = true := by
    have h128 : Nat.testBit 128 7 = true := by decide
    rw [Nat.testBit_and, Nat.testBit_or, h128]
    simp
  rw [h] at h7
  simp at h7

theorem tryDynamixelAgain_again (s : State) (e : Nat)
    (h : e &&& DYNAMIXEL_INSTRUCTION_CHECKSUM_ERROR ≠ 0 ∨
      s.status &&& S_DYNAMIXEL_CHECKSUM_ERROR ≠ 0)
    (hr : s.numDynamixelRetries < 3) :
    ∃ s3, tryDynamixelAgain s e = (true, s3) ∧
      s3.status &&& S_DYNAMIXEL_CHECKSUM_ERROR = 0 ∧
      s3.numDynamixelRetries = s.numDynamixelRetries + 1 ∧
      s3.dynamixelTxBuffer = s.dynamixelTxBuffer ∧ s3.dynamixelRxBuffer = s.dynamixelRxBuffer ∧
      s3.hostSide = s.hostSide ∧ s3.dynamixelTxDone = s.dynamixelTxDone ∧
      s3.dynamixelParams = s.dynamixelParams := by
  unfold tryDynamixelAgain
  rw [if_pos ⟨h, hr⟩]
  refine ⟨_, rfl, ?_, ?_, rfl, rfl, rfl, rfl, rfl⟩
  · exact and_127_and_128 s.status
  · show (s.numDynamixelRetries + 1) % 256 = _
    omega

theorem tryDynamixelAgain_rx (s : State) (e : Nat) :
    (tryDynamixelAgain s e).2.dynamixelRxBuffer = s.dynamixelRxBuffer := by
  unfold tryDynamixelAgain
  split <;> rfl

theorem pingRetryLoop_last (addr : Nat) (last : Nat × Nat × Nat) (rest : List (Option Nat)) :
    ∀ (pre : List (Nat × Nat × Nat)) (fuel : Nat) (s : State) (out : RxHeader),
      s.status &&& S_DYNAMIXEL_CHECKSUM_ERROR = 0 →
      s.numDynamixelRetries + pre.length ≤ 3 → 3 - s.numDynamixelRetries < fuel →
      AllDrain s → (∀ r ∈ pre, Retried r) →
      (s.numDynamixelRetries + pre.length = 3 ∨ ¬ Retried last ∨ NoReply rest) →
      s.dynamixelRxBuffer = statusReplies (pre ++ [last]) ++ rest →
      ∃ t out1, pingRetryLoop fuel s addr out = .ret out1 t ∧ out1.id = last.1 := by
  intro pre
  induction pre with
  | nil =>
    intro fuel s out hst hlen hfuel hd _ hend hrx
    obtain ⟨fuel, rfl⟩ : ∃ k, fuel = k + 1 := ⟨fuel - 1, by omega⟩
    simp only [List.nil_append, statusReplies, List.cons_append] at hrx
    simp only [List.length_nil, Nat.add_zero] at hlen hend
    obtain ⟨s1, e1, a1, a2, a3, a4, a5, a6⟩ := endTX_ping_facts s addr hd
    obtain ⟨s2, e2, b1, b2, b3, b4, b5, b6⟩ :=
      rxPacket_pingReply_facts s1 out last.1 last.2.1 last.2.2 rest (a4.trans hrx)
    unfold pingRetryLoop
    rw [e1]
    simp only
    rw [e2]
    simp only
    cases ht : tryDynamixelAgain s2 last.2.1 with
    | mk b s3 =>
      cases b with
      | false => exact ⟨_, _, rfl, rfl⟩
      | true =>
        have htrue := tryDynamixelAgain_true s2 last.2.1 (by rw [ht])
        rw [b3, a3] at htrue
        have hs3 : s3.dynamixelRxBuffer = rest := by
          have := tryDynamixelAgain_rx s2 last.2.1
          rw [ht] at this
          exact this.trans b4
        have hno : NoReply rest := by
          rcases hend with h | h | h
          · omega
          · exfalso
            have he : last.2.1 &&& DYNAMIXEL_INSTRUCTION_CHECKSUM_ERROR = 0 := by
              by_contra hne
              exact h (Or.inl hne)
            have hc : last.2.2 = 255 - (last.1 + 2 + last.2.1) % 256 := by
              by_contra hne
              exact h (Or.inr hne)
            rw [if_pos hc, a2] at b1
            rw [tryDynamixelAgain_no s2 last.2.1 he (by rw [b1]; exact hst)] at ht
            cases ht
          · exact h
        obtain ⟨fuel, rfl⟩ : ∃ k, fuel = k + 1 := ⟨fuel - 1, by omega⟩
        obtain ⟨t, e⟩ :=
          pingRetryLoop_noReply fuel s3 addr ⟨last.1, 0, last.2.1⟩ (by rw [hs3]; exact hno)
        simp only
        exact ⟨t, _, e, rfl⟩
  | cons r rs ih =>
    intro fuel s out hst hlen hfuel hd hpre hend hrx
    obtain ⟨fuel, rfl⟩ : ∃ k, fuel = k + 1 := ⟨fuel - 1, by omega⟩
    simp only [List.cons_append, statusReplies] at hrx
    simp only [List.length_cons] at hlen hend
    obtain ⟨s1, e1, a1, a2, a3, a4, a5, a6⟩ := endTX_ping_facts s addr hd
    obtain ⟨s2, e2, b1, b2, b3, b4, b5, b6⟩ :=
      rxPacket_pingReply_facts s1 out r.1 r.2.1 r.2.2 (statusReplies (rs ++ [last]) ++ rest)
        (a4.trans hrx)
    have hr : r.2.1 &&& DYNAMIXEL_INSTRUCTION_CHECKSUM_ERROR ≠ 0 ∨
        s2.status &&& S_DYNAMIXEL_CHECKSUM_ERROR ≠ 0 := by
      rcases hpre r (List.mem_cons_self _ _) with h | h
      · exact Or.inl h
      · right
        rw [b1, if_neg h]
        exact or_128_and_128 _
    obtain ⟨s3, e3, c1, c2, c3, c4, c5, c6, _⟩ :=
      tryDynamixelAgain_again s2 r.2.1 hr (by rw [b3, a3]; omega)
    unfold pingRetryLoop
    rw [e1]
    simp only
    rw [e2]
    simp only
    rw [e3]
    simp only
    exact ih fuel s3 ⟨r.1, 0, r.2.1⟩ c1 (by rw [c2, b3, a3]; omega) (by rw [c2, b3, a3]; omega)
      (by
        intro b hb
        rw [c6, b6] at hb
        exact a6 b hb)
      (fun x hx => hpre x (List.mem_cons_of_mem _ hx))
      (by
        rcases hend with h | h | h
        · left
          rw [c2, b3, a3]
          omega
        · exact Or.inr (Or.inl h)
        · exact Or.inr (Or.inr h))
      (by rw [c4, b4])

theorem or_and_flag (x f : Nat) : (x ||| f) &&& f = f := by
  apply Nat.eq_of_testBit_eq
  intro i
  simp only [Nat.testBit_and, Nat.testBit_or]
  cases x.testBit i <;> cases f.testBit i <;> rfl

theorem ping_flagged (fuel : Nat) (s : State) (addr : Nat) (hostRest : List (Option Nat))
    (haddr : addr ≤ 253)
    (hhost : s.pcRxBuffer =
      some 0xF0 :: some addr :: some (255 - (0xF0 + addr) % 256) :: hostRest)
    (hout : ∀ s0 : State, s0.dynamixelRxBuffer = s.dynamixelRxBuffer → s0.status = 0 →
      s0.numDynamixelRetries = 0 → s0.dynamixelTxDone = s.dynamixelTxDone →
      s0.pcTxBuffer = s.pcTxBuffer → s0.adcValue = s.adcValue →
      ∃ t out, pingRetryLoop (fuel + 1) s0 addr ⟨0xff, 0xff, 0xff⟩ = .ret out t ∧
        out.id ≠ addr) :
    ∃ t st r c, commandLoopBody (fuel + 1) s = .ret () t ∧
      t.pcTxBuffer = s.pcTxBuffer ++ [0xFA, st, r, s.adcValue 0, s.adcValue 1, s.adcValue 2, c] ∧
      st &&& S_INVALID_DYNAMIXEL_RESPONSE ≠ 0 := by
  rw [commandLoopBody_ping fuel s addr hostRest hhost, if_pos haddr]
  obtain ⟨s0, hs0, f1, f2, f3, f4, f5, f6⟩ : ∃ s0 : State,
      ({ s with
        status := 0
        numDynamixelRetries := 0
        checksumRxPC := (0xF0 + addr) % 256
        enableRxPCTimeout := 1
        pcRxBuffer := hostRest } : State) = s0 ∧
      s0.dynamixelRxBuffer = s.dynamixelRxBuffer ∧ s0.status = 0 ∧
      s0.numDynamixelRetries = 0 ∧ s0.dynamixelTxDone = s.dynamixelTxDone ∧
      s0.pcTxBuffer = s.pcTxBuffer ∧ s0.adcValue = s.adcValue :=
    ⟨_, rfl, rfl, rfl, rfl, rfl, rfl, rfl⟩
  rw [hs0]
  obtain ⟨t, out, e, hid⟩ := hout s0 f1 f2 f3 f4 f5 f6
  have hstep := (pingRetryLoop_spec (fuel + 1) s0 addr ⟨0xff, 0xff, 0xff⟩).1
  rw [e] at hstep ⊢
  simp only [Run.state_ret] at hstep
  have htx : t.pcTxBuffer = s.pcTxBuffer := (congrArg HostSide.pcTxBuffer hstep.host).trans f5
  have hadc : t.adcValue = s.adcValue := (congrArg HostSide.adcValue hstep.host).trans f6
  simp only [Run.bind_ret, if_pos hid, if_neg (show ¬ addr = 254 by omega)]
  refine ⟨_, t.status ||| S_INVALID_DYNAMIXEL_RESPONSE, t.numDynamixelRetries,
    255 - (0xFA + (t.status ||| S_INVALID_DYNAMIXEL_RESPONSE) + t.numDynamixelRetries +
      s.adcValue 0 + s.adcValue 1 + s.adcValue 2) % 256, rfl, ?_, ?_⟩
  · rw [txStatusPC_tx]
    simp only [setStatusFlag, htx, hadc]
  · rw [or_and_flag]
    decide

/-- C13: a ping of `addr` ≤ 253 with a valid host checksum.  When the device
answers the well-formed packet 0xFF 0xFF addr 2 err c (bit 4 of err clear, c
the right checksum) the status response carries status 0 (InvalidBusResponse
clear) and retry count 0.  When the last reply received carries an id
different from `addr` (after up to three replies that were retried, the loop
ending because the retries are used up, or the reply is not one to retry, or
nothing more arrives), or when no reply arrives at all, the status byte of the
response has InvalidBusResponse set. -/
theorem ping_device (fuel : Nat) (s : State) (addr : Nat) (hostRest : List (Option Nat))
    (hfuel : 4 ≤ fuel) (haddr : addr ≤ 253)
    (hhost : s.pcRxBuffer =
      some 0xF0 :: some addr :: some (255 - (0xF0 + addr) % 256) :: hostRest) :
    (∀ (err : Nat) (busRest : List (Option Nat)),
      err &&& DYNAMIXEL_INSTRUCTION_CHECKSUM_ERROR = 0 → AllDrain s →
      s.dynamixelRxBuffer =
        statusReplies [(addr, err, 255 - (addr + 2 + err) % 256)] ++ busRest →
      ∃ t, commandLoopBody fuel s = .ret () t ∧
        t.dynamixelTxBuffer = s.dynamixelTxBuffer ++ pingPacket addr ∧
        t.pcTxBuffer =
          s.pcTxBuffer ++
            [0xFA, 0, 0, s.adcValue 0, s.adcValue 1, s.adcValue 2,
              255 - (0xFA + 0 + 0 + s.adcValue 0 + s.adcValue 1 + s.adcValue 2) % 256]) ∧
    (∀ (pre : List (Nat × Nat × Nat)) (last : Nat × Nat × Nat) (busRest : List (Option Nat)),
      AllDrain s → pre.length ≤ 3 → (∀ r ∈ pre, Retried r) → last.1 ≠ addr →
      (pre.length = 3 ∨ ¬ Retried last ∨ NoReply busRest) →
      s.dynamixelRxBuffer = statusReplies (pre ++ [last]) ++ busRest →
      ∃ t st r c, commandLoopBody fuel s = .ret () t ∧
        t.pcTxBuffer =
          s.pcTxBuffer ++ [0xFA, st, r, s.adcValue 0, s.adcValue 1, s.adcValue 2, c] ∧
        st &&& S_INVALID_DYNAMIXEL_RESPONSE ≠ 0) ∧
    (NoReply s.dynamixelRxBuffer →
      ∃ t st r c, commandLoopBody fuel s = .ret () t ∧
        t.pcTxBuffer =
          s.pcTxBuffer ++ [0xFA, st, r, s.adcValue 0, s.adcValue 1, s.adcValue 2, c] ∧
        st &&& S_INVALID_DYNAMIXEL_RESPONSE ≠ 0) := by
  obtain ⟨fuel, rfl⟩ : ∃ k, fuel = k + 1 := ⟨fuel - 1, by omega⟩
  refine ⟨?_, ?_, ?_⟩
  · intro err busRest herr hd hbus
    simp only [statusReplies, List.cons_append, List.nil_append] at hbus
    rw [commandLoopBody_ping fuel s addr hostRest hhost, if_pos haddr]
    obtain ⟨s1, e1, a1, a2, a3, a4, a5, a6⟩ :=
      endTX_ping_facts
        { s with
          status := 0
          numDynamixelRetries := 0
          checksumRxPC := (0xF0 + addr) % 256
          enableRxPCTimeout := 1
          pcRxBuffer := hostRest } addr hd
    obtain ⟨s2, e2, b1, b2, b3, b4, b5, b6⟩ :=
      rxPacket_pingReply_facts s1 ⟨0xff, 0xff, 0xff⟩ addr err (255 - (addr + 2 + err) % 256)
        busRest (a4.trans hbus)
    rw [if_pos rfl, a2] at b1
    have b1' : s2.status = 0 := b1
    have e3 := tryDynamixelAgain_no s2 err herr (by rw [b1']; rfl)
    unfold pingRetryLoop
    rw [e1]
    simp only
    rw [e2]
    simp only
    rw [e3]
    simp only [Run.bind_ret, ne_eq, not_true_eq_false, if_false,
      if_neg (show ¬ addr = 254 by omega)]
    have htx : s2.pcTxBuffer = s.pcTxBuffer :=
      (congrArg HostSide.pcTxBuffer b5).trans (congrArg HostSide.pcTxBuffer a5)
    have hadc : s2.adcValue = s.adcValue :=
      (congrArg HostSide.adcValue b5).trans (congrArg HostSide.adcValue a5)
    refine ⟨_, rfl, ?_, ?_⟩
    · rw [txStatusPC_dynamixelTxBuffer, b2, a1]
    · rw [txStatusPC_tx, htx, hadc, b1', b3, a3]
  · intro pre last busRest hd hlen hpre hlast hend hbus
    refine ping_flagged fuel s addr hostRest haddr hhost ?_
    intro s0 h1 h2 h3 h4 _ _
    obtain ⟨t, out, e, hid⟩ :=
      pingRetryLoop_last addr last busRest pre (fuel + 1) s0 ⟨0xff, 0xff, 0xff⟩
        (by rw [h2]; rfl) (by rw [h3]; omega) (by rw [h3]; omega)
        (fun b hb => hd b (by rw [← h4]; exact hb)) hpre
        (by
          rcases hend with h | h | h
          · left
            rw [h3]
            omega
          · exact Or.inr (Or.inl h)
          · exact Or.inr (Or.inr h))
        (h1.trans hbus)
    exact ⟨t, out, e, by rw [hid]; exact hlast⟩
  · intro hno
    refine ping_flagged fuel s addr hostRest haddr hhost ?_
    intro s0 h1 _ _ _ _ _
    obtain ⟨t, e⟩ := pingRetryLoop_noReply fuel s0 addr ⟨0xff, 0xff, 0xff⟩ (by rw [h1]; exact hno)
    exact ⟨t, _, e, by show 0xff ≠ addr; omega⟩

/-- Witness of `ping_device`: PING(100) answered by device 100, answered by
device 7, and not answered. -/
theorem ping_device_witness :
    (∃ t, commandLoopBody 4
          (initState (fun _ => 0) [some 0xF0, some 100, some 171]
            (statusReplies [(100, 0, 153)])) = .ret () t ∧
        t.pcTxBuffer = [0xFA, 0, 0, 0, 0, 0, 5]) ∧
    (∃ t st r c, commandLoopBody 4
          (initState (fun _ => 0) [some 0xF0, some 100, some 171]
            (statusReplies [(7, 0, 246)])) = .ret () t ∧
        t.pcTxBuffer = [0xFA, st, r, 0, 0, 0, c] ∧ st &&& S_INVALID_DYNAMIXEL_RESPONSE ≠ 0) ∧
    (∃ t st r c, commandLoopBody 4
          (initState (fun _ => 0) [some 0xF0, some 100, some 171] []) = .ret () t ∧
        t.pcTxBuffer = [0xFA, st, r, 0, 0, 0, c] ∧ st &&& S_INVALID_DYNAMIXEL_RESPONSE ≠ 0) := by
  refine ⟨?_, ?_, ?_⟩
  · obtain ⟨t, h1, _, h3⟩ :=
      (ping_device 4
        (initState (fun _ => 0) [some 0xF0, some 100, some 171] (statusReplies [(100, 0, 153)]))
        100 [] (by decide) (by decide) rfl).1 0 [] (by decide) (by intro b hb; cases hb) rfl
    exact ⟨t, h1, h3⟩
  · exact
      (ping_device 4
        (initState (fun _ => 0) [some 0xF0, some 100, some 171] (statusReplies [(7, 0, 246)]))
        100 [] (by decide) (by decide) rfl).2.1 [] (7, 0, 246) [] (by intro b hb; cases hb)
        (by decide) (by intro r hr; cases hr) (by decide)
        (Or.inr (Or.inl (by simp [Retried]))) rfl
  · exact
      (ping_device 4 (initState (fun _ => 0) [some 0xF0, some 100, some 171] [])
        100 [] (by decide) (by decide) rfl).2.2 (Or.inl rfl)

/-! ### Bus packet framing -/

theorem foldl_txDynamixel (ps : List Nat) :
    ∀ s : State,
      (ps.foldl (fun t b => txDynamixel t b 1) s).dynamixelTxBuffer =
        s.dynamixelTxBuffer ++ ps ∧
      (ps.foldl (fun t b => txDynamixel t b 1) s).checksumTxDynamixel % 256 =
        (s.checksumTxDynamixel + ps.sum) % 256 ∧
      (ps.foldl (fun t b => txDynamixel t b 1) s).dynamixelTxDone = s.dynamixelTxDone ∧
      (ps.foldl (fun t b => txDynamixel t b 1) s).status = s.status ∧
      (ps.foldl (fun t b => txDynamixel t b 1) s).numDynamixelRetries =
        s.numDynamixelRetries ∧
      (ps.foldl (fun t b => txDynamixel t b 1) s).dynamixelRxBuffer = s.dynamixelRxBuffer ∧
      (ps.foldl (fun t b => txDynamixel t b 1) s).dynamixelParams = s.dynamixelParams ∧
      (ps.foldl (fun t b => txDynamixel t b 1) s).hostSide = s.hostSide := by
  induction ps with
  | nil => intro s; simp
  | cons b bs ih =>
    intro s
    obtain ⟨h1, h2, h3, h4, h5, h6, h7, h8⟩ := ih (txDynamixel s b 1)
    simp only [List.foldl_cons]
    refine ⟨?_, ?_, h3, h4, h5, h6, h7, h8⟩
    · rw [h1]
      simp [txDynamixel]
    · rw [h2]
      simp only [txDynamixel, ne_eq, one_ne_zero, not_false_eq_true, if_true, List.sum_cons]
      omega

theorem writeTxLoop_foldl :
    ∀ (k j : Nat) (s : State),
      writeTxLoop k j s =
        ((List.range' j k).map s.dynamixelParams).foldl (fun t b => txDynamixel t b 1) s := by
  intro k
  induction k with
  | zero => intro j s; rfl
  | succ k ih =>
    intro j s
    rw [writeTxLoop, ih]
    rfl

theorem txPacket_facts (s : State) (id k instr : Nat) (ps : List Nat)
    (hk : (k + 2) % 256 = (ps.length + 2) % 256) :
    ∃ s1,
      endTXPacketDynamixel
          (ps.foldl (fun t b => txDynamixel t b 1) (startTXPacketDynamixel s id k instr)) =
        (decide (s.dynamixelTxDone.head? ≠ some false), s1) ∧
      s1.dynamixelTxBuffer = s.dynamixelTxBuffer ++ busPacket id instr ps ∧
      s1.dynamixelTxDone = s.dynamixelTxDone.tail ∧
      s1.status =
        (if s.dynamixelTxDone.head? ≠ some false then s.status
         else s.status ||| S_DYNAMIXEL_TIMEOUT) ∧
      s1.numDynamixelRetries = s.numDynamixelRetries ∧
      s1.dynamixelRxBuffer = s.dynamixelRxBuffer ∧
      s1.dynamixelParams = s.dynamixelParams ∧
      s1.hostSide = s.hostSide := by
  obtain ⟨h1, h2, h3, h4, h5, h6, h7, h8⟩ :=
    foldl_txDynamixel ps (startTXPacketDynamixel s id k instr)
  generalize ps.foldl (fun t b => txDynamixel t b 1) (startTXPacketDynamixel s id k instr) = T
    at h1 h2 h3 h4 h5 h6 h7 h8 ⊢
  have g1 : (startTXPacketDynamixel s id k instr).dynamixelTxBuffer =
      s.dynamixelTxBuffer ++ [0xFF, 0xFF, id, (k + 2) % 256, instr] := by
    simp [startTXPacketDynamixel, txDynamixel]
  have g2 : (startTXPacketDynamixel s id k instr).checksumTxDynamixel =
      (((0 + id) % 256 + (k + 2) % 256) % 256 + instr) % 256 := by
    simp [startTXPacketDynamixel, txDynamixel]
  have g3 : (startTXPacketDynamixel s id k instr).dynamixelTxDone = s.dynamixelTxDone := by
    simp only [startTXPacketDynamixel, txDynamixel]
  have g4 : (startTXPacketDynamixel s id k instr).status = s.status := by
    simp only [startTXPacketDynamixel, txDynamixel]
  have g5 : (startTXPacketDynamixel s id k instr).numDynamixelRetries =
      s.numDynamixelRetries := by
    simp only [startTXPacketDynamixel, txDynamixel]
  have g6 : (startTXPacketDynamixel s id k instr).dynamixelRxBuffer = s.dynamixelRxBuffer := by
    simp only [startTXPacketDynamixel, txDynamixel]
  have g7 : (startTXPacketDynamixel s id k instr).dynamixelParams = s.dynamixelParams := by
    simp only [startTXPacketDynamixel, txDynamixel]
  have g8 : (startTXPacketDynamixel s id k instr).hostSide = s.hostSide :=
    (Step.startTXPacketDynamixel s id k instr).host
  rw [g1] at h1
  rw [g2] at h2
  rw [g3] at h3
  rw [g4] at h4
  rw [g5] at h5
  rw [g6] at h6
  rw [g7] at h7
  rw [g8] at h8
  have hc : not8 T.checksumTxDynamixel =
      255 - (id + ps.length + 2 + instr + ps.sum) % 256 := by
    unfold not8
    omega
  unfold endTXPacketDynamixel
  simp only [txDynamixel, ne_eq, not_true_eq_false, if_false, hc, h1, h3]
  have hpk : s.dynamixelTxBuffer ++ [0xFF, 0xFF, id, (k + 2) % 256, instr] ++ ps ++
      [255 - (id + ps.length + 2 + instr + ps.sum) % 256] =
      s.dynamixelTxBuffer ++ busPacket id instr ps := by
    simp [busPacket, hk]
  cases hdone : s.dynamixelTxDone with
  | nil =>
    simp only [List.head?_nil, List.tail_nil, ne_eq, reduceCtorEq, not_false_eq_true,
      decide_True, if_true]
    exact ⟨_, rfl, hpk, rfl, h4, h5, h6, h7, h8⟩
  | cons b bs =>
    cases b with
    | true =>
      simp only [List.head?_cons, List.tail_cons, ne_eq, Option.some.injEq, Bool.true_eq_false,
        not_false_eq_true, decide_True, if_true]
      exact ⟨_, rfl, hpk, rfl, h4, h5, h6, h7, h8⟩
    | false =>
      simp only [List.head?_cons, List.tail_cons, ne_eq, not_true_eq_false, decide_False,
        if_false]
      exact ⟨_, rfl, hpk, rfl, by simp [setStatusFlag, h4], h5, h6, h7, h8⟩

theorem regWrite_facts (s : State) (id start n : Nat) :
    ∃ s1,
      endTXPacketDynamixel
          (writeTxLoop n 0
            (txDynamixel (startTXPacketDynamixel s id ((n + 1) % 256) D_I_REG_WRITE) start 1)) =
        (decide (s.dynamixelTxDone.head? ≠ some false), s1) ∧
      s1.dynamixelTxBuffer = s.dynamixelTxBuffer ++ regWritePacket id start (paramBytes s n) ∧
      s1.dynamixelTxDone = s.dynamixelTxDone.tail ∧
      s1.status =
        (if s.dynamixelTxDone.head? ≠ some false then s.status
         else s.status ||| S_DYNAMIXEL_TIMEOUT) ∧
      s1.numDynamixelRetries = s.numDynamixelRetries ∧
      s1.dynamixelRxBuffer = s.dynamixelRxBuffer ∧
      s1.dynamixelParams = s.dynamixelParams ∧
      s1.hostSide = s.hostSide := by
  have hp : (txDynamixel (startTXPacketDynamixel s id ((n + 1) % 256) D_I_REG_WRITE)
      start 1).dynamixelParams = s.dynamixelParams := by
    simp only [txDynamixel, startTXPacketDynamixel]
  have hfold : writeTxLoop n 0
      (txDynamixel (startTXPacketDynamixel s id ((n + 1) % 256) D_I_REG_WRITE) start 1) =
      (start :: paramBytes s n).foldl (fun t b => txDynamixel t b 1)
        (startTXPacketDynamixel s id ((n + 1) % 256) D_I_REG_WRITE) := by
    rw [writeTxLoop_foldl, hp, List.foldl_cons, paramBytes, List.range_eq_range']
  rw [hfold]
  exact txPacket_facts s id ((n + 1) % 256) D_I_REG_WRITE (start :: paramBytes s n)
    (by simp only [paramBytes, List.length_cons, List.length_map, List.length_range]; omega)

/-- C17: the bus packet built by `startTXPacketDynamixel(id, k, instr)`, `k`
accumulating `txDynamixel` calls and `endTXPacketDynamixel` is 0xFF 0xFF id
(k+2) mod 256 instr p_1 .. p_k c with c the one's-complement of the 8-bit sum
of all bytes after the two sync bytes; the REG_WRITE packet that
`handleWriteData` builds for `n` buffered bytes is 0xFF 0xFF id n+3 0x04 start
data c, and its commit packet is 0xFF 0xFF 0xFE 0x02 0x05 0xFA. -/
theorem busPacket_bytes (s : State) (id instr : Nat) (ps : List Nat) :
    (endTXPacketDynamixel
        (ps.foldl (fun t p => txDynamixel t p 1)
          (startTXPacketDynamixel s id ps.length instr))).2.dynamixelTxBuffer =
      s.dynamixelTxBuffer ++
        ([0xFF, 0xFF, id, (ps.length + 2) % 256, instr] ++ ps ++
          [255 - (id + ps.length + 2 + instr + ps.sum) % 256]) ∧
    (∀ n start : Nat, n ≤ 252 →
      (endTXPacketDynamixel
          (writeTxLoop n 0
            (txDynamixel (startTXPacketDynamixel s id ((n + 1) % 256) D_I_REG_WRITE)
              start 1))).2.dynamixelTxBuffer =
        s.dynamixelTxBuffer ++
          ([0xFF, 0xFF, id, n + 3, 0x04, start] ++ paramBytes s n ++
            [255 - (id + (n + 3) + 0x04 + start + (paramBytes s n).sum) % 256])) ∧
    (endTXPacketDynamixel
        (startTXPacketDynamixel s ID_BCAST 0 D_I_ACTION)).2.dynamixelTxBuffer =
      s.dynamixelTxBuffer ++ [0xFF, 0xFF, 0xFE, 0x02, 0x05, 0xFA] := by
  refine ⟨?_, ?_, ?_⟩
  · obtain ⟨s1, e, h, _⟩ := txPacket_facts s id ps.length instr ps rfl
    rw [e, h]
    simp [busPacket]
  · intro n start hn
    obtain ⟨s1, e, h, _⟩ := regWrite_facts s id start n
    rw [e, h]
    have hlen : (paramBytes s n).length = n := by simp [paramBytes]
    have h3 : (n + 1 + 2) % 256 = n + 3 := by omega
    have hsum : (id + (n + 1) + 2 + 4 + (start + (paramBytes s n).sum)) % 256 =
        (id + (n + 3) + 4 + start + (paramBytes s n).sum) % 256 := by
      congr 1
      omega
    simp [regWritePacket, busPacket, hlen, h3, hsum]
  · obtain ⟨s1, e, h, _⟩ := txPacket_facts s ID_BCAST 0 D_I_ACTION [] rfl
    have e' : endTXPacketDynamixel (startTXPacketDynamixel s ID_BCAST 0 D_I_ACTION) =
        (decide (s.dynamixelTxDone.head? ≠ some false), s1) := e
    rw [e', h]
    rfl

/-- Witness of `busPacket_bytes`: the REG_WRITE packet for one buffered byte
0x11 at address 30 of device 1. -/
theorem busPacket_bytes_witness :
    (endTXPacketDynamixel
        (writeTxLoop 1 0
          (txDynamixel
            (startTXPacketDynamixel
              { initState (fun _ => 0) [] [] with dynamixelParams := fun _ => 0x11 } 1 2
              D_I_REG_WRITE)
            30 1))).2.dynamixelTxBuffer =
      [0xFF, 0xFF, 1, 4, 0x04, 30, 0x11, 199] :=
  (busPacket_bytes { initState (fun _ => 0) [] [] with dynamixelParams := fun _ => 0x11 } 1 0
    []).2.1 1 30 (by decide)

/-! ### Write data: retries and aborts -/

theorem Kept.start (s : State) : Kept s s := ⟨rfl, rfl, rfl, rfl, rfl, rfl, rfl, rfl, id⟩

theorem Kept.next {s t u : State} (h1 : Kept s t) (h2 : Kept t u) : Kept s u :=
  ⟨h2.numDynamixels.trans h1.numDynamixels, h2.totalNumBytes.trans h1.totalNumBytes,
    h2.axID.trans h1.axID, h2.startAddr.trans h1.startAddr, h2.numBytes.trans h1.numBytes,
    h2.adc.trans h1.adc, h2.timeout.trans h1.timeout, h2.pcTx.trans h1.pcTx,
    fun h => h2.drain (h1.drain h)⟩

theorem Kept.ofStep {s t : State} (h : Step s t) : Kept s t :=
  ⟨congrArg HostSide.numDynamixels h.host, congrArg HostSide.totalNumBytes h.host,
    congrArg HostSide.axID h.host, congrArg HostSide.startAddr h.host,
    congrArg HostSide.numBytes h.host, congrArg HostSide.adcValue h.host,
    congrArg HostSide.enableRxPCTimeout h.host, congrArg HostSide.pcTxBuffer h.host, h.drain⟩

theorem Kept.flagSet (s : State) (flag : Nat) : Kept s (setStatusFlag s flag) :=
  ⟨rfl, rfl, rfl, rfl, rfl, rfl, rfl, rfl, id⟩

theorem BusIdle.still (s : State) : BusIdle s s := ⟨rfl, rfl, rfl, rfl⟩

theorem BusIdle.later {s t u : State} (h1 : BusIdle s t) (h2 : BusIdle t u) : BusIdle s u :=
  ⟨h2.tx.trans h1.tx, h2.rx.trans h1.rx, h2.done.trans h1.done, h2.retries.trans h1.retries⟩

theorem Heard.silence (s : State) : Heard s s := ⟨rfl, rfl, rfl⟩

theorem Heard.more {s t u : State} (h1 : Heard s t) (h2 : Heard t u) : Heard s u :=
  ⟨h2.tx.trans h1.tx, h2.done.trans h1.done, h2.params.trans h1.params⟩

theorem Heard.flagged7 (s t : State) (c : Prop) [Decidable c] (flag : Nat) (h : Heard s t) :
    Heard s (if c then setStatusFlag t flag else t) := by
  split
  · exact ⟨h.tx, h.done, h.params⟩
  · exact h

theorem rxDynamixel_heard (s : State) (a : Nat) : Heard s (rxDynamixel s a).2 := by
  unfold rxDynamixel
  split
  · exact ⟨rfl, rfl, rfl⟩
  · exact ⟨rfl, rfl, rfl⟩
  · exact ⟨rfl, rfl, rfl⟩

theorem startRX_heard (s : State) (out : RxHeader) :
    Heard s (startRXPacketDynamixel s out).2.2 := by
  unfold startRXPacketDynamixel
  simp only
  have h0 : Heard s { s with checksumRxDynamixel := 0 } := ⟨rfl, rfl, rfl⟩
  generalize ({ s with checksumRxDynamixel := 0 } : State) = s0 at h0 ⊢
  have h1 := h0.more (rxDynamixel_heard s0 0)
  generalize rxDynamixel s0 0 = r1 at h1 ⊢
  obtain ⟨b1, s1⟩ := r1
  cases b1 with
  | none => exact h1
  | some b1 =>
    simp only
    have h1' := Heard.flagged7 s s1 (b1 ≠ 0xff) S_INVALID_DYNAMIXEL_RESPONSE h1
    generalize (if b1 ≠ 0xff then setStatusFlag s1 S_INVALID_DYNAMIXEL_RESPONSE else s1) = s1'
      at h1' ⊢
    have h2 := h1'.more (rxDynamixel_heard s1' 0)
    generalize rxDynamixel s1' 0 = r2 at h2 ⊢
    obtain ⟨b2, s2⟩ := r2
    cases b2 with
    | none => exact h2
    | some b2 =>
      simp only
      have h2' := Heard.flagged7 s s2 (b2 ≠ 0xff) S_INVALID_DYNAMIXEL_RESPONSE h2
      generalize (if b2 ≠ 0xff then setStatusFlag s2 S_INVALID_DYNAMIXEL_RESPONSE else s2) = s2'
        at h2' ⊢
      have h3 := h2'.more (rxDynamixel_heard s2' 1)
      generalize rxDynamixel s2' 1 = r3 at h3 ⊢
      obtain ⟨b3, s3⟩ := r3
      cases b3 with
      | none => exact h3
      | some b3 =>
        simp only
        have h4 := h3.more (rxDynamixel_heard s3 1)
        generalize rxDynamixel s3 1 = r4 at h4 ⊢
        obtain ⟨b4, s4⟩ := r4
        cases b4 with
        | none => exact h4
        | some b4 =>
          simp only
          have h5 := h4.more (rxDynamixel_heard s4 1)
          generalize rxDynamixel s4 1 = r5 at h5 ⊢
          obtain ⟨b5, s5⟩ := r5
          cases b5 with
          | none => exact h5
          | some b5 => exact h5

theorem endRX_heard (s : State) : Heard s (endRXPacketDynamixel s).2 := by
  unfold endRXPacketDynamixel
  have h1 := rxDynamixel_heard s 0
  generalize rxDynamixel s 0 = r1 at h1 ⊢
  obtain ⟨b1, s1⟩ := r1
  cases b1 with
  | none => exact h1
  | some b1 => exact Heard.flagged7 s s1 _ _ h1

theorem rxParamsLoop_heard (e : Nat) :
    ∀ (k i : Nat) (s : State), Heard s (rxParamsLoop false e k i s).2 := by
  intro k
  induction k with
  | zero => intro i s; exact Heard.silence s
  | succ k ih =>
    intro i s
    unfold rxParamsLoop
    have h1 := rxDynamixel_heard s 1
    generalize rxDynamixel s 1 = r1 at h1 ⊢
    obtain ⟨b1, s1⟩ := r1
    cases b1 with
    | none => exact h1
    | some b1 =>
      simp only [Bool.false_and, Bool.false_eq_true, if_false]
      exact h1.more (ih _ _)

theorem rxPacket_heard (s : State) (out : RxHeader) (e : Nat) :
    Heard s (rxPacketDynamixel s out false e).2.2 := by
  unfold rxPacketDynamixel
  have h1 := startRX_heard s out
  generalize startRXPacketDynamixel s out = r1 at h1 ⊢
  obtain ⟨ok, hdr, s1⟩ := r1
  cases ok with
  | false => exact h1
  | true =>
    simp only
    have h2 := h1.more (rxParamsLoop_heard e hdr.numParams 0 s1)
    generalize rxParamsLoop false e hdr.numParams 0 s1 = r2 at h2 ⊢
    obtain ⟨ok2, s2⟩ := r2
    cases ok2 with
    | false => exact h2
    | true =>
      simp only
      have h3 := h2.more (endRX_heard s2)
      generalize endRXPacketDynamixel s2 = r3 at h3 ⊢
      obtain ⟨ok3, s3⟩ := r3
      cases ok3 with
      | false => exact h3
      | true => exact Heard.flagged7 s s3 _ _ h3

theorem tryDynamixelAgain_heard (s : State) (e : Nat) : Heard s (tryDynamixelAgain s e).2 := by
  unfold tryDynamixelAgain
  split
  · exact ⟨rfl, rfl, rfl⟩
  · exact Heard.silence s

theorem drains_head (s : State) (h : AllDrain s) :
    decide (s.dynamixelTxDone.head? ≠ some false) = true := by
  cases hd : s.dynamixelTxDone with
  | nil => simp
  | cons b bs =>
    have hb : b = true := h b (by rw [hd]; exact List.mem_cons_self _ _)
    subst hb
    simp

theorem drains_tail (s t : State) (h : AllDrain s)
    (ht : t.dynamixelTxDone = s.dynamixelTxDone.tail) : AllDrain t := by
  intro b hb
  rw [ht] at hb
  exact h b (List.mem_of_mem_tail hb)

theorem writeRxLoop_data :
    ∀ (data : List Nat) (j : Nat) (s : State) (tail : List (Option Nat)),
      s.pcRxBuffer = data.map some ++ tail →
      ∃ t, writeRxLoop data.length j s = .ret true t ∧ t.pcRxBuffer = tail ∧
        (List.range' j data.length).map t.dynamixelParams = data ∧
        (∀ x, x < j → t.dynamixelParams x = s.dynamixelParams x) ∧
        Kept s t ∧ BusIdle s t ∧ t.status = s.status := by
  intro data
  induction data with
  | nil =>
    intro j s tail h
    exact ⟨s, rfl, by simpa using h, rfl, fun _ _ => rfl, Kept.start s, BusIdle.still s, rfl⟩
  | cons b bs ih =>
    intro j s tail h
    simp only [List.map_cons, List.cons_append] at h
    obtain ⟨t, e, h1, h2, h3, h4, h5, h6⟩ :=
      ih (j + 1)
        { s with
          pcRxBuffer := bs.map some ++ tail
          checksumRxPC := (s.checksumRxPC + b) % 256
          dynamixelParams := upd s.dynamixelParams j b } tail rfl
    refine ⟨t, ?_, h1, ?_, ?_, ?_, ?_, h6⟩
    · simp only [List.length_cons]
      unfold writeRxLoop
      rw [rxPC_some s 1 b _ h]
      simpa using e
    · simp only [List.length_cons, List.range'_succ, List.map_cons, h2, List.cons.injEq,
        and_true]
      rw [h3 j (by omega)]
      simp [upd]
    · intro x hx
      rw [h3 x (by omega)]
      simp only [upd]
      rw [if_neg (by omega)]
    · exact ⟨h4.numDynamixels, h4.totalNumBytes, h4.axID, h4.startAddr, h4.numBytes, h4.adc,
        h4.timeout, h4.pcTx, h4.drain⟩
    · exact ⟨h5.tx, h5.rx, h5.done, h5.retries⟩

theorem rxPC_noReply (s : State) (a : Nat) (h : NoReply s.pcRxBuffer)
    (ht : s.enableRxPCTimeout ≠ 0) :
    ∃ t, rxPC s a = .ret none t ∧ t.status = s.status ||| S_PC_TIMEOUT ∧ Kept s t ∧
      BusIdle s t := by
  unfold rxPC
  rcases h with h | ⟨r, h⟩
  · rw [h]
    simp only [rxPCWait, ht, ne_eq, not_false_eq_true, if_true]
    exact ⟨_, rfl, rfl, ⟨rfl, rfl, rfl, rfl, rfl, rfl, rfl, rfl, id⟩, ⟨rfl, rfl, rfl, rfl⟩⟩
  · rw [h]
    simp only [rxPCWait, ht, ne_eq, not_false_eq_true, if_true]
    exact ⟨_, rfl, rfl, ⟨rfl, rfl, rfl, rfl, rfl, rfl, rfl, rfl, id⟩, ⟨rfl, rfl, rfl, rfl⟩⟩

theorem writeRxLoop_timeout :
    ∀ (data : List Nat) (n j : Nat) (s : State) (tail : List (Option Nat)),
      s.pcRxBuffer = data.map some ++ tail → data.length < n → NoReply tail →
      s.enableRxPCTimeout ≠ 0 →
      ∃ t, writeRxLoop n j s = .ret false t ∧ t.status = s.status ||| S_PC_TIMEOUT ∧
        Kept s t ∧ BusIdle s t := by
  intro data
  induction data with
  | nil =>
    intro n j s tail h hn hno ht
    obtain ⟨n, rfl⟩ : ∃ k, n = k + 1 := ⟨n - 1, by simp at hn; omega⟩
    simp only [List.map_nil, List.nil_append] at h
    obtain ⟨t, e, h1, h2, h3⟩ := rxPC_noReply s 1 (by rw [h]; exact hno) ht
    refine ⟨t, ?_, h1, h2, h3⟩
    unfold writeRxLoop
    rw [e]
    rfl
  | cons b bs ih =>
    intro n j s tail h hn hno ht
    obtain ⟨n, rfl⟩ : ∃ k, n = k + 1 := ⟨n - 1, by simp at hn; omega⟩
    simp only [List.map_cons, List.cons_append] at h
    simp only [List.length_cons] at hn
    obtain ⟨t, e, h1, h2, h3⟩ :=
      ih n (j + 1)
        { s with
          pcRxBuffer := bs.map some ++ tail
          checksumRxPC := (s.checksumRxPC + b) % 256
          dynamixelParams := upd s.dynamixelParams j b } tail rfl (by omega) hno ht
    refine ⟨t, ?_, h1, ?_, ?_⟩
    · unfold writeRxLoop
      rw [rxPC_some s 1 b _ h]
      simpa using e
    · exact ⟨h2.numDynamixels, h2.totalNumBytes, h2.axID, h2.startAddr, h2.numBytes, h2.adc,
        h2.timeout, h2.pcTx, h2.drain⟩
    · exact ⟨h3.tx, h3.rx, h3.done, h3.retries⟩

theorem writeRetryLoop_log (id start n : Nat) :
    ∀ (fuel : Nat) (s : State) (out : RxHeader),
      3 - s.numDynamixelRetries < fuel → AllDrain s →
      ∃ out1 t c, writeRetryLoop fuel s id start n out = .ret (some out1) t ∧
        1 ≤ c ∧ c ≤ 1 + (3 - s.numDynamixelRetries) ∧
        t.dynamixelTxBuffer =
          s.dynamixelTxBuffer ++
            (List.replicate c (regWritePacket id start (paramBytes s n))).flatten ∧
        Step s t ∧ t.dynamixelParams = s.dynamixelParams := by
  intro fuel
  induction fuel with
  | zero => intro s out h; omega
  | succ fuel ih =>
    intro s out hfuel hd
    obtain ⟨s1, e1, a1, a2, a3, a4, a5, a6, a7⟩ := regWrite_facts s id start n
    rw [drains_head s hd] at e1
    have hd1 : AllDrain s1 := drains_tail s s1 hd a2
    have st1 : Step s s1 := by
      have := Step.endTXPacketDynamixel
        (writeTxLoop n 0
          (txDynamixel (startTXPacketDynamixel s id ((n + 1) % 256) D_I_REG_WRITE) start 1))
      rw [e1] at this
      exact (((Step.startTXPacketDynamixel s id _ _).andThen (Step.txDynamixel _ _ _)).andThen
        (Step.writeTxLoop n 0 _)).andThen this
    have st2 := Step.rxPacketDynamixel s1 out false 0
    have hh2 := rxPacket_heard s1 out 0
    unfold writeRetryLoop
    simp only [e1]
    generalize rxPacketDynamixel s1 out false 0 = r2 at st2 hh2 ⊢
    obtain ⟨ok2, out1, s2⟩ := r2
    have hone : s1.dynamixelTxBuffer =
        s.dynamixelTxBuffer ++
          (List.replicate 1 (regWritePacket id start (paramBytes s n))).flatten := by
      rw [a1]
      simp
    cases ok2 with
    | false =>
      exact ⟨out1, s2, 1, rfl, le_refl _, by omega, by rw [hh2.tx, hone], st1.andThen st2,
        hh2.params.trans a6⟩
    | true =>
      simp only
      have st3 := Step.tryDynamixelAgain s2 out1.error
      have hh3 := tryDynamixelAgain_heard s2 out1.error
      have ht3 := tryDynamixelAgain_true s2 out1.error
      generalize tryDynamixelAgain s2 out1.error = r3 at st3 hh3 ht3 ⊢
      obtain ⟨ok3, s3⟩ := r3
      cases ok3 with
      | false =>
        exact ⟨out1, s3, 1, rfl, le_refl _, by omega, by rw [hh3.tx, hh2.tx, hone],
          (st1.andThen st2).andThen st3, hh3.params.trans (hh2.params.trans a6)⟩
      | true =>
        simp only
        obtain ⟨hlt, hlt3⟩ := ht3 rfl
        have hm2 : s.numDynamixelRetries ≤ s2.numDynamixelRetries := (st1.andThen st2).mono
        have st13 := (st1.andThen st2).andThen st3
        obtain ⟨out2, t, c, e, c1, c2, c3, c4, c5⟩ :=
          ih s3 out1 (by simp only at hlt; omega) (st13.drain hd)
        have hp : s3.dynamixelParams = s.dynamixelParams :=
          hh3.params.trans (hh2.params.trans a6)
        refine ⟨out2, t, c + 1, e, by omega, by simp only at hlt; omega, ?_, st13.andThen c4,
          c5.trans hp⟩
        rw [c3, hh3.tx, hh2.tx, a1]
        have hpb : paramBytes s3 n = paramBytes s n := by
          simp only [paramBytes, hp]
        rw [hpb]
        simp [List.replicate_succ]

theorem Kept.stored (s : State) (f : Nat → Nat) : Kept s { s with dynamixelParams := f } :=
  ⟨rfl, rfl, rfl, rfl, rfl, rfl, rfl, rfl, id⟩

theorem writeEntry_step (fuel : Nat) (hfuel : 4 ≤ fuel) (s : State) (i k : Nat)
    (d1 : List Nat) (rest : List (Option Nat)) (hd : AllDrain s)
    (hrx : s.pcRxBuffer = d1.map some ++ rest) (hlen : d1.length = s.numBytes F_WRITE i) :
    ∃ s1 c, writeEntryLoop fuel (k + 1) i s = writeEntryLoop fuel k (i + 1) s1 ∧
      1 ≤ c ∧ c ≤ 4 ∧
      s1.dynamixelTxBuffer =
        s.dynamixelTxBuffer ++
          (List.replicate c
            (regWritePacket (s.axID F_WRITE i) (s.startAddr F_WRITE i) d1)).flatten ∧
      s1.pcRxBuffer = rest ∧ Kept s s1 ∧ AllDrain s1 := by
  obtain ⟨t1, e1, a1, a2, _, a4, a5, _⟩ := writeRxLoop_data d1 0 s rest hrx
  rw [hlen] at e1
  obtain ⟨out1, t2, c, e2, b1, b2, b3, b4, _⟩ :=
    writeRetryLoop_log (s.axID F_WRITE i) (s.startAddr F_WRITE i) (s.numBytes F_WRITE i) fuel t1
      ⟨0xff, 0xff, 0xff⟩ (by omega) (a4.drain hd)
  have hpb : paramBytes t1 (s.numBytes F_WRITE i) = d1 := by
    rw [paramBytes, List.range_eq_range', ← hlen]
    exact a2
  rw [hpb, a5.tx] at b3
  have hk2 : Kept s t2 := a4.next (Kept.ofStep b4)
  have hrx2 : t2.pcRxBuffer = rest := (congrArg HostSide.pcRxBuffer b4.host).trans a1
  refine ⟨if out1.id ≠ s.axID F_WRITE i then setStatusFlag t2 S_INVALID_DYNAMIXEL_RESPONSE
    else t2, c, ?_, b1, by omega, ?_, ?_, ?_, ?_⟩
  · rw [writeEntryLoop, e1]
    simp only [Run.bind_ret, if_true]
    rw [e2]
    simp only [Run.bind_ret]
  · split
    · exact b3
    · exact b3
  · split
    · exact hrx2
    · exact hrx2
  · split
    · exact hk2.next (Kept.flagSet t2 _)
    · exact hk2
  · split
    · exact hk2.drain hd
    · exact hk2.drain hd

theorem writeEntryLoop_run (fuel : Nat) (hfuel : 4 ≤ fuel) :
    ∀ (k i : Nat) (s : State) (data : List Nat) (tail : List (Option Nat)),
      AllDrain s → s.pcRxBuffer = data.map some ++ tail →
      data.length = tableBytes (s.numBytes F_WRITE) i k →
      ∃ t counts, writeEntryLoop fuel k i s = .ret true t ∧ counts.length = k ∧
        (∀ c ∈ counts, 1 ≤ c ∧ c ≤ 4) ∧
        t.dynamixelTxBuffer =
          s.dynamixelTxBuffer ++
            writeLog (s.axID F_WRITE) (s.startAddr F_WRITE) (s.numBytes F_WRITE) i counts data ∧
        t.pcRxBuffer = tail ∧ Kept s t ∧ AllDrain t := by
  intro k
  induction k with
  | zero =>
    intro i s data tail hd hrx hlen
    simp only [tableBytes, List.length_eq_zero] at hlen
    subst hlen
    exact ⟨s, [], rfl, rfl, by simp, by simp [writeLog], by simpa using hrx, Kept.start s, hd⟩
  | succ k ih =>
    intro i s data tail hd hrx hlen
    simp only [tableBytes] at hlen
    have hsplit : data = data.take (s.numBytes F_WRITE i) ++ data.drop (s.numBytes F_WRITE i) :=
      (List.take_append_drop _ _).symm
    have hl1 : (data.take (s.numBytes F_WRITE i)).length = s.numBytes F_WRITE i := by
      rw [List.length_take]
      omega
    have hl2 : (data.drop (s.numBytes F_WRITE i)).length =
        tableBytes (s.numBytes F_WRITE) (i + 1) k := by
      rw [List.length_drop]
      omega
    obtain ⟨s1, c, e1, c1, c2, c3, c4, c5, c6⟩ :=
      writeEntry_step fuel hfuel s i k (data.take (s.numBytes F_WRITE i))
        ((data.drop (s.numBytes F_WRITE i)).map some ++ tail) hd
        (by rw [← List.append_assoc, ← List.map_append, ← hsplit]; exact hrx) hl1
    obtain ⟨t, counts, e2, d1, d2, d3, d4, d5, d6⟩ :=
      ih (i + 1) s1 (data.drop (s.numBytes F_WRITE i)) tail c6 c4 (by rw [c5.numBytes]; exact hl2)
    rw [c5.axID, c5.startAddr, c5.numBytes] at d3
    refine ⟨t, c :: counts, e1.trans e2, by simp [d1], ?_, ?_, d4, c5.next d5, d6⟩
    · intro x hx
      rcases List.mem_cons.mp hx with h | h
      · subst h
        exact ⟨c1, c2⟩
      · exact d2 x h
    · rw [d3, c3]
      simp [writeLog]

theorem writeEntryLoop_hostTimeout (fuel : Nat) (hfuel : 4 ≤ fuel) :
    ∀ (m k i : Nat) (s : State) (data : List Nat) (tail : List (Option Nat)),
      AllDrain s → s.enableRxPCTimeout ≠ 0 → s.pcRxBuffer = data.map some ++ tail →
      NoReply tail → m < k →
      tableBytes (s.numBytes F_WRITE) i m ≤ data.length →
      data.length < tableBytes (s.numBytes F_WRITE) i (m + 1) →
      ∃ t counts, writeEntryLoop fuel k i s = .ret false t ∧ counts.length = m ∧
        (∀ c ∈ counts, 1 ≤ c ∧ c ≤ 4) ∧
        t.dynamixelTxBuffer =
          s.dynamixelTxBuffer ++
            writeLog (s.axID F_WRITE) (s.startAddr F_WRITE) (s.numBytes F_WRITE) i counts data ∧
        t.status &&& S_PC_TIMEOUT ≠ 0 ∧ Kept s t := by
  intro m
  induction m with
  | zero =>
    intro k i s data tail hd ht hrx hno hk hlo hhi
    obtain ⟨k, rfl⟩ : ∃ j, k = j + 1 := ⟨k - 1, by omega⟩
    simp only [tableBytes, Nat.add_zero] at hhi
    obtain ⟨t, e, h1, h2, h3⟩ :=
      writeRxLoop_timeout data (s.numBytes F_WRITE i) 0 s tail hrx hhi hno ht
    refine ⟨t, [], ?_, rfl, by simp, by simp [writeLog, h3.tx], ?_, h2⟩
    · rw [writeEntryLoop, e]
      rfl
    · rw [h1, or_and_flag]
      decide
  | succ m ih =>
    intro k i s data tail hd ht hrx hno hk hlo hhi
    obtain ⟨k, rfl⟩ : ∃ j, k = j + 1 := ⟨k - 1, by omega⟩
    have hlo' : s.numBytes F_WRITE i + tableBytes (s.numBytes F_WRITE) (i + 1) m ≤
        data.length := by
      simpa only [tableBytes] using hlo
    have hhi' : data.length <
        s.numBytes F_WRITE i + tableBytes (s.numBytes F_WRITE) (i + 1) (m + 1) := by
      have : tableBytes (s.numBytes F_WRITE) i (m + 1 + 1) =
          s.numBytes F_WRITE i + tableBytes (s.numBytes F_WRITE) (i + 1) (m + 1) := rfl
      rw [this] at hhi
      exact hhi
    have hsplit : data = data.take (s.numBytes F_WRITE i) ++ data.drop (s.numBytes F_WRITE i) :=
      (List.take_append_drop _ _).symm
    have hl1 : (data.take (s.numBytes F_WRITE i)).length = s.numBytes F_WRITE i := by
      rw [List.length_take]
      omega
    obtain ⟨s1, c, e1, c1, c2, c3, c4, c5, c6⟩ :=
      writeEntry_step fuel hfuel s i k (data.take (s.numBytes F_WRITE i))
        ((data.drop (s.numBytes F_WRITE i)).map some ++ tail) hd
        (by rw [← List.append_assoc, ← List.map_append, ← hsplit]; exact hrx) hl1
    obtain ⟨t, counts, e2, d1, d2, d3, d4, d5⟩ :=
      ih k (i + 1) s1 (data.drop (s.numBytes F_WRITE i)) tail c6 (by rw [c5.timeout]; exact ht)
        c4 hno (by omega)
        (by rw [c5.numBytes, List.length_drop]; omega)
        (by rw [c5.numBytes, List.length_drop]; omega)
    rw [c5.axID, c5.startAddr, c5.numBytes] at d3
    refine ⟨t, c :: counts, e1.trans e2, by simp [d1], ?_, ?_, d4, c5.next d5⟩
    · intro x hx
      rcases List.mem_cons.mp hx with h | h
      · subst h
        exact ⟨c1, c2⟩
      · exact d2 x h
    · rw [d3, c3]
      simp [writeLog]

theorem rxPC_kept {s0 s : State} (h : Kept s0 s) (a : Nat) :
    (rxPC s a).post (fun _ t => Kept s0 t) (Kept s0) := by
  rcases rxPC_cases s a with ⟨b, rest, e⟩ | ⟨rest, _, e⟩ | ⟨_, e⟩
  · rw [e]
    exact h.next ⟨rfl, rfl, rfl, rfl, rfl, rfl, rfl, rfl, id⟩
  · rw [e]
    exact h.next ⟨rfl, rfl, rfl, rfl, rfl, rfl, rfl, rfl, id⟩
  · rw [e]
    exact h.next ⟨rfl, rfl, rfl, rfl, rfl, rfl, rfl, rfl, id⟩

theorem writeRxLoop_kept {s0 : State} :
    ∀ (k j : Nat) (s : State), Kept s0 s →
      (writeRxLoop k j s).post (fun _ t => Kept s0 t) (Kept s0) := by
  intro k
  induction k with
  | zero => intro j s h; exact h
  | succ k ih =>
    intro j s h
    unfold writeRxLoop
    refine Run.post_bind _ _ _ _ _ (rxPC_kept h 1) ?_
    intro r s1 g1
    cases r with
    | none => exact g1
    | some b => exact ih _ _ (g1.next (Kept.stored s1 _))

theorem writeRetryLoop_kept {s0 s : State} (h : Kept s0 s) (fuel id start n : Nat)
    (out : RxHeader) :
    (writeRetryLoop fuel s id start n out).post (fun _ t => Kept s0 t) (Kept s0) := by
  have hs := (writeRetryLoop_spec fuel s id start n out).1
  cases hr : writeRetryLoop fuel s id start n out with
  | ret a t =>
    rw [hr] at hs
    exact h.next (Kept.ofStep hs)
  | spin t =>
    rw [hr] at hs
    exact h.next (Kept.ofStep hs)

theorem writeEntryLoop_kept (fuel : Nat) {s0 : State} :
    ∀ (k i : Nat) (s : State), Kept s0 s →
      (writeEntryLoop fuel k i s).post (fun _ t => Kept s0 t) (Kept s0) := by
  intro k
  induction k with
  | zero => intro i s h; exact h
  | succ k ih =>
    intro i s h
    unfold writeEntryLoop
    refine Run.post_bind _ _ _ _ _ (writeRxLoop_kept _ 0 s h) ?_
    intro ok s1 g1
    cases ok with
    | false => exact g1
    | true =>
      simp only [if_true]
      refine Run.post_bind _ _ _ _ _ (writeRetryLoop_kept g1 fuel _ _ _ _) ?_
      intro r s2 g2
      cases r with
      | none => exact g2
      | some out =>
        simp only
        refine ih _ _ ?_
        split
        · exact g2.next (Kept.flagSet _ _)
        · exact g2

theorem writeEntryLoop_split (fuel : Nat) :
    ∀ (k1 k2 i : Nat) (s : State),
      writeEntryLoop fuel (k1 + k2) i s =
        (writeEntryLoop fuel k1 i s).bind fun ok s1 =>
          if ok then writeEntryLoop fuel k2 (i + k1) s1 else .ret false s1 := by
  intro k1
  induction k1 with
  | zero =>
    intro k2 i s
    simp [writeEntryLoop]
  | succ k1 ih =>
    intro k2 i s
    have hk : k1 + 1 + k2 = (k1 + k2) + 1 := by omega
    rw [hk, writeEntryLoop, writeEntryLoop]
    cases writeRxLoop (s.numBytes F_WRITE i) 0 s with
    | spin t => rfl
    | ret ok s1 =>
      cases ok with
      | false => rfl
      | true =>
        simp only [Run.bind_ret, if_true]
        cases writeRetryLoop fuel s1 (s.axID F_WRITE i) (s.startAddr F_WRITE i)
            (s.numBytes F_WRITE i) ⟨0xff, 0xff, 0xff⟩ with
        | spin t => rfl
        | ret r s2 =>
          cases r with
          | none => rfl
          | some out =>
            simp only [Run.bind_ret]
            rw [ih]
            have hi : i + 1 + k1 = i + (k1 + 1) := by omega
            rw [hi]

theorem writeRetryLoop_drainFail (id start n : Nat) (doneRest : List Bool)
    (busRest : List (Option Nat)) :
    ∀ (pre : List (Nat × Nat × Nat)) (fuel : Nat) (s : State) (out : RxHeader),
      s.status &&& S_DYNAMIXEL_CHECKSUM_ERROR = 0 →
      s.numDynamixelRetries + pre.length ≤ 3 → pre.length < fuel →
      (∀ r ∈ pre, Retried r) →
      s.dynamixelTxDone = List.replicate pre.length true ++ false :: doneRest →
      s.dynamixelRxBuffer = statusReplies pre ++ busRest →
      ∃ t, writeRetryLoop fuel s id start n out = .ret none t ∧
        t.dynamixelTxBuffer =
          s.dynamixelTxBuffer ++
            (List.replicate (pre.length + 1)
              (regWritePacket id start (paramBytes s n))).flatten ∧
        t.status &&& S_DYNAMIXEL_TIMEOUT ≠ 0 ∧ Kept s t := by
  intro pre
  induction pre with
  | nil =>
    intro fuel s out _ _ hfuel _ hdone _
    obtain ⟨fuel, rfl⟩ : ∃ k, fuel = k + 1 := ⟨fuel - 1, by simp at hfuel; omega⟩
    simp only [List.length_nil, List.replicate_zero, List.nil_append] at hdone
    obtain ⟨s1, e1, a1, a2, a3, a4, a5, a6, a7⟩ := regWrite_facts s id start n
    simp only [hdone, List.head?_cons, ne_eq, not_true_eq_false, decide_False, if_false]
      at e1 a3
    have st1 : Step s s1 := by
      have := Step.endTXPacketDynamixel
        (writeTxLoop n 0
          (txDynamixel (startTXPacketDynamixel s id ((n + 1) % 256) D_I_REG_WRITE) start 1))
      rw [e1] at this
      exact (((Step.startTXPacketDynamixel s id _ _).andThen (Step.txDynamixel _ _ _)).andThen
        (Step.writeTxLoop n 0 _)).andThen this
    refine ⟨s1, ?_, by rw [a1]; simp, ?_, Kept.ofStep st1⟩
    · unfold writeRetryLoop
      simp only [e1]
    · rw [a3, or_and_flag]
      decide
  | cons r rs ih =>
    intro fuel s out hst hlen hfuel hpre hdone hrx
    obtain ⟨fuel, rfl⟩ : ∃ k, fuel = k + 1 := ⟨fuel - 1, by omega⟩
    simp only [List.length_cons, List.replicate_succ, List.cons_append] at hdone hlen hfuel
    simp only [statusReplies, List.cons_append] at hrx
    obtain ⟨s1, e1, a1, a2, a3, a4, a5, a6, a7⟩ := regWrite_facts s id start n
    simp only [hdone, List.head?_cons, List.tail_cons, ne_eq, Option.some.injEq,
      Bool.true_eq_false, not_false_eq_true, decide_True, if_true] at e1 a2 a3
    have st1 : Step s s1 := by
      have := Step.endTXPacketDynamixel
        (writeTxLoop n 0
          (txDynamixel (startTXPacketDynamixel s id ((n + 1) % 256) D_I_REG_WRITE) start 1))
      rw [e1] at this
      exact (((Step.startTXPacketDynamixel s id _ _).andThen (Step.txDynamixel _ _ _)).andThen
        (Step.writeTxLoop n 0 _)).andThen this
    obtain ⟨s2, e2, b1, b2, b3, b4, b5, b6⟩ :=
      rxPacket_pingReply_facts s1 out r.1 r.2.1 r.2.2 (statusReplies rs ++ busRest)
        (a5.trans hrx)
    have hh2 := rxPacket_heard s1 out 0
    rw [e2] at hh2
    have st2 := Step.rxPacketDynamixel s1 out false 0
    rw [e2] at st2
    have hr : r.2.1 &&& DYNAMIXEL_INSTRUCTION_CHECKSUM_ERROR ≠ 0 ∨
        s2.status &&& S_DYNAMIXEL_CHECKSUM_ERROR ≠ 0 := by
      rcases hpre r (List.mem_cons_self _ _) with h | h
      · exact Or.inl h
      · right
        rw [b1, if_neg h]
        exact or_128_and_128 _
    obtain ⟨s3, e3, c1, c2, c3, c4, c5, c6, c7⟩ :=
      tryDynamixelAgain_again s2 r.2.1 hr (by rw [b3, a4]; omega)
    have st3 := Step.tryDynamixelAgain s2 r.2.1
    rw [e3] at st3
    obtain ⟨t, e, h1, h2, h3⟩ :=
      ih fuel s3 ⟨r.1, 0, r.2.1⟩ c1 (by rw [c2, b3, a4]; omega) (by omega)
        (fun x hx => hpre x (List.mem_cons_of_mem _ hx)) (by rw [c6, b6, a2])
        (by rw [c4, b4])
    have hp : s3.dynamixelParams = s.dynamixelParams := c7.trans (hh2.params.trans a6)
    have hpb : paramBytes s3 n = paramBytes s n := by
      simp only [paramBytes, hp]
    refine ⟨t, ?_, ?_, h2, ((Kept.ofStep st1).next (Kept.ofStep st2)).next
      ((Kept.ofStep st3).next h3)⟩
    · unfold writeRetryLoop
      simp only [e1, e2, e3]
      exact e
    · rw [h1, c3, b2, a1, hpb]
      simp [List.replicate_succ]

theorem endRXPacketPC_returns (s : State) (ht : s.enableRxPCTimeout ≠ 0) :
    ∃ ok t, endRXPacketPC s = .ret ok t ∧ Kept s t ∧ BusIdle s t := by
  rcases endRXPacketPC_cases s with ⟨c, rest, e⟩ | ⟨rest, _, e⟩ | ⟨h, _⟩
  · exact ⟨_, _, e, ⟨rfl, rfl, rfl, rfl, rfl, rfl, rfl, rfl, id⟩, ⟨rfl, rfl, rfl, rfl⟩⟩
  · exact ⟨_, _, e, ⟨rfl, rfl, rfl, rfl, rfl, rfl, rfl, rfl, id⟩, ⟨rfl, rfl, rfl, rfl⟩⟩
  · exact absurd h ht

theorem action_facts (s : State) :
    ∃ s1,
      endTXPacketDynamixel (startTXPacketDynamixel s ID_BCAST 0 D_I_ACTION) =
        (decide (s.dynamixelTxDone.head? ≠ some false), s1) ∧
      s1.dynamixelTxBuffer = s.dynamixelTxBuffer ++ actionPacket ∧
      s1.dynamixelTxDone = s.dynamixelTxDone.tail ∧
      s1.dynamixelRxBuffer = s.dynamixelRxBuffer ∧
      s1.hostSide = s.hostSide := by
  obtain ⟨s1, e, h1, h2, _, _, h5, _, h7⟩ := txPacket_facts s ID_BCAST 0 D_I_ACTION [] rfl
  exact ⟨s1, e, h1, h2, h5, h7⟩

/-- C14, counterexample: with the write format (1, 30, 1), (2, 30, 1) and the
reply of device 1 to its REG_WRITE never received, `handleWriteData` still
sends the REG_WRITE packet of the second entry and the ACTION packet; the
response carries BusTimeout and InvalidBusResponse. -/
theorem writeData_timeout_counterexample :
    (commandLoop 4 2 (initState (fun _ => 0) writeHost writeBus)).state.dynamixelTxBuffer =
      regWritePacket 1 30 [0x11] ++ regWritePacket 2 30 [0x22] ++ actionPacket ∧
    (commandLoop 4 2 (initState (fun _ => 0) writeHost writeBus)).state.pcTxBuffer =
      [0xFA, 0, 0, 0, 0, 0, 5, 0xFA, 10, 0, 0, 0, 0, 251] := by
  decide

/-- C15: when the host read of a payload byte of entry `i` of the write format
times out (the payload of the entries before `i` arrived, that of entry `i` did
not arrive in full), `handleWriteData` returns having transmitted on the bus
exactly the REG_WRITE packets of the entries before `i` (each one to four
times), nothing for entry `i` or a later one and no ACTION packet, and its
status response carries HostTimeout. -/
theorem writeData_hostTimeout (fuel : Nat) (s : State) (i : Nat) (data : List Nat)
    (tail : List (Option Nat)) (hfuel : 4 ≤ fuel) (hd : AllDrain s)
    (ht : s.enableRxPCTimeout ≠ 0) (hi : i < s.numDynamixels F_WRITE)
    (hrx : s.pcRxBuffer = data.map some ++ tail) (hno : NoReply tail)
    (hlo : tableBytes (s.numBytes F_WRITE) 0 i ≤ data.length)
    (hhi : data.length < tableBytes (s.numBytes F_WRITE) 0 (i + 1)) :
    ∃ (t : State) (counts : List Nat) (st r ck : Nat),
      handleWriteData fuel s = .ret () t ∧ counts.length = i ∧
      (∀ c ∈ counts, 1 ≤ c ∧ c ≤ 4) ∧
      t.dynamixelTxBuffer =
        s.dynamixelTxBuffer ++
          writeLog (s.axID F_WRITE) (s.startAddr F_WRITE) (s.numBytes F_WRITE) 0 counts data ∧
      t.pcTxBuffer =
        s.pcTxBuffer ++ [0xFA, st, r, s.adcValue 0, s.adcValue 1, s.adcValue 2, ck] ∧
      st &&& S_PC_TIMEOUT ≠ 0 := by
  obtain ⟨t, counts, e, h1, h2, h3, h4, h5⟩ :=
    writeEntryLoop_hostTimeout fuel hfuel i (s.numDynamixels F_WRITE) 0 s data tail hd ht hrx hno
      hi hlo hhi
  refine ⟨txStatusPC t, counts, t.status, t.numDynamixelRetries,
    255 - (0xFA + t.status + t.numDynamixelRetries + s.adcValue 0 + s.adcValue 1 +
      s.adcValue 2) % 256, ?_, h1, h2, ?_, ?_, h4⟩
  · unfold handleWriteData
    rw [e]
    rfl
  · rw [txStatusPC_dynamixelTxBuffer, h3]
  · rw [txStatusPC_tx, h5.pcTx, h5.adc]

/-- C14 as amended: `handleWriteData` aborts when a bus transmission does not
drain: if the REG_WRITE of entry `i` (sent again after each retried reply)
fails to drain, nothing more is transmitted on the bus, neither the REG_WRITE
packets of the remaining entries nor the ACTION packet, and the response
carries BusTimeout.  A reply that is wrong or never received does not abort:
whenever the payload arrives and the transmissions drain, whatever arrives on
the bus, the REG_WRITE packets of all entries are sent (each one to four times)
and the ACTION packet after them. -/
theorem writeData_abort (fuel : Nat) (s : State) (hfuel : 4 ≤ fuel)
    (ht : s.enableRxPCTimeout ≠ 0) :
    (∀ (i : Nat) (s1 : State) (d1 : List Nat) (rest : List (Option Nat))
        (pre : List (Nat × Nat × Nat)) (busRest : List (Option Nat)) (doneRest : List Bool),
      i < s.numDynamixels F_WRITE → writeEntryLoop fuel i 0 s = .ret true s1 →
      s1.pcRxBuffer = d1.map some ++ rest → d1.length = s.numBytes F_WRITE i →
      (∀ r ∈ pre, Retried r) → s1.numDynamixelRetries + pre.length ≤ 3 →
      s1.status &&& S_DYNAMIXEL_CHECKSUM_ERROR = 0 →
      s1.dynamixelRxBuffer = statusReplies pre ++ busRest →
      s1.dynamixelTxDone = List.replicate pre.length true ++ false :: doneRest →
      ∃ (t : State) (st r ck : Nat), handleWriteData fuel s = .ret () t ∧
        t.dynamixelTxBuffer =
          s1.dynamixelTxBuffer ++
            (List.replicate (pre.length + 1)
              (regWritePacket (s.axID F_WRITE i) (s.startAddr F_WRITE i) d1)).flatten ∧
        t.pcTxBuffer =
          s.pcTxBuffer ++ [0xFA, st, r, s.adcValue 0, s.adcValue 1, s.adcValue 2, ck] ∧
        st &&& S_DYNAMIXEL_TIMEOUT ≠ 0) ∧
    (∀ (data : List Nat) (tail : List (Option Nat)),
      AllDrain s → s.pcRxBuffer = data.map some ++ tail →
      data.length = tableBytes (s.numBytes F_WRITE) 0 (s.numDynamixels F_WRITE) →
      ∃ (t : State) (counts : List Nat), handleWriteData fuel s = .ret () t ∧
        counts.length = s.numDynamixels F_WRITE ∧ (∀ c ∈ counts, 1 ≤ c ∧ c ≤ 4) ∧
        t.dynamixelTxBuffer =
          s.dynamixelTxBuffer ++
            writeLog (s.axID F_WRITE) (s.startAddr F_WRITE) (s.numBytes F_WRITE) 0 counts data ++
            actionPacket) := by
  refine ⟨?_, ?_⟩
  · intro i s1 d1 rest pre busRest doneRest hi hpre hrx hlen hret hretries hst hbus hdone
    have hk : Kept s s1 := by
      have := writeEntryLoop_kept fuel i 0 s (Kept.start s)
      rw [hpre] at this
      exact this
    obtain ⟨t1, e1, a1, a2, _, a4, a5, a6⟩ := writeRxLoop_data d1 0 s1 rest hrx
    have hpb : paramBytes t1 (s.numBytes F_WRITE i) = d1 := by
      rw [paramBytes, List.range_eq_range', ← hlen]
      exact a2
    obtain ⟨t2, e2, b1, b2, b3⟩ :=
      writeRetryLoop_drainFail (s.axID F_WRITE i) (s.startAddr F_WRITE i)
        (s.numBytes F_WRITE i) doneRest busRest pre fuel t1 ⟨0xff, 0xff, 0xff⟩
        (by rw [a6]; exact hst) (by rw [a5.retries]; exact hretries) (by omega) hret
        (by rw [a5.done]; exact hdone) (by rw [a5.rx]; exact hbus)
    rw [hpb, a5.tx] at b1
    have hN : s.numDynamixels F_WRITE = i + ((s.numDynamixels F_WRITE - i - 1) + 1) := by omega
    have hk2 : Kept s t2 := hk.next (a4.next b3)
    refine ⟨txStatusPC t2, t2.status, t2.numDynamixelRetries,
      255 - (0xFA + t2.status + t2.numDynamixelRetries + s.adcValue 0 + s.adcValue 1 +
        s.adcValue 2) % 256, ?_, ?_, ?_, b2⟩
    · unfold handleWriteData
      rw [hN, writeEntryLoop_split, hpre]
      simp only [Run.bind_ret, if_true, Nat.zero_add]
      rw [writeEntryLoop, hk.numBytes, hk.axID, hk.startAddr, ← hlen, e1]
      simp only [Run.bind_ret, if_true]
      rw [hlen, e2]
      rfl
    · rw [txStatusPC_dynamixelTxBuffer, b1]
    · rw [txStatusPC_tx, hk2.pcTx, hk2.adc]
  · intro data tail hd hrx hlen
    obtain ⟨t, counts, e, h1, h2, h3, h4, h5, h6⟩ :=
      writeEntryLoop_run fuel hfuel (s.numDynamixels F_WRITE) 0 s data tail hd hrx hlen
    obtain ⟨t1, e1, a1, a2, a3, a4⟩ := action_facts t
    rw [drains_head t h6] at e1
    have ht1 : t1.enableRxPCTimeout ≠ 0 := by
      have := congrArg HostSide.enableRxPCTimeout a4
      simp only [State.hostSide] at this
      rw [this, h5.timeout]
      exact ht
    obtain ⟨ok, t2, e2, b1, b2⟩ := endRXPacketPC_returns t1 ht1
    refine ⟨txStatusPC t2, counts, ?_, h1, h2, ?_⟩
    · unfold handleWriteData
      rw [e]
      simp only [Run.bind_ret, if_true, e1, e2]
    · rw [txStatusPC_dynamixelTxBuffer, b2.tx, a1, h3]

/-- Witness of `writeData_hostTimeout`: the payload byte of the first entry
arrives, that of the second does not. -/
theorem writeData_hostTimeout_witness :
    ∃ (t : State) (counts : List Nat),
      handleWriteData 4 (writeState [some 0x11] []) = .ret () t ∧ counts.length = 1 ∧
      t.dynamixelTxBuffer =
        [] ++ writeLog ((writeState [some 0x11] []).axID F_WRITE)
          ((writeState [some 0x11] []).startAddr F_WRITE)
          ((writeState [some 0x11] []).numBytes F_WRITE) 0 counts [0x11] := by
  obtain ⟨t, counts, _, _, _, h1, h2, _, h4, _⟩ :=
    writeData_hostTimeout 4 (writeState [some 0x11] []) 1 [0x11] [] (by decide)
      (by intro b hb; cases hb) (by decide) (by decide) rfl (Or.inl rfl) (by decide) (by decide)
  exact ⟨t, counts, h1, h2, h4⟩

/-- Witness of `writeData_abort`: the first REG_WRITE does not drain; and both
payload bytes arrive while no device answers. -/
theorem writeData_abort_witness :
    (∃ t : State, handleWriteData 4 (writeState [some 0x11, some 0x22] [false]) = .ret () t ∧
      t.dynamixelTxBuffer =
        [] ++ (List.replicate (0 + 1)
          (regWritePacket ((writeState [some 0x11, some 0x22] [false]).axID F_WRITE 0)
            ((writeState [some 0x11, some 0x22] [false]).startAddr F_WRITE 0) [0x11])).flatten) ∧
    (∃ (t : State) (counts : List Nat),
      handleWriteData 4 (writeState [some 0x11, some 0x22] []) = .ret () t ∧
      counts.length = 2) := by
  refine ⟨?_, ?_⟩
  · obtain ⟨t, _, _, _, h1, h2, _⟩ :=
      (writeData_abort 4 (writeState [some 0x11, some 0x22] [false]) (by decide)
        (by decide)).1 0 (writeState [some 0x11, some 0x22] [false]) [0x11] [some 0x22] [] [] []
        (by decide) rfl rfl rfl (by intro r hr; cases hr) (by decide) (by decide) rfl rfl
    exact ⟨t, h1, h2⟩
  · obtain ⟨t, counts, h1, h2, _⟩ :=
      (writeData_abort 4 (writeState [some 0x11, some 0x22] []) (by decide)
        (by decide)).2 [0x11, 0x22] [] (by intro b hb; cases hb) rfl (by decide)
    exact ⟨t, counts, h1, h2⟩

/-! ### Read data: one block against a device reply -/

theorem fillParams_facts :
    ∀ (k j : Nat) (s : State),
      (∀ x, (fillParams k j s).dynamixelParams x =
        if j ≤ x ∧ x < j + k then 0xff else s.dynamixelParams x) ∧
      (fillParams k j s).status = s.status ∧
      (fillParams k j s).dynamixelRxBuffer = s.dynamixelRxBuffer ∧
      (fillParams k j s).dynamixelTxBuffer = s.dynamixelTxBuffer ∧
      (fillParams k j s).dynamixelTxDone = s.dynamixelTxDone ∧
      (fillParams k j s).numDynamixelRetries = s.numDynamixelRetries := by
  intro k
  induction k with
  | zero =>
    intro j s
    refine ⟨fun x => ?_, rfl, rfl, rfl, rfl, rfl⟩
    rw [if_neg (by omega)]
    rfl
  | succ k ih =>
    intro j s
    obtain ⟨h1, h2, h3, h4, h5, h6⟩ :=
      ih (j + 1) { s with dynamixelParams := upd s.dynamixelParams j 0xff }
    rw [fillParams]
    refine ⟨fun x => ?_, h2, h3, h4, h5, h6⟩
    rw [h1 x]
    simp only [upd]
    by_cases hx : x = j
    · subst hx
      simp
    · by_cases hlt : j + 1 ≤ x ∧ x < j + 1 + k
      · rw [if_pos hlt, if_pos (by omega)]
      · rw [if_neg hlt, if_neg hx, if_neg (by omega)]

theorem startRX_header (s : State) (out : RxHeader) (id len err : Nat)
    (rest : List (Option Nat))
    (hrx : s.dynamixelRxBuffer =
      some 0xFF :: some 0xFF :: some id :: some len :: some err :: rest) :
    startRXPacketDynamixel s out =
      (true, ⟨id, (len + 254) % 256, err⟩,
        { s with
          dynamixelRxBuffer := rest
          checksumRxDynamixel := (id + len + err) % 256 }) := by
  have hc : (((0 + id) % 256 + len) % 256 + err) % 256 = (id + len + err) % 256 := by omega
  unfold startRXPacketDynamixel
  simp only [rxDynamixel, hrx, ne_eq, one_ne_zero, not_false_eq_true, if_true,
    not_true_eq_false, if_false, hc]

theorem rxParamsLoop_bytes (e : Nat) :
    ∀ (ps : List Nat) (i : Nat) (s : State) (rest : List (Option Nat)),
      s.dynamixelRxBuffer = ps.map some ++ rest →
      ∃ s2, rxParamsLoop true e ps.length i s = (true, s2) ∧
        s2.dynamixelRxBuffer = rest ∧
        s2.checksumRxDynamixel % 256 = (s.checksumRxDynamixel + ps.sum) % 256 ∧
        s2.status = s.status ∧ s2.dynamixelTxBuffer = s.dynamixelTxBuffer ∧
        s2.dynamixelTxDone = s.dynamixelTxDone ∧
        s2.numDynamixelRetries = s.numDynamixelRetries ∧
        (∀ x, s2.dynamixelParams x =
          if i ≤ x ∧ x < i + ps.length ∧ x < e then ps.getD (x - i) 0
          else s.dynamixelParams x) := by
  intro ps
  induction ps with
  | nil =>
    intro i s rest h
    refine ⟨s, rfl, by simpa using h, by simp, rfl, rfl, rfl, rfl, fun x => ?_⟩
    rw [if_neg]
    simp only [List.length_nil]
    omega
  | cons b bs ih =>
    intro i s rest h
    simp only [List.map_cons, List.cons_append] at h
    have hloop : rxParamsLoop true e (b :: bs).length i s =
        rxParamsLoop true e bs.length (i + 1)
          (if true && decide (i < e) then
            { s with
              dynamixelRxBuffer := bs.map some ++ rest
              checksumRxDynamixel := (s.checksumRxDynamixel + b) % 256
              dynamixelParams := upd s.dynamixelParams i b }
           else
            { s with
              dynamixelRxBuffer := bs.map some ++ rest
              checksumRxDynamixel := (s.checksumRxDynamixel + b) % 256 }) := by
      simp only [List.length_cons]
      rw [rxParamsLoop]
      simp only [rxDynamixel, h, ne_eq, one_ne_zero, not_false_eq_true, if_true]
    by_cases hie : i < e
    · obtain ⟨s2, e2, h1, h2, h3, h4, h5, h6, h7⟩ :=
        ih (i + 1)
          { s with
            dynamixelRxBuffer := bs.map some ++ rest
            checksumRxDynamixel := (s.checksumRxDynamixel + b) % 256
            dynamixelParams := upd s.dynamixelParams i b } rest rfl
      refine ⟨s2, ?_, h1, ?_, h3, h4, h5, h6, fun x => ?_⟩
      · rw [hloop]
        simp only [hie, decide_True, Bool.and_self, if_true]
        exact e2
      · rw [h2, List.sum_cons]
        show ((s.checksumRxDynamixel + b) % 256 + bs.sum) % 256 = _
        omega
      · rw [h7 x]
        simp only [List.length_cons]
        show (if i + 1 ≤ x ∧ x < i + 1 + bs.length ∧ x < e then bs.getD (x - (i + 1)) 0
          else upd s.dynamixelParams i b x) = _
        by_cases hx : x = i
        · subst hx
          rw [if_neg (by omega), if_pos ⟨le_refl _, by omega, hie⟩]
          simp [upd]
        · by_cases hlt : i + 1 ≤ x ∧ x < i + 1 + bs.length ∧ x < e
          · rw [if_pos hlt, if_pos ⟨by omega, by omega, hlt.2.2⟩]
            have : x - i = (x - (i + 1)) + 1 := by omega
            rw [this, List.getD_cons_succ]
          · rw [if_neg hlt, if_neg (by omega)]
            simp [upd, hx]
    · obtain ⟨s2, e2, h1, h2, h3, h4, h5, h6, h7⟩ :=
        ih (i + 1)
          { s with
            dynamixelRxBuffer := bs.map some ++ rest
            checksumRxDynamixel := (s.checksumRxDynamixel + b) % 256 } rest rfl
      refine ⟨s2, ?_, h1, ?_, h3, h4, h5, h6, fun x => ?_⟩
      · rw [hloop]
        simp only [hie, decide_False, Bool.and_false, Bool.false_eq_true, if_false]
        exact e2
      · rw [h2, List.sum_cons]
        show ((s.checksumRxDynamixel + b) % 256 + bs.sum) % 256 = _
        omega
      · rw [h7 x]
        simp only [List.length_cons]
        show (if i + 1 ≤ x ∧ x < i + 1 + bs.length ∧ x < e then bs.getD (x - (i + 1)) 0
          else s.dynamixelParams x) = _
        rw [if_neg (by omega), if_neg (by omega)]

theorem endRX_byte (s : State) (ck : Nat) (rest : List (Option Nat))
    (hrx : s.dynamixelRxBuffer = some ck :: rest) :
    endRXPacketDynamixel s =
      (true,
        { s with
          dynamixelRxBuffer := rest
          status :=
            if ck = 255 - s.checksumRxDynamixel % 256 then s.status
            else s.status ||| S_DYNAMIXEL_CHECKSUM_ERROR }) := by
  unfold endRXPacketDynamixel
  simp only [rxDynamixel, hrx, not8, setStatusFlag, ne_eq, not_true_eq_false, if_false]
  by_cases h : ck = 255 - s.checksumRxDynamixel % 256
  · simp [h]
  · simp [h]

theorem rxPacket_reply (s : State) (out : RxHeader) (id err : Nat) (ps : List Nat) (ck : Nat)
    (rest : List (Option Nat)) (e : Nat) (hlen : ps.length + 2 < 256)
    (hrx : s.dynamixelRxBuffer = busReply id err ps ck ++ rest) :
    ∃ s2, rxPacketDynamixel s out true e = (true, ⟨id, ps.length, err⟩, s2) ∧
      s2.dynamixelRxBuffer = rest ∧
      s2.status =
        (if ps.length = e then
          (if ck = replyChecksum id err ps then s.status
           else s.status ||| S_DYNAMIXEL_CHECKSUM_ERROR)
         else
          (if ck = replyChecksum id err ps then s.status
           else s.status ||| S_DYNAMIXEL_CHECKSUM_ERROR) ||| S_INVALID_DYNAMIXEL_RESPONSE) ∧
      s2.dynamixelTxBuffer = s.dynamixelTxBuffer ∧
      s2.dynamixelTxDone = s.dynamixelTxDone ∧
      s2.numDynamixelRetries = s.numDynamixelRetries ∧
      s2.hostSide = s.hostSide ∧
      (∀ x, s2.dynamixelParams x =
        if x < ps.length ∧ x < e then ps.getD x 0 else s.dynamixelParams x) := by
  have hrx' : s.dynamixelRxBuffer =
      some 0xFF :: some 0xFF :: some id :: some (ps.length + 2) :: some err ::
        (ps.map some ++ some ck :: rest) := by
    rw [hrx]
    simp [busReply]
  have hnum : (ps.length + 2 + 254) % 256 = ps.length := by omega
  obtain ⟨s2, e2, h1, h2, h3, h4, h5, h6, h7⟩ :=
    rxParamsLoop_bytes e ps 0
      { s with
        dynamixelRxBuffer := ps.map some ++ some ck :: rest
        checksumRxDynamixel := (id + (ps.length + 2) + err) % 256 } (some ck :: rest) rfl
  have hck : 255 - s2.checksumRxDynamixel % 256 = replyChecksum id err ps := by
    have : s2.checksumRxDynamixel % 256 =
        ((id + (ps.length + 2) + err) % 256 + ps.sum) % 256 := h2
    unfold replyChecksum
    omega
  have htotal : rxPacketDynamixel s out true e =
      (true, ⟨id, ps.length, err⟩,
        if ps.length ≠ e then
          setStatusFlag
            { s2 with
              dynamixelRxBuffer := rest
              status :=
                if ck = replyChecksum id err ps then s2.status
                else s2.status ||| S_DYNAMIXEL_CHECKSUM_ERROR }
            S_INVALID_DYNAMIXEL_RESPONSE
        else
          { s2 with
            dynamixelRxBuffer := rest
            status :=
              if ck = replyChecksum id err ps then s2.status
              else s2.status ||| S_DYNAMIXEL_CHECKSUM_ERROR }) := by
    unfold rxPacketDynamixel
    rw [startRX_header s out id (ps.length + 2) err _ hrx']
    simp only [hnum]
    rw [e2]
    simp only
    rw [endRX_byte s2 ck rest h1, hck]
  have hstep := Step.rxPacketDynamixel s out true e
  have hp : ∀ x, s2.dynamixelParams x =
      if x < ps.length ∧ x < e then ps.getD x 0 else s.dynamixelParams x := by
    intro x
    have hx := h7 x
    simp only [Nat.zero_le, true_and, Nat.zero_add, Nat.sub_zero] at hx
    exact hx
  by_cases hl : ps.length = e
  · rw [if_neg (not_not.mpr hl)] at htotal
    rw [htotal] at hstep
    refine ⟨_, htotal, rfl, ?_, h4, h5, h6, hstep.host, hp⟩
    rw [if_pos hl]
    show (if ck = replyChecksum id err ps then s2.status
      else s2.status ||| S_DYNAMIXEL_CHECKSUM_ERROR) = _
    rw [h3]
  · rw [if_pos hl] at htotal
    rw [htotal] at hstep
    refine ⟨_, htotal, rfl, ?_, h4, h5, h6, hstep.host, hp⟩
    rw [if_neg hl]
    show (if ck = replyChecksum id err ps then s2.status
      else s2.status ||| S_DYNAMIXEL_CHECKSUM_ERROR) ||| S_INVALID_DYNAMIXEL_RESPONSE = _
    rw [h3]

theorem or_8_and_128 (x : Nat) (h : x &&& 128 = 0) : (x ||| 8) &&& 128 = 0 := by
  apply Nat.eq_of_testBit_eq
  intro i
  have hi := congrArg (fun y => Nat.testBit y i) h
  simp only [Nat.testBit_and, Nat.zero_testBit] at hi
  simp only [Nat.testBit_and, Nat.testBit_or, Nat.zero_testBit]
  by_cases h7 : i = 7
  · subst h7
    have h8 : Nat.testBit 8 7 = false := by decide
    rw [h8, Bool.or_false]
    exact hi
  · have h128 : Nat.testBit 128 i = false := by
      rw [show (128 : Nat) = 2 ^ 7 from rfl, Nat.testBit_two_pow]
      simp
      omega
    rw [h128, Bool.and_false]

theorem readRequest_facts (s : State) (id start thisN : Nat) (hd : AllDrain s) :
    ∃ s1,
      endTXPacketDynamixel
          (if thisN > 0 then
            txDynamixel (txDynamixel (startTXPacketDynamixel s id 2 D_I_READ_DATA) start 1)
              thisN 1
           else startTXPacketDynamixel s id 0 D_I_PING) = (true, s1) ∧
      s1.dynamixelTxBuffer = s.dynamixelTxBuffer ++ readRequest id start thisN ∧
      s1.dynamixelTxDone = s.dynamixelTxDone.tail ∧ s1.status = s.status ∧
      s1.numDynamixelRetries = s.numDynamixelRetries ∧
      s1.dynamixelRxBuffer = s.dynamixelRxBuffer ∧
      s1.dynamixelParams = s.dynamixelParams ∧ s1.hostSide = s.hostSide := by
  have hdr := drains_head s hd
  have hne : s.dynamixelTxDone.head? ≠ some false := by simpa using hdr
  by_cases h : thisN > 0
  · obtain ⟨s1, e, a1, a2, a3, a4, a5, a6, a7⟩ :=
      txPacket_facts s id 2 D_I_READ_DATA [start, thisN] rfl
    rw [hdr] at e
    rw [if_pos hne] at a3
    rw [if_pos h]
    refine ⟨s1, e, ?_, a2, a3, a4, a5, a6, a7⟩
    rw [a1, readRequest, if_pos h]
  · obtain ⟨s1, e, a1, a2, a3, a4, a5, a6, a7⟩ := txPacket_facts s id 0 D_I_PING [] rfl
    rw [hdr] at e
    rw [if_pos hne] at a3
    rw [if_neg h]
    refine ⟨s1, e, ?_, a2, a3, a4, a5, a6, a7⟩
    rw [a1, readRequest, if_neg h]

theorem readRetryLoop_reply (fuel : Nat) (s : State) (id start thisN : Nat) (out : RxHeader)
    (rid err : Nat) (ps : List Nat) (rest : List (Option Nat)) (hd : AllDrain s)
    (hst : s.status &&& S_DYNAMIXEL_CHECKSUM_ERROR = 0)
    (herr : err &&& DYNAMIXEL_INSTRUCTION_CHECKSUM_ERROR = 0) (hlen : ps.length + 2 < 256)
    (hrx : s.dynamixelRxBuffer = busReply rid err ps (replyChecksum rid err ps) ++ rest) :
    ∃ t,
      readRetryLoop (fuel + 1) (fillParams thisN 0 s) id start thisN out =
        .ret (some ⟨rid, ps.length, err⟩) t ∧
      t.dynamixelTxBuffer = s.dynamixelTxBuffer ++ readRequest id start thisN ∧
      t.dynamixelRxBuffer = rest ∧
      t.status =
        (if ps.length = thisN then s.status else s.status ||| S_INVALID_DYNAMIXEL_RESPONSE) ∧
      t.numDynamixelRetries = s.numDynamixelRetries ∧ Sent s t [] ∧ AllDrain t ∧
      (∀ x, t.dynamixelParams x =
        if x < ps.length ∧ x < thisN then ps.getD x 0
        else if x < thisN then 0xff else s.dynamixelParams x) := by
  obtain ⟨f1, f2, f3, f4, f5, f6⟩ := fillParams_facts thisN 0 s
  have fstep := Step.fillParams thisN 0 s
  generalize fillParams thisN 0 s = s0 at f1 f2 f3 f4 f5 f6 fstep ⊢
  have hd0 : AllDrain s0 := fstep.drain hd
  obtain ⟨s1, e1, a1, a2, a3, a4, a5, a6, a7⟩ := readRequest_facts s0 id start thisN hd0
  obtain ⟨s2, e2, b1, b2, b3, b4, b5, b6, b7⟩ :=
    rxPacket_reply s1 out rid err ps (replyChecksum rid err ps) rest thisN hlen
      (by rw [a5, f3]; exact hrx)
  simp only [if_true] at b2
  have hs2 : s2.status =
      (if ps.length = thisN then s.status else s.status ||| S_INVALID_DYNAMIXEL_RESPONSE) := by
    rw [b2, a3, f2]
  have h128 : s2.status &&& S_DYNAMIXEL_CHECKSUM_ERROR = 0 := by
    rw [hs2]
    split
    · exact hst
    · exact or_8_and_128 _ hst
  have e3 := tryDynamixelAgain_no s2 err herr h128
  have htotal : readRetryLoop (fuel + 1) s0 id start thisN out =
      .ret (some ⟨rid, ps.length, err⟩) s2 := by
    rw [readRetryLoop]
    simp only [e1, e2, e3]
  have hstep := (readRetryLoop_spec (fuel + 1) s0 id start thisN out).1
  rw [htotal] at hstep
  simp only [Run.state_ret] at hstep
  refine ⟨s2, htotal, ?_, b1, hs2, ?_, (fstep.andThen hstep).sent, ?_, fun x => ?_⟩
  · rw [b3, a1, f4]
  · rw [b5, a4, f6]
  · exact (fstep.andThen hstep).drain hd
  · rw [b7 x, a6, f1 x]
    simp only [Nat.zero_le, true_and, Nat.zero_add]

theorem fwdParams_exact :
    ∀ (k j : Nat) (s : State) (b : Nat),
      (fwdParams k j s b).1.pcTxBuffer =
        s.pcTxBuffer ++ (List.range' j k).map s.dynamixelParams ∧
      (fwdParams k j s b).1.status = s.status ∧
      (fwdParams k j s b).1.dynamixelParams = s.dynamixelParams ∧
      BusIdle s (fwdParams k j s b).1 := by
  intro k
  induction k with
  | zero =>
    intro j s b
    rw [fwdParams]
    exact ⟨by simp, rfl, rfl, BusIdle.still s⟩
  | succ k ih =>
    intro j s b
    obtain ⟨h1, h2, h3, h4⟩ :=
      ih (j + 1) (txPC s (s.dynamixelParams j) 1) ((b + 65535) % 65536)
    rw [fwdParams]
    refine ⟨?_, h2, h3, ⟨h4.tx, h4.rx, h4.done, h4.retries⟩⟩
    rw [h1]
    simp [txPC, List.range'_succ]

theorem fwdStuff_exact :
    ∀ (k : Nat) (s : State) (b : Nat),
      (fwdStuff k s b).1.pcTxBuffer = s.pcTxBuffer ++ List.replicate k 0xff ∧
      (fwdStuff k s b).1.status = s.status ∧
      (fwdStuff k s b).1.dynamixelParams = s.dynamixelParams ∧
      BusIdle s (fwdStuff k s b).1 := by
  intro k
  induction k with
  | zero =>
    intro s b
    rw [fwdStuff]
    exact ⟨by simp, rfl, rfl, BusIdle.still s⟩
  | succ k ih =>
    intro s b
    obtain ⟨h1, h2, h3, h4⟩ := ih (txPC s 0xff 1) ((b + 65535) % 65536)
    rw [fwdStuff]
    refine ⟨?_, h2, h3, ⟨h4.tx, h4.rx, h4.done, h4.retries⟩⟩
    rw [h1]
    simp [txPC, List.replicate_succ]

theorem readBlockLoop_step (rf fuel : Nat) (s : State) (id n start re b : Nat) (hn : 0 < n) :
    readBlockLoop rf (fuel + 1) s id n start re b =
      (readRetryLoop rf (fillParams (blockBytes start n) 0 s) id start (blockBytes start n)
          ⟨0xff, 0xff, 0xff⟩).bind fun r s2 =>
        match r with
        | none => .ret (false, b) s2
        | some out =>
          if blockReturnError start n re ≠ 0 then
            readBlockLoop rf fuel
              (txPC
                (if out.id = id ∧ out.numParams = blockBytes start n then
                  fwdParams (blockBytes start n) 0 s2 b
                 else
                  fwdStuff (blockBytes start n)
                    (setStatusFlag s2 S_INVALID_DYNAMIXEL_RESPONSE) b).1
                out.error 1)
              id (((n + 255) % 256 + 256 - blockBytes start n) % 256)
              (((start + 1) % 256 + blockBytes start n) % 256) (blockReturnError start n re)
              (((if out.id = id ∧ out.numParams = blockBytes start n then
                  fwdParams (blockBytes start n) 0 s2 b
                 else
                  fwdStuff (blockBytes start n)
                    (setStatusFlag s2 S_INVALID_DYNAMIXEL_RESPONSE) b).2 + 65535) % 65536)
          else
            readBlockLoop rf fuel
              (if out.id = id ∧ out.numParams = blockBytes start n then
                fwdParams (blockBytes start n) 0 s2 b
               else
                fwdStuff (blockBytes start n)
                  (setStatusFlag s2 S_INVALID_DYNAMIXEL_RESPONSE) b).1
              id ((n + 256 - blockBytes start n) % 256) ((start + blockBytes start n) % 256)
              (blockReturnError start n re)
              (if out.id = id ∧ out.numParams = blockBytes start n then
                fwdParams (blockBytes start n) 0 s2 b
               else
                fwdStuff (blockBytes start n)
                  (setStatusFlag s2 S_INVALID_DYNAMIXEL_RESPONSE) b).2 := by
  rw [readBlockLoop, if_pos hn]
  rfl

/-- C16, counterexample: one byte of device 1 is requested and the device
answers a well-formed packet with the expected id and two parameters 0x42,
0x43.  The payload byte sent to the host is 0xFF, not the received 0x42 (which
is in `dynamixelParams[0]`); the status byte is 8 (InvalidBusResponse). -/
theorem readData_overlong_counterexample :
    (commandLoop 4 2 (initState (fun _ => 0) overlongHost overlongBus)).state.pcTxBuffer =
      [0xFA, 0, 0, 0, 0, 0, 5, 0xFB, 0xFF, 8, 0, 0, 0, 0, 253] ∧
    (commandLoop 4 2 (initState (fun _ => 0) overlongHost overlongBus)).state.dynamixelParams 0 =
      0x42 := by
  decide

/-- C16 as amended: in a block of `handleReadData`, when the reply that ends
the retry loop is a well-formed packet with the expected id whose parameter
count differs from the number of bytes requested for the block, the block's
payload sent to the host is that number of 0xFF bytes (followed by the reply's
error byte when the block returns the virtual register), InvalidBusResponse is
set, and the loop goes on with the next block; the bytes received, up to the
requested count, are in `dynamixelParams` but are not forwarded. -/
theorem readBlock_mismatch (rf fuel : Nat) (s : State) (id n start re b err : Nat)
    (ps : List Nat) (rest : List (Option Nat)) (hn : 0 < n) (hd : AllDrain s)
    (hst : s.status &&& S_DYNAMIXEL_CHECKSUM_ERROR = 0)
    (herr : err &&& DYNAMIXEL_INSTRUCTION_CHECKSUM_ERROR = 0) (hlen : ps.length + 2 < 256)
    (hm : ps.length ≠ blockBytes start n)
    (hrx : s.dynamixelRxBuffer = busReply id err ps (replyChecksum id err ps) ++ rest) :
    ∃ (t : State) (n1 start1 b1 : Nat),
      readBlockLoop (rf + 1) (fuel + 1) s id n start re b =
        readBlockLoop (rf + 1) fuel t id n1 start1 (blockReturnError start n re) b1 ∧
      t.pcTxBuffer =
        s.pcTxBuffer ++ List.replicate (blockBytes start n) 0xFF ++
          (if blockReturnError start n re ≠ 0 then [err] else []) ∧
      t.status &&& S_INVALID_DYNAMIXEL_RESPONSE ≠ 0 ∧
      (∀ x, x < ps.length → x < blockBytes start n → t.dynamixelParams x = ps.getD x 0) := by
  obtain ⟨t2, e2, a1, a2, a3, a4, a5, a6, a7⟩ :=
    readRetryLoop_reply rf s id start (blockBytes start n) ⟨0xff, 0xff, 0xff⟩ id err ps rest hd
      hst herr hlen hrx
  obtain ⟨f1, f2, f3, f4⟩ :=
    fwdStuff_exact (blockBytes start n) (setStatusFlag t2 S_INVALID_DYNAMIXEL_RESPONSE) b
  have hflag : (fwdStuff (blockBytes start n)
      (setStatusFlag t2 S_INVALID_DYNAMIXEL_RESPONSE) b).1.status &&&
        S_INVALID_DYNAMIXEL_RESPONSE ≠ 0 := by
    rw [f2]
    show (t2.status ||| S_INVALID_DYNAMIXEL_RESPONSE) &&& S_INVALID_DYNAMIXEL_RESPONSE ≠ 0
    rw [or_and_flag]
    decide
  have hpar : ∀ x, x < ps.length → x < blockBytes start n →
      (fwdStuff (blockBytes start n)
        (setStatusFlag t2 S_INVALID_DYNAMIXEL_RESPONSE) b).1.dynamixelParams x = ps.getD x 0 := by
    intro x h1 h2
    rw [f3]
    show t2.dynamixelParams x = _
    rw [a7 x, if_pos ⟨h1, h2⟩]
  have htx : (fwdStuff (blockBytes start n)
      (setStatusFlag t2 S_INVALID_DYNAMIXEL_RESPONSE) b).1.pcTxBuffer =
        s.pcTxBuffer ++ List.replicate (blockBytes start n) 0xFF := by
    rw [f1]
    show t2.pcTxBuffer ++ _ = _
    rw [a5.tx]
    simp
  rw [readBlockLoop_step (rf + 1) fuel s id n start re b hn, e2]
  simp only [Run.bind_ret, hm, and_false, if_false]
  by_cases hre : blockReturnError start n re ≠ 0
  · rw [if_pos hre, if_pos hre]
    refine ⟨_, _, _, _, rfl, ?_, hflag, hpar⟩
    show _ ++ [err] = _
    rw [htx]
  · rw [if_neg hre, if_neg hre]
    refine ⟨_, _, _, _, rfl, ?_, hflag, hpar⟩
    rw [htx]
    simp

/-- Witness of `readBlock_mismatch`: one byte of device 1 requested at address
0, two parameters received. -/
theorem readBlock_mismatch_witness :
    ∃ (t : State) (n1 start1 b1 : Nat),
      readBlockLoop 4 1 (initState (fun _ => 0) [] overlongBus) 1 1 0 0 1 =
        readBlockLoop 4 0 t 1 n1 start1 (blockReturnError 0 1 0) b1 ∧
      t.pcTxBuffer =
        [] ++ List.replicate (blockBytes 0 1) 0xFF ++
          (if blockReturnError 0 1 0 ≠ 0 then [0] else []) := by
  obtain ⟨t, n1, start1, b1, h1, h2, _⟩ :=
    readBlock_mismatch 3 0 (initState (fun _ => 0) [] overlongBus) 1 1 0 0 1 0 [0x42, 0x43] []
      (by decide) (by intro b hb; cases hb) (by decide) (by decide) (by decide) (by decide)
      (by simp [overlongBus, initState])
  exact ⟨t, n1, start1, b1, h1, h2⟩

/-! ### Write then read against a simulated device -/

theorem storeRegs_below :
    ∀ (data : List Nat) (regs : Nat → Nat) (a x : Nat), x < a → storeRegs regs a data x = regs x := by
  intro data
  induction data with
  | nil => intro regs a x _; rfl
  | cons b bs ih =>
    intro regs a x hx
    rw [storeRegs, ih _ _ _ (by omega)]
    simp only [upd]
    rw [if_neg (by omega)]

theorem storeRegs_at :
    ∀ (data : List Nat) (regs : Nat → Nat) (a x : Nat), x < data.length →
      storeRegs regs a data (a + x) = data.getD x 0 := by
  intro data
  induction data with
  | nil => intro regs a x hx; simp at hx
  | cons b bs ih =>
    intro regs a x hx
    rw [storeRegs]
    cases x with
    | zero =>
      rw [Nat.add_zero, storeRegs_below _ _ _ _ (by omega)]
      simp [upd]
    | succ x =>
      simp only [List.length_cons] at hx
      have : a + (x + 1) = (a + 1) + x := by omega
      rw [this, ih _ _ _ (by omega), List.getD_cons_succ]

theorem loadRegs_storeRegs (regs : Nat → Nat) (a : Nat) (data : List Nat) (off k : Nat)
    (h : off + k ≤ data.length) :
    loadRegs (storeRegs regs a data) (a + off) k = (data.drop off).take k := by
  apply List.ext_getElem
  · simp only [loadRegs, List.length_map, List.length_range', List.length_take,
      List.length_drop]
    omega
  · intro i h1 h2
    simp only [loadRegs, List.getElem_map, List.getElem_range', Nat.one_mul,
      List.getElem_take, List.getElem_drop]
    have hi : i < k := by
      simpa [loadRegs] using h1
    have := storeRegs_at data regs a (off + i) (by omega)
    rw [show a + off + i = a + (off + i) by omega, this]
    rw [List.getD_eq_getElem?_getD, List.getElem?_eq_getElem (by omega)]
    rfl

theorem Device.run_reads (d : Device) :
    ∀ blocks : List (Nat × Nat),
      Device.run d (blocks.map fun b => (d.id, D_I_READ_DATA, [b.1, b.2])) =
        (d, readReplies d.id d.regs blocks) := by
  intro blocks
  induction blocks with
  | nil => rfl
  | cons b bs ih =>
    have hh : d.handle (d.id, D_I_READ_DATA, [b.1, b.2]) =
        (d, busReply d.id 0 (loadRegs d.regs b.1 b.2)
          (replyChecksum d.id 0 (loadRegs d.regs b.1 b.2))) := by
      simp [Device.handle]
    simp only [List.map_cons, Device.run, hh, ih]
    simp [readReplies]

theorem Device.run_roundTrip (d : Device) (start : Nat) (payload : List Nat) :
    (Device.run d (roundTripPackets d.id start payload)).2 =
      (if d.answersWrite then busReply d.id 0 [] (replyChecksum d.id 0 []) else [none]) ++
        readReplies d.id (storeRegs d.regs start payload) (readBlocks start payload.length) := by
  have h1 : d.handle (d.id, D_I_REG_WRITE, start :: payload) =
      ({ d with latched := some (start, payload) },
        if d.answersWrite then busReply d.id 0 [] (replyChecksum d.id 0 []) else [none]) := by
    simp [Device.handle]
  have h2 : Device.handle { d with latched := some (start, payload) }
      (ID_BCAST, D_I_ACTION, []) =
      ({ d with regs := storeRegs d.regs start payload, latched := none }, []) := by
    simp [Device.handle]
  have h3 := Device.run_reads { d with regs := storeRegs d.regs start payload, latched := none }
    (readBlocks start payload.length)
  simp only [roundTripPackets, Device.run, h1, h2]
  rw [h3]
  simp

theorem writeRxLoop_checksum :
    ∀ (data : List Nat) (j : Nat) (s : State) (tail : List (Option Nat)),
      s.pcRxBuffer = data.map some ++ tail →
      ∃ t, writeRxLoop data.length j s = .ret true t ∧
        t.checksumRxPC % 256 = (s.checksumRxPC + data.sum) % 256 := by
  intro data
  induction data with
  | nil =>
    intro j s tail _
    exact ⟨s, rfl, by simp⟩
  | cons b bs ih =>
    intro j s tail h
    simp only [List.map_cons, List.cons_append] at h
    obtain ⟨t, e, h1⟩ :=
      ih (j + 1)
        { s with
          pcRxBuffer := bs.map some ++ tail
          checksumRxPC := (s.checksumRxPC + b) % 256
          dynamixelParams := upd s.dynamixelParams j b } tail rfl
    refine ⟨t, ?_, ?_⟩
    · simp only [List.length_cons]
      unfold writeRxLoop
      rw [rxPC_some s 1 b _ h]
      simpa using e
    · rw [h1, List.sum_cons]
      show ((s.checksumRxPC + b) % 256 + bs.sum) % 256 = _
      omega

theorem rxPacket_silent (s : State) (out : RxHeader) (p : Bool) (e : Nat)
    (rest : List (Option Nat)) (h : s.dynamixelRxBuffer = none :: rest) :
    ∃ t, rxPacketDynamixel s out p e = (false, out, t) ∧ t.dynamixelRxBuffer = rest ∧
      t.dynamixelTxBuffer = s.dynamixelTxBuffer ∧ t.dynamixelTxDone = s.dynamixelTxDone ∧
      t.numDynamixelRetries = s.numDynamixelRetries ∧ t.hostSide = s.hostSide := by
  unfold rxPacketDynamixel startRXPacketDynamixel
  simp only [rxDynamixel, h]
  exact ⟨_, rfl, rfl, rfl, rfl, rfl, rfl⟩

theorem handleWriteData_single (fuel : Nat) (hfuel : 4 ≤ fuel) (s : State) (id start : Nat)
    (payload : List Nat) (ck : Nat) (reply hostRest busRest : List (Option Nat))
    (hN : s.numDynamixels F_WRITE = 1) (hid : s.axID F_WRITE 0 = id)
    (hsa : s.startAddr F_WRITE 0 = start) (hnb : s.numBytes F_WRITE 0 = payload.length)
    (hd : AllDrain s) (hstat : s.status &&& S_DYNAMIXEL_CHECKSUM_ERROR = 0)
    (hck : ck = 255 - (s.checksumRxPC + payload.sum) % 256)
    (hhost : s.pcRxBuffer = payload.map some ++ some ck :: hostRest)
    (hreply : reply = busReply id 0 [] (replyChecksum id 0 []) ∨ reply = [none])
    (hbus : s.dynamixelRxBuffer = reply ++ busRest) :
    ∃ x, handleWriteData fuel s = .ret () (txStatusPC x) ∧
      (reply = busReply id 0 [] (replyChecksum id 0 []) → x.status = s.status) ∧
      x.numDynamixelRetries = s.numDynamixelRetries ∧
      x.dynamixelTxBuffer = s.dynamixelTxBuffer ++ regWritePacket id start payload ++ actionPacket ∧
      x.dynamixelRxBuffer = busRest ∧ x.pcRxBuffer = hostRest ∧ Kept s x := by
  obtain ⟨fuel, rfl⟩ : ∃ k, fuel = k + 1 := ⟨fuel - 1, by omega⟩
  -- the payload is read
  obtain ⟨t1, e1, a1, a2, _, a4, a5, a6⟩ := writeRxLoop_data payload 0 s (some ck :: hostRest) hhost
  obtain ⟨t1', e1', ack⟩ := writeRxLoop_checksum payload 0 s (some ck :: hostRest) hhost
  have ht1 : t1' = t1 := by
    rw [e1] at e1'
    cases e1'
    rfl
  subst ht1
  have hpb : paramBytes t1' payload.length = payload := by
    rw [paramBytes, List.range_eq_range']
    exact a2
  -- the REG_WRITE goes out
  obtain ⟨s1, e2, b1, b2, b3, b4, b5, b6, b7⟩ := regWrite_facts t1' id start payload.length
  rw [drains_head t1' (a4.drain hd)] at e2
  have hne : t1'.dynamixelTxDone.head? ≠ some false := by
    simpa using drains_head t1' (a4.drain hd)
  rw [if_pos hne] at b3
  have hd1 : AllDrain s1 := drains_tail t1' s1 (a4.drain hd) b2
  -- it is answered, or the wait for the answer times out
  obtain ⟨out, s2, hretry, c1, c2, c3, c4, c5, c6⟩ : ∃ out s2,
      writeRetryLoop (fuel + 1) t1' id start payload.length ⟨0xff, 0xff, 0xff⟩ =
        .ret (some out) s2 ∧
      (reply = busReply id 0 [] (replyChecksum id 0 []) → out.id = id ∧ s2.status = s.status) ∧
      s2.dynamixelTxBuffer = s1.dynamixelTxBuffer ∧
      s2.numDynamixelRetries = s1.numDynamixelRetries ∧ s2.dynamixelRxBuffer = busRest ∧
      s2.hostSide = s1.hostSide ∧ s2.dynamixelTxDone = s1.dynamixelTxDone := by
    rcases hreply with hr | hr
    · obtain ⟨s2, e3, c1, c2, c3, c4, c5, c6⟩ :=
        rxPacket_pingReply_facts s1 ⟨0xff, 0xff, 0xff⟩ id 0 (replyChecksum id 0 []) busRest
          (by rw [b5, a5.rx, hbus, hr]; simp [busReply])
      have hrc : replyChecksum id 0 [] = 255 - (id + 2 + 0) % 256 := by
        simp [replyChecksum]
      rw [if_pos hrc, b3, a6] at c1
      have e4 := tryDynamixelAgain_no s2 0 (by decide) (by rw [c1]; exact hstat)
      refine ⟨⟨id, 0, 0⟩, s2, ?_, fun _ => ⟨rfl, c1⟩, c2, c3, c4, c5, c6⟩
      rw [writeRetryLoop]
      simp only [e2, e3, e4]
    · obtain ⟨s2, e3, c4, c2, c6, c3, c5⟩ :=
        rxPacket_silent s1 ⟨0xff, 0xff, 0xff⟩ false 0 busRest
          (by rw [b5, a5.rx, hbus, hr]; rfl)
      refine ⟨⟨0xff, 0xff, 0xff⟩, s2, ?_, ?_, c2, c3, c4, c5, c6⟩
      · rw [writeRetryLoop]
        simp only [e2, e3]
      · intro h
        rw [hr] at h
        simp [busReply] at h
  -- the response flag of the entry
  obtain ⟨sf, hsf, f1, f2, f3, f4, f5, f6⟩ : ∃ sf : State,
      (if out.id ≠ id then setStatusFlag s2 S_INVALID_DYNAMIXEL_RESPONSE else s2) = sf ∧
      (out.id = id → sf.status = s2.status) ∧ sf.dynamixelTxBuffer = s2.dynamixelTxBuffer ∧
      sf.numDynamixelRetries = s2.numDynamixelRetries ∧
      sf.dynamixelRxBuffer = s2.dynamixelRxBuffer ∧ sf.hostSide = s2.hostSide ∧
      sf.dynamixelTxDone = s2.dynamixelTxDone := by
    by_cases ho : out.id = id
    · exact ⟨s2, by rw [if_neg (not_not.mpr ho)], fun _ => rfl, rfl, rfl, rfl, rfl, rfl⟩
    · exact ⟨setStatusFlag s2 S_INVALID_DYNAMIXEL_RESPONSE, by rw [if_pos ho],
        fun h => absurd h ho, rfl, rfl, rfl, rfl, rfl⟩
  have hdf : AllDrain sf := fun b hb => hd1 b (by rw [← c6, ← f6]; exact hb)
  -- the ACTION goes out, the host checksum is read
  obtain ⟨s3, e5, d1, d2, d5, d6, d3, _, d4⟩ := txPacket_facts sf ID_BCAST 0 D_I_ACTION [] rfl
  have e5 : endTXPacketDynamixel (startTXPacketDynamixel sf ID_BCAST 0 D_I_ACTION) =
      (decide (sf.dynamixelTxDone.head? ≠ some false), s3) := e5
  rw [drains_head sf hdf] at e5
  have hne2 : sf.dynamixelTxDone.head? ≠ some false := by
    simpa using drains_head sf hdf
  rw [if_pos hne2] at d5
  have hhs : s3.hostSide = t1'.hostSide := d4.trans (f5.trans (c5.trans b7))
  have hrx3 : s3.pcRxBuffer = some ck :: hostRest :=
    (congrArg HostSide.pcRxBuffer hhs).trans a1
  have hck3 : s3.checksumRxPC = t1'.checksumRxPC := congrArg HostSide.checksumRxPC hhs
  have e6 := endRXPacketPC_some s3 ck hostRest hrx3
  have hckok : ck = 255 - s3.checksumRxPC % 256 := by
    rw [hck3, ack, hck]
  rw [if_pos hckok] at e6
  have hk3 : Kept s s3 := by
    have k1 : Kept t1' s3 :=
      ⟨congrArg HostSide.numDynamixels hhs, congrArg HostSide.totalNumBytes hhs,
        congrArg HostSide.axID hhs, congrArg HostSide.startAddr hhs,
        congrArg HostSide.numBytes hhs, congrArg HostSide.adcValue hhs,
        congrArg HostSide.enableRxPCTimeout hhs, congrArg HostSide.pcTxBuffer hhs,
        fun _ => drains_tail sf s3 hdf d2⟩
    exact a4.next k1
  refine ⟨{ s3 with pcRxBuffer := hostRest, status := s3.status }, ?_, ?_, ?_, ?_, ?_, rfl, ?_⟩
  · unfold handleWriteData
    rw [hN, writeEntryLoop, hnb, hid, hsa, e1]
    simp only [Run.bind_ret, if_true]
    rw [hretry]
    simp only [Run.bind_ret, hsf, writeEntryLoop, if_true, e5, e6]
  · intro h
    show s3.status = s.status
    rw [d5, f1 (c1 h).1, (c1 h).2]
  · show s3.numDynamixelRetries = s.numDynamixelRetries
    rw [d6, f3, c3, b4, a5.retries]
  · show s3.dynamixelTxBuffer = _
    rw [d1, f2, c2, b1, hpb, a5.tx]
    rfl
  · show s3.dynamixelRxBuffer = _
    rw [d3, f4, c4]
  · exact hk3.next ⟨rfl, rfl, rfl, rfl, rfl, rfl, rfl, rfl, fun h => h⟩

theorem blockBytes_plain (start n : Nat) (hne : start + (if n ≤ 20 then n else 20) ≠ 54) :
    blockBytes start n = (if n ≤ 20 then n else 20) ∧ blockReturnError start n 0 = 0 := by
  unfold blockBytes blockReturnError
  simp only [MAX_DYNAMIXEL_BLOCK_READ, VIRTUAL_ERROR_REG_ADDR]
  rw [if_neg hne, if_neg hne]
  exact ⟨rfl, rfl⟩

theorem readBlock_match (rf fuel : Nat) (s : State) (id n start b k : Nat) (ps : List Nat)
    (rest : List (Option Nat)) (hn : 0 < n) (hsum : start + n ≤ 255)
    (hv : start + (if n ≤ 20 then n else 20) ≠ 54)
    (hk : k = (if n ≤ 20 then n else 20)) (hd : AllDrain s)
    (hst : s.status &&& S_DYNAMIXEL_CHECKSUM_ERROR = 0) (hlen : ps.length = k)
    (hb : k ≤ b) (hb2 : b < 65536)
    (hrx : s.dynamixelRxBuffer = busReply id 0 ps (replyChecksum id 0 ps) ++ rest) :
    ∃ t,
      readBlockLoop (rf + 1) (fuel + 1) s id n start 0 b =
        readBlockLoop (rf + 1) fuel t id (n - k) (start + k) 0 (b - k) ∧
      Sent s t ps ∧
      t.dynamixelTxBuffer = s.dynamixelTxBuffer ++ busPacket id D_I_READ_DATA [start, k] ∧
      t.dynamixelRxBuffer = rest ∧ t.status = s.status ∧
      t.numDynamixelRetries = s.numDynamixelRetries ∧ AllDrain t := by
  obtain ⟨hbb, hre⟩ := blockBytes_plain start n hv
  rw [← hk] at hbb
  have hkpos : 0 < k := by
    rw [hk]
    split <;> omega
  have hk20 : k ≤ 20 := by
    rw [hk]
    split <;> omega
  have hkn : k ≤ n := by
    rw [hk]
    split <;> omega
  obtain ⟨t2, e2, a1, a2, a3, a4, a5, a6, a7⟩ :=
    readRetryLoop_reply rf s id start k ⟨0xff, 0xff, 0xff⟩ id 0 ps rest hd hst (by decide)
      (by omega) hrx
  rw [if_pos hlen] at a3
  obtain ⟨f1, f2, f3, f4⟩ := fwdParams_exact k 0 t2 b
  obtain ⟨L, g1, g2, g3⟩ := fwdParams_sent k 0 t2 b hb hb2
  have hL : L = ps := by
    have h1 := g2.tx
    rw [f1] at h1
    have h2 := List.append_cancel_left h1
    rw [← h2]
    apply List.ext_getElem
    · simp [hlen]
    · intro i h3 h4
      simp only [List.getElem_map, List.getElem_range', Nat.zero_add, Nat.one_mul]
      rw [a7 i, if_pos ⟨by omega, by simpa using h3⟩]
      rw [List.getD_eq_getElem?_getD, List.getElem?_eq_getElem (by omega)]
      rfl
  subst hL
  refine ⟨(fwdParams k 0 t2 b).1, ?_, ?_, ?_, ?_, ?_, ?_, ?_⟩
  · rw [readBlockLoop_step (rf + 1) fuel s id n start 0 b hn, hbb, hre, e2]
    simp only [Run.bind_ret, hlen, and_self, if_true, ne_eq, not_true_eq_false, if_false]
    rw [g3]
    have h1 : (n + 256 - k) % 256 = n - k := by omega
    have h2 : (start + k) % 256 = start + k := by omega
    rw [h1, h2]
  · have := a5.append g2
    simpa using this
  · rw [f4.tx, a1, readRequest, if_pos hkpos]
  · rw [f4.rx, a2]
  · rw [f2, a3]
  · rw [f4.retries, a4]
  · exact g2.drain a6

theorem readBlocks_cons (start n : Nat) (hn : 0 < n) (h60 : n ≤ 60) :
    readBlocks start n =
      (start, if n ≤ 20 then n else 20) ::
        readBlocks (start + (if n ≤ 20 then n else 20)) (n - (if n ≤ 20 then n else 20)) := by
  unfold readBlocks
  by_cases h1 : n ≤ 20
  · simp [h1, show ¬ n = 0 by omega]
  · by_cases h2 : n ≤ 40
    · simp [h1, h2, show ¬ n = 0 by omega, show ¬ n - 20 = 0 by omega,
        show n - 20 ≤ 20 by omega]
    · simp [h1, h2, show ¬ n = 0 by omega, show ¬ n - 20 = 0 by omega,
        show ¬ n - 20 ≤ 20 by omega, show n - 20 ≤ 40 by omega]
      omega

theorem loadRegs_split (regs : Nat → Nat) (a k n : Nat) (h : k ≤ n) :
    loadRegs regs a n = loadRegs regs a k ++ loadRegs regs (a + k) (n - k) := by
  unfold loadRegs
  rw [← List.map_append]
  congr 1
  have : n = (n - k) + k := by omega
  conv_lhs => rw [this]
  rw [List.range'_append_1]

theorem readBlockLoop_device (rf : Nat) (id : Nat) (regs : Nat → Nat) :
    ∀ (fuel : Nat) (s : State) (n start b : Nat) (rest : List (Option Nat)),
      ReadableEntry start n → start + n ≠ 54 → n ≤ 20 * fuel → n ≤ b → b < 65536 →
      AllDrain s → s.status &&& S_DYNAMIXEL_CHECKSUM_ERROR = 0 →
      s.dynamixelRxBuffer = readReplies id regs (readBlocks start n) ++ rest →
      ∃ t, readBlockLoop (rf + 1) fuel s id n start 0 b = .ret (true, b - n) t ∧
        Sent s t (loadRegs regs start n) ∧
        t.dynamixelTxBuffer =
          s.dynamixelTxBuffer ++
            wire ((readBlocks start n).map fun b => (id, D_I_READ_DATA, [b.1, b.2])) ∧
        t.dynamixelRxBuffer = rest ∧ t.status = s.status ∧
        t.numDynamixelRetries = s.numDynamixelRetries ∧ AllDrain t := by
  intro fuel
  induction fuel with
  | zero =>
    intro s n start b rest _ _ hn _ _ hd _ hrx
    have h0 : n = 0 := by omega
    subst h0
    refine ⟨s, readBlockLoop_zero _ 0 s id start 0 b, ?_, ?_, ?_, rfl, rfl, hd⟩
    · simpa [loadRegs] using Sent.nothing s
    · simp [readBlocks, wire]
    · simpa [readBlocks, readReplies] using hrx
  | succ fuel ih =>
    intro s n start b rest hgood hne hn hnb hb hd hst hrx
    obtain ⟨hsum, hbad⟩ := hgood
    by_cases hn0 : n = 0
    · subst hn0
      refine ⟨s, readBlockLoop_zero _ _ s id start 0 b, ?_, ?_, ?_, rfl, rfl, hd⟩
      · simpa [loadRegs] using Sent.nothing s
      · simp [readBlocks, wire]
      · simpa [readBlocks, readReplies] using hrx
    have hpos : 0 < n := Nat.pos_of_ne_zero hn0
    have hcons := readBlocks_cons start n hpos (by omega)
    generalize hk : (if n ≤ 20 then n else 20) = k at hcons
    have hkn : k ≤ n := by
      rw [← hk]
      split <;> omega
    rw [hcons] at hrx ⊢
    simp only [readReplies, List.map_cons, List.flatten_cons, List.append_assoc] at hrx
    obtain ⟨t1, e1, a1, a2, a3, a4, a5, a6⟩ :=
      readBlock_match rf fuel s id n start b k (loadRegs regs start k) _ hpos (by omega)
        (by split <;> omega) hk.symm hd hst (by simp [loadRegs]) (by omega) hb hrx
    have hk20 : k = n ∨ (k = 20 ∧ 20 < n) := by
      rw [← hk]
      split <;> omega
    obtain ⟨t, e2, b1, b2, b3, b4, b5, b6⟩ :=
      ih t1 (n - k) (start + k) (b - k) rest
        ⟨by omega, fun h => hbad ⟨by omega, by omega⟩⟩ (by omega)
        (by omega) (by omega) (by omega) a6 (by rw [a4]; exact hst) a3
    refine ⟨t, ?_, ?_, ?_, b3, b4.trans a4, b5.trans a5, b6⟩
    · rw [e1, e2]
      have : b - k - (n - k) = b - n := by omega
      rw [this]
    · rw [loadRegs_split regs start k n hkn]
      exact a1.append b1
    · rw [b2, a2]
      simp [wire]

theorem commandLoopBody_select (fuel : Nat) (s : State) (b : Nat) (rest : List (Option Nat))
    (hb : b < 256) (hrx : s.pcRxBuffer = some b :: rest) :
    commandLoopBody (fuel + 1) s =
      (selectHandler b).run (fuel + 1)
        { s with
          status := 0
          numDynamixelRetries := 0
          checksumRxPC := b
          enableRxPCTimeout := 1
          pcRxBuffer := rest } := by
  unfold commandLoopBody
  simp only [idleWait, rxPC, hrx, rxPCWait, Run.bind_ret, ne_eq, one_ne_zero,
    not_false_eq_true, if_true, Nat.zero_add, Nat.mod_eq_of_lt hb]

theorem readTail_bus (s : State) :
    (endTXPacketPC
        (txADCValuesPC
          (txPC (txPC s s.status 1)
            (txPC s s.status 1).numDynamixelRetries 1))).dynamixelTxBuffer =
      s.dynamixelTxBuffer ∧
    (endTXPacketPC
        (txADCValuesPC
          (txPC (txPC s s.status 1)
            (txPC s s.status 1).numDynamixelRetries 1))).dynamixelRxBuffer =
      s.dynamixelRxBuffer := by
  constructor <;> simp only [txADCValuesPC, endTXPacketPC, txPC]

theorem handleReadData_single (fuel : Nat) (hfuel : 4 ≤ fuel) (s : State) (id start n : Nat)
    (regs : Nat → Nat) (ck : Nat) (hostRest busRest : List (Option Nat))
    (hN : s.numDynamixels F_READ = 1) (hid : s.axID F_READ 0 = id)
    (hsa : s.startAddr F_READ 0 = start) (hnb : s.numBytes F_READ 0 = n)
    (htot : s.totalNumBytes F_READ = n) (hgood : ReadableEntry start n)
    (hne : start + n ≠ 54) (hd : AllDrain s) (hstat : s.status = 0)
    (hck : ck = 255 - s.checksumRxPC % 256)
    (hhost : s.pcRxBuffer = some ck :: hostRest)
    (hbus : s.dynamixelRxBuffer = readReplies id regs (readBlocks start n) ++ busRest) :
    ∃ t, handleReadData fuel s = .ret () t ∧
      t.pcTxBuffer =
        s.pcTxBuffer ++ I_DATA :: loadRegs regs start n ++
          [0, s.numDynamixelRetries, s.adcValue 0, s.adcValue 1, s.adcValue 2,
            255 - (I_DATA + (loadRegs regs start n).sum + 0 + s.numDynamixelRetries +
              s.adcValue 0 + s.adcValue 1 + s.adcValue 2) % 256] ∧
      t.dynamixelTxBuffer =
        s.dynamixelTxBuffer ++
          wire ((readBlocks start n).map fun b => (id, D_I_READ_DATA, [b.1, b.2])) ∧
      t.dynamixelRxBuffer = busRest := by
  obtain ⟨rf, rfl⟩ : ∃ k, fuel = k + 1 := ⟨fuel - 1, by omega⟩
  unfold handleReadData
  rw [endRXPacketPC_some s ck hostRest hhost, if_pos hck]
  simp only [Run.bind_ret, if_true]
  obtain ⟨s2, hs2, q1, q2, q3, q4, q5, q6, q7, q8, q9, q10, q11, q12, q13, q14⟩ : ∃ s2 : State,
      startTXPacketPC { s with pcRxBuffer := hostRest, status := s.status } I_DATA = s2 ∧
      s2.pcTxBuffer = s.pcTxBuffer ++ [I_DATA] ∧ s2.checksumTxPC = (0 + I_DATA) % 256 ∧
      s2.numDynamixels = s.numDynamixels ∧ s2.totalNumBytes = s.totalNumBytes ∧
      s2.axID = s.axID ∧ s2.startAddr = s.startAddr ∧ s2.numBytes = s.numBytes ∧
      s2.adcValue = s.adcValue ∧ s2.dynamixelTxDone = s.dynamixelTxDone ∧
      s2.status = s.status ∧ s2.dynamixelRxBuffer = s.dynamixelRxBuffer ∧
      s2.dynamixelTxBuffer = s.dynamixelTxBuffer ∧
      s2.numDynamixelRetries = s.numDynamixelRetries ∧ s2.pcRxBuffer = hostRest :=
    ⟨_, rfl, rfl, rfl, rfl, rfl, rfl, rfl, rfl, rfl, rfl, rfl, rfl, rfl, rfl, rfl⟩
  rw [hs2]
  obtain ⟨s3, e3, a1, a2, a3, a4, a5, a6⟩ :=
    readBlockLoop_device rf id regs (rf + 1) s2 n start n busRest hgood hne
      (by have := hgood.1; omega) (le_refl _)
      (by have := hgood.1; omega) (fun b hb => hd b (by rw [← q9]; exact hb))
      (by rw [q10, hstat]; rfl)
      (by rw [q11]; exact hbus)
  rw [Nat.sub_self] at e3
  have hloop : readEntryLoop (rf + 1) (s2.numDynamixels F_READ) 0 s2 (s.totalNumBytes F_READ) =
      .ret 0 s3 := by
    rw [q3, hN, htot, readEntryLoop, q5, q7, q6, hid, hnb, hsa, e3]
    rfl
  rw [hloop]
  simp only [Run.bind_ret, stuffLoop_zero]
  have hsum := a1.sum
  rw [q2] at hsum
  have hadc : s3.adcValue = s.adcValue := a1.adc.trans q8
  have hst3 : s3.status = 0 := by rw [a4, q10, hstat]
  have hr3 : s3.numDynamixelRetries = s.numDynamixelRetries := a5.trans q13
  have hck3 : 255 - (s3.checksumTxPC + s3.status + s3.numDynamixelRetries + s3.adcValue 0 +
      s3.adcValue 1 + s3.adcValue 2) % 256 =
      255 - (I_DATA + (loadRegs regs start n).sum + 0 + s.numDynamixelRetries + s.adcValue 0 +
        s.adcValue 1 + s.adcValue 2) % 256 := by
    rw [hst3, hr3, hadc]
    simp only [I_DATA] at hsum ⊢
    omega
  refine ⟨_, rfl, ?_, ?_, ?_⟩
  · rw [readTail_spec s3, a1.tx, q1, hck3, hst3, hr3, hadc]
    simp
  · rw [(readTail_bus s3).1, a2, q12]
  · rw [(readTail_bus s3).2, a3]

/-- C18 fails on the code: with the valid entry (1, 53, 1) installed for both
directions, the payload 0x42 written and read back against the simulated
device, whether it answers the REG_WRITE or not, the device receives exactly
REG_WRITE(53, 0x42), ACTION and PING and holds 0x42 in register 53, but the
response to the read is 0xFB, the payload byte 0x00 (the error byte of the PING
reply), status 0, retry count 0, the analog bytes and the checksum: the byte
returned is not the 0x42 just written.  The block ends at address 53 and
start + thisN = 54 meets the virtual-register test, which is one address
early. -/
theorem roundTrip_loses_register_53 :
    (commandLoop 4 4
        (initState (fun _ => 0) tripHost
          (Device.run (tripDevice true) tripPackets).2)).state.dynamixelTxBuffer = wire tripPackets ∧
    (commandLoop 4 4
        (initState (fun _ => 0) tripHost
          (Device.run (tripDevice true) tripPackets).2)).state.pcTxBuffer.drop 21 =
      [0xFB, 0x00, 0, 0, 0, 0, 0, 4] ∧
    (commandLoop 4 4
        (initState (fun _ => 0) tripHost
          (Device.run (tripDevice true) tripPackets).2)).state.dynamixelRxBuffer = [] ∧
    (Device.run (tripDevice true) tripPackets).1.regs 53 = 0x42 ∧
    (commandLoop 4 4
        (initState (fun _ => 0) tripHost
          (Device.run (tripDevice false) tripPackets).2)).state.dynamixelTxBuffer = wire tripPackets ∧
    (commandLoop 4 4
        (initState (fun _ => 0) tripHost
          (Device.run (tripDevice false) tripPackets).2)).state.pcTxBuffer.drop 21 =
      [0xFB, 0x00, 0, 0, 0, 0, 0, 4] ∧
    (commandLoop 4 4
        (initState (fun _ => 0) tripHost
          (Device.run (tripDevice false) tripPackets).2)).state.dynamixelRxBuffer = [] ∧
    (Device.run (tripDevice false) tripPackets).1.regs 53 = 0x42 := by
  decide

/-- The round trip on every other entry whose read ends: for every
single-entry format (id, start, length) within the register bank, with
start + length ≠ 54 (no block ends at address 53) and not one of the two
entries whose block loop never ends, installed for both directions, and every
payload of that length, against the simulated device (REG_WRITE latched,
applied on ACTION, READ_DATA answered with a well-formed status packet; the
REG_WRITE itself answered or not), a WriteData of the payload followed by a
ReadData sends on the bus exactly the REG_WRITE, the ACTION and the READ_DATA
requests of the blocks, and returns to the host the status response of the
write (status 0 when the device answers the REG_WRITE) and then 0xFB, exactly
the payload bytes, status 0, retry count 0, the analog bytes and the
checksum. -/
theorem roundTrip (fuel : Nat) (s : State) (id start : Nat) (payload : List Nat) (d : Device)
    (hostRest busRest : List (Option Nat)) (hfuel : 4 ≤ fuel)
    (hentry : ReadableEntry start payload.length) (hne : start + payload.length ≠ 54)
    (hdev : d.id = id)
    (hread : s.numDynamixels F_READ = 1 ∧ s.axID F_READ 0 = id ∧ s.startAddr F_READ 0 = start ∧
      s.numBytes F_READ 0 = payload.length ∧ s.totalNumBytes F_READ = payload.length)
    (hwrite : s.numDynamixels F_WRITE = 1 ∧ s.axID F_WRITE 0 = id ∧
      s.startAddr F_WRITE 0 = start ∧ s.numBytes F_WRITE 0 = payload.length)
    (hd : AllDrain s)
    (hhost : s.pcRxBuffer =
      some 0xF4 ::
        (payload.map some ++
          some (255 - (0xF4 + payload.sum) % 256) :: some 0xF3 :: some 12 :: hostRest))
    (hbus : s.dynamixelRxBuffer =
      (Device.run d (roundTripPackets id start payload)).2 ++ busRest) :
    ∃ s1 t st, commandLoopBody fuel s = .ret () s1 ∧ commandLoopBody fuel s1 = .ret () t ∧
      (d.answersWrite = true → st = 0) ∧
      t.dynamixelTxBuffer = s.dynamixelTxBuffer ++ wire (roundTripPackets id start payload) ∧
      t.dynamixelRxBuffer = busRest ∧
      t.pcTxBuffer =
        s.pcTxBuffer ++
          [0xFA, st, 0, s.adcValue 0, s.adcValue 1, s.adcValue 2,
            255 - (0xFA + st + 0 + s.adcValue 0 + s.adcValue 1 + s.adcValue 2) % 256] ++
          I_DATA :: payload ++
          [0, 0, s.adcValue 0, s.adcValue 1, s.adcValue 2,
            255 - (I_DATA + payload.sum + 0 + 0 + s.adcValue 0 + s.adcValue 1 +
              s.adcValue 2) % 256] := by
  obtain ⟨fuel, rfl⟩ : ∃ k, fuel = k + 1 := ⟨fuel - 1, by omega⟩
  obtain ⟨hr1, hr2, hr3, hr4, hr5⟩ := hread
  obtain ⟨hw1, hw2, hw3, hw4⟩ := hwrite
  subst hdev
  rw [Device.run_roundTrip, List.append_assoc] at hbus
  -- the WriteData cycle
  obtain ⟨s0, hs0, p1, p2, p3, p4, p5, p6, p7, p8, p9, p10, p11, p12, p13, p14⟩ :
      ∃ s0 : State,
      ({ s with
        status := 0
        numDynamixelRetries := 0
        checksumRxPC := 0xF4
        enableRxPCTimeout := 1
        pcRxBuffer :=
          payload.map some ++
            some (255 - (0xF4 + payload.sum) % 256) :: some 0xF3 :: some 12 :: hostRest } :
        State) = s0 ∧
      s0.status = 0 ∧ s0.numDynamixelRetries = 0 ∧ s0.checksumRxPC = 0xF4 ∧
      s0.pcRxBuffer =
        payload.map some ++
          some (255 - (0xF4 + payload.sum) % 256) :: some 0xF3 :: some 12 :: hostRest ∧
      s0.dynamixelRxBuffer = s.dynamixelRxBuffer ∧
      s0.dynamixelTxBuffer = s.dynamixelTxBuffer ∧ s0.dynamixelTxDone = s.dynamixelTxDone ∧
      s0.pcTxBuffer = s.pcTxBuffer ∧ s0.numDynamixels = s.numDynamixels ∧
      s0.totalNumBytes = s.totalNumBytes ∧ s0.axID = s.axID ∧ s0.startAddr = s.startAddr ∧
      s0.numBytes = s.numBytes ∧ s0.adcValue = s.adcValue :=
    ⟨_, rfl, rfl, rfl, rfl, rfl, rfl, rfl, rfl, rfl, rfl, rfl, rfl, rfl, rfl, rfl⟩
  have c1 := commandLoopBody_select fuel s 0xF4 _ (by decide) hhost
  rw [hs0, show selectHandler 0xF4 = Handler.handleWriteData from by decide] at c1
  obtain ⟨x, e1, x1, x2, x3, x4, x5, x6⟩ :=
    handleWriteData_single (fuel + 1) hfuel s0 d.id start payload
      (255 - (0xF4 + payload.sum) % 256)
      (if d.answersWrite then busReply d.id 0 [] (replyChecksum d.id 0 []) else [none])
      (some 0xF3 :: some 12 :: hostRest)
      (readReplies d.id (storeRegs d.regs start payload) (readBlocks start payload.length) ++
        busRest)
      (by rw [p9]; exact hw1) (by rw [p11]; exact hw2) (by rw [p12]; exact hw3)
      (by rw [p13]; exact hw4) (fun b hb => hd b (by rw [← p7]; exact hb))
      (by rw [p1]; rfl) (by rw [p3]) p4
      (by cases d.answersWrite
          · exact Or.inr rfl
          · exact Or.inl rfl)
      (p5.trans hbus)
  have e1' : commandLoopBody (fuel + 1) s = .ret () (txStatusPC x) := c1.trans e1
  -- the ReadData cycle
  obtain ⟨s1, hs1, u1, u2, u3, u4, u5, u6, u7, u8, u9, u10, u11⟩ : ∃ s1 : State,
      txStatusPC x = s1 ∧ s1.pcRxBuffer = x.pcRxBuffer ∧
      s1.dynamixelRxBuffer = x.dynamixelRxBuffer ∧
      s1.dynamixelTxBuffer = x.dynamixelTxBuffer ∧ s1.dynamixelTxDone = x.dynamixelTxDone ∧
      s1.pcTxBuffer =
        x.pcTxBuffer ++
          [0xFA, x.status, x.numDynamixelRetries, x.adcValue 0, x.adcValue 1, x.adcValue 2,
            255 - (0xFA + x.status + x.numDynamixelRetries + x.adcValue 0 + x.adcValue 1 +
              x.adcValue 2) % 256] ∧
      s1.numDynamixels = x.numDynamixels ∧ s1.totalNumBytes = x.totalNumBytes ∧
      s1.axID = x.axID ∧ s1.startAddr = x.startAddr ∧ s1.numBytes = x.numBytes ∧
      s1.adcValue = x.adcValue :=
    ⟨_, rfl, txStatusPC_pcRxBuffer x, txStatusPC_dynamixelRxBuffer x,
      txStatusPC_dynamixelTxBuffer x, txStatusPC_dynamixelTxDone x, txStatusPC_tx x,
      txStatusPC_numDynamixels x, txStatusPC_totalNumBytes x, txStatusPC_axID x,
      txStatusPC_startAddr x, txStatusPC_numBytes x, txStatusPC_adcValue x⟩
  rw [hs1] at e1'
  have hrx1 : s1.pcRxBuffer = some 0xF3 :: some 12 :: hostRest := by
    rw [u1, x5]
  have c2 := commandLoopBody_select fuel s1 0xF3 _ (by decide) hrx1
  obtain ⟨y, hy, r1, r2, r3, r4, r5, r6, r7, r8, r9, r10, r11, r12, r13, r14⟩ :
      ∃ y : State,
      ({ s1 with
        status := 0
        numDynamixelRetries := 0
        checksumRxPC := 0xF3
        enableRxPCTimeout := 1
        pcRxBuffer := some 12 :: hostRest } : State) = y ∧
      y.status = 0 ∧ y.numDynamixelRetries = 0 ∧ y.checksumRxPC = 0xF3 ∧
      y.pcRxBuffer = some 12 :: hostRest ∧
      y.dynamixelRxBuffer = s1.dynamixelRxBuffer ∧
      y.dynamixelTxBuffer = s1.dynamixelTxBuffer ∧ y.dynamixelTxDone = s1.dynamixelTxDone ∧
      y.pcTxBuffer = s1.pcTxBuffer ∧ y.numDynamixels = s1.numDynamixels ∧
      y.totalNumBytes = s1.totalNumBytes ∧ y.axID = s1.axID ∧ y.startAddr = s1.startAddr ∧
      y.numBytes = s1.numBytes ∧ y.adcValue = s1.adcValue :=
    ⟨_, rfl, rfl, rfl, rfl, rfl, rfl, rfl, rfl, rfl, rfl, rfl, rfl, rfl, rfl, rfl⟩
  rw [hy, show selectHandler 0xF3 = Handler.handleReadData from by decide] at c2
  have hdx : AllDrain x := x6.drain (fun b hb => hd b (by rw [← p7]; exact hb))
  obtain ⟨t, e2, t1, t2, t3⟩ :=
    handleReadData_single (fuel + 1) hfuel y d.id start payload.length
      (storeRegs d.regs start payload) 12 hostRest busRest
      (by rw [r9, u6, x6.numDynamixels, p9]; exact hr1)
      (by rw [r11, u8, x6.axID, p11]; exact hr2)
      (by rw [r12, u9, x6.startAddr, p12]; exact hr3)
      (by rw [r13, u10, x6.numBytes, p13]; exact hr4)
      (by rw [r10, u7, x6.totalNumBytes, p10]; exact hr5) hentry hne
      (fun b hb => hdx b (by rw [← u4, ← r7]; exact hb)) r1 (by rw [r3]) r4
      (by rw [r5, u2, x4])
  have e2' : commandLoopBody (fuel + 1) s1 = .ret () t := c2.trans e2
  have hload : loadRegs (storeRegs d.regs start payload) start payload.length = payload := by
    have := loadRegs_storeRegs d.regs start payload 0 payload.length (by omega)
    simpa using this
  have hadc : y.adcValue = s.adcValue := r14.trans (u11.trans (x6.adc.trans p14))
  have hwire : wire (roundTripPackets d.id start payload) =
      regWritePacket d.id start payload ++ actionPacket ++
        wire ((readBlocks start payload.length).map fun b => (d.id, D_I_READ_DATA, [b.1, b.2])) := by
    simp [wire, roundTripPackets, regWritePacket, actionPacket]
  refine ⟨s1, t, x.status, e1', e2', ?_, ?_, t3, ?_⟩
  · intro h
    rw [x1 (by rw [h]; rfl), p1]
  · rw [t2, r6, u3, x3, p6, hwire]
    simp
  · rw [t1, hload, r8, u5, x2, p2, x6.pcTx, p8, x6.adc, p14, r2, hadc]

/-- Witness of `roundTrip`: the entry (1, 30, 1) and the payload 0x42, with a
device that does not answer the REG_WRITE. -/
theorem roundTrip_witness :
    ∃ s1 t st,
      commandLoopBody 4
          (tripState 30 [some 0xF4, some 0x42, some 201, some 0xF3, some 12]
            (Device.run (tripDevice false) (roundTripPackets 1 30 [0x42])).2) = .ret () s1 ∧
      commandLoopBody 4 s1 = .ret () t ∧
      t.pcTxBuffer =
        [] ++ [0xFA, st, 0, 0, 0, 0, 255 - (0xFA + st + 0 + 0 + 0 + 0) % 256] ++
          I_DATA :: [0x42] ++ [0, 0, 0, 0, 0, 255 - (I_DATA + 0x42 + 0 + 0 + 0 + 0 + 0) % 256] := by
  obtain ⟨s1, t, st, h1, h2, _, _, _, h5⟩ :=
    roundTrip 4
      (tripState 30 [some 0xF4, some 0x42, some 201, some 0xF3, some 12]
        (Device.run (tripDevice false) (roundTripPackets 1 30 [0x42])).2)
      1 30 [0x42] (tripDevice false) [] [] (by decide) ⟨by decide, by decide⟩ (by decide) rfl
      ⟨rfl, rfl, rfl, rfl, rfl⟩
      ⟨rfl, rfl, rfl, rfl⟩ (by intro b hb; cases hb) rfl (by simp [tripState, initState])
  exact ⟨s1, t, st, h1, h2, h5⟩

/-! ### Read data: entries whose block loop never ends -/

theorem spinOrbit_closed :
    ∀ x ∈ spinOrbit, 0 < x.1 ∧ blockNext x ∈ spinOrbit := by
  decide

theorem Run.bind_running {α β : Type} (r : Run α) (k : α → State → Run β)
    (h : r.returned = false) : (r.bind k).returned = false := by
  cases r with
  | ret a s => simp [Run.returned] at h
  | spin s => rfl

theorem readBlock_drained (rf fuel : Nat) (s : State) (id n start re b : Nat) (hrf : 4 ≤ rf)
    (hn : 0 < n) (hd : AllDrain s) :
    ∃ t b1,
      readBlockLoop rf (fuel + 1) s id n start re b =
        readBlockLoop rf fuel t id (blockNext (n, start, re)).1 (blockNext (n, start, re)).2.1
          (blockNext (n, start, re)).2.2 b1 ∧
      AllDrain t := by
  obtain ⟨out, t2, e2, g2⟩ :=
    readRetryLoop_sent rf hrf s id start (blockBytes start n) ⟨0xff, 0xff, 0xff⟩ hd
  have hd2 : AllDrain t2 := g2.drain hd
  have hfwd : AllDrain
      (if out.id = id ∧ out.numParams = blockBytes start n then
        fwdParams (blockBytes start n) 0 t2 b
       else
        fwdStuff (blockBytes start n) (setStatusFlag t2 S_INVALID_DYNAMIXEL_RESPONSE) b).1 := by
    split
    · intro x hx
      rw [(fwdParams_exact (blockBytes start n) 0 t2 b).2.2.2.done] at hx
      exact hd2 x hx
    · intro x hx
      rw [(fwdStuff_exact (blockBytes start n)
        (setStatusFlag t2 S_INVALID_DYNAMIXEL_RESPONSE) b).2.2.2.done] at hx
      exact hd2 x hx
  rw [readBlockLoop_step rf fuel s id n start re b hn, e2]
  simp only [Run.bind_ret, blockNext]
  by_cases hre : blockReturnError start n re ≠ 0
  · rw [if_pos hre, if_pos hre]
    exact ⟨_, _, rfl, hfwd⟩
  · rw [if_neg hre, if_neg hre]
    exact ⟨_, _, rfl, hfwd⟩

theorem readBlockLoop_orbit (rf : Nat) (hrf : 4 ≤ rf) (id : Nat) :
    ∀ (fuel : Nat) (s : State) (x : Nat × Nat × Nat) (b : Nat),
      x ∈ spinOrbit → AllDrain s →
      (readBlockLoop rf fuel s id x.1 x.2.1 x.2.2 b).returned = false := by
  intro fuel
  induction fuel with
  | zero =>
    intro s x b hx _
    have hpos := (spinOrbit_closed x hx).1
    rw [readBlockLoop, if_pos hpos]
    rfl
  | succ fuel ih =>
    intro s x b hx hd
    obtain ⟨hpos, hnext⟩ := spinOrbit_closed x hx
    obtain ⟨t, b1, e, hdt⟩ := readBlock_drained rf fuel s id x.1 x.2.1 x.2.2 b hrf hpos hd
    rw [e]
    exact ih t (blockNext x) b1 hnext hdt

/-- C19 fails on the code: when the first entry of the read format is
(id, 34, 21) or (id, 14, 41), both valid, the host checksum byte arrives and
every bus transmission drains, the block loop of `handleReadData` never ends,
whatever the devices do: the counters (n, start, returnError) run through
`spinOrbit`, in which n is never 0, so for every amount of fuel the command
cycle has not returned. -/
theorem readData_never_returns (fuel : Nat) (s : State) (c : Nat) (rest : List (Option Nat))
    (hfuel : 4 ≤ fuel) (hrx : s.pcRxBuffer = some 0xF3 :: some c :: rest)
    (hN : 0 < s.numDynamixels F_READ)
    (hentry : (s.numBytes F_READ 0, s.startAddr F_READ 0) = (21, 34) ∨
      (s.numBytes F_READ 0, s.startAddr F_READ 0) = (41, 14))
    (hd : AllDrain s) :
    (commandLoopBody fuel s).returned = false := by
  obtain ⟨rf, rfl⟩ : ∃ k, fuel = k + 1 := ⟨fuel - 1, by omega⟩
  rw [commandLoopBody_select rf s 0xF3 _ (by decide) hrx,
    show selectHandler 0xF3 = Handler.handleReadData from by decide]
  show (handleReadData (rf + 1) _).returned = false
  unfold handleReadData
  rw [endRXPacketPC_some _ c rest rfl]
  simp only [Run.bind_ret, if_true]
  obtain ⟨s2, hs2, q1, q2, q3, q4⟩ : ∃ s2 : State,
      startTXPacketPC
        { s with
          status := if c = 255 - 0xF3 % 256 then 0 else 0 ||| 64
          numDynamixelRetries := 0
          checksumRxPC := 0xF3
          enableRxPCTimeout := 1
          pcRxBuffer := rest } I_DATA = s2 ∧
      s2.numDynamixels = s.numDynamixels ∧ s2.startAddr = s.startAddr ∧
      s2.numBytes = s.numBytes ∧ s2.dynamixelTxDone = s.dynamixelTxDone :=
    ⟨_, rfl, rfl, rfl, rfl, rfl⟩
  rw [hs2]
  apply Run.bind_running
  obtain ⟨k, hk⟩ : ∃ k, s2.numDynamixels F_READ = k + 1 :=
    ⟨s.numDynamixels F_READ - 1, by rw [q1]; omega⟩
  rw [hk, readEntryLoop]
  apply Run.bind_running
  have hmem : (s2.numBytes F_READ 0, s2.startAddr F_READ 0, 0) ∈ spinOrbit := by
    rw [q3, q2]
    rcases hentry with h | h
    · have h1 := congrArg Prod.fst h
      have h2 := congrArg Prod.snd h
      simp only at h1 h2
      rw [h1, h2]
      decide
    · have h1 := congrArg Prod.fst h
      have h2 := congrArg Prod.snd h
      simp only at h1 h2
      rw [h1, h2]
      decide
  exact readBlockLoop_orbit (rf + 1) hfuel _ (rf + 1) s2 _ _ hmem
    (fun b hb => hd b (by rw [← q4]; exact hb))

/-- Witness of `readData_never_returns`: after `SET_READ_FORMAT` with the entry
(1, 34, 21), `READ_DATA` with its checksum, no device answering. -/
theorem readData_never_returns_witness :
    (commandLoopBody 4 (commandLoopBody 1 (initState (fun _ => 0) spinHost [])).state).returned =
      false :=
  readData_never_returns 4 (commandLoopBody 1 (initState (fun _ => 0) spinHost [])).state 12 []
    (by decide) (by decide) (by decide) (Or.inl (by decide)) (by unfold AllDrain; decide)

/-! ### Read data: exact payload length -/

theorem readEntryLoop_chunks (fuel : Nat) (hfuel : 4 ≤ fuel) :
    ∀ (k i : Nat) (s : State) (b : Nat),
      (∀ j, i ≤ j → j < i + k → ReadableEntry (s.startAddr F_READ j) (s.numBytes F_READ j)) →
      tableBytes (s.numBytes F_READ) i k ≤ b → b < 65536 → AllDrain s →
      ∃ (t : State) (chunks : List (List Nat)),
        readEntryLoop fuel k i s b = .ret (b - tableBytes (s.numBytes F_READ) i k) t ∧
        Sent s t chunks.flatten ∧ chunks.length = k ∧
        ∀ j, j < k → (chunks.getD j []).length = s.numBytes F_READ (i + j) := by
  intro k
  induction k with
  | zero =>
    intro i s b _ _ _ _
    exact ⟨s, [], rfl, Sent.nothing s, rfl, fun j hj => absurd hj (Nat.not_lt_zero j)⟩
  | succ k ih =>
    intro i s b hgood hb hlt hd
    simp only [tableBytes] at hb ⊢
    have hg := hgood i (le_refl i) (by omega)
    obtain ⟨s1, L1, e1, g1, l1⟩ :=
      readBlockLoop_good fuel hfuel fuel s (s.axID F_READ i) (s.numBytes F_READ i)
        (s.startAddr F_READ i) b (by have := hg.1; omega) hg (by omega) hlt hd
    have hnb : s1.numBytes = s.numBytes := g1.numBytes
    have hsa : s1.startAddr = s.startAddr := g1.startAddr
    obtain ⟨t, chunks, e2, g2, l2, l3⟩ :=
      ih (i + 1) s1 (b - s.numBytes F_READ i)
        (fun j h1 h2 => by rw [hnb, hsa]; exact hgood j (by omega) (by omega))
        (by rw [hnb]; omega) (by omega) (g1.drain hd)
    rw [hnb] at e2 l3
    refine ⟨t, L1 :: chunks, ?_, ?_, by simp [l2], ?_⟩
    · unfold readEntryLoop
      rw [e1]
      simp only [Run.bind_ret, if_true]
      rw [e2]
      congr 1
      omega
    · have := g1.append g2
      simpa using this
    · intro j hj
      cases j with
      | zero => simpa using l1
      | succ j =>
        have := l3 j (by omega)
        simp only [List.getD_cons_succ]
        rw [this]
        congr 1
        omega

theorem flatten_length_table (nb : Nat → Nat) :
    ∀ (chunks : List (List Nat)) (i : Nat),
      (∀ j, j < chunks.length → (chunks.getD j []).length = nb (i + j)) →
      chunks.flatten.length = tableBytes nb i chunks.length := by
  intro chunks
  induction chunks with
  | nil => intro i _; rfl
  | cons c cs ih =>
    intro i h
    have h0 := h 0 (by simp)
    simp only [List.getD_cons_zero, Nat.add_zero] at h0
    have hrest := ih (i + 1) (fun j hj => by
      have := h (j + 1) (by simp; omega)
      simp only [List.getD_cons_succ] at this
      rw [this]
      congr 1
      omega)
    simp only [List.flatten_cons, List.length_append, List.length_cons, tableBytes, h0, hrest]

/-- C20: for every read-format table of at most 32 entries, each within the
register bank and none with startAddr 14 or 34 together with startAddr + length
= 55, whose `totalNumBytes` is the sum of the lengths, when the host checksum
byte arrives and every bus transmission drains, whatever arrives on the bus:
the entry loop ends with `bytesToGo` = 0, and `handleReadData` returns having
sent 0xFB, then for each entry in table order exactly its length in payload
bytes, then status, retry count, the three analog bytes and the checksum,
`totalNumBytes[F_READ]` + 7 bytes in all. -/
theorem handleReadData_exact (fuel : Nat) (s : State) (c : Nat) (rest : List (Option Nat))
    (hfuel : 4 ≤ fuel) (hrx : s.pcRxBuffer = some c :: rest)
    (hN : s.numDynamixels F_READ ≤ 32)
    (hentries : ∀ i, i < s.numDynamixels F_READ →
      ReadableEntry (s.startAddr F_READ i) (s.numBytes F_READ i))
    (htotal : s.totalNumBytes F_READ =
      tableBytes (s.numBytes F_READ) 0 (s.numDynamixels F_READ))
    (hd : AllDrain s) :
    ∃ (t s3 : State) (chunks : List (List Nat)) (ck : Nat),
      readEntryLoop fuel (s.numDynamixels F_READ) 0
          (startTXPacketPC (endRXPacketPC s).state I_DATA) (s.totalNumBytes F_READ) =
        .ret 0 s3 ∧
      handleReadData fuel s = .ret () t ∧
      chunks.length = s.numDynamixels F_READ ∧
      (∀ i, i < s.numDynamixels F_READ → (chunks.getD i []).length = s.numBytes F_READ i) ∧
      t.pcTxBuffer =
        s.pcTxBuffer ++ I_DATA :: chunks.flatten ++
          [t.status, t.numDynamixelRetries, s.adcValue 0, s.adcValue 1, s.adcValue 2, ck] ∧
      t.pcTxBuffer.length = s.pcTxBuffer.length + (s.totalNumBytes F_READ + 7) := by
  have hbound : tableBytes (s.numBytes F_READ) 0 (s.numDynamixels F_READ) ≤
      55 * s.numDynamixels F_READ :=
    tableBytes_le _ _ 0 fun j _ h => by
      have := (hentries j (by omega)).1
      omega
  have hend := endRXPacketPC_some s c rest hrx
  obtain ⟨s2, hs2, q1, q2, q3, q4, q5, q6, q7, q8, q9⟩ : ∃ s2 : State,
      startTXPacketPC
        { s with
          pcRxBuffer := rest
          status := if c = 255 - s.checksumRxPC % 256 then s.status else s.status ||| 64 }
        I_DATA = s2 ∧
      s2.pcTxBuffer = s.pcTxBuffer ++ [I_DATA] ∧ s2.checksumTxPC = (0 + I_DATA) % 256 ∧
      s2.numDynamixels = s.numDynamixels ∧ s2.totalNumBytes = s.totalNumBytes ∧
      s2.axID = s.axID ∧ s2.startAddr = s.startAddr ∧ s2.numBytes = s.numBytes ∧
      s2.adcValue = s.adcValue ∧ s2.dynamixelTxDone = s.dynamixelTxDone :=
    ⟨_, rfl, rfl, rfl, rfl, rfl, rfl, rfl, rfl, rfl, rfl⟩
  obtain ⟨s3, chunks, e3, g3, l3, l4⟩ :=
    readEntryLoop_chunks fuel hfuel (s2.numDynamixels F_READ) 0 s2 (s.totalNumBytes F_READ)
      (fun j _ h => by rw [q6, q7]; rw [q3] at h; exact hentries j (by omega))
      (by rw [q7, q3, htotal]) (by rw [htotal]; omega)
      (fun b hb => hd b (by rw [← q9]; exact hb))
  rw [q7, q3, ← htotal, Nat.sub_self] at e3
  rw [q3] at l3
  rw [q7, q3] at l4
  have hflat : chunks.flatten.length = s.totalNumBytes F_READ := by
    rw [htotal, ← l3]
    exact flatten_length_table (s.numBytes F_READ) chunks 0 (fun j hj => by
      rw [l4 j (by rw [← l3]; exact hj)])
  have hsum := g3.sum
  rw [q2] at hsum
  have hadc : s3.adcValue = s.adcValue := g3.adc.trans q8
  have hst : ∀ x : State, (endTXPacketPC (txADCValuesPC x)).status = x.status ∧
      (endTXPacketPC (txADCValuesPC x)).numDynamixelRetries = x.numDynamixelRetries :=
    fun _ => ⟨rfl, rfl⟩
  obtain ⟨t1, t2⟩ := hst (txPC (txPC s3 s3.status 1) (txPC s3 s3.status 1).numDynamixelRetries 1)
  have u1 : (txPC (txPC s3 s3.status 1) (txPC s3 s3.status 1).numDynamixelRetries 1).status =
      s3.status := rfl
  have u2 : (txPC (txPC s3 s3.status 1)
      (txPC s3 s3.status 1).numDynamixelRetries 1).numDynamixelRetries =
      s3.numDynamixelRetries := rfl
  have htx : (endTXPacketPC (txADCValuesPC (txPC (txPC s3 s3.status 1)
      (txPC s3 s3.status 1).numDynamixelRetries 1))).pcTxBuffer =
      s.pcTxBuffer ++ I_DATA :: chunks.flatten ++
        [s3.status, s3.numDynamixelRetries, s.adcValue 0, s.adcValue 1, s.adcValue 2,
          255 - (s3.checksumTxPC + s3.status + s3.numDynamixelRetries + s.adcValue 0 +
            s.adcValue 1 + s.adcValue 2) % 256] := by
    rw [readTail_spec s3, g3.tx, q1, hadc]
    simp
  refine ⟨endTXPacketPC (txADCValuesPC (txPC (txPC s3 s3.status 1)
      (txPC s3 s3.status 1).numDynamixelRetries 1)), s3, chunks,
    255 - (s3.checksumTxPC + s3.status + s3.numDynamixelRetries + s.adcValue 0 +
      s.adcValue 1 + s.adcValue 2) % 256, ?_, ?_, l3, fun i hi => by simpa using l4 i hi, ?_, ?_⟩
  · rw [hend]
    simp only [Run.state_ret]
    rw [hs2]
    exact e3
  · unfold handleReadData
    rw [hend]
    simp only [Run.bind_ret, if_true]
    rw [hs2, q3, e3]
    simp only [Run.bind_ret, stuffLoop_zero]
  · rw [htx, t1, t2, u1, u2]
  · rw [htx]
    simp only [List.length_append, List.length_cons, List.length_nil, hflat]
    omega

/-- Witness of `handleReadData_exact`: the read format (1, 0, 1), the host
checksum byte pending, no bus reply. -/
theorem handleReadData_exact_witness :
    ∃ (t : State) (chunks : List (List Nat)),
      handleReadData 4
        { initState layoutAdc [some 12] [] with
          numDynamixels := upd (fun _ => 0) 0 1
          totalNumBytes := upd (fun _ => 0) 0 1
          axID := upd2 (fun _ _ => 0) 0 0 1
          numBytes := upd2 (fun _ _ => 0) 0 0 1 } = .ret () t ∧
      chunks.length = 1 ∧ t.pcTxBuffer.length = 0 + (1 + 7) := by
  obtain ⟨t, _, chunks, _, _, h2, h3, _, _, h6⟩ :=
    handleReadData_exact 4
      { initState layoutAdc [some 12] [] with
        numDynamixels := upd (fun _ => 0) 0 1
        totalNumBytes := upd (fun _ => 0) 0 1
        axID := upd2 (fun _ _ => 0) 0 0 1
        numBytes := upd2 (fun _ _ => 0) 0 0 1 }
      12 [] (by decide) rfl (by decide)
      (by
        intro i hi
        have hi0 : i = 0 := by
          have : i < 1 := hi
          omega
        subst hi0
        exact ⟨by decide, by decide⟩)
      (by decide) (by intro b hb; cases hb)
  exact ⟨t, chunks, h2, h3, h6⟩

/-! ### Read data: the requests sent on the bus -/

theorem Run.post_state {α : Type} (r : Run α) (I : State → Prop)
    (h : r.post (fun _ t => I t) I) : I r.state := by
  cases r <;> exact h

theorem Asked.noRequest (s : State) : Asked s s := ⟨[], by simp, by simp⟩

theorem Asked.andMore {s t u : State} (h1 : Asked s t) (h2 : Asked t u) : Asked s u := by
  obtain ⟨r1, e1, b1⟩ := h1
  obtain ⟨r2, e2, b2⟩ := h2
  refine ⟨r1 ++ r2, ?_, ?_⟩
  · rw [e2, e1]
    simp
  · intro r hr
    rcases List.mem_append.mp hr with h | h
    · exact b1 r h
    · exact b2 r h

theorem Asked.quiet {s0 s t : State} (h : Asked s0 s)
    (ht : t.dynamixelTxBuffer = s.dynamixelTxBuffer) : Asked s0 t := by
  obtain ⟨r1, e1, b1⟩ := h
  exact ⟨r1, by rw [ht, e1], b1⟩

theorem Asked.request {s0 s t : State} (h : Asked s0 s) (id start thisN : Nat)
    (hn : thisN ≤ MAX_DYNAMIXEL_BLOCK_READ)
    (ht : t.dynamixelTxBuffer = s.dynamixelTxBuffer ++ readRequest id start thisN) :
    Asked s0 t := by
  obtain ⟨r1, e1, b1⟩ := h
  refine ⟨r1 ++ [(id, start, thisN)], ?_, ?_⟩
  · rw [ht, e1]
    simp
  · intro r hr
    rcases List.mem_append.mp hr with h | h
    · exact b1 r h
    · simp only [List.mem_singleton] at h
      subst h
      exact hn

theorem Listened.idle (s : State) : Listened s s := ⟨rfl, rfl, rfl⟩

theorem Listened.further {s t u : State} (h1 : Listened s t) (h2 : Listened t u) : Listened s u :=
  ⟨h2.tx.trans h1.tx, h2.done.trans h1.done, h2.retries.trans h1.retries⟩

theorem Listened.withStatus (s t : State) (c : Prop) [Decidable c] (flag : Nat)
    (h : Listened s t) : Listened s (if c then setStatusFlag t flag else t) := by
  split
  · exact ⟨h.tx, h.done, h.retries⟩
  · exact h

theorem rxDynamixel_listened (s : State) (a : Nat) : Listened s (rxDynamixel s a).2 := by
  unfold rxDynamixel
  split
  · exact ⟨rfl, rfl, rfl⟩
  · exact ⟨rfl, rfl, rfl⟩
  · exact ⟨rfl, rfl, rfl⟩

theorem startRX_listened (s : State) (out : RxHeader) :
    Listened s (startRXPacketDynamixel s out).2.2 := by
  unfold startRXPacketDynamixel
  simp only
  have h0 : Listened s { s with checksumRxDynamixel := 0 } := ⟨rfl, rfl, rfl⟩
  generalize ({ s with checksumRxDynamixel := 0 } : State) = s0 at h0 ⊢
  have h1 := h0.further (rxDynamixel_listened s0 0)
  generalize rxDynamixel s0 0 = r1 at h1 ⊢
  obtain ⟨b1, s1⟩ := r1
  cases b1 with
  | none => exact h1
  | some b1 =>
    simp only
    have h1' := Listened.withStatus s s1 (b1 ≠ 0xff) S_INVALID_DYNAMIXEL_RESPONSE h1
    generalize (if b1 ≠ 0xff then setStatusFlag s1 S_INVALID_DYNAMIXEL_RESPONSE else s1) = s1'
      at h1' ⊢
    have h2 := h1'.further (rxDynamixel_listened s1' 0)
    generalize rxDynamixel s1' 0 = r2 at h2 ⊢
    obtain ⟨b2, s2⟩ := r2
    cases b2 with
    | none => exact h2
    | some b2 =>
      simp only
      have h2' := Listened.withStatus s s2 (b2 ≠ 0xff) S_INVALID_DYNAMIXEL_RESPONSE h2
      generalize (if b2 ≠ 0xff then setStatusFlag s2 S_INVALID_DYNAMIXEL_RESPONSE else s2) = s2'
        at h2' ⊢
      have h3 := h2'.further (rxDynamixel_listened s2' 1)
      generalize rxDynamixel s2' 1 = r3 at h3 ⊢
      obtain ⟨b3, s3⟩ := r3
      cases b3 with
      | none => exact h3
      | some b3 =>
        simp only
        have h4 := h3.further (rxDynamixel_listened s3 1)
        generalize rxDynamixel s3 1 = r4 at h4 ⊢
        obtain ⟨b4, s4⟩ := r4
        cases b4 with
        | none => exact h4
        | some b4 =>
          simp only
          have h5 := h4.further (rxDynamixel_listened s4 1)
          generalize rxDynamixel s4 1 = r5 at h5 ⊢
          obtain ⟨b5, s5⟩ := r5
          cases b5 with
          | none => exact h5
          | some b5 => exact h5

theorem endRX_listened (s : State) : Listened s (endRXPacketDynamixel s).2 := by
  unfold endRXPacketDynamixel
  have h1 := rxDynamixel_listened s 0
  generalize rxDynamixel s 0 = r1 at h1 ⊢
  obtain ⟨b1, s1⟩ := r1
  cases b1 with
  | none => exact h1
  | some b1 => exact Listened.withStatus s s1 _ _ h1

theorem rxParamsLoop_listened (p : Bool) (e : Nat) :
    ∀ (k i : Nat) (s : State), Listened s (rxParamsLoop p e k i s).2 := by
  intro k
  induction k with
  | zero => intro i s; exact Listened.idle s
  | succ k ih =>
    intro i s
    unfold rxParamsLoop
    have h1 := rxDynamixel_listened s 1
    generalize rxDynamixel s 1 = r1 at h1 ⊢
    obtain ⟨b1, s1⟩ := r1
    cases b1 with
    | none => exact h1
    | some b1 =>
      simp only
      refine h1.further (Listened.further ?_ (ih _ _))
      split
      · exact ⟨rfl, rfl, rfl⟩
      · exact Listened.idle s1

theorem rxPacket_listened (s : State) (out : RxHeader) (p : Bool) (e : Nat) :
    Listened s (rxPacketDynamixel s out p e).2.2 := by
  unfold rxPacketDynamixel
  have h1 := startRX_listened s out
  generalize startRXPacketDynamixel s out = r1 at h1 ⊢
  obtain ⟨ok, hdr, s1⟩ := r1
  cases ok with
  | false => exact h1
  | true =>
    simp only
    have h2 := h1.further (rxParamsLoop_listened p e hdr.numParams 0 s1)
    generalize rxParamsLoop p e hdr.numParams 0 s1 = r2 at h2 ⊢
    obtain ⟨ok2, s2⟩ := r2
    cases ok2 with
    | false => exact h2
    | true =>
      simp only
      have h3 := h2.further (endRX_listened s2)
      generalize endRXPacketDynamixel s2 = r3 at h3 ⊢
      obtain ⟨ok3, s3⟩ := r3
      cases ok3 with
      | false => exact h3
      | true => exact Listened.withStatus s s3 _ _ h3

theorem tryDynamixelAgain_tx (s : State) (e : Nat) :
    (tryDynamixelAgain s e).2.dynamixelTxBuffer = s.dynamixelTxBuffer ∧
      (tryDynamixelAgain s e).2.dynamixelTxDone = s.dynamixelTxDone ∧
      ((tryDynamixelAgain s e).1 = true →
        (tryDynamixelAgain s e).2.numDynamixelRetries = s.numDynamixelRetries + 1 ∧
          s.numDynamixelRetries < 3) ∧
      ((tryDynamixelAgain s e).1 = false →
        (tryDynamixelAgain s e).2.numDynamixelRetries = s.numDynamixelRetries) := by
  unfold tryDynamixelAgain
  split
  · rename_i hc
    have hr : s.numDynamixelRetries < 3 := hc.2
    refine ⟨rfl, rfl, fun _ => ⟨?_, hr⟩, fun h => absurd h (by simp)⟩
    show (s.numDynamixelRetries + 1) % 256 = _
    omega
  · exact ⟨rfl, rfl, fun h => absurd h (by simp), fun _ => rfl⟩

/-- The request of one attempt is pushed whole on the bus transmit log,
whether or not the transmission drains. -/
theorem readRequest_tx (s : State) (id start thisN : Nat) :
    ∃ ok s1,
      endTXPacketDynamixel
          (if thisN > 0 then
            txDynamixel (txDynamixel (startTXPacketDynamixel s id 2 D_I_READ_DATA) start 1)
              thisN 1
           else startTXPacketDynamixel s id 0 D_I_PING) = (ok, s1) ∧
      s1.dynamixelTxBuffer = s.dynamixelTxBuffer ++ readRequest id start thisN := by
  by_cases h : thisN > 0
  · obtain ⟨s1, e1, a1, _⟩ := txPacket_facts s id 2 D_I_READ_DATA [start, thisN] rfl
    refine ⟨decide (s.dynamixelTxDone.head? ≠ some false), s1, ?_, ?_⟩
    · rw [if_pos h]
      exact e1
    · rw [a1, readRequest, if_pos h]
  · obtain ⟨s1, e1, a1, _⟩ := txPacket_facts s id 0 D_I_PING [] rfl
    refine ⟨decide (s.dynamixelTxDone.head? ≠ some false), s1, ?_, ?_⟩
    · rw [if_neg h]
      exact e1
    · rw [a1, readRequest, if_neg h]

theorem readRetryLoop_asked (id start thisN : Nat) (hn : thisN ≤ MAX_DYNAMIXEL_BLOCK_READ)
    (s0 : State) :
    ∀ (fuel : Nat) (s : State) (out : RxHeader), Asked s0 s →
      (readRetryLoop fuel s id start thisN out).post (fun _ t => Asked s0 t) (Asked s0) := by
  intro fuel
  induction fuel with
  | zero => intro s out h; exact h
  | succ fuel ih =>
    intro s out h
    obtain ⟨ok, s1, e1, a1⟩ := readRequest_tx s id start thisN
    have h1 : Asked s0 s1 := h.request id start thisN hn a1
    unfold readRetryLoop
    simp only [e1]
    cases ok with
    | false => exact h1
    | true =>
      simp only
      have l2 := rxPacket_listened s1 out true thisN
      generalize rxPacketDynamixel s1 out true thisN = r2 at l2 ⊢
      obtain ⟨ok2, out1, s2⟩ := r2
      have h2 : Asked s0 s2 := h1.quiet l2.tx
      cases ok2 with
      | false => exact h2
      | true =>
        simp only
        have l3 := (tryDynamixelAgain_tx s2 out1.error).1
        generalize tryDynamixelAgain s2 out1.error = r3 at l3 ⊢
        obtain ⟨ok3, s3⟩ := r3
        have h3 : Asked s0 s3 := h2.quiet l3
        cases ok3 with
        | false => exact h3
        | true => exact ih s3 out1 h3

theorem blockBytes_le (start n : Nat) : blockBytes start n ≤ MAX_DYNAMIXEL_BLOCK_READ := by
  unfold blockBytes
  simp only [MAX_DYNAMIXEL_BLOCK_READ]
  split <;> split <;> omega

theorem fillParams_tx (k j : Nat) (s : State) :
    (fillParams k j s).dynamixelTxBuffer = s.dynamixelTxBuffer :=
  (fillParams_facts k j s).2.2.2.1

theorem readBlockLoop_asked (rf : Nat) (s0 : State) :
    ∀ (fuel : Nat) (s : State) (id n start re b : Nat), Asked s0 s →
      (readBlockLoop rf fuel s id n start re b).post (fun _ t => Asked s0 t) (Asked s0) := by
  intro fuel
  induction fuel with
  | zero =>
    intro s id n start re b h
    unfold readBlockLoop
    split
    · exact h
    · exact h
  | succ fuel ih =>
    intro s id n start re b h
    by_cases hn : 0 < n
    · rw [readBlockLoop_step rf fuel s id n start re b hn]
      refine Run.post_bind _ _ _ _ _
        (readRetryLoop_asked id start (blockBytes start n) (blockBytes_le start n) s0 rf _ _
          (h.quiet (fillParams_tx _ _ s))) ?_
      intro r s2 h2
      cases r with
      | none => exact h2
      | some out =>
        simp only
        have hfwd : Asked s0
            (if out.id = id ∧ out.numParams = blockBytes start n then
              fwdParams (blockBytes start n) 0 s2 b
             else
              fwdStuff (blockBytes start n)
                (setStatusFlag s2 S_INVALID_DYNAMIXEL_RESPONSE) b).1 := by
          split
          · exact h2.quiet (fwdParams_exact (blockBytes start n) 0 s2 b).2.2.2.tx
          · exact h2.quiet
              (fwdStuff_exact (blockBytes start n)
                (setStatusFlag s2 S_INVALID_DYNAMIXEL_RESPONSE) b).2.2.2.tx
        split
        · exact ih _ _ _ _ _ _ (hfwd.quiet rfl)
        · exact ih _ _ _ _ _ _ hfwd
    · unfold readBlockLoop
      rw [if_neg hn]
      exact h

theorem readEntryLoop_asked (fuel : Nat) (s0 : State) :
    ∀ (k i : Nat) (s : State) (b : Nat), Asked s0 s →
      (readEntryLoop fuel k i s b).post (fun _ t => Asked s0 t) (Asked s0) := by
  intro k
  induction k with
  | zero => intro i s b h; exact h
  | succ k ih =>
    intro i s b h
    unfold readEntryLoop
    refine Run.post_bind _ _ _ _ _ (readBlockLoop_asked fuel s0 fuel s _ _ _ 0 b h) ?_
    intro r s1 g1
    split
    · exact ih _ _ _ g1
    · exact g1

theorem stuffLoop_asked (s0 : State) :
    ∀ (fuel : Nat) (s : State) (b : Nat), Asked s0 s →
      (stuffLoop fuel s b).post (fun _ t => Asked s0 t) (Asked s0) := by
  intro fuel
  induction fuel with
  | zero =>
    intro s b h
    unfold stuffLoop
    split
    · exact h
    · exact h
  | succ fuel ih =>
    intro s b h
    unfold stuffLoop
    split
    · exact ih _ _ (h.quiet rfl)
    · exact h

theorem endRXPacketPC_asked (s0 s : State) (h : Asked s0 s) :
    (endRXPacketPC s).post (fun _ t => Asked s0 t) (Asked s0) := by
  rcases endRXPacketPC_cases s with ⟨c, rest, e⟩ | ⟨rest, _, e⟩ | ⟨_, e⟩ <;> rw [e] <;>
    exact h.quiet rfl

theorem handleReadData_asked (fuel : Nat) (s : State) :
    (handleReadData fuel s).post (fun _ t => Asked s t) (Asked s) := by
  unfold handleReadData
  refine Run.post_bind _ _ _ _ _ (endRXPacketPC_asked s s (Asked.noRequest s)) ?_
  intro ok s1 g1
  simp only
  have g2 : Asked s (startTXPacketPC s1 I_DATA) := g1.quiet rfl
  refine Run.post_bind _ _ (fun _ t => Asked s t) _ _ ?_ ?_
  · split
    · exact readEntryLoop_asked fuel s _ _ _ _ g2
    · exact g2
  · intro b s3 g3
    refine Run.post_bind _ _ _ _ _ (stuffLoop_asked s fuel s3 b g3) ?_
    intro _ s4 g4
    exact g4.quiet (readTail_bus s4).1

theorem readRetryLoop_log (id start thisN : Nat) :
    ∀ (fuel : Nat) (s : State) (out : RxHeader),
      3 - s.numDynamixelRetries < fuel → AllDrain s →
      ∃ out1 t c, readRetryLoop fuel s id start thisN out = .ret (some out1) t ∧
        1 ≤ c ∧ c ≤ 1 + (3 - s.numDynamixelRetries) ∧
        t.dynamixelTxBuffer =
          s.dynamixelTxBuffer ++ (List.replicate c (readRequest id start thisN)).flatten ∧
        t.numDynamixelRetries + 1 = s.numDynamixelRetries + c ∧ Step s t := by
  intro fuel
  induction fuel with
  | zero => intro s out h; omega
  | succ fuel ih =>
    intro s out hfuel hd
    obtain ⟨s1, e1, a1, a2, a3, a4, a5, a6, a7⟩ := readRequest_facts s id start thisN hd
    have hd1 : AllDrain s1 := drains_tail s s1 hd a2
    have st1 : Step s s1 :=
      ⟨a7, fun _ => hd1, by rw [a4], fun h => by rw [a4]; exact h⟩
    have st2 := Step.rxPacketDynamixel s1 out true thisN
    have hh2 := rxPacket_listened s1 out true thisN
    unfold readRetryLoop
    simp only [e1]
    generalize rxPacketDynamixel s1 out true thisN = r2 at st2 hh2 ⊢
    obtain ⟨ok2, out1, s2⟩ := r2
    have hone : s1.dynamixelTxBuffer =
        s.dynamixelTxBuffer ++ (List.replicate 1 (readRequest id start thisN)).flatten := by
      rw [a1]
      simp
    cases ok2 with
    | false =>
      exact ⟨out1, s2, 1, rfl, le_refl _, by omega, by rw [hh2.tx, hone],
        by rw [hh2.retries, a4], st1.andThen st2⟩
    | true =>
      simp only
      have st3 := Step.tryDynamixelAgain s2 out1.error
      have hh3 := tryDynamixelAgain_tx s2 out1.error
      generalize tryDynamixelAgain s2 out1.error = r3 at st3 hh3 ⊢
      obtain ⟨ok3, s3⟩ := r3
      cases ok3 with
      | false =>
        exact ⟨out1, s3, 1, rfl, le_refl _, by omega, by rw [hh3.1, hh2.tx, hone],
          by rw [hh3.2.2.2 rfl, hh2.retries, a4], (st1.andThen st2).andThen st3⟩
      | true =>
        simp only
        obtain ⟨hr3, hlt⟩ := hh3.2.2.1 rfl
        simp only at hr3
        rw [hh2.retries, a4] at hr3 hlt
        have st13 := (st1.andThen st2).andThen st3
        obtain ⟨out2, t, c, e, c1, c2, c3, c4, c5⟩ :=
          ih s3 out1 (by rw [hr3]; omega) (st13.drain hd)
        refine ⟨out2, t, c + 1, e, by omega, by rw [hr3] at c2; omega, ?_, ?_,
          st13.andThen c5⟩
        · rw [c3, hh3.1, hh2.tx, a1]
          simp [List.replicate_succ]
        · rw [hr3] at c4
          omega

theorem readBlockLoop_zero_any (rf : Nat) (fuel : Nat) (s : State) (id start re b : Nat) :
    readBlockLoop rf fuel s id 0 start re b = .ret (true, b) s := by
  cases fuel <;> simp [readBlockLoop]

theorem readBlocks_cover (start n : Nat) (h60 : n ≤ 60) :
    ((readBlocks start n).map fun b => List.range' b.1 b.2).flatten = List.range' start n ∧
      ∀ b ∈ readBlocks start n, 1 ≤ b.2 ∧ b.2 ≤ 20 := by
  unfold readBlocks
  by_cases h0 : n = 0
  · subst h0
    simp
  · by_cases h1 : n ≤ 20
    · simp only [h0, h1, if_true, if_false, List.map_cons, List.map_nil, List.flatten_cons,
        List.flatten_nil, List.append_nil, List.mem_singleton, true_and]
      intro b hb
      subst hb
      exact ⟨by show 1 ≤ n; omega, h1⟩
    · by_cases h2 : n ≤ 40
      · simp only [h0, h1, h2, if_true, if_false, List.map_cons, List.map_nil,
          List.flatten_cons, List.flatten_nil, List.append_nil]
        constructor
        · have : n = (n - 20) + 20 := by omega
          conv_rhs => rw [this]
          rw [List.range'_append_1]
        · intro b hb
          simp only [List.mem_cons, List.mem_singleton, List.not_mem_nil, or_false] at hb
          rcases hb with rfl | rfl
          · exact ⟨by simp, by simp⟩
          · exact ⟨by show 1 ≤ n - 20; omega, by show n - 20 ≤ 20; omega⟩
      · simp only [h0, h1, h2, if_true, if_false, List.map_cons, List.map_nil,
          List.flatten_cons, List.flatten_nil, List.append_nil]
        constructor
        · have h1 : n = ((n - 40) + 20) + 20 := by omega
          have h2 : start + 40 = start + 20 + 20 := by omega
          conv_rhs => rw [h1]
          rw [h2, List.range'_append_1, List.range'_append_1]
        · intro b hb
          simp only [List.mem_cons, List.mem_singleton, List.not_mem_nil, or_false] at hb
          rcases hb with rfl | rfl | rfl
          · exact ⟨by simp, by simp⟩
          · exact ⟨by simp, by simp⟩
          · exact ⟨by show 1 ≤ n - 40; omega, by show n - 40 ≤ 20; omega⟩

theorem counts_ones :
    ∀ counts : List Nat, (∀ c ∈ counts, 1 ≤ c) → counts.sum = counts.length →
      ∀ c ∈ counts, c = 1 := by
  intro counts
  induction counts with
  | nil => intro _ _ c hc; cases hc
  | cons x xs ih =>
    intro h1 hs c hc
    have hx := h1 x (List.mem_cons_self _ _)
    have hxs : xs.length ≤ xs.sum := by
      clear ih hs hc
      induction xs with
      | nil => simp
      | cons y ys ih2 =>
        have hy := h1 y (List.mem_cons_of_mem _ (List.mem_cons_self _ _))
        have := ih2 (fun c hc => by
          rcases List.mem_cons.mp hc with h | h
          · exact h1 c (by rw [h]; exact List.mem_cons_self _ _)
          · exact h1 c (List.mem_cons_of_mem _ (List.mem_cons_of_mem _ h)))
        simp only [List.length_cons, List.sum_cons]
        omega
    simp only [List.sum_cons, List.length_cons] at hs
    rcases List.mem_cons.mp hc with h | h
    · omega
    · exact ih (fun c hc => h1 c (List.mem_cons_of_mem _ hc)) (by omega) c h

theorem readLog_ones (id : Nat) :
    ∀ (blocks : List (Nat × Nat)) (counts : List Nat), counts.length = blocks.length →
      (∀ c ∈ counts, c = 1) →
      readLog id blocks counts =
        wire (blocks.map fun b => (id, D_I_READ_DATA, [b.1, b.2])) := by
  intro blocks
  induction blocks with
  | nil =>
    intro counts _ _
    cases counts <;> simp [readLog, wire]
  | cons b bs ih =>
    intro counts hlen h1
    cases counts with
    | nil => simp at hlen
    | cons c cs =>
      have hc : c = 1 := h1 c (List.mem_cons_self _ _)
      subst hc
      simp only [List.length_cons, Nat.add_right_cancel_iff] at hlen
      rw [readLog, ih cs hlen (fun c hc => h1 c (List.mem_cons_of_mem _ hc))]
      simp [wire]

/-! ### Read data: the block that only reads the virtual register -/

theorem SameEntries.none (s : State) : SameEntries s s := ⟨rfl, rfl, rfl⟩

theorem SameEntries.both {s t u : State} (h1 : SameEntries s t) (h2 : SameEntries t u) :
    SameEntries s u :=
  ⟨h2.axID.trans h1.axID, h2.startAddr.trans h1.startAddr, h2.numBytes.trans h1.numBytes⟩

theorem Step.entries {s t : State} (h : Step s t) : SameEntries s t :=
  ⟨h.sent.axID, h.sent.startAddr, h.sent.numBytes⟩

theorem fwdParams_entries :
    ∀ (k j : Nat) (s : State) (b : Nat), SameEntries s (fwdParams k j s b).1 := by
  intro k
  induction k with
  | zero => intro j s b; exact SameEntries.none s
  | succ k ih =>
    intro j s b
    rw [fwdParams]
    have h := ih (j + 1) (txPC s (s.dynamixelParams j) 1) ((b + 65535) % 65536)
    exact ⟨h.axID, h.startAddr, h.numBytes⟩

theorem fwdStuff_entries :
    ∀ (k : Nat) (s : State) (b : Nat), SameEntries s (fwdStuff k s b).1 := by
  intro k
  induction k with
  | zero => intro s b; exact SameEntries.none s
  | succ k ih =>
    intro s b
    rw [fwdStuff]
    have h := ih (txPC s 0xff 1) ((b + 65535) % 65536)
    exact ⟨h.axID, h.startAddr, h.numBytes⟩

theorem fillParams_entries :
    ∀ (k j : Nat) (s : State), SameEntries s (fillParams k j s) := by
  intro k
  induction k with
  | zero => intro j s; exact SameEntries.none s
  | succ k ih =>
    intro j s
    rw [fillParams]
    have h := ih (j + 1) { s with dynamixelParams := upd s.dynamixelParams j 0xff }
    exact ⟨h.axID, h.startAddr, h.numBytes⟩

/-- One pass of the block loop when the transmissions drain: the request of
the block is sent `c` times, once and once more per retry, and the loop goes on
with the counters `blockNext`. -/
theorem readBlock_logged (rf fuel : Nat) (s : State) (id n start re b : Nat) (hrf : 4 ≤ rf)
    (hn : 0 < n) (hd : AllDrain s) :
    ∃ t c b1,
      readBlockLoop rf (fuel + 1) s id n start re b =
        readBlockLoop rf fuel t id (blockNext (n, start, re)).1 (blockNext (n, start, re)).2.1
          (blockNext (n, start, re)).2.2 b1 ∧
      1 ≤ c ∧ c ≤ 4 ∧
      t.dynamixelTxBuffer =
        s.dynamixelTxBuffer ++
          (List.replicate c (readRequest id start (blockBytes start n))).flatten ∧
      t.numDynamixelRetries + 1 = s.numDynamixelRetries + c ∧ AllDrain t ∧ SameEntries s t := by
  obtain ⟨f1, f2, f3, f4, f5, f6⟩ := fillParams_facts (blockBytes start n) 0 s
  have fe := fillParams_entries (blockBytes start n) 0 s
  have hdf : AllDrain (fillParams (blockBytes start n) 0 s) := by
    intro x hx
    rw [f5] at hx
    exact hd x hx
  obtain ⟨out, t2, c, e2, c1, c2, c3, c4, c5⟩ :=
    readRetryLoop_log id start (blockBytes start n) rf
      (fillParams (blockBytes start n) 0 s) ⟨0xff, 0xff, 0xff⟩ (by omega) hdf
  rw [f4] at c3
  rw [f6] at c4
  have hd2 : AllDrain t2 := c5.drain hdf
  have he2 : SameEntries s t2 := fe.both c5.entries
  have hfwd : ∀ x : State × Nat,
      x = (if out.id = id ∧ out.numParams = blockBytes start n then
        fwdParams (blockBytes start n) 0 t2 b
       else
        fwdStuff (blockBytes start n) (setStatusFlag t2 S_INVALID_DYNAMIXEL_RESPONSE) b) →
      x.1.dynamixelTxBuffer = t2.dynamixelTxBuffer ∧
        x.1.numDynamixelRetries = t2.numDynamixelRetries ∧ AllDrain x.1 ∧
        SameEntries s x.1 := by
    intro x hx
    by_cases hm : out.id = id ∧ out.numParams = blockBytes start n
    · rw [if_pos hm] at hx
      have hb := (fwdParams_exact (blockBytes start n) 0 t2 b).2.2.2
      rw [hx]
      exact ⟨hb.tx, hb.retries, fun y hy => hd2 y (by rw [← hb.done]; exact hy),
        he2.both (fwdParams_entries _ _ _ _)⟩
    · rw [if_neg hm] at hx
      have hb := (fwdStuff_exact (blockBytes start n)
        (setStatusFlag t2 S_INVALID_DYNAMIXEL_RESPONSE) b).2.2.2
      have he := fwdStuff_entries (blockBytes start n)
        (setStatusFlag t2 S_INVALID_DYNAMIXEL_RESPONSE) b
      rw [hx]
      exact ⟨hb.tx, hb.retries, fun y hy => hd2 y (by rw [hb.done] at hy; exact hy),
        ⟨he.axID.trans he2.axID, he.startAddr.trans he2.startAddr,
          he.numBytes.trans he2.numBytes⟩⟩
  obtain ⟨g1, g2, g3, g4⟩ := hfwd _ rfl
  rw [readBlockLoop_step rf fuel s id n start re b hn, e2]
  simp only [Run.bind_ret, blockNext]
  by_cases hre : blockReturnError start n re ≠ 0
  · rw [if_pos hre, if_pos hre]
    refine ⟨_, c, _, rfl, c1, by omega, ?_, ?_, ?_, ?_⟩
    · show _ = _
      rw [← c3, ← g1]
      rfl
    · show _ = _
      rw [← c4, ← g2]
      rfl
    · exact g3
    · exact ⟨g4.axID, g4.startAddr, g4.numBytes⟩
  · rw [if_neg hre, if_neg hre]
    exact ⟨_, c, _, rfl, c1, by omega, by rw [g1, c3], by rw [g2]; exact c4, g3, g4⟩

theorem readBlockLoop_trace (rf : Nat) (hrf : 4 ≤ rf) (id : Nat) :
    ∀ (fuel : Nat) (s : State) (x : Nat × Nat × Nat) (b : Nat), AllDrain s →
      ∃ (t : State) (counts : List Nat),
        (readBlockLoop rf fuel s id x.1 x.2.1 x.2.2 b).state = t ∧
        counts.length = (blockTrace fuel x).length ∧
        (∀ c ∈ counts, 1 ≤ c ∧ c ≤ 4) ∧
        t.dynamixelTxBuffer = s.dynamixelTxBuffer ++ requestLog id (blockTrace fuel x) counts ∧
        t.numDynamixelRetries + counts.length = s.numDynamixelRetries + counts.sum ∧
        AllDrain t ∧ SameEntries s t ∧
        ((blockTrace fuel x).length < fuel →
          ∃ b1, readBlockLoop rf fuel s id x.1 x.2.1 x.2.2 b = .ret (true, b1) t) := by
  intro fuel
  induction fuel with
  | zero =>
    intro s x b hd
    refine ⟨s, [], ?_, by simp [blockTrace], by simp, by simp [blockTrace, requestLog], by simp,
      hd, SameEntries.none s, fun h => absurd h (by simp [blockTrace])⟩
    unfold readBlockLoop
    split <;> rfl
  | succ fuel ih =>
    intro s x b hd
    by_cases h0 : x.1 > 0
    · obtain ⟨t1, c, b1, e1, c1, c2, c3, c4, hd1, he1⟩ :=
        readBlock_logged rf fuel s id x.1 x.2.1 x.2.2 b hrf h0 hd
      obtain ⟨t, counts, e2, d1, d2, d3, d4, d5, d6, d7⟩ := ih t1 (blockNext x) b1 hd1
      have htr : blockTrace (fuel + 1) x =
          (x.2.1, blockBytes x.2.1 x.1) :: blockTrace fuel (blockNext x) := by
        rw [blockTrace, if_pos h0]
      refine ⟨t, c :: counts, ?_, ?_, ?_, ?_, ?_, d5, he1.both d6, ?_⟩
      · rw [e1]
        exact e2
      · rw [htr]
        simp only [List.length_cons, d1]
      · intro y hy
        rcases List.mem_cons.mp hy with h | h
        · subst h
          exact ⟨c1, c2⟩
        · exact d2 y h
      · rw [d3, c3, htr, requestLog, List.append_assoc]
      · simp only [List.length_cons, List.sum_cons]
        omega
      · intro hlen
        rw [htr] at hlen
        simp only [List.length_cons] at hlen
        obtain ⟨b2, e3⟩ := d7 (by omega)
        exact ⟨b2, by rw [e1]; exact e3⟩
    · have hx : x.1 = 0 := by omega
      have htr : blockTrace (fuel + 1) x = [] := by
        rw [blockTrace, if_neg h0]
      have e : readBlockLoop rf (fuel + 1) s id x.1 x.2.1 x.2.2 b = .ret (true, b) s := by
        rw [hx]
        exact readBlockLoop_zero_any rf _ s id _ _ b
      refine ⟨s, [], by rw [e]; rfl, by rw [htr]; rfl, by simp, by simp [htr, requestLog],
        by simp, hd, SameEntries.none s, fun _ => ⟨b, e⟩⟩

theorem blockNext_virtual (start n : Nat) (hn : 0 < n) (h20 : n ≤ 20) (hv : start + n = 54) :
    (blockNext (n, start, 0)).1 = 0 := by
  unfold blockNext blockReturnError blockBytes
  simp only [MAX_DYNAMIXEL_BLOCK_READ, VIRTUAL_ERROR_REG_ADDR, if_pos h20, if_pos hv]
  simp only [ne_eq, one_ne_zero, not_false_eq_true, if_true]
  omega

theorem blockNext_plain (start n : Nat) (hn : 0 < n) (hsum : start + n ≤ 255)
    (hv : start + (if n ≤ 20 then n else 20) ≠ 54) :
    blockBytes start n = (if n ≤ 20 then n else 20) ∧
      blockNext (n, start, 0) =
        (n - (if n ≤ 20 then n else 20), start + (if n ≤ 20 then n else 20), 0) := by
  obtain ⟨hb, hr⟩ := blockBytes_plain start n hv
  refine ⟨hb, ?_⟩
  unfold blockNext
  simp only [hb, hr, ne_eq, not_true_eq_false, if_false]
  have h1 : (n + 256 - (if n ≤ 20 then n else 20)) % 256 = n - (if n ≤ 20 then n else 20) := by
    split <;> omega
  have h2 : (start + (if n ≤ 20 then n else 20)) % 256 = start + (if n ≤ 20 then n else 20) := by
    split <;> omega
  rw [h1, h2]

theorem blockTrace_zero (fuel : Nat) (x : Nat × Nat × Nat) (h : x.1 = 0) :
    blockTrace fuel x = [] := by
  cases fuel with
  | zero => rfl
  | succ fuel => rw [blockTrace, if_neg (by omega)]

/-- The block loop of a readable entry makes at most `f` passes when the entry
has at most 20 `f` bytes. -/
theorem blockTrace_readable :
    ∀ (f fuel n start : Nat), n ≤ 20 * f → ReadableEntry start n →
      (blockTrace fuel (n, start, 0)).length ≤ f := by
  intro f
  induction f with
  | zero =>
    intro fuel n start hn _
    rw [blockTrace_zero fuel _ (by show n = 0; omega)]
    simp
  | succ f ih =>
    intro fuel n start hn hgood
    obtain ⟨hsum, hbad⟩ := hgood
    cases fuel with
    | zero => simp [blockTrace]
    | succ fuel =>
      by_cases h0 : n > 0
      · have htr : blockTrace (fuel + 1) (n, start, 0) =
            (start, blockBytes start n) :: blockTrace fuel (blockNext (n, start, 0)) := by
          rw [blockTrace, if_pos (by exact h0)]
        rw [htr]
        simp only [List.length_cons]
        by_cases hle : n ≤ 20
        · by_cases hv : start + n = 54
          · rw [blockTrace_zero fuel _ (blockNext_virtual start n h0 hle hv)]
            simp
          · obtain ⟨_, hnext⟩ := blockNext_plain start n h0 (by omega) (by rw [if_pos hle]; exact hv)
            have hz : (n - (if n ≤ 20 then n else 20), start + (if n ≤ 20 then n else 20), 0).1 =
                0 := by
              show n - (if n ≤ 20 then n else 20) = 0
              rw [if_pos hle]
              omega
            rw [hnext, blockTrace_zero fuel _ hz]
            simp
        · have hv : start + 20 ≠ 54 := by
            intro h
            exact hbad ⟨by omega, Or.inr (by omega)⟩
          obtain ⟨_, hnext⟩ := blockNext_plain start n h0 (by omega) (by rw [if_neg hle]; exact hv)
          rw [hnext, if_neg hle]
          have := ih fuel (n - 20) (start + 20) (by omega)
            ⟨by omega, fun h => hbad ⟨by omega, by omega⟩⟩
          omega
      · rw [blockTrace_zero _ _ (by show n = 0; omega)]
        simp

/-- The passes of the block loop of an entry that ends at address 52 or below
are the blocks of 20 bytes and the remainder. -/
theorem blockTrace_plain :
    ∀ (fuel n start : Nat), start + n ≤ 53 → n ≤ 20 * fuel →
      blockTrace fuel (n, start, 0) = readBlocks start n := by
  intro fuel
  induction fuel with
  | zero =>
    intro n start _ hn
    have h0 : n = 0 := by omega
    subst h0
    simp [blockTrace, readBlocks]
  | succ fuel ih =>
    intro n start hstart hn
    by_cases h0 : n > 0
    · obtain ⟨hb, hnext⟩ := blockNext_plain start n h0 (by omega) (by split <;> omega)
      rw [blockTrace, if_pos (by exact h0)]
      simp only
      rw [hb, hnext, readBlocks_cons start n h0 (by omega),
        ih _ _ (by split <;> omega) (by split <;> omega)]
    · have h1 : n = 0 := by omega
      subst h1
      simp [blockTrace, readBlocks]

theorem requestLog_read (id : Nat) :
    ∀ (blocks : List (Nat × Nat)) (counts : List Nat), (∀ b ∈ blocks, 1 ≤ b.2) →
      requestLog id blocks counts = readLog id blocks counts := by
  intro blocks
  induction blocks with
  | nil => intro counts _; cases counts <;> simp [requestLog, readLog]
  | cons b bs ih =>
    intro counts hb
    cases counts with
    | nil => simp [requestLog, readLog]
    | cons c cs =>
      have h1 := hb b (List.mem_cons_self _ _)
      rw [requestLog, readLog, ih cs (fun x hx => hb x (List.mem_cons_of_mem _ hx)),
        readRequest, if_pos (by omega)]

theorem readEntryLoop_prefix (fuel : Nat) (hfuel : 4 ≤ fuel) :
    ∀ (i k j0 : Nat) (s : State) (b : Nat), i ≤ k →
      (∀ j, j < i →
        ReadableEntry (s.startAddr F_READ (j0 + j)) (s.numBytes F_READ (j0 + j))) →
      AllDrain s →
      ∃ (t : State) (b1 : Nat) (logs counts : List (List Nat)),
        readEntryLoop fuel k j0 s b = readEntryLoop fuel (k - i) (j0 + i) t b1 ∧
        logs.length = i ∧ counts.length = i ∧
        t.dynamixelTxBuffer = s.dynamixelTxBuffer ++ logs.flatten ∧
        t.numDynamixelRetries + counts.flatten.length =
          s.numDynamixelRetries + counts.flatten.sum ∧
        AllDrain t ∧ SameEntries s t ∧
        ∀ j, j < i →
          (counts.getD j []).length =
            (blockTrace fuel
              (s.numBytes F_READ (j0 + j), s.startAddr F_READ (j0 + j), 0)).length ∧
          (∀ c ∈ counts.getD j [], 1 ≤ c ∧ c ≤ 4) ∧
          logs.getD j [] =
            requestLog (s.axID F_READ (j0 + j))
              (blockTrace fuel (s.numBytes F_READ (j0 + j), s.startAddr F_READ (j0 + j), 0))
              (counts.getD j []) := by
  intro i
  induction i with
  | zero =>
    intro k j0 s b _ _ hd
    exact ⟨s, b, [], [], rfl, rfl, rfl, by simp, by simp, hd, SameEntries.none s,
      fun j hj => absurd hj (Nat.not_lt_zero j)⟩
  | succ i ih =>
    intro k j0 s b hik hgood hd
    obtain ⟨k, rfl⟩ : ∃ k1, k = k1 + 1 := ⟨k - 1, by omega⟩
    have hg := hgood 0 (by omega)
    rw [Nat.add_zero] at hg
    obtain ⟨t1, counts1, e1, a1, a2, a3, a4, a5, a6, a7⟩ :=
      readBlockLoop_trace fuel hfuel (s.axID F_READ j0) fuel s
        (s.numBytes F_READ j0, s.startAddr F_READ j0, 0) b hd
    have hlen := blockTrace_readable 3 fuel (s.numBytes F_READ j0) (s.startAddr F_READ j0)
      (by have := hg.1; omega) hg
    obtain ⟨b1, e2⟩ := a7 (by omega)
    simp only at e2
    obtain ⟨t, b2, logs, counts, e3, c1, c2, c3, c4, c5, c6, c7⟩ :=
      ih k (j0 + 1) t1 b1 (by omega)
        (fun j hj => by
          rw [a6.startAddr, a6.numBytes]
          have := hgood (j + 1) (by omega)
          rw [show j0 + (j + 1) = j0 + 1 + j by omega] at this
          exact this)
        a5
    refine ⟨t, b2, (requestLog (s.axID F_READ j0)
      (blockTrace fuel (s.numBytes F_READ j0, s.startAddr F_READ j0, 0)) counts1) :: logs,
      counts1 :: counts, ?_, by simp [c1], by simp [c2], ?_, ?_, c5, a6.both c6, ?_⟩
    · rw [readEntryLoop, e2]
      simp only [Run.bind_ret, if_true]
      rw [e3]
      have h1 : k + 1 - (i + 1) = k - i := by omega
      have h2 : j0 + 1 + i = j0 + (i + 1) := by omega
      rw [h1, h2]
    · rw [c3, a3]
      simp
    · simp only [List.flatten_cons, List.length_append, List.sum_append]
      omega
    · intro j hj
      cases j with
      | zero =>
        simp only [List.getD_cons_zero, Nat.add_zero]
        exact ⟨a1, a2, trivial⟩
      | succ j =>
        have := c7 j (by omega)
        rw [a6.startAddr, a6.numBytes, a6.axID, show j0 + 1 + j = j0 + (j + 1) by omega] at this
        simp only [List.getD_cons_succ]
        exact this

theorem stuffLoop_listened (s0 : State) :
    ∀ (fuel : Nat) (s : State) (b : Nat), Listened s0 s →
      (stuffLoop fuel s b).post (fun _ t => Listened s0 t) (Listened s0) := by
  intro fuel
  induction fuel with
  | zero =>
    intro s b h
    unfold stuffLoop
    split
    · exact h
    · exact h
  | succ fuel ih =>
    intro s b h
    unfold stuffLoop
    split
    · exact ih _ _ ⟨h.tx, h.done, h.retries⟩
    · exact h

theorem readTail_listened (s : State) :
    Listened s
      (endTXPacketPC
        (txADCValuesPC
          (txPC (txPC s s.status 1) (txPC s s.status 1).numDynamixelRetries 1))) := by
  refine ⟨?_, ?_, ?_⟩ <;> simp only [txADCValuesPC, endTXPacketPC, txPC]

/-- The run of `handleReadData` once the host checksum byte has arrived: the
entry loop, then the pad loop and the tail. -/
theorem handleReadData_entries (fuel : Nat) (s : State) (c : Nat) (rest : List (Option Nat))
    (hrx : s.pcRxBuffer = some c :: rest) :
    ∃ (s2 : State) (b : Nat),
      handleReadData fuel s =
        ((readEntryLoop fuel (s.numDynamixels F_READ) 0 s2 b).bind fun b1 s3 =>
          (stuffLoop fuel s3 b1).bind fun _ s4 =>
            Run.ret ()
              (endTXPacketPC
                (txADCValuesPC
                  (txPC (txPC s4 s4.status 1) (txPC s4 s4.status 1).numDynamixelRetries 1)))) ∧
      s2.dynamixelTxBuffer = s.dynamixelTxBuffer ∧
      s2.numDynamixelRetries = s.numDynamixelRetries ∧
      s2.dynamixelTxDone = s.dynamixelTxDone ∧ SameEntries s s2 := by
  have hend := endRXPacketPC_some s c rest hrx
  obtain ⟨s2, hs2, q1, q2, q3, q4, q5, q6, q7⟩ : ∃ s2 : State,
      startTXPacketPC
        { s with
          pcRxBuffer := rest
          status := if c = 255 - s.checksumRxPC % 256 then s.status else s.status ||| 64 }
        I_DATA = s2 ∧
      s2.numDynamixels = s.numDynamixels ∧
      s2.axID = s.axID ∧ s2.startAddr = s.startAddr ∧ s2.numBytes = s.numBytes ∧
      s2.dynamixelTxDone = s.dynamixelTxDone ∧ s2.dynamixelTxBuffer = s.dynamixelTxBuffer ∧
      s2.numDynamixelRetries = s.numDynamixelRetries :=
    ⟨_, rfl, rfl, rfl, rfl, rfl, rfl, rfl, rfl⟩
  refine ⟨s2, s.totalNumBytes F_READ, ?_, q6, q7, q5, ⟨q2, q3, q4⟩⟩
  unfold handleReadData
  rw [hend]
  simp only [Run.bind_ret, if_true]
  rw [hs2, q1]

theorem flatten_ones (counts : List (List Nat)) (h1 : ∀ l ∈ counts, ∀ c ∈ l, 1 ≤ c)
    (hs : counts.flatten.sum = counts.flatten.length) :
    ∀ l ∈ counts, ∀ c ∈ l, c = 1 := by
  intro l hl c hc
  refine counts_ones counts.flatten ?_ hs c (List.mem_flatten.mpr ⟨l, hl, hc⟩)
  intro x hx
  obtain ⟨m, hm, hxm⟩ := List.mem_flatten.mp hx
  exact h1 m hm x hxm

/-- C22, counterexample.  (a) Read format (1, 0, 1), `READ_DATA`, device 1
answering first with a wrong checksum byte and then well: the bus carries
`READ_DATA(0, 1)` twice, so address 0 is requested twice, and the response to
the host is complete (payload 0x42, status 0, retry count 1).  (b) Read format
(1, 0, 21), `READ_DATA`, the first bus transmission not draining: only
`READ_DATA(0, 20)` is on the bus, the request for address 20 is never sent
(the handler has jumped to `DONE`).  (c) Read format (1, 0, 1), then
`READ_DATA` whose checksum byte never arrives: nothing is sent on the bus. -/
theorem readData_requests_counterexample :
    (commandLoop 4 2 (initState (fun _ => 0) layoutHost retriedBus)).state.dynamixelTxBuffer =
      busPacket 1 D_I_READ_DATA [0, 1] ++ busPacket 1 D_I_READ_DATA [0, 1] ∧
    (commandLoop 4 2 (initState (fun _ => 0) layoutHost retriedBus)).state.pcTxBuffer =
      [0xFA, 0, 0, 0, 0, 0, 5, 0xFB, 0x42, 0, 1, 0, 0, 0, 193] ∧
    (commandLoop 4 2
        { initState (fun _ => 0) drainHost [] with
          dynamixelTxDone := [false] }).state.dynamixelTxBuffer =
      busPacket 1 D_I_READ_DATA [0, 20] ∧
    (commandLoop 4 2 (initState (fun _ => 0) stuckHost [])).state.dynamixelTxBuffer = [] := by
  decide

/-- C22 as amended.  (1) For every state (hence every read-format
table), every behaviour of both links and every amount of fuel, what
`handleReadData` has transmitted on the bus, returned or still running, is a
sequence of whole requests, each a READ_DATA asking for a count of 1 to 20
bytes or a PING (count 0).  (2) When the host checksum byte arrives and every
bus transmission drains, and the first `i` entries of the read table are
readable (within the register bank, none of the two whose block loop never
ends), then the bus log of `handleReadData` is `logs[0]`, ..., `logs[i-1]`,
one log per entry in table order, followed by what the later entries send;
nothing follows when these are all the entries, and then the retry counter has
grown by the number of repeated transmissions.  The log of entry j is the
requests of the passes of its block loop, addressed to its device, the k-th
request sent `counts[j][k]` times in a row, once and once more per retry of
its reply, at most four times.  For an entry with startAddr + length ≤ 53
these requests are READ_DATA (startAddr, 20), (startAddr + 20, 20), ...,
ending with the remainder, in this order, each exactly once when no reply of
the entry is retried; when the retry counter has not moved over the whole
table, no request of any entry is repeated.  (3) These blocks have 1 to 20
bytes each and cover the addresses startAddr .. startAddr + length - 1 once
each, in increasing order. -/
theorem readData_requests (fuel : Nat) (s : State) :
    (∃ reqs : List (Nat × Nat × Nat),
      (handleReadData fuel s).state.dynamixelTxBuffer =
        s.dynamixelTxBuffer ++ (reqs.map fun r => readRequest r.1 r.2.1 r.2.2).flatten ∧
      ∀ r ∈ reqs, r.2.2 ≤ 20 ∧
        (0 < r.2.2 →
          readRequest r.1 r.2.1 r.2.2 = busPacket r.1 D_I_READ_DATA [r.2.1, r.2.2]) ∧
        (r.2.2 = 0 → readRequest r.1 r.2.1 r.2.2 = busPacket r.1 D_I_PING [])) ∧
    (∀ (c : Nat) (rest : List (Option Nat)) (i : Nat),
      4 ≤ fuel → s.pcRxBuffer = some c :: rest → AllDrain s → i ≤ s.numDynamixels F_READ →
      (∀ j, j < i → ReadableEntry (s.startAddr F_READ j) (s.numBytes F_READ j)) →
      ∃ (logs counts : List (List Nat)) (after : List Nat),
        logs.length = i ∧ counts.length = i ∧
        (handleReadData fuel s).state.dynamixelTxBuffer =
          s.dynamixelTxBuffer ++ logs.flatten ++ after ∧
        (i = s.numDynamixels F_READ →
          after = [] ∧
          (handleReadData fuel s).state.numDynamixelRetries + counts.flatten.length =
            s.numDynamixelRetries + counts.flatten.sum ∧
          ((handleReadData fuel s).state.numDynamixelRetries = s.numDynamixelRetries →
            ∀ l ∈ counts, ∀ k ∈ l, k = 1)) ∧
        ∀ j, j < i →
          (counts.getD j []).length =
            (blockTrace fuel (s.numBytes F_READ j, s.startAddr F_READ j, 0)).length ∧
          (∀ k ∈ counts.getD j [], 1 ≤ k ∧ k ≤ 4) ∧
          logs.getD j [] =
            requestLog (s.axID F_READ j)
              (blockTrace fuel (s.numBytes F_READ j, s.startAddr F_READ j, 0))
              (counts.getD j []) ∧
          (s.startAddr F_READ j + s.numBytes F_READ j ≤ 53 →
            blockTrace fuel (s.numBytes F_READ j, s.startAddr F_READ j, 0) =
              readBlocks (s.startAddr F_READ j) (s.numBytes F_READ j) ∧
            logs.getD j [] =
              readLog (s.axID F_READ j)
                (readBlocks (s.startAddr F_READ j) (s.numBytes F_READ j)) (counts.getD j []) ∧
            ((∀ k ∈ counts.getD j [], k = 1) →
              logs.getD j [] =
                wire ((readBlocks (s.startAddr F_READ j) (s.numBytes F_READ j)).map fun b =>
                  (s.axID F_READ j, D_I_READ_DATA, [b.1, b.2]))))) ∧
    (∀ start n : Nat, start + n ≤ 53 →
      ((readBlocks start n).map fun b => List.range' b.1 b.2).flatten = List.range' start n ∧
      ∀ b ∈ readBlocks start n, 1 ≤ b.2 ∧ b.2 ≤ 20) := by
  refine ⟨?_, ?_, ?_⟩
  · obtain ⟨reqs, h1, h2⟩ := Run.post_state _ _ (handleReadData_asked fuel s)
    refine ⟨reqs, h1, fun r hr => ⟨h2 r hr, fun hpos => ?_, fun hz => ?_⟩⟩
    · rw [readRequest, if_pos hpos]
    · rw [readRequest, if_neg (by omega)]
  · intro c rest i hfuel hrx hd hi hgood
    obtain ⟨s2, b, erun, q1, q2, q3, q4⟩ := handleReadData_entries fuel s c rest hrx
    have hd2 : AllDrain s2 := fun x hx => hd x (by rw [← q3]; exact hx)
    obtain ⟨t, b1, logs, counts, e1, l1, l2, l3, l4, l5, l6, l7⟩ :=
      readEntryLoop_prefix fuel hfuel i (s.numDynamixels F_READ) 0 s2 b hi
        (fun j hj => by
          rw [q4.startAddr, q4.numBytes, Nat.zero_add]
          exact hgood j hj)
        hd2
    rw [e1, Nat.zero_add] at erun
    -- what the later entries, the pad loop and the tail add
    have hpost : (handleReadData fuel s).post (fun _ u => Asked t u) (Asked t) := by
      rw [erun]
      refine Run.post_bind _ _ (fun _ u => Asked t u) _ _
        (readEntryLoop_asked fuel t _ _ _ _ (Asked.noRequest t)) ?_
      intro b2 s3 g3
      refine Run.post_bind _ _ _ _ _ (stuffLoop_asked t fuel s3 b2 g3) ?_
      intro _ s4 g4
      exact g4.quiet (readTail_bus s4).1
    obtain ⟨reqs, hreqs, _⟩ := Run.post_state _ _ hpost
    refine ⟨logs, counts, (reqs.map fun r => readRequest r.1 r.2.1 r.2.2).flatten, l1, l2, ?_,
      ?_, ?_⟩
    · rw [hreqs, l3, q1]
    · intro hall
      have hlast : Listened t (handleReadData fuel s).state := by
        apply Run.post_state (handleReadData fuel s) (Listened t)
        rw [erun, hall, Nat.sub_self]
        show ((Run.ret b1 t).bind _).post _ _
        rw [Run.bind_ret]
        refine Run.post_bind _ _ _ _ _ (stuffLoop_listened t fuel t b1 (Listened.idle t)) ?_
        intro _ s4 g4
        exact g4.further (readTail_listened s4)
      have hret : (handleReadData fuel s).state.numDynamixelRetries + counts.flatten.length =
          s.numDynamixelRetries + counts.flatten.sum := by
        rw [hlast.retries, l4, q2]
      refine ⟨?_, hret, fun hsame => ?_⟩
      · have h1 := hreqs
        rw [hlast.tx] at h1
        have h2 : t.dynamixelTxBuffer ++ [] =
            t.dynamixelTxBuffer ++ (reqs.map fun r => readRequest r.1 r.2.1 r.2.2).flatten := by
          rw [List.append_nil]
          exact h1
        exact (List.append_cancel_left h2).symm
      · refine flatten_ones counts (fun l hl k hk => ?_) (by omega)
        obtain ⟨j, hj, hjl⟩ := List.getElem_of_mem hl
        have hget : counts.getD j [] = l := by
          rw [List.getD_eq_getElem?_getD, List.getElem?_eq_getElem hj]
          simpa using hjl
        have := (l7 j (by rw [← l2]; exact hj)).2.1 k (by rw [hget]; exact hk)
        exact this.1
    · intro j hj
      obtain ⟨m1, m2, m3⟩ := l7 j hj
      rw [q4.startAddr, q4.numBytes, Nat.zero_add] at m1
      rw [q4.startAddr, q4.numBytes, q4.axID, Nat.zero_add] at m3
      refine ⟨m1, m2, m3, fun hplain => ?_⟩
      have htr := blockTrace_plain fuel (s.numBytes F_READ j) (s.startAddr F_READ j) hplain
        (by omega)
      have hcov := (readBlocks_cover (s.startAddr F_READ j) (s.numBytes F_READ j) (by omega)).2
      have hlog : logs.getD j [] =
          readLog (s.axID F_READ j) (readBlocks (s.startAddr F_READ j) (s.numBytes F_READ j))
            (counts.getD j []) := by
        rw [m3, htr]
        exact requestLog_read _ _ _ (fun x hx => (hcov x hx).1)
      refine ⟨htr, hlog, fun hone => ?_⟩
      rw [hlog]
      exact readLog_ones _ _ _ (by rw [m1, htr]) hone
  · intro start n h
    exact readBlocks_cover start n (by omega)

/-- Witness of `readData_requests`: the single read entry (1, 0, 45), the host
checksum byte pending, no device answering: three READ_DATA requests, for the
blocks (0, 20), (20, 20) and (40, 5). -/
theorem readData_requests_witness :
    ∃ (logs counts : List (List Nat)) (after : List Nat),
      logs.length = 1 ∧
      (handleReadData 4 blocksState).state.dynamixelTxBuffer = [] ++ logs.flatten ++ after ∧
      after = [] ∧
      (counts.getD 0 []).length = 3 ∧
      logs.getD 0 [] = readLog 1 [(0, 20), (20, 20), (40, 5)] (counts.getD 0 []) := by
  obtain ⟨logs, counts, after, h1, _, h3, h4, h5⟩ :=
    (readData_requests 4 blocksState).2.1 12 [] 1 (by decide) rfl (by intro x hx; cases hx)
      (by decide) (fun j _ => show ReadableEntry 0 45 from ⟨by decide, by decide⟩)
  obtain ⟨m1, _, _, m4⟩ := h5 0 (by decide)
  obtain ⟨n1, n2, _⟩ := m4 (by decide)
  refine ⟨logs, counts, after, h1, h3, (h4 rfl).1, ?_, n2⟩
  rw [m1, n1]
  rfl

/-! ### Bus replies: what `rxPacketDynamixel` consumes, stores and flags -/

theorem startRX_sync (s : State) (out : RxHeader) (b1 b2 id len err : Nat)
    (rest : List (Option Nat))
    (hrx : s.dynamixelRxBuffer =
      some b1 :: some b2 :: some id :: some len :: some err :: rest) :
    startRXPacketDynamixel s out =
      (true, ⟨id, (len + 254) % 256, err⟩,
        { s with
          dynamixelRxBuffer := rest
          checksumRxDynamixel := (id + len + err) % 256
          status :=
            s.status |||
              (if b1 = 0xFF ∧ b2 = 0xFF then 0 else S_INVALID_DYNAMIXEL_RESPONSE) }) := by
  have hc : (((0 + id) % 256 + len) % 256 + err) % 256 = (id + len + err) % 256 := by omega
  unfold startRXPacketDynamixel
  by_cases h1 : b1 = 0xFF <;> by_cases h2 : b2 = 0xFF <;>
    simp [rxDynamixel, hrx, hc, h1, h2, setStatusFlag, Nat.or_assoc]

theorem rxParamsLoop_skip (e : Nat) :
    ∀ (ps : List Nat) (i : Nat) (s : State) (rest : List (Option Nat)),
      s.dynamixelRxBuffer = ps.map some ++ rest →
      ∃ s2, rxParamsLoop false e ps.length i s = (true, s2) ∧
        s2.dynamixelRxBuffer = rest ∧
        s2.checksumRxDynamixel % 256 = (s.checksumRxDynamixel + ps.sum) % 256 ∧
        s2.status = s.status ∧ s2.dynamixelTxBuffer = s.dynamixelTxBuffer ∧
        s2.dynamixelTxDone = s.dynamixelTxDone ∧
        s2.numDynamixelRetries = s.numDynamixelRetries ∧
        s2.dynamixelParams = s.dynamixelParams := by
  intro ps
  induction ps with
  | nil =>
    intro i s rest h
    exact ⟨s, rfl, by simpa using h, by simp, rfl, rfl, rfl, rfl, rfl⟩
  | cons b bs ih =>
    intro i s rest h
    simp only [List.map_cons, List.cons_append] at h
    obtain ⟨s2, e2, h1, h2, h3, h4, h5, h6, h7⟩ :=
      ih (i + 1)
        { s with
          dynamixelRxBuffer := bs.map some ++ rest
          checksumRxDynamixel := (s.checksumRxDynamixel + b) % 256 } rest rfl
    refine ⟨s2, ?_, h1, ?_, h3, h4, h5, h6, h7⟩
    · simp only [List.length_cons]
      rw [rxParamsLoop]
      simp only [rxDynamixel, h, ne_eq, one_ne_zero, not_false_eq_true, if_true, Bool.false_and,
        Bool.false_eq_true, if_false]
      exact e2
    · rw [h2, List.sum_cons]
      show ((s.checksumRxDynamixel + b) % 256 + bs.sum) % 256 = _
      omega

theorem rxParamsLoop_any (p : Bool) (e : Nat) (ps : List Nat) (s : State)
    (rest : List (Option Nat)) (h : s.dynamixelRxBuffer = ps.map some ++ rest) :
    ∃ s2, rxParamsLoop p e ps.length 0 s = (true, s2) ∧
      s2.dynamixelRxBuffer = rest ∧
      s2.checksumRxDynamixel % 256 = (s.checksumRxDynamixel + ps.sum) % 256 ∧
      s2.status = s.status ∧
      (∀ x, s2.dynamixelParams x =
        if p = true ∧ x < ps.length ∧ x < e then ps.getD x 0 else s.dynamixelParams x) := by
  cases p with
  | false =>
    obtain ⟨s2, e2, h1, h2, h3, _, _, _, h7⟩ := rxParamsLoop_skip e ps 0 s rest h
    refine ⟨s2, e2, h1, h2, h3, fun x => ?_⟩
    rw [h7, if_neg (by simp)]
  | true =>
    obtain ⟨s2, e2, h1, h2, h3, _, _, _, h7⟩ := rxParamsLoop_bytes e ps 0 s rest h
    refine ⟨s2, e2, h1, h2, h3, fun x => ?_⟩
    have hx := h7 x
    simp only [Nat.zero_le, true_and, Nat.zero_add, Nat.sub_zero] at hx
    rw [hx]
    simp

theorem or_three (x a b : Nat) :
    x ||| a ||| b ||| a = x ||| a ||| b ∧ x ||| b ||| a = x ||| a ||| b ∧
      x ||| a ||| a = x ||| a := by
  refine ⟨?_, ?_, ?_⟩ <;>
  · apply Nat.eq_of_testBit_eq
    intro i
    simp only [Nat.testBit_or]
    cases x.testBit i <;> cases a.testBit i <;> cases b.testBit i <;> rfl

theorem or_flag_or_and (x z i : Nat) : (x ||| 2 ^ i ||| z) &&& 2 ^ i ≠ 0 := by
  rw [and_flag_ne_zero, Nat.testBit_or, Nat.testBit_or, Nat.testBit_two_pow_self, Bool.or_true,
    Bool.true_or]

/-- C23: a bus reply that arrives in full, with sync bytes `b1`, `b2`, id,
length byte `L`, error byte, `(L - 2) mod 256` parameter bytes `ps` and a
trailing byte `ck`.  Whatever `numParamsExpected` is and whether or not a
buffer is passed, `rxPacketDynamixel` returns success, reports the id, the
parameter count `(L - 2) mod 256` and the error byte, and has consumed exactly
those 5 + `(L - 2) mod 256` + 1 bytes; parameter `x` is stored in
`dynamixelParams[x]` only when a buffer is passed and `x < numParamsExpected`,
every other position of the buffer is unchanged; the status gets
InvalidBusResponse exactly when a sync byte is not 0xFF or the parameter count
differs from `numParamsExpected`, and BusChecksumError exactly when the
trailing byte is not the complement of the 8-bit sum; nothing else of the
status changes. -/
theorem rxPacketDynamixel_consumes (s : State) (out : RxHeader) (p : Bool) (e : Nat)
    (b1 b2 id L err : Nat) (ps : List Nat) (ck : Nat) (rest : List (Option Nat))
    (hlen : ps.length = (L + 254) % 256)
    (hrx : s.dynamixelRxBuffer =
      some b1 :: some b2 :: some id :: some L :: some err :: (ps.map some ++ some ck :: rest)) :
    ∃ t, rxPacketDynamixel s out p e = (true, ⟨id, (L + 254) % 256, err⟩, t) ∧
      t.dynamixelRxBuffer = rest ∧
      (∀ x, t.dynamixelParams x =
        if p = true ∧ x < ps.length ∧ x < e then ps.getD x 0 else s.dynamixelParams x) ∧
      t.status =
        s.status |||
          (if b1 = 0xFF ∧ b2 = 0xFF ∧ (L + 254) % 256 = e then 0
           else S_INVALID_DYNAMIXEL_RESPONSE) |||
          (if ck = 255 - (id + L + err + ps.sum) % 256 then 0
           else S_DYNAMIXEL_CHECKSUM_ERROR) ∧
      ((b1 ≠ 0xFF ∨ b2 ≠ 0xFF ∨ (L + 254) % 256 ≠ e) →
        t.status &&& S_INVALID_DYNAMIXEL_RESPONSE ≠ 0) := by
  obtain ⟨s1, hs1, a1, a2, a3, a4⟩ : ∃ s1 : State,
      ({ s with
        dynamixelRxBuffer := ps.map some ++ some ck :: rest
        checksumRxDynamixel := (id + L + err) % 256
        status :=
          s.status |||
            (if b1 = 0xFF ∧ b2 = 0xFF then 0 else S_INVALID_DYNAMIXEL_RESPONSE) } : State) = s1 ∧
      s1.dynamixelRxBuffer = ps.map some ++ some ck :: rest ∧
      s1.checksumRxDynamixel = (id + L + err) % 256 ∧
      s1.status =
        s.status ||| (if b1 = 0xFF ∧ b2 = 0xFF then 0 else S_INVALID_DYNAMIXEL_RESPONSE) ∧
      s1.dynamixelParams = s.dynamixelParams :=
    ⟨_, rfl, rfl, rfl, rfl, rfl⟩
  have hstart := startRX_sync s out b1 b2 id L err _ hrx
  rw [hs1] at hstart
  obtain ⟨s2, e2, h1, h2, h3, h4⟩ := rxParamsLoop_any p e ps s1 (some ck :: rest) a1
  have hend := endRX_byte s2 ck rest h1
  have hck : 255 - s2.checksumRxDynamixel % 256 = 255 - (id + L + err + ps.sum) % 256 := by
    rw [h2, a2]
    omega
  rw [hck, h3, a3] at hend
  obtain ⟨s3, hs3, c1, c2, c3⟩ : ∃ s3 : State,
      ({ s2 with
        dynamixelRxBuffer := rest
        status :=
          if ck = 255 - (id + L + err + ps.sum) % 256 then
            s.status ||| (if b1 = 0xFF ∧ b2 = 0xFF then 0 else S_INVALID_DYNAMIXEL_RESPONSE)
          else
            s.status ||| (if b1 = 0xFF ∧ b2 = 0xFF then 0 else S_INVALID_DYNAMIXEL_RESPONSE) |||
              S_DYNAMIXEL_CHECKSUM_ERROR } : State) = s3 ∧
      s3.dynamixelRxBuffer = rest ∧
      s3.status =
        (if ck = 255 - (id + L + err + ps.sum) % 256 then
            s.status ||| (if b1 = 0xFF ∧ b2 = 0xFF then 0 else S_INVALID_DYNAMIXEL_RESPONSE)
          else
            s.status ||| (if b1 = 0xFF ∧ b2 = 0xFF then 0 else S_INVALID_DYNAMIXEL_RESPONSE) |||
              S_DYNAMIXEL_CHECKSUM_ERROR) ∧
      s3.dynamixelParams = s2.dynamixelParams :=
    ⟨_, rfl, rfl, rfl, rfl⟩
  rw [hs3] at hend
  have htotal : rxPacketDynamixel s out p e =
      (true, ⟨id, (L + 254) % 256, err⟩,
        if (L + 254) % 256 ≠ e then setStatusFlag s3 S_INVALID_DYNAMIXEL_RESPONSE else s3) := by
    unfold rxPacketDynamixel
    rw [hstart]
    simp only
    rw [← hlen, e2]
    simp only
    rw [hend]
  have hpar : ∀ x, s3.dynamixelParams x =
      if p = true ∧ x < ps.length ∧ x < e then ps.getD x 0 else s.dynamixelParams x := by
    intro x
    rw [c3, h4 x, a4]
  have hstatus : (if (L + 254) % 256 ≠ e then setStatusFlag s3 S_INVALID_DYNAMIXEL_RESPONSE
        else s3).status =
      s.status |||
          (if b1 = 0xFF ∧ b2 = 0xFF ∧ (L + 254) % 256 = e then 0
           else S_INVALID_DYNAMIXEL_RESPONSE) |||
          (if ck = 255 - (id + L + err + ps.sum) % 256 then 0
           else S_DYNAMIXEL_CHECKSUM_ERROR) := by
    by_cases hL : (L + 254) % 256 = e
    · rw [if_neg (not_not.mpr hL), c2]
      by_cases hc : ck = 255 - (id + L + err + ps.sum) % 256
      · simp only [hc, hL, and_true, if_true, Nat.or_zero]
      · simp only [hc, hL, and_true, if_false]
    · rw [if_pos hL]
      show s3.status ||| S_INVALID_DYNAMIXEL_RESPONSE = _
      rw [c2]
      by_cases hc : ck = 255 - (id + L + err + ps.sum) % 256
      · by_cases hs : b1 = 0xFF ∧ b2 = 0xFF
        · simp only [hc, hL, hs, and_self, and_false, if_true, if_false, Nat.or_zero]
        · simp only [hc, hL, hs, and_false, if_true, if_false, Nat.or_zero]
          exact (or_three s.status 8 0).2.2
      · by_cases hs : b1 = 0xFF ∧ b2 = 0xFF
        · simp only [hc, hL, hs, and_self, and_false, if_true, if_false, Nat.or_zero]
          exact (or_three s.status 8 128).2.1
        · simp only [hc, hL, hs, and_false, if_false]
          exact (or_three s.status 8 128).1
  refine ⟨_, htotal, ?_, ?_, hstatus, ?_⟩
  · split <;> exact c1
  · intro x
    rw [← hpar x]
    split <;> rfl
  · intro hbad
    rw [hstatus]
    have hne : ¬ (b1 = 0xFF ∧ b2 = 0xFF ∧ (L + 254) % 256 = e) := by
      rintro ⟨r1, r2, r3⟩
      rcases hbad with h | h | h
      · exact h r1
      · exact h r2
      · exact h r3
    rw [if_neg hne]
    exact or_flag_or_and s.status _ 3

/-- Witness of `rxPacketDynamixel_consumes`: a reply with length byte 4 and
the parameters 0x42, 0x43 where one parameter is expected; one more byte
follows on the bus. -/
theorem rxPacketDynamixel_consumes_witness :
    ∃ t,
      rxPacketDynamixel
          (initState (fun _ => 0) []
            [some 0xFF, some 0xFF, some 1, some 4, some 0, some 0x42, some 0x43, some 117,
              some 0x99])
          ⟨0xff, 0xff, 0xff⟩ true 1 = (true, ⟨1, 2, 0⟩, t) ∧
      t.dynamixelRxBuffer = [some 0x99] ∧ t.dynamixelParams 0 = 0x42 ∧
      t.dynamixelParams 1 = 0 ∧ t.status = 8 := by
  obtain ⟨t, h1, h2, h3, h4, _⟩ :=
    rxPacketDynamixel_consumes
      (initState (fun _ => 0) []
        [some 0xFF, some 0xFF, some 1, some 4, some 0, some 0x42, some 0x43, some 117,
          some 0x99])
      ⟨0xff, 0xff, 0xff⟩ true 1 0xFF 0xFF 1 4 0 [0x42, 0x43] 117 [some 0x99] (by decide) rfl
  refine ⟨t, h1, h2, ?_, ?_, ?_⟩
  · rw [h3 0]
    decide
  · rw [h3 1]
    decide
  · rw [h4]
    decide

/-! ### Format tables: a SetFormat with a bad checksum -/

theorem setFormatLoop_checksum (f : Nat) (entries : List (Nat × Nat × Nat)) :
    ∀ (i total : Nat) (s : State) (rest : List (Option Nat)),
      (∀ e ∈ entries, ValidEntry e) →
      s.pcRxBuffer = (entryBytes entries).map some ++ rest →
      ∃ r s1, setFormatLoop f entries.length i total s = .ret (some r) s1 ∧
        s1.checksumRxPC % 256 = (s.checksumRxPC + (entryBytes entries).sum) % 256 := by
  induction entries with
  | nil =>
    intro i total s rest _ _
    exact ⟨total, s, rfl, by simp [entryBytes]⟩
  | cons e es ih =>
    intro i total s rest hv h
    obtain ⟨id, start, n⟩ := e
    obtain ⟨h1, h2, h3⟩ := hv _ (List.mem_cons_self _ _)
    simp only at h1 h2 h3
    simp only [entryBytes, List.map_cons, List.cons_append] at h
    obtain ⟨r, s1, e1, e2⟩ :=
      ih (i + 1) ((total + n) % 65536)
        { s with
          pcRxBuffer := (entryBytes es).map some ++ rest
          checksumRxPC := (((s.checksumRxPC + id) % 256 + start) % 256 + n) % 256
          axID := upd2 s.axID f i id
          startAddr := upd2 s.startAddr f i start
          numBytes := upd2 s.numBytes f i n }
        rest (fun e he => hv e (List.mem_cons_of_mem _ he)) rfl
    refine ⟨r, s1, ?_, ?_⟩
    · simp only [List.length_cons]
      rw [setFormatLoop]
      simp only [rxPC, h, rxPCWait, Run.bind_ret, ne_eq, one_ne_zero, not_false_eq_true, if_true,
        gt_iff_lt, show ¬ (MAX_DYNAMIXEL_ID < id) from by simp only [MAX_DYNAMIXEL_ID]; omega,
        show ¬ (MAX_START_ADDR < start) from by simp only [MAX_START_ADDR]; omega,
        show ¬ (NUM_REG_BYTES - start < n) from by simp only [NUM_REG_BYTES]; omega, if_false]
      exact e1
    · rw [e2]
      show ((((s.checksumRxPC + id) % 256 + start) % 256 + n) % 256 + (entryBytes es).sum) % 256 = _
      simp only [entryBytes, List.sum_cons]
      omega

/-- What `setFormat(f)` reaches on a count N ≤ 32 and N valid triples: the
state in which `endRXPacketPC()` is called, with the table installed. -/
theorem setFormat_installed (f : Nat) (s : State) (entries : List (Nat × Nat × Nat))
    (rest : List (Option Nat)) (hN : entries.length ≤ 32)
    (hvalid : ∀ e ∈ entries, ValidEntry e)
    (hrx : s.pcRxBuffer = some entries.length :: ((entryBytes entries).map some ++ rest)) :
    ∃ s2 : State,
      setFormat f s = (endRXPacketPC s2).bind (fun _ s3 => .ret () (txStatusPC s3)) ∧
      s2.numDynamixels f = entries.length ∧
      s2.totalNumBytes f = (entries.map fun e => e.2.2).sum ∧
      (∀ i e, entries[i]? = some e →
        s2.axID f i = e.1 ∧ s2.startAddr f i = e.2.1 ∧ s2.numBytes f i = e.2.2) ∧
      s2.checksumRxPC % 256 =
        (s.checksumRxPC + entries.length + (entryBytes entries).sum) % 256 ∧
      s2.pcRxBuffer = rest ∧ s2.status = s.status ∧
      s2.enableRxPCTimeout = s.enableRxPCTimeout ∧ s2.pcTxBuffer = s.pcTxBuffer ∧
      s2.numDynamixelRetries = s.numDynamixelRetries ∧ s2.adcValue = s.adcValue := by
  obtain ⟨s1, e1, e2, e3, _⟩ :=
    setFormatLoop_prefix f entries 0 0 0
      { s with
        numDynamixels := upd s.numDynamixels f 0
        totalNumBytes := upd s.totalNumBytes f 0
        pcRxBuffer := (entryBytes entries).map some ++ rest
        checksumRxPC := (s.checksumRxPC + entries.length) % 256 }
      rest hvalid rfl (by norm_num)
  obtain ⟨r, s1', c1, c2⟩ :=
    setFormatLoop_checksum f entries 0 0
      { s with
        numDynamixels := upd s.numDynamixels f 0
        totalNumBytes := upd s.totalNumBytes f 0
        pcRxBuffer := (entryBytes entries).map some ++ rest
        checksumRxPC := (s.checksumRxPC + entries.length) % 256 }
      rest hvalid rfl
  have hsum := sum_lengths_le entries hvalid
  simp only [Nat.add_zero, Nat.zero_add] at e1
  rw [e1] at c1
  simp only [setFormatLoop] at c1
  have hs1 : s1' = s1 := by
    cases c1
    rfl
  subst hs1
  have hck : s1'.checksumRxPC % 256 =
      (s.checksumRxPC + entries.length + (entryBytes entries).sum) % 256 := by
    rw [c2]
    show ((s.checksumRxPC + entries.length) % 256 + (entryBytes entries).sum) % 256 = _
    omega
  have hst : s1'.status = s.status := by rw [e2]
  have hen : s1'.enableRxPCTimeout = s.enableRxPCTimeout := by rw [e2]
  have hrxb : s1'.pcRxBuffer = rest := by rw [e2]
  have htx : s1'.pcTxBuffer = s.pcTxBuffer := by rw [e2]
  have hre : s1'.numDynamixelRetries = s.numDynamixelRetries := by rw [e2]
  have hadc : s1'.adcValue = s.adcValue := by rw [e2]
  have hent : ∀ i e, entries[i]? = some e →
      s1'.axID f i = e.1 ∧ s1'.startAddr f i = e.2.1 ∧ s1'.numBytes f i = e.2.2 := by
    intro i e hi
    simpa using e3 i e hi
  refine ⟨{ s1' with
      totalNumBytes := upd s1'.totalNumBytes f (entries.map fun e => e.2.2).sum
      numDynamixels := upd s1'.numDynamixels f entries.length }, ?_, by simp [upd],
    by simp [upd], hent, hck, hrxb, hst, hen, htx, hre, hadc⟩
  unfold setFormat
  simp only [rxPC, hrx, rxPCWait, Run.bind_ret, ne_eq, one_ne_zero, not_false_eq_true, if_true,
    gt_iff_lt, show ¬ (MAX_DYNAMIXELS < entries.length) from by simp only [MAX_DYNAMIXELS]; omega,
    if_false]
  rw [e1]
  simp only [setFormatLoop, Run.bind_ret]
  rw [Nat.mod_eq_of_lt (by omega)]

/-- C24: a SetFormat command (instruction 0xF1 + f) with a count N ≤ 32 and N
valid entries takes effect whatever follows: the command cycle returns with
`numDynamixels[f] = N`, the N entries in the table and `totalNumBytes[f]` the
sum of the lengths.  When the checksum byte is missing (the wait for it times
out) the status byte of the response is 1 (HostTimeout alone); when it is
wrong, the status byte is 64 (HostChecksumError alone); in neither case is
InvalidHostCommand (4) reported. -/
theorem setFormat_badChecksum (fuel : Nat) (s : State) (f : Nat)
    (entries : List (Nat × Nat × Nat)) (tail : List (Option Nat)) (hfuel : 1 ≤ fuel)
    (hf : f = F_READ ∨ f = F_WRITE) (hN : entries.length ≤ 32)
    (hvalid : ∀ e ∈ entries, ValidEntry e)
    (hrx : s.pcRxBuffer =
      some (0xF1 + f) :: some entries.length :: ((entryBytes entries).map some ++ tail)) :
    ∃ t, commandLoopBody fuel s = .ret () t ∧
      t.numDynamixels f = entries.length ∧
      t.totalNumBytes f = (entries.map fun e => e.2.2).sum ∧
      (∀ i e, entries[i]? = some e →
        t.axID f i = e.1 ∧ t.startAddr f i = e.2.1 ∧ t.numBytes f i = e.2.2) ∧
      (NoReply tail →
        t.pcTxBuffer =
          s.pcTxBuffer ++
            [0xFA, S_PC_TIMEOUT, 0, s.adcValue 0, s.adcValue 1, s.adcValue 2,
              255 - (0xFA + S_PC_TIMEOUT + 0 + s.adcValue 0 + s.adcValue 1 +
                s.adcValue 2) % 256]) ∧
      (∀ c rest, tail = some c :: rest →
        c ≠ 255 - (0xF1 + f + entries.length + (entryBytes entries).sum) % 256 →
        t.pcRxBuffer = rest ∧
        t.pcTxBuffer =
          s.pcTxBuffer ++
            [0xFA, S_PC_CHECKSUM_ERROR, 0, s.adcValue 0, s.adcValue 1, s.adcValue 2,
              255 - (0xFA + S_PC_CHECKSUM_ERROR + 0 + s.adcValue 0 + s.adcValue 1 +
                s.adcValue 2) % 256]) := by
  obtain ⟨fuel, rfl⟩ : ∃ k, fuel = k + 1 := ⟨fuel - 1, by omega⟩
  have hb : 0xF1 + f < 256 := by
    rcases hf with rfl | rfl <;> decide
  have hsel : ∀ x, Handler.run (fuel + 1) x (selectHandler (0xF1 + f)) = setFormat f x := by
    intro x
    rcases hf with rfl | rfl <;> rfl
  have c1 := commandLoopBody_select fuel s (0xF1 + f) _ hb hrx
  obtain ⟨s0, hs0, p1, p2, p3, p4, p5, p6, p7⟩ : ∃ s0 : State,
      ({ s with
        status := 0
        numDynamixelRetries := 0
        checksumRxPC := 0xF1 + f
        enableRxPCTimeout := 1
        pcRxBuffer := some entries.length :: ((entryBytes entries).map some ++ tail) } :
        State) = s0 ∧
      s0.status = 0 ∧ s0.numDynamixelRetries = 0 ∧ s0.checksumRxPC = 0xF1 + f ∧
      s0.enableRxPCTimeout = 1 ∧
      s0.pcRxBuffer = some entries.length :: ((entryBytes entries).map some ++ tail) ∧
      s0.pcTxBuffer = s.pcTxBuffer ∧ s0.adcValue = s.adcValue :=
    ⟨_, rfl, rfl, rfl, rfl, rfl, rfl, rfl, rfl⟩
  rw [hs0, hsel] at c1
  obtain ⟨s2, e2, q1, q2, q3, q4, q5, q6, q7, q8, q9, q10⟩ :=
    setFormat_installed f s0 entries tail hN hvalid p5
  have c2 : commandLoopBody (fuel + 1) s =
      (endRXPacketPC s2).bind (fun _ s3 => .ret () (txStatusPC s3)) := c1.trans e2
  have hten : s2.enableRxPCTimeout ≠ 0 := by rw [q7, p4]; decide
  rw [p3] at q4
  rw [p1] at q6
  rw [p6] at q8
  rw [p2] at q9
  rw [p7] at q10
  by_cases hno : NoReply tail
  · -- the checksum byte never arrives
    obtain ⟨t1, ht1, hst1, hk, hbi⟩ := rxPC_noReply s2 0 (by rw [q5]; exact hno) hten
    have he : endRXPacketPC s2 = .ret false t1 := by
      unfold endRXPacketPC
      rw [ht1]
      rfl
    rw [he] at c2
    refine ⟨_, c2, ?_, ?_, ?_, ?_, ?_⟩
    · rw [txStatusPC_numDynamixels, hk.numDynamixels]; exact q1
    · rw [txStatusPC_totalNumBytes, hk.totalNumBytes]; exact q2
    · rw [txStatusPC_axID, txStatusPC_startAddr, txStatusPC_numBytes, hk.axID, hk.startAddr,
        hk.numBytes]
      exact q3
    · intro _
      rw [txStatusPC_tx, hk.pcTx, q8, hst1, q6, hbi.retries, q9, hk.adc, q10]
      rfl
    · intro c rest htail _
      rcases hno with hno | ⟨r, hno⟩
      · rw [hno] at htail
        cases htail
      · rw [hno] at htail
        cases htail
  · -- a checksum byte arrives
    obtain ⟨c, rest, htail⟩ : ∃ c rest, tail = some c :: rest := by
      cases tail with
      | nil => exact absurd (Or.inl rfl) hno
      | cons x xs =>
        cases x with
        | none => exact absurd (Or.inr ⟨xs, rfl⟩) hno
        | some c => exact ⟨c, xs, rfl⟩
    rw [htail] at q5
    have he := endRXPacketPC_some s2 c rest q5
    obtain ⟨s3, hs3, r1, r2, r3, r4, r5, r6, r7, r8, r9, r10⟩ : ∃ s3 : State,
        ({ s2 with
          pcRxBuffer := rest
          status := if c = 255 - s2.checksumRxPC % 256 then s2.status else s2.status ||| 64 } :
          State) = s3 ∧
        s3.pcRxBuffer = rest ∧
        s3.status = (if c = 255 - s2.checksumRxPC % 256 then s2.status else s2.status ||| 64) ∧
        s3.numDynamixels = s2.numDynamixels ∧ s3.totalNumBytes = s2.totalNumBytes ∧
        s3.axID = s2.axID ∧ s3.startAddr = s2.startAddr ∧ s3.numBytes = s2.numBytes ∧
        s3.pcTxBuffer = s2.pcTxBuffer ∧ s3.numDynamixelRetries = s2.numDynamixelRetries ∧
        s3.adcValue = s2.adcValue :=
      ⟨_, rfl, rfl, rfl, rfl, rfl, rfl, rfl, rfl, rfl, rfl, rfl⟩
    rw [hs3] at he
    rw [he] at c2
    refine ⟨_, c2, ?_, ?_, ?_, ?_, ?_⟩
    · rw [txStatusPC_numDynamixels, r3]; exact q1
    · rw [txStatusPC_totalNumBytes, r4]; exact q2
    · rw [txStatusPC_axID, txStatusPC_startAddr, txStatusPC_numBytes, r5, r6, r7]
      exact q3
    · intro h
      exact absurd h hno
    · intro c' rest' htail' hne
      rw [htail] at htail'
      cases htail'
      have hne' : ¬ (c = 255 - s2.checksumRxPC % 256) := by
        rw [q4]
        exact hne
      rw [if_neg hne', q6] at r2
      refine ⟨by rw [txStatusPC_pcRxBuffer, r1], ?_⟩
      rw [txStatusPC_tx, r8, q8, r2, r9, q9, r10, q10]
      rfl

/-- Witness of `setFormat_badChecksum`: SET_READ_FORMAT with the single entry
(1, 0, 1) and the checksum byte 0xAA instead of 0x0B. -/
theorem setFormat_badChecksum_witness :
    ∃ t,
      commandLoopBody 1
          (initState (fun _ => 0)
            [some 0xF1, some 1, some 1, some 0, some 1, some 0xAA] []) = .ret () t ∧
      t.numDynamixels F_READ = 1 ∧ t.totalNumBytes F_READ = 1 ∧
      t.pcTxBuffer = [0xFA, 64, 0, 0, 0, 0, 197] := by
  obtain ⟨t, h1, h2, h3, _, _, h6⟩ :=
    setFormat_badChecksum 1
      (initState (fun _ => 0) [some 0xF1, some 1, some 1, some 0, some 1, some 0xAA] [])
      F_READ [(1, 0, 1)] [some 0xAA] (by decide) (Or.inl rfl) (by decide)
      (by
        intro e he
        simp only [List.mem_singleton] at he
        subst he
        exact ⟨by decide, by decide, by decide⟩)
      rfl
  exact ⟨t, h1, h2, h3, (h6 0xAA [] rfl (by decide)).2⟩

/-! ### Checksums: a single replaced byte is detected -/

theorem rxDynamixelMany_all (bytes : List Nat) :
    ∀ (s : State) (rest : List (Option Nat)),
      s.dynamixelRxBuffer = bytes.map some ++ rest → s.checksumRxDynamixel < 256 →
      ∃ s1, rxDynamixelMany bytes.length s = (bytes, s1) ∧ s1.dynamixelRxBuffer = rest ∧
        s1.checksumRxDynamixel = (s.checksumRxDynamixel + bytes.sum) % 256 ∧
        s1.status = s.status := by
  induction bytes with
  | nil =>
    intro s rest h hs
    exact ⟨s, rfl, by simpa using h, by simp [Nat.mod_eq_of_lt hs], rfl⟩
  | cons b bs ih =>
    intro s rest h hs
    simp only [List.map_cons, List.cons_append] at h
    obtain ⟨s1, e1, e2, e3, e4⟩ :=
      ih { s with
          dynamixelRxBuffer := bs.map some ++ rest
          checksumRxDynamixel := (s.checksumRxDynamixel + b) % 256 } rest rfl
        (Nat.mod_lt _ (by norm_num))
    refine ⟨s1, ?_, e2, ?_, e4⟩
    · simp only [List.length_cons, rxDynamixelMany, rxDynamixel, h, ne_eq, one_ne_zero,
        not_false_eq_true, if_true, e1]
    · rw [e3, List.sum_cons]
      show ((s.checksumRxDynamixel + b) % 256 + bs.sum) % 256 = _
      omega

theorem checkPC_status (s : State) (bytes : List Nat) (c : Nat) (rest : List (Option Nat))
    (hs : s.checksumRxPC < 256) (hrx : s.pcRxBuffer = bytes.map some ++ some c :: rest) :
    ∃ t, checkPC bytes.length s = .ret true t ∧
      t.status =
        (if c = 255 - (s.checksumRxPC + bytes.sum) % 256 then s.status
         else s.status ||| S_PC_CHECKSUM_ERROR) := by
  obtain ⟨s1, e1, e2, e3, e4⟩ := rxPCMany_all bytes s (some c :: rest) hrx hs
  refine ⟨{ s1 with
    pcRxBuffer := rest
    status := if c = 255 - s1.checksumRxPC % 256 then s1.status else s1.status ||| 64 }, ?_, ?_⟩
  · unfold checkPC
    rw [e1]
    exact endRXPacketPC_some s1 c rest e2
  · show (if c = 255 - s1.checksumRxPC % 256 then s1.status else s1.status ||| 64) = _
    rw [e3, e4, Nat.mod_mod]

theorem checkDynamixel_status (s : State) (bytes : List Nat) (c : Nat)
    (rest : List (Option Nat)) (hs : s.checksumRxDynamixel < 256)
    (hrx : s.dynamixelRxBuffer = bytes.map some ++ some c :: rest) :
    ∃ t, checkDynamixel bytes.length s = (true, t) ∧
      t.status =
        (if c = 255 - (s.checksumRxDynamixel + bytes.sum) % 256 then s.status
         else s.status ||| S_DYNAMIXEL_CHECKSUM_ERROR) := by
  obtain ⟨s1, e1, e2, e3, e4⟩ := rxDynamixelMany_all bytes s (some c :: rest) hrx hs
  refine ⟨{ s1 with
    dynamixelRxBuffer := rest
    status :=
      if c = 255 - s1.checksumRxDynamixel % 256 then s1.status
      else s1.status ||| S_DYNAMIXEL_CHECKSUM_ERROR }, ?_, ?_⟩
  · unfold checkDynamixel
    rw [e1]
    exact endRX_byte s1 c rest e2
  · show (if c = 255 - s1.checksumRxDynamixel % 256 then s1.status
      else s1.status ||| S_DYNAMIXEL_CHECKSUM_ERROR) = _
    rw [e3, e4, Nat.mod_mod]

theorem sum_set_add :
    ∀ (l : List Nat) (i b : Nat), i < l.length → (l.set i b).sum + l.getD i 0 = l.sum + b := by
  intro l
  induction l with
  | nil => intro i b h; simp at h
  | cons x xs ih =>
    intro i b h
    cases i with
    | zero => simp only [List.set_cons_zero, List.sum_cons, List.getD_cons_zero]; omega
    | succ i =>
      simp only [List.length_cons] at h
      have := ih i b (by omega)
      simp only [List.set_cons_succ, List.sum_cons, List.getD_cons_succ]
      omega

theorem or_flag_and (x i : Nat) : (x ||| 2 ^ i) &&& 2 ^ i ≠ 0 := by
  rw [and_flag_ne_zero, Nat.testBit_or, Nat.testBit_two_pow_self, Bool.or_true]

theorem sum_set_mod (l : List Nat) (i b a c : Nat) (hi : i < l.length)
    (hl : l.getD i 0 < 256) (hb : b < 256) (hne : b ≠ l.getD i 0)
    (h : c = 255 - (a + l.sum) % 256) : ¬ (c = 255 - (a + (l.set i b).sum) % 256) := by
  have := sum_set_add l i b hi
  omega

/-- C25: take a host packet whose accumulated bytes (instruction and payload)
and trailing checksum byte `endRXPacketPC` accepts, leaving HostChecksumError
clear.  Replacing any one accumulated byte by a different byte value, or the
checksum byte by a different value, makes the same accumulation end with
HostChecksumError set.  The same holds on the bus for the accumulating reads
followed by `endRXPacketDynamixel` and BusChecksumError. -/
theorem checksum_detects (s : State) (bytes : List Nat) (c : Nat) (rest : List (Option Nat))
    (hs1 : s.checksumRxPC < 256) (hs2 : s.checksumRxDynamixel < 256)
    (hbytes : ∀ x ∈ bytes, x < 256) :
    ((checkPC bytes.length
          { s with pcRxBuffer := bytes.map some ++ some c :: rest }).state.status &&&
        S_PC_CHECKSUM_ERROR = 0 →
      (∀ i b, i < bytes.length → b < 256 → b ≠ bytes.getD i 0 →
        (checkPC bytes.length
            { s with pcRxBuffer := (bytes.set i b).map some ++ some c :: rest }).state.status &&&
          S_PC_CHECKSUM_ERROR ≠ 0) ∧
      (∀ c1, c1 ≠ c →
        (checkPC bytes.length
            { s with pcRxBuffer := bytes.map some ++ some c1 :: rest }).state.status &&&
          S_PC_CHECKSUM_ERROR ≠ 0)) ∧
    ((checkDynamixel bytes.length
          { s with dynamixelRxBuffer := bytes.map some ++ some c :: rest }).2.status &&&
        S_DYNAMIXEL_CHECKSUM_ERROR = 0 →
      (∀ i b, i < bytes.length → b < 256 → b ≠ bytes.getD i 0 →
        (checkDynamixel bytes.length
            { s with
              dynamixelRxBuffer := (bytes.set i b).map some ++ some c :: rest }).2.status &&&
          S_DYNAMIXEL_CHECKSUM_ERROR ≠ 0) ∧
      (∀ c1, c1 ≠ c →
        (checkDynamixel bytes.length
            { s with dynamixelRxBuffer := bytes.map some ++ some c1 :: rest }).2.status &&&
          S_DYNAMIXEL_CHECKSUM_ERROR ≠ 0)) := by
  have hget : ∀ i, i < bytes.length → bytes.getD i 0 < 256 := by
    intro i hi
    rw [List.getD_eq_getElem?_getD, List.getElem?_eq_getElem hi]
    exact hbytes _ (List.getElem_mem hi)
  constructor
  · intro hacc
    obtain ⟨t, e, hst⟩ :=
      checkPC_status { s with pcRxBuffer := bytes.map some ++ some c :: rest } bytes c rest hs1 rfl
    rw [e] at hacc
    have hc : c = 255 - (s.checksumRxPC + bytes.sum) % 256 := by
      by_contra hne
      have h2 : t.status = s.status ||| S_PC_CHECKSUM_ERROR := by
        rw [hst]
        exact if_neg hne
      have h3 : t.status &&& S_PC_CHECKSUM_ERROR = 0 := hacc
      rw [h2] at h3
      exact or_flag_and s.status 6 h3
    constructor
    · intro i b hi hb hne
      obtain ⟨t1, e1, hst1⟩ :=
        checkPC_status { s with pcRxBuffer := (bytes.set i b).map some ++ some c :: rest }
          (bytes.set i b) c rest hs1 rfl
      rw [List.length_set] at e1
      rw [e1]
      have hne1 := sum_set_mod bytes i b s.checksumRxPC c hi (hget i hi) hb hne hc
      have h2 : t1.status = s.status ||| S_PC_CHECKSUM_ERROR := by
        rw [hst1]
        exact if_neg hne1
      show t1.status &&& S_PC_CHECKSUM_ERROR ≠ 0
      rw [h2]
      exact or_flag_and s.status 6
    · intro c1 hne
      obtain ⟨t1, e1, hst1⟩ :=
        checkPC_status { s with pcRxBuffer := bytes.map some ++ some c1 :: rest } bytes c1 rest
          hs1 rfl
      rw [e1]
      have h2 : t1.status = s.status ||| S_PC_CHECKSUM_ERROR := by
        rw [hst1]
        exact if_neg (by rw [← hc]; exact hne)
      show t1.status &&& S_PC_CHECKSUM_ERROR ≠ 0
      rw [h2]
      exact or_flag_and s.status 6
  · intro hacc
    obtain ⟨t, e, hst⟩ :=
      checkDynamixel_status { s with dynamixelRxBuffer := bytes.map some ++ some c :: rest } bytes
        c rest hs2 rfl
    rw [e] at hacc
    have hc : c = 255 - (s.checksumRxDynamixel + bytes.sum) % 256 := by
      by_contra hne
      have h2 : t.status = s.status ||| S_DYNAMIXEL_CHECKSUM_ERROR := by
        rw [hst]
        exact if_neg hne
      have h3 : t.status &&& S_DYNAMIXEL_CHECKSUM_ERROR = 0 := hacc
      rw [h2] at h3
      exact or_flag_and s.status 7 h3
    constructor
    · intro i b hi hb hne
      obtain ⟨t1, e1, hst1⟩ :=
        checkDynamixel_status
          { s with dynamixelRxBuffer := (bytes.set i b).map some ++ some c :: rest }
          (bytes.set i b) c rest hs2 rfl
      rw [List.length_set] at e1
      rw [e1]
      have hne1 := sum_set_mod bytes i b s.checksumRxDynamixel c hi (hget i hi) hb hne hc
      have h2 : t1.status = s.status ||| S_DYNAMIXEL_CHECKSUM_ERROR := by
        rw [hst1]
        exact if_neg hne1
      show t1.status &&& S_DYNAMIXEL_CHECKSUM_ERROR ≠ 0
      rw [h2]
      exact or_flag_and s.status 7
    · intro c1 hne
      obtain ⟨t1, e1, hst1⟩ :=
        checkDynamixel_status { s with dynamixelRxBuffer := bytes.map some ++ some c1 :: rest }
          bytes c1 rest hs2 rfl
      rw [e1]
      have h2 : t1.status = s.status ||| S_DYNAMIXEL_CHECKSUM_ERROR := by
        rw [hst1]
        exact if_neg (by rw [← hc]; exact hne)
      show t1.status &&& S_DYNAMIXEL_CHECKSUM_ERROR ≠ 0
      rw [h2]
      exact or_flag_and s.status 7

/-- Witness of `checksum_detects`: the Ping packet 0xF0 0x05 with checksum
0x0A is accepted on either link; with the address byte replaced by 0x06, or
the checksum byte by 0x0B, the checksum error of the link is raised. -/
theorem checksum_detects_witness :
    ((checkPC 2
        (initState (fun _ => 0) [some 0xF0, some 6, some 10] [])).state.status &&& 64 ≠ 0 ∧
      (checkPC 2
        (initState (fun _ => 0) [some 0xF0, some 5, some 11] [])).state.status &&& 64 ≠ 0) ∧
    ((checkDynamixel 2
        (initState (fun _ => 0) [] [some 0xF0, some 6, some 10])).2.status &&& 128 ≠ 0 ∧
      (checkDynamixel 2
        (initState (fun _ => 0) [] [some 0xF0, some 5, some 11])).2.status &&& 128 ≠ 0) := by
  have hb : ∀ x ∈ [0xF0, 5], x < 256 := by decide
  have h := checksum_detects (initState (fun _ => 0) [] []) [0xF0, 5] 10 [] (by decide)
    (by decide) hb
  exact ⟨⟨(h.1 (by decide)).1 1 6 (by decide) (by decide) (by decide),
      (h.1 (by decide)).2 11 (by decide)⟩,
    ⟨(h.2 (by decide)).1 1 6 (by decide) (by decide) (by decide),
      (h.2 (by decide)).2 11 (by decide)⟩⟩

/-! ### Format tables: what a SetFormat leaves alone -/

theorem OtherTable.unchanged (f : Nat) (s : State) : OtherTable f s s :=
  ⟨fun _ _ => rfl, fun _ _ => rfl, fun _ _ _ => rfl, fun _ _ _ => rfl, fun _ _ _ => rfl⟩

theorem OtherTable.after {f : Nat} {s t u : State} (h1 : OtherTable f s t)
    (h2 : OtherTable f t u) : OtherTable f s u :=
  ⟨fun g hg => (h2.numDynamixels g hg).trans (h1.numDynamixels g hg),
    fun g hg => (h2.totalNumBytes g hg).trans (h1.totalNumBytes g hg),
    fun g j hg => (h2.axID g j hg).trans (h1.axID g j hg),
    fun g j hg => (h2.startAddr g j hg).trans (h1.startAddr g j hg),
    fun g j hg => (h2.numBytes g j hg).trans (h1.numBytes g j hg)⟩

theorem OtherTable.ofEq (f : Nat) (s t : State) (h1 : t.numDynamixels = s.numDynamixels)
    (h2 : t.totalNumBytes = s.totalNumBytes) (h3 : t.axID = s.axID)
    (h4 : t.startAddr = s.startAddr) (h5 : t.numBytes = s.numBytes) : OtherTable f s t :=
  ⟨fun _ _ => by rw [h1], fun _ _ => by rw [h2], fun _ _ _ => by rw [h3],
    fun _ _ _ => by rw [h4], fun _ _ _ => by rw [h5]⟩

theorem upd2_other (a : Nat → Nat → Nat) (f i v g j : Nat) (hi : i < MAX_DYNAMIXELS)
    (h : g ≠ f ∨ MAX_DYNAMIXELS ≤ j) : upd2 a f i v g j = a g j := by
  unfold upd2
  rw [if_neg]
  rintro ⟨rfl, rfl⟩
  rcases h with h | h
  · exact h rfl
  · omega

theorem rxPC_table (f : Nat) (s0 s : State) (a : Nat) (h0 : OtherTable f s0 s) :
    (rxPC s a).post (fun _ t => OtherTable f s0 t) (OtherTable f s0) := by
  rcases rxPC_cases s a with ⟨b, rest, h⟩ | ⟨rest, _, h⟩ | ⟨_, h⟩ <;> rw [h] <;>
    exact h0.after (OtherTable.ofEq f _ _ rfl rfl rfl rfl rfl)

theorem OtherTable.withFlag {f : Nat} {s0 s : State} (h0 : OtherTable f s0 s) (flag : Nat) :
    OtherTable f s0 (setStatusFlag s flag) :=
  h0.after (OtherTable.ofEq f _ _ rfl rfl rfl rfl rfl)

theorem OtherTable.entry {f : Nat} {s0 s : State} (h0 : OtherTable f s0 s) (i id start n : Nat)
    (hi : i < MAX_DYNAMIXELS) :
    OtherTable f s0
      { s with
        axID := upd2 s.axID f i id
        startAddr := upd2 s.startAddr f i start
        numBytes := upd2 s.numBytes f i n } :=
  ⟨h0.numDynamixels, h0.totalNumBytes,
    fun g j hg => (upd2_other s.axID f i id g j hi hg).trans (h0.axID g j hg),
    fun g j hg => (upd2_other s.startAddr f i start g j hi hg).trans (h0.startAddr g j hg),
    fun g j hg => (upd2_other s.numBytes f i n g j hi hg).trans (h0.numBytes g j hg)⟩

theorem setFormatLoop_table (f : Nat) (s0 : State) :
    ∀ (k i total : Nat) (s : State), i + k ≤ MAX_DYNAMIXELS → OtherTable f s0 s →
      (setFormatLoop f k i total s).post (fun _ t => OtherTable f s0 t) (OtherTable f s0) := by
  intro k
  induction k with
  | zero =>
    intro i total s _ h0
    exact h0
  | succ k ih =>
    intro i total s hik h0
    unfold setFormatLoop
    refine Run.post_bind _ _ _ _ _ (rxPC_table f s0 s 1 h0) ?_
    intro r s1 h1
    cases r with
    | none => exact h1
    | some id =>
      dsimp only
      by_cases hid : id > MAX_DYNAMIXEL_ID
      · rw [if_pos hid]
        exact h1.withFlag _
      · rw [if_neg hid]
        refine Run.post_bind _ _ _ _ _ (rxPC_table f s0 s1 1 h1) ?_
        intro r s2 h2
        cases r with
        | none => exact h2
        | some start =>
          dsimp only
          by_cases hst : start > MAX_START_ADDR
          · rw [if_pos hst]
            exact h2.withFlag _
          · rw [if_neg hst]
            refine Run.post_bind _ _ _ _ _ (rxPC_table f s0 s2 1 h2) ?_
            intro r s3 h3
            cases r with
            | none => exact h3
            | some n =>
              dsimp only
              by_cases hn : n > NUM_REG_BYTES - start
              · rw [if_pos hn]
                exact h3.withFlag _
              · rw [if_neg hn]
                exact ih (i + 1) ((total + n) % 65536) _ (by omega)
                  (h3.entry i id start n (by omega))

theorem upd_other (a : Nat → Nat) (f v g : Nat) (h : g ≠ f) : upd a f v g = a g := by
  unfold upd
  rw [if_neg h]

theorem OtherTable.counts {f : Nat} {s0 s : State} (h0 : OtherTable f s0 s) (n total : Nat) :
    OtherTable f s0
      { s with
        totalNumBytes := upd s.totalNumBytes f total
        numDynamixels := upd s.numDynamixels f n } :=
  ⟨fun g hg => (upd_other s.numDynamixels f n g hg).trans (h0.numDynamixels g hg),
    fun g hg => (upd_other s.totalNumBytes f total g hg).trans (h0.totalNumBytes g hg),
    h0.axID, h0.startAddr, h0.numBytes⟩

theorem OtherTable.status {f : Nat} {s0 s : State} (h0 : OtherTable f s0 s) :
    OtherTable f s0 (txStatusPC s) :=
  h0.after
    (OtherTable.ofEq f _ _ (txStatusPC_numDynamixels s) (txStatusPC_totalNumBytes s)
      (txStatusPC_axID s) (txStatusPC_startAddr s) (txStatusPC_numBytes s))

theorem endRXPacketPC_table (f : Nat) (s0 s : State) (h0 : OtherTable f s0 s) :
    (endRXPacketPC s).post (fun _ t => OtherTable f s0 t) (OtherTable f s0) := by
  rcases endRXPacketPC_cases s with ⟨c, rest, h⟩ | ⟨rest, _, h⟩ | ⟨_, h⟩ <;> rw [h] <;>
    exact h0.after (OtherTable.ofEq f _ _ rfl rfl rfl rfl rfl)

theorem setFormat_table (f : Nat) (s : State) :
    (setFormat f s).post (fun _ t => OtherTable f s t) (OtherTable f s) := by
  unfold setFormat
  have h0 : OtherTable f s
      { s with
        numDynamixels := upd s.numDynamixels f 0
        totalNumBytes := upd s.totalNumBytes f 0 } :=
    (OtherTable.unchanged f s).counts 0 0
  refine Run.post_bind _ _ _ _ _ (rxPC_table f s _ 1 h0) ?_
  intro r s1 h1
  cases r with
  | none => exact h1.status
  | some n =>
    dsimp only
    by_cases hn : n > MAX_DYNAMIXELS
    · rw [if_pos hn]
      exact (h1.withFlag _).status
    · rw [if_neg hn]
      refine Run.post_bind _ _ _ _ _ (setFormatLoop_table f s n 0 0 s1 (by omega) h1) ?_
      intro r s2 h2
      cases r with
      | none => exact h2.status
      | some totalBytes =>
        dsimp only
        refine Run.post_bind _ _ _ _ _ (endRXPacketPC_table f s _ (h2.counts n totalBytes)) ?_
        intro _ s3 h3
        exact h3.status

/-- C26: for every direction `f`, every state and every host input, the state
in which `setFormat(f)` returns, or in which it is still waiting for a host
byte, has the count, the byte total and every entry of every other direction
as before, and every entry of direction `f` at an index ≥ 32 as before. -/
theorem setFormat_frame (f : Nat) (s : State) :
    (∀ g, g ≠ f →
      (setFormat f s).state.numDynamixels g = s.numDynamixels g ∧
      (setFormat f s).state.totalNumBytes g = s.totalNumBytes g) ∧
    (∀ g i, g ≠ f ∨ 32 ≤ i →
      (setFormat f s).state.axID g i = s.axID g i ∧
      (setFormat f s).state.startAddr g i = s.startAddr g i ∧
      (setFormat f s).state.numBytes g i = s.numBytes g i) := by
  have h := Run.post_state _ _ (setFormat_table f s)
  exact ⟨fun g hg => ⟨h.numDynamixels g hg, h.totalNumBytes g hg⟩,
    fun g i hg => ⟨h.axID g i hg, h.startAddr g i hg, h.numBytes g i hg⟩⟩

end BRBrain
